import Mathlib

/-!
# Data Reduction Proxy configuration: a shallow embedding

The definitions below follow
`components/data_reduction_proxy/core/browser/data_reduction_proxy_config.cc` and
`components/data_reduction_proxy/core/browser/data_reduction_proxy_config_service_client.cc`.

Conventions of the embedding:

* a C++ member function that mutates `this` becomes a function from the old object to the
  new one; an out-parameter becomes a component of the returned value (a nullable pointer
  is an `Option`);
* `base::Time`, `base::TimeTicks` and `base::TimeDelta` wrap a signed 64-bit count of
  microseconds.  Signed overflow is undefined in C++, so the embedding covers the defined
  executions, where the arithmetic agrees with that of `Int`;
* `std::string` is `String`, one `Char` per `char`;
* collaborators that are only called for logging (`LOG`, `DVLOG`, net-log events) are
  left out; UMA samples that the claims mention are kept as a list;
* the proxy configurator is the list of the calls made on it, most recent last.
-/

set_option autoImplicit false
set_option linter.unusedVariables false

namespace data_reduction_proxy

/-! ## Types declared in `net/` -/

/-- Modelled from the spec: `net::HostPortPair` is declared outside the sources at hand;
the spec calls it a host:port pair.  A host name and a port. -/
structure HostPortPair where
  host : String
  port : Nat
deriving DecidableEq, Repr

/-- Exact comparison of host and port, as `HostPortPair::Equals`. -/
def HostPortPair.Equals (a b : HostPortPair) : Bool :=
  a.host == b.host && a.port == b.port

/-- Modelled from the spec: the scheme of a `net::ProxyServer` ("host:port + scheme
tuples"); the enumeration is declared outside the sources at hand. -/
inductive Scheme where
  | SCHEME_INVALID
  | SCHEME_DIRECT
  | SCHEME_HTTP
  | SCHEME_SOCKS4
  | SCHEME_SOCKS5
  | SCHEME_HTTPS
  | SCHEME_QUIC
deriving DecidableEq, Repr

/-- Modelled from the spec: `net::ProxyServer`, a scheme with a host:port pair. -/
structure ProxyServer where
  scheme : Scheme
  host_port_pair : HostPortPair
deriving DecidableEq, Repr

/-- A proxy server is valid unless its scheme is `SCHEME_INVALID`. -/
def ProxyServer.is_valid (p : ProxyServer) : Bool :=
  p.scheme != Scheme.SCHEME_INVALID

/-- A proxy server is direct when its scheme is `SCHEME_DIRECT`. -/
def ProxyServer.is_direct (p : ProxyServer) : Bool :=
  p.scheme == Scheme.SCHEME_DIRECT

/-! ## `FindProxyInList` and `IsDataReductionProxy` -/

/-- The loop of `FindProxyInList`, started at position `proxy_index` with the entries
`rest` still to visit.  The result is the returned boolean and the value of `*index`
(`index` when nothing was written).  The list index is kept as a natural number: the
lists hold a handful of servers, far fewer than the range of `int`. -/
def FindProxyInList.loop (host_port_pair : HostPortPair) :
    List ProxyServer → Nat → Nat → Bool × Nat
  | [], _, index => (false, index)
  | proxy :: rest, proxy_index, index =>
    if proxy.is_valid && proxy.host_port_pair.Equals host_port_pair then
      (true, proxy_index)
    else
      FindProxyInList.loop host_port_pair rest (proxy_index + 1) index

/-- Looks for an instance of `host_port_pair` in `proxy_list`; returns whether it was
found and the value of `*index` afterwards. -/
def FindProxyInList (proxy_list : List ProxyServer) (host_port_pair : HostPortPair)
    (index : Nat) : Bool × Nat :=
  FindProxyInList.loop host_port_pair proxy_list 0 index

/-- The out-parameter of `IsDataReductionProxy`. -/
structure DataReductionProxyTypeInfo where
  proxy_servers : List ProxyServer
  is_fallback : Bool
  is_ssl : Bool
deriving DecidableEq, Repr

/-- The part of `DataReductionProxyConfigValues` read by the code below. -/
structure DataReductionProxyConfigValues where
  proxies_for_http : List ProxyServer
  proxies_for_https : List ProxyServer
  holdback : Bool
  allowed : Bool
deriving DecidableEq, Repr

/-- Embeds `DataReductionProxyConfig::IsDataReductionProxy` on the configuration values it
reads.  `proxy_info` is the nullable out-parameter; the result is the returned boolean
and the object `proxy_info` points to afterwards. -/
def IsDataReductionProxy (config_values_ : DataReductionProxyConfigValues)
    (host_port_pair : HostPortPair) (proxy_info : Option DataReductionProxyTypeInfo) :
    Bool × Option DataReductionProxyTypeInfo :=
  let proxy_index := 0
  let r := FindProxyInList config_values_.proxies_for_http host_port_pair proxy_index
  if r.1 then
    let proxy_index := r.2
    (true, proxy_info.map fun info =>
      let proxy_list := config_values_.proxies_for_http
      { info with
        proxy_servers := proxy_list.drop proxy_index
        is_fallback := proxy_index != 0 })
  else
    let proxy_index := r.2
    let r := FindProxyInList config_values_.proxies_for_https host_port_pair proxy_index
    if r.1 then
      let proxy_index := r.2
      (true, proxy_info.map fun info =>
        let proxy_list := config_values_.proxies_for_https
        { info with
          proxy_servers := proxy_list.drop proxy_index
          is_fallback := proxy_index != 0
          is_ssl := true })
    else
      (false, proxy_info)

/-! ## Time -/

/-- A `base::TimeDelta`: a count of microseconds. -/
abbrev TimeDelta := Int

/-- A `base::TimeTicks`: microseconds on the monotonic clock; `0` is the null value. -/
abbrev TimeTicks := Int

/-- A `base::Time`: microseconds on the wall clock. -/
abbrev Time := Int

/-- The largest `base::TimeDelta`, `std::numeric_limits<int64>::max()` microseconds. -/
def TimeDelta.Max : TimeDelta := 2 ^ 63 - 1

/-- Models `base::Time::operator-(Time)`, defined outside the sources at hand: the
difference of two counts of microseconds as the subtraction of 64-bit signed integers
leaves it, wrapped around into `[-2^63, 2^63)`. -/
def Time.Minus (a b : Time) : TimeDelta :=
  (a - b + 2 ^ 63) % 2 ^ 64 - 2 ^ 63

/-- Embeds `base::TimeDelta::FromMilliseconds`. -/
def TimeDelta.FromMilliseconds (ms : Int) : TimeDelta := ms * 1000

/-- Embeds `base::TimeDelta::FromSeconds`. -/
def TimeDelta.FromSeconds (secs : Int) : TimeDelta := secs * 1000000

/-! ## `IsProxyBypassed` and `AreProxiesBypassed` -/

/-- Modelled from the spec: an entry of `net::ProxyRetryInfoMap` (declared in `net/`):
the delay in force and the "bad until" time of a proxy. -/
structure ProxyRetryInfo where
  current_delay : TimeDelta
  bad_until : TimeTicks
deriving DecidableEq, Repr

/-- A `net::ProxyRetryInfoMap`, keyed by the URI of a proxy server; `find` is
`List.lookup`. -/
abbrev ProxyRetryInfoMap := List (String × ProxyRetryInfo)

/-- Embeds `DataReductionProxyConfig::IsProxyBypassed`.  `ToURI` is `net::ProxyServer::ToURI`,
`now` the reading of `base::TimeTicks::Now()`.  `retry_delay` is the nullable
out-parameter; the result is the returned boolean and the value `retry_delay` points to
afterwards. -/
def IsProxyBypassed (ToURI : ProxyServer → String) (now : TimeTicks)
    (retry_map : ProxyRetryInfoMap) (proxy_server : ProxyServer)
    (retry_delay : Option TimeDelta) : Bool × Option TimeDelta :=
  match retry_map.lookup (ToURI proxy_server) with
  | none => (false, retry_delay)
  | some found =>
    if found.bad_until < now then (false, retry_delay)
    else (true, retry_delay.map fun _ => found.current_delay)

/-- The kind of `net::ProxyConfig::ProxyRules`. -/
inductive ProxyRulesType where
  | TYPE_NO_RULES
  | TYPE_SINGLE_PROXY
  | TYPE_PROXY_PER_SCHEME
deriving DecidableEq, Repr

/-- Modelled from the spec: the `net::ProxyConfig::ProxyRules` read by
`AreProxiesBypassed`: its type and, for the schemes "http" and "https", the result of
`MapUrlSchemeToProxyList` (`none` is the null pointer, otherwise `GetAll()` of the
list). -/
structure ProxyRules where
  type : ProxyRulesType
  http_proxy_list : Option (List ProxyServer)
  https_proxy_list : Option (List ProxyServer)
deriving DecidableEq, Repr

/-- Embeds `ProxyRules::MapUrlSchemeToProxyList` for `url::kHttpsScheme` (`is_https`) or
`url::kHttpScheme`. -/
def ProxyRules.MapUrlSchemeToProxyList (proxy_rules : ProxyRules) (is_https : Bool) :
    Option (List ProxyServer) :=
  if is_https then proxy_rules.https_proxy_list else proxy_rules.http_proxy_list

/-- The `for` loop of `AreProxiesBypassed` over the entries still to visit, from the
current `min_delay` and `bypassed`.  `none` is the early `return false`; otherwise the
values of `min_delay` and `bypassed` when the loop ends. -/
def AreProxiesBypassed.loop (config_values_ : DataReductionProxyConfigValues)
    (ToURI : ProxyServer → String) (now : TimeTicks) (retry_map : ProxyRetryInfoMap) :
    List ProxyServer → TimeDelta → Bool → Option (TimeDelta × Bool)
  | [], min_delay, bypassed => some (min_delay, bypassed)
  | proxy :: rest, min_delay, bypassed =>
    if !proxy.is_valid || proxy.is_direct then
      AreProxiesBypassed.loop config_values_ ToURI now retry_map rest min_delay bypassed
    else
      let delay : TimeDelta := 0
      if (IsDataReductionProxy config_values_ proxy.host_port_pair none).1 then
        let r := IsProxyBypassed ToURI now retry_map proxy (some delay)
        if !r.1 then none
        else
          let delay := r.2.getD delay
          let min_delay := if delay < min_delay then delay else min_delay
          AreProxiesBypassed.loop config_values_ ToURI now retry_map rest min_delay true
      else
        AreProxiesBypassed.loop config_values_ ToURI now retry_map rest min_delay bypassed

/-- Embeds `DataReductionProxyConfig::AreProxiesBypassed`.  `min_retry_delay` is the nullable
out-parameter; the result is the returned boolean and the value `min_retry_delay` points
to afterwards.  One reading `now` of the clock serves the whole call. -/
def AreProxiesBypassed (config_values_ : DataReductionProxyConfigValues)
    (ToURI : ProxyServer → String) (now : TimeTicks) (retry_map : ProxyRetryInfoMap)
    (proxy_rules : ProxyRules) (is_https : Bool) (min_retry_delay : Option TimeDelta) :
    Bool × Option TimeDelta :=
  if proxy_rules.type != ProxyRulesType.TYPE_PROXY_PER_SCHEME then
    (false, min_retry_delay)
  else
    match proxy_rules.MapUrlSchemeToProxyList is_https with
    | none => (false, min_retry_delay)
    | some proxies =>
      match AreProxiesBypassed.loop config_values_ ToURI now retry_map proxies
          TimeDelta.Max false with
      | none => (false, min_retry_delay)
      | some (min_delay, bypassed) =>
        (bypassed,
          if min_retry_delay.isSome && bypassed then some min_delay else min_retry_delay)

/-! ## The state of `DataReductionProxyConfig` -/

/-- The Lo-Fi status of a session. -/
inductive LoFiStatus where
  | LOFI_STATUS_OFF
  | LOFI_STATUS_TEMPORARILY_OFF
  | LOFI_STATUS_ACTIVE_FROM_FLAGS
  | LOFI_STATUS_ACTIVE
  | LOFI_STATUS_INACTIVE
  | LOFI_STATUS_ACTIVE_CONTROL
  | LOFI_STATUS_INACTIVE_CONTROL
deriving DecidableEq, Repr

/-- The connection types of `net::NetworkChangeNotifier`. -/
inductive ConnectionType where
  | CONNECTION_UNKNOWN
  | CONNECTION_ETHERNET
  | CONNECTION_WIFI
  | CONNECTION_2G
  | CONNECTION_3G
  | CONNECTION_4G
  | CONNECTION_NONE
  | CONNECTION_BLUETOOTH
deriving DecidableEq, Repr

/-- A call made on the `DataReductionProxyConfigurator`. -/
inductive ConfiguratorCall where
  | Enable (restricted : Bool) (proxies_for_http proxies_for_https : List ProxyServer)
  | Disable
  | AddHostPatternToBypass (pattern : String)
deriving DecidableEq, Repr

/-- The samples of the UMA histogram `DataReductionProxy.ProbeURL`. -/
inductive SecureProxyCheckFetchResult where
  | INTERNET_DISCONNECTED
  | FAILED_PROXY_DISABLED
  | FAILED_PROXY_ALREADY_DISABLED
  | SUCCEEDED_PROXY_ENABLED
  | SUCCEEDED_PROXY_ALREADY_ENABLED
  | PROXY_DISABLED_BEFORE_CHECK
deriving DecidableEq, Repr

/-- The members of `DataReductionProxyConfig` that the code below reads or writes.
`configurator_` is the list of calls made on the configurator, `probe_url_histogram_`
and `probe_url_net_error_histogram_` the samples recorded in the two UMA histograms,
`secure_proxy_checks_` the number of probes handed to the `SecureProxyChecker`. -/
structure DataReductionProxyConfig where
  secure_proxy_allowed_ : Bool
  disabled_on_vpn_ : Bool
  unreachable_ : Bool
  enabled_by_user_ : Bool
  config_values_ : DataReductionProxyConfigValues
  configurator_ : List ConfiguratorCall
  auto_lofi_minimum_rtt_ : TimeDelta
  auto_lofi_maximum_kbps_ : Int
  auto_lofi_hysteresis_ : TimeDelta
  network_quality_last_updated_ : TimeTicks
  network_prohibitively_slow_ : Bool
  connection_type_ : ConnectionType
  lofi_status_ : LoFiStatus
  probe_url_histogram_ : List SecureProxyCheckFetchResult
  probe_url_net_error_histogram_ : List Int
  secure_proxy_checks_ : Nat
deriving DecidableEq, Repr

/-- Embeds `DataReductionProxyConfig::SetLoFiModeOff`. -/
def DataReductionProxyConfig.SetLoFiModeOff (self : DataReductionProxyConfig) :
    DataReductionProxyConfig :=
  { self with lofi_status_ := LoFiStatus.LOFI_STATUS_OFF }

/-- The constructor of `DataReductionProxyConfig`, from the configuration values and
the readings of `params::ShouldUseSecureProxyByDefault()`,
`params::IsLoFiDisabledViaFlags()` and `NetworkChangeNotifier::GetConnectionType()`. -/
def DataReductionProxyConfig.new (config_values : DataReductionProxyConfigValues)
    (ShouldUseSecureProxyByDefault IsLoFiDisabledViaFlags : Bool)
    (GetConnectionType : ConnectionType) : DataReductionProxyConfig :=
  let self : DataReductionProxyConfig :=
    { secure_proxy_allowed_ := ShouldUseSecureProxyByDefault
      disabled_on_vpn_ := false
      unreachable_ := false
      enabled_by_user_ := false
      config_values_ := config_values
      configurator_ := []
      auto_lofi_minimum_rtt_ := TimeDelta.Max
      auto_lofi_maximum_kbps_ := 0
      auto_lofi_hysteresis_ := TimeDelta.Max
      network_quality_last_updated_ := 0
      network_prohibitively_slow_ := false
      connection_type_ := GetConnectionType
      lofi_status_ := LoFiStatus.LOFI_STATUS_TEMPORARILY_OFF
      probe_url_histogram_ := []
      probe_url_net_error_histogram_ := []
      secure_proxy_checks_ := 0 }
  if IsLoFiDisabledViaFlags then self.SetLoFiModeOff else self

/-! ## The configurator -/

/-- Embeds `DataReductionProxyConfig::UpdateConfigurator`. -/
def DataReductionProxyConfig.UpdateConfigurator (self : DataReductionProxyConfig)
    (enabled secure_proxy_allowed at_startup : Bool) : DataReductionProxyConfig :=
  let proxies_for_http := self.config_values_.proxies_for_http
  let proxies_for_https := self.config_values_.proxies_for_https
  if enabled && !self.disabled_on_vpn_ && !self.config_values_.holdback &&
      (!proxies_for_http.isEmpty || !proxies_for_https.isEmpty) then
    { self with
      configurator_ := self.configurator_ ++
        [ConfiguratorCall.Enable (!secure_proxy_allowed) proxies_for_http proxies_for_https] }
  else
    { self with configurator_ := self.configurator_ ++ [ConfiguratorCall.Disable] }

/-- Embeds `DataReductionProxyConfig::ReloadConfig`. -/
def DataReductionProxyConfig.ReloadConfig (self : DataReductionProxyConfig) :
    DataReductionProxyConfig :=
  self.UpdateConfigurator self.enabled_by_user_ self.secure_proxy_allowed_ false

/-- Embeds `DataReductionProxyConfig::RecordSecureProxyCheckFetchResult`. -/
def DataReductionProxyConfig.RecordSecureProxyCheckFetchResult
    (self : DataReductionProxyConfig) (result : SecureProxyCheckFetchResult) :
    DataReductionProxyConfig :=
  { self with probe_url_histogram_ := self.probe_url_histogram_ ++ [result] }

/-! ## The secure proxy check -/

/-- The status of a `net::URLRequestStatus`. -/
inductive URLRequestStatus.Status where
  | SUCCESS
  | IO_PENDING
  | CANCELED
  | FAILED
deriving DecidableEq, Repr

/-- A `net::URLRequestStatus`: a status and a network error code. -/
structure URLRequestStatus where
  status : URLRequestStatus.Status
  error : Int
deriving DecidableEq, Repr

/-- The value of `net::ERR_INTERNET_DISCONNECTED` in `net/base/net_error_list.h`. -/
def ERR_INTERNET_DISCONNECTED : Int := -106

/-- The call `response.substr(0, 2)` of `std::string`: the first two characters, or
the whole string when it is shorter. -/
def substr_0_2 (response : String) : String :=
  ⟨response.data.take 2⟩

/-- Embeds `DataReductionProxyConfig::HandleSecureProxyCheckResponse`. -/
def DataReductionProxyConfig.HandleSecureProxyCheckResponse
    (self : DataReductionProxyConfig) (response : String) (status : URLRequestStatus)
    (http_response_code : Int) : DataReductionProxyConfig :=
  let success_response : Bool := "OK" == substr_0_2 response
  if status.status == URLRequestStatus.Status.FAILED &&
      status.error == ERR_INTERNET_DISCONNECTED then
    self.RecordSecureProxyCheckFetchResult SecureProxyCheckFetchResult.INTERNET_DISCONNECTED
  else
    let self :=
      if status.status == URLRequestStatus.Status.FAILED then
        { self with
          probe_url_net_error_histogram_ :=
            self.probe_url_net_error_histogram_ ++ [|status.error|] }
      else self
    if success_response then
      let self :=
        if self.enabled_by_user_ then
          if !self.secure_proxy_allowed_ then
            let self := { self with secure_proxy_allowed_ := true }
            let self := self.ReloadConfig
            self.RecordSecureProxyCheckFetchResult
              SecureProxyCheckFetchResult.SUCCEEDED_PROXY_ENABLED
          else
            self.RecordSecureProxyCheckFetchResult
              SecureProxyCheckFetchResult.SUCCEEDED_PROXY_ALREADY_ENABLED
        else self
      { self with secure_proxy_allowed_ := true }
    else
      let self :=
        if self.enabled_by_user_ then
          if self.secure_proxy_allowed_ then
            let self := { self with secure_proxy_allowed_ := false }
            let self := self.ReloadConfig
            self.RecordSecureProxyCheckFetchResult
              SecureProxyCheckFetchResult.FAILED_PROXY_DISABLED
          else
            self.RecordSecureProxyCheckFetchResult
              SecureProxyCheckFetchResult.FAILED_PROXY_ALREADY_DISABLED
        else self
      { self with secure_proxy_allowed_ := false }

/-! ## Lo-Fi -/

/-- A `net::NetworkQuality` estimate: round-trip time and downstream throughput. -/
structure NetworkQuality where
  rtt : TimeDelta
  downstream_throughput_kbps : Int
deriving DecidableEq, Repr

/-- A `const net::NetworkQualityEstimator*` as the code uses it: `none` is the null
pointer; otherwise the result of `GetEstimate`, `none` when it returns false. -/
abbrev NetworkQualityEstimator := Option (Option NetworkQuality)

/-- What a call of `UpdateLoFiStatusOnMainFrameRequest` reads from its surroundings:
the two flags of `params`, the full name of the Lo-Fi field trial group
(`FieldTrialList::FindFullName(params::GetLoFiFieldTrialName())`), the connection type
and `IsConnectionCellular` of `net::NetworkChangeNotifier`, and the reading of
`base::TimeTicks::Now()`. -/
structure LoFiEnvironment where
  IsLoFiAlwaysOnViaFlags : Bool
  IsLoFiCellularOnlyViaFlags : Bool
  LoFiFieldTrialFullName : String
  GetConnectionType : ConnectionType
  IsConnectionCellular : ConnectionType → Bool
  Now : TimeTicks

/-- The field trial group name `kEnabled`. -/
def kEnabled : String := "Enabled"

/-- The field trial group name `kControl`. -/
def kControl : String := "Control"

/-- Embeds `DataReductionProxyConfig::IsIncludedInLoFiEnabledFieldTrial`. -/
def IsIncludedInLoFiEnabledFieldTrial (env : LoFiEnvironment) : Bool :=
  env.LoFiFieldTrialFullName == kEnabled

/-- Embeds `DataReductionProxyConfig::IsIncludedInLoFiControlFieldTrial`. -/
def IsIncludedInLoFiControlFieldTrial (env : LoFiEnvironment) : Bool :=
  env.LoFiFieldTrialFullName == kControl

/-- Embeds `DataReductionProxyConfig::IsNetworkQualityProhibitivelySlow`: the returned boolean
and the object afterwards. -/
def DataReductionProxyConfig.IsNetworkQualityProhibitivelySlow
    (self : DataReductionProxyConfig) (env : LoFiEnvironment)
    (network_quality_estimator : NetworkQualityEstimator) :
    Bool × DataReductionProxyConfig :=
  match network_quality_estimator with
  | none => (false, self)
  | some GetEstimate =>
    let network_type_changed := env.GetConnectionType != self.connection_type_
    let self :=
      if network_type_changed then { self with connection_type_ := env.GetConnectionType }
      else self
    if !network_type_changed && !(self.network_quality_last_updated_ == 0) &&
        decide (env.Now - self.network_quality_last_updated_ ≤ self.auto_lofi_hysteresis_) then
      (self.network_prohibitively_slow_, self)
    else
      let self := { self with network_quality_last_updated_ := env.Now }
      match GetEstimate with
      | none => (false, self)
      | some network_quality =>
        if (decide (network_quality.downstream_throughput_kbps > 0) &&
            decide (network_quality.downstream_throughput_kbps <
              self.auto_lofi_maximum_kbps_)) ||
           (network_quality.rtt != TimeDelta.Max &&
            decide (network_quality.rtt > self.auto_lofi_minimum_rtt_)) then
          (true, { self with network_prohibitively_slow_ := true })
        else
          (false, { self with network_prohibitively_slow_ := false })

/-- Embeds `DataReductionProxyConfig::ShouldUseLoFiHeaderForRequests(LoFiStatus)`. -/
def ShouldUseLoFiHeaderForRequests : LoFiStatus → Bool
  | LoFiStatus.LOFI_STATUS_OFF => false
  | LoFiStatus.LOFI_STATUS_TEMPORARILY_OFF => false
  | LoFiStatus.LOFI_STATUS_ACTIVE_CONTROL => false
  | LoFiStatus.LOFI_STATUS_INACTIVE_CONTROL => false
  | LoFiStatus.LOFI_STATUS_INACTIVE => false
  | LoFiStatus.LOFI_STATUS_ACTIVE_FROM_FLAGS => true
  | LoFiStatus.LOFI_STATUS_ACTIVE => true

/-- The part of `UpdateLoFiStatusOnMainFrameRequest` after the `switch` on a temporary
disabling by the user: flags first, then the field trial groups, then permanent off.
The histogram sample of `RecordAutoLoFiRequestHeaderStateChange` is not kept. -/
def DataReductionProxyConfig.UpdateLoFiStatusFromFlagsAndTrials
    (self : DataReductionProxyConfig) (env : LoFiEnvironment)
    (network_quality_estimator : NetworkQualityEstimator) : DataReductionProxyConfig :=
  if env.IsLoFiAlwaysOnViaFlags then
    { self with lofi_status_ := LoFiStatus.LOFI_STATUS_ACTIVE_FROM_FLAGS }
  else if env.IsLoFiCellularOnlyViaFlags then
    if env.IsConnectionCellular env.GetConnectionType then
      { self with lofi_status_ := LoFiStatus.LOFI_STATUS_ACTIVE_FROM_FLAGS }
    else
      { self with lofi_status_ := LoFiStatus.LOFI_STATUS_TEMPORARILY_OFF }
  else if IsIncludedInLoFiControlFieldTrial env then
    let r := self.IsNetworkQualityProhibitivelySlow env network_quality_estimator
    { r.2 with
      lofi_status_ :=
        if r.1 then LoFiStatus.LOFI_STATUS_ACTIVE_CONTROL
        else LoFiStatus.LOFI_STATUS_INACTIVE_CONTROL }
  else if IsIncludedInLoFiEnabledFieldTrial env then
    let r := self.IsNetworkQualityProhibitivelySlow env network_quality_estimator
    { r.2 with
      lofi_status_ :=
        if r.1 then LoFiStatus.LOFI_STATUS_ACTIVE else LoFiStatus.LOFI_STATUS_INACTIVE }
  else
    { self with lofi_status_ := LoFiStatus.LOFI_STATUS_OFF }

/-- Embeds `DataReductionProxyConfig::UpdateLoFiStatusOnMainFrameRequest`.  The `default` label
of the `switch` (`NOTREACHED`) falls out of the `switch` and is the `LOFI_STATUS_OFF`
alternative here, which the first test excludes. -/
def DataReductionProxyConfig.UpdateLoFiStatusOnMainFrameRequest
    (self : DataReductionProxyConfig) (env : LoFiEnvironment)
    (user_temporarily_disabled_lofi : Bool)
    (network_quality_estimator : NetworkQualityEstimator) : DataReductionProxyConfig :=
  if self.lofi_status_ == LoFiStatus.LOFI_STATUS_OFF then self
  else if user_temporarily_disabled_lofi then
    match self.lofi_status_ with
    | LoFiStatus.LOFI_STATUS_ACTIVE_FROM_FLAGS
    | LoFiStatus.LOFI_STATUS_ACTIVE
    | LoFiStatus.LOFI_STATUS_INACTIVE =>
      { self with lofi_status_ := LoFiStatus.LOFI_STATUS_TEMPORARILY_OFF }
    | LoFiStatus.LOFI_STATUS_TEMPORARILY_OFF
    | LoFiStatus.LOFI_STATUS_ACTIVE_CONTROL
    | LoFiStatus.LOFI_STATUS_INACTIVE_CONTROL => self
    | LoFiStatus.LOFI_STATUS_OFF =>
      self.UpdateLoFiStatusFromFlagsAndTrials env network_quality_estimator
  else
    self.UpdateLoFiStatusFromFlagsAndTrials env network_quality_estimator

/-- A main-frame request as `UpdateLoFiStatusOnMainFrameRequest` sees it: the
surroundings at that moment and the two arguments of the call. -/
structure MainFrameRequest where
  env : LoFiEnvironment
  user_temporarily_disabled_lofi : Bool
  network_quality_estimator : NetworkQualityEstimator

/-- A sequence of calls of `UpdateLoFiStatusOnMainFrameRequest`, oldest first. -/
def DataReductionProxyConfig.UpdateLoFiStatusOnMainFrameRequests
    (self : DataReductionProxyConfig) (requests : List MainFrameRequest) :
    DataReductionProxyConfig :=
  requests.foldl
    (fun config request =>
      config.UpdateLoFiStatusOnMainFrameRequest request.env
        request.user_temporarily_disabled_lofi request.network_quality_estimator)
    self

/-- A sequence of calls of `IsNetworkQualityProhibitivelySlow`, oldest first, each with
its surroundings and its estimator: the values returned, in order, and the object after
the last call. -/
def DataReductionProxyConfig.IsNetworkQualityProhibitivelySlowCalls
    (self : DataReductionProxyConfig) :
    List (LoFiEnvironment × NetworkQualityEstimator) → List Bool × DataReductionProxyConfig
  | [] => ([], self)
  | (env, network_quality_estimator) :: rest =>
    let r := self.IsNetworkQualityProhibitivelySlow env network_quality_estimator
    let later := r.2.IsNetworkQualityProhibitivelySlowCalls rest
    (r.1 :: later.1, later.2)

/-! ## The configuration service client -/

namespace proto

/-- The enumeration `ProxyServer_ProxyScheme` of `client_config.proto`. -/
inductive ProxyScheme where
  | UNSPECIFIED
  | HTTP
  | HTTPS
  | QUIC
deriving DecidableEq, Repr

/-- The message `ProxyServer` of `client_config.proto`. -/
structure ProxyServer where
  scheme : ProxyScheme
  host : String
  port : Nat
deriving DecidableEq, Repr

/-- The message `ProxyConfig` of `client_config.proto`. -/
structure ProxyConfig where
  http_proxy_servers : List ProxyServer
deriving DecidableEq, Repr

/-- The message `Timestamp` of `client_config.proto`. -/
structure Timestamp where
  seconds : Int
  nanos : Int
deriving DecidableEq, Repr

/-- The message `ClientConfig` of `client_config.proto`; `proxy_config` is `none` when
`has_proxy_config()` is false. -/
structure ClientConfig where
  session_key : String
  expire_time : Timestamp
  proxy_config : Option ProxyConfig
deriving DecidableEq, Repr

end proto

/-- Embeds `net::HTTP_OK`. -/
def HTTP_OK : Int := 200

/-- Embeds `net::HTTP_PROXY_AUTHENTICATION_REQUIRED`. -/
def HTTP_PROXY_AUTHENTICATION_REQUIRED : Int := 407

/-- A call made on the `net::BackoffEntry` of the client. -/
inductive BackoffEntryCall where
  | InformOfRequest (succeeded : Bool)
  | Reset
deriving DecidableEq, Repr

/-- A call made on the `DataReductionProxyRequestOptions` of the client. -/
inductive RequestOptionsCall where
  | SetSecureSession (secure_session : String)
  | SetCredentials (session credentials : String)
  | Invalidate
deriving DecidableEq, Repr

/-- Modelled from the spec: `DataReductionProxyMutableConfigValues::UpdateValues` is
defined outside the sources at hand; the accepted list is "swapped into the mutable
config-values object". -/
def DataReductionProxyConfigValues.UpdateValues (self : DataReductionProxyConfigValues)
    (proxies_for_http : List ProxyServer) : DataReductionProxyConfigValues :=
  { self with proxies_for_http := proxies_for_http }

/-- What the client reads from code outside the sources at hand: the protobuf parser
`ClientConfig::ParseFromString`, `config_parser::SchemeFromProxyScheme`,
`DataReductionProxyRequestOptions::ParseLocalSessionKey`,
`config_parser::TimestampToTime`, `base::Base64Encode`, the wall clock and
`BackoffEntry::GetTimeUntilRelease` (a function of the calls made on the entry). -/
structure ClientEnvironment where
  ParseFromString : String → Option proto.ClientConfig
  SchemeFromProxyScheme : proto.ProxyScheme → Scheme
  ParseLocalSessionKey : String → Option (String × String)
  TimestampToTime : proto.Timestamp → Time
  Base64Encode : String → String
  Now : Time
  GetTimeUntilRelease : List BackoffEntryCall → TimeDelta

/-- The members of `DataReductionProxyConfigServiceClient` that the code below reads or
writes.  `config_` holds the `config_values_` object the client shares with it;
`request_options_`, `config_storer_` and `backoff_entry_` are the lists of the calls made
on them, oldest first; `config_refresh_timer_` is the delay the timer was last started
with; `fetcher_` counts the fetchers that were started. -/
structure DataReductionProxyConfigServiceClient where
  request_options_ : List RequestOptionsCall
  config_ : DataReductionProxyConfig
  config_storer_ : List String
  backoff_entry_ : List BackoffEntryCall
  use_local_config_ : Bool
  remote_config_applied_ : Bool
  previous_request_failed_authentication_ : Bool
  config_refresh_timer_ : Option TimeDelta
  config_fetch_start_time_ : Time
  fetcher_ : Nat
deriving DecidableEq, Repr

/-- The constructor of `DataReductionProxyConfigServiceClient`; `use_local_config` is
`!config_service_url_.is_valid()`. -/
def DataReductionProxyConfigServiceClient.new (config : DataReductionProxyConfig)
    (use_local_config : Bool) : DataReductionProxyConfigServiceClient :=
  { request_options_ := []
    config_ := config
    config_storer_ := []
    backoff_entry_ := []
    use_local_config_ := use_local_config
    remote_config_applied_ := false
    previous_request_failed_authentication_ := false
    config_refresh_timer_ := none
    config_fetch_start_time_ := 0
    fetcher_ := 0 }

/-- Extracts the list of Data Reduction Proxy servers to use for HTTP requests. -/
def GetProxiesForHTTP (env : ClientEnvironment) (proxy_config : proto.ProxyConfig) :
    List ProxyServer :=
  (proxy_config.http_proxy_servers.filter
    fun server => server.scheme != proto.ProxyScheme.UNSPECIFIED).map
    fun server =>
      { scheme := env.SchemeFromProxyScheme server.scheme
        host_port_pair := { host := server.host, port := server.port } }

/-- Embeds `CalculateNextConfigRefreshTime`: the delay until the configuration is retrieved
next. -/
def CalculateNextConfigRefreshTime (fetch_succeeded : Bool) (config_expiration now : Time)
    (backoff_delay : TimeDelta) : TimeDelta :=
  if fetch_succeeded then
    let success_delay := Time.Minus config_expiration now
    if success_delay > backoff_delay then success_delay else backoff_delay
  else backoff_delay

/-- Embeds `DataReductionProxyConfigServiceClient::SetConfigRefreshTimer`. -/
def DataReductionProxyConfigServiceClient.SetConfigRefreshTimer
    (self : DataReductionProxyConfigServiceClient) (delay : TimeDelta) :
    DataReductionProxyConfigServiceClient :=
  { self with config_refresh_timer_ := some delay }

/-- Embeds `DataReductionProxyConfigServiceClient::ParseAndApplyProxyConfig`: the returned
boolean and the object afterwards. -/
def DataReductionProxyConfigServiceClient.ParseAndApplyProxyConfig
    (self : DataReductionProxyConfigServiceClient) (env : ClientEnvironment)
    (config : proto.ClientConfig) : Bool × DataReductionProxyConfigServiceClient :=
  match config.proxy_config with
  | none => (false, self)
  | some proxy_config =>
    let proxies := GetProxiesForHTTP env proxy_config
    if proxies.isEmpty then (false, self)
    else if !self.use_local_config_ then
      let self :=
        { self with
          request_options_ :=
            self.request_options_ ++ [RequestOptionsCall.SetSecureSession config.session_key] }
      let self :=
        { self with
          config_ :=
            { self.config_ with
              config_values_ := self.config_.config_values_.UpdateValues proxies } }
      let self := { self with config_ := self.config_.ReloadConfig }
      (true, { self with remote_config_applied_ := true })
    else
      match env.ParseLocalSessionKey config.session_key with
      | none => (false, self)
      | some (session, credentials) =>
        let self :=
          { self with
            request_options_ :=
              self.request_options_ ++ [RequestOptionsCall.SetCredentials session credentials] }
        let self :=
          { self with
            config_ :=
              { self.config_ with
                config_values_ := self.config_.config_values_.UpdateValues proxies } }
        (true, { self with config_ := self.config_.ReloadConfig })

/-- Embeds `DataReductionProxyConfigServiceClient::HandleResponse`.  The UMA samples and the
net-log event are not kept. -/
def DataReductionProxyConfigServiceClient.HandleResponse
    (self : DataReductionProxyConfigServiceClient) (env : ClientEnvironment)
    (config_data : String) (status : URLRequestStatus) (response_code : Int) :
    DataReductionProxyConfigServiceClient :=
  let parsed : Option proto.ClientConfig :=
    if status.status == URLRequestStatus.Status.SUCCESS && response_code == HTTP_OK then
      env.ParseFromString config_data
    else none
  let r : Bool × DataReductionProxyConfigServiceClient :=
    match parsed with
    | some config => self.ParseAndApplyProxyConfig env config
    | none => (false, self)
  let succeeded := r.1
  let self := r.2
  let expiration_time : Time :=
    match succeeded, parsed with
    | true, some config => env.TimestampToTime config.expire_time
    | _, _ => 0
  let self :=
    if !self.use_local_config_ && succeeded then
      let encoded_config := env.Base64Encode config_data
      { self with config_storer_ := self.config_storer_ ++ [encoded_config] }
    else self
  let self :=
    { self with
      backoff_entry_ := self.backoff_entry_ ++ [BackoffEntryCall.InformOfRequest succeeded] }
  let next_config_refresh_time :=
    CalculateNextConfigRefreshTime succeeded expiration_time env.Now
      (env.GetTimeUntilRelease self.backoff_entry_)
  self.SetConfigRefreshTimer next_config_refresh_time

/-! ## Retrieving and invalidating the configuration -/

/-- What retrieving and invalidating a configuration read from code outside the sources
at hand, on top of `ClientEnvironment`:
`DataReductionProxyMutableConfigValues::Invalidate`, the response that
`ConstructStaticResponse` serialises (from the parameters and the request options), and
whether `net::URLFetcher::Create` hands `GetURLFetcherForConfig` a fetcher. -/
structure FetchEnvironment extends ClientEnvironment where
  Invalidate : DataReductionProxyConfigValues → DataReductionProxyConfigValues
  ConstructStaticResponse : List RequestOptionsCall → String
  GetURLFetcherForConfig : Bool

/-- The value `net::URLFetcher::RESPONSE_CODE_INVALID`. -/
def RESPONSE_CODE_INVALID : Int := -1

/-- Embeds `DataReductionProxyConfigServiceClient::ReadAndApplyStaticConfig`; a
default-constructed `net::URLRequestStatus` is `SUCCESS` with error 0. -/
def DataReductionProxyConfigServiceClient.ReadAndApplyStaticConfig
    (self : DataReductionProxyConfigServiceClient) (env : FetchEnvironment) :
    DataReductionProxyConfigServiceClient :=
  let static_response := env.ConstructStaticResponse self.request_options_
  self.HandleResponse env.toClientEnvironment static_response
    { status := URLRequestStatus.Status.SUCCESS, error := 0 } HTTP_OK

/-- Embeds `DataReductionProxyConfigServiceClient::RetrieveRemoteConfig`. -/
def DataReductionProxyConfigServiceClient.RetrieveRemoteConfig
    (self : DataReductionProxyConfigServiceClient) (env : FetchEnvironment) :
    DataReductionProxyConfigServiceClient :=
  if !env.GetURLFetcherForConfig then
    self.HandleResponse env.toClientEnvironment ""
      { status := URLRequestStatus.Status.CANCELED, error := 0 } RESPONSE_CODE_INVALID
  else
    { self with fetcher_ := self.fetcher_ + 1 }

/-- Embeds `DataReductionProxyConfigServiceClient::RetrieveConfig`. -/
def DataReductionProxyConfigServiceClient.RetrieveConfig
    (self : DataReductionProxyConfigServiceClient) (env : FetchEnvironment) :
    DataReductionProxyConfigServiceClient :=
  let self := { self with config_fetch_start_time_ := env.Now }
  if self.use_local_config_ then self.ReadAndApplyStaticConfig env
  else self.RetrieveRemoteConfig env

/-- Embeds `DataReductionProxyConfigServiceClient::InvalidateConfig`. -/
def DataReductionProxyConfigServiceClient.InvalidateConfig
    (self : DataReductionProxyConfigServiceClient) (env : FetchEnvironment) :
    DataReductionProxyConfigServiceClient :=
  let self :=
    { self with
      backoff_entry_ := self.backoff_entry_ ++ [BackoffEntryCall.InformOfRequest false] }
  if self.use_local_config_ then self
  else
    let self := { self with config_storer_ := self.config_storer_ ++ [""] }
    let self :=
      { self with request_options_ := self.request_options_ ++ [RequestOptionsCall.Invalidate] }
    let self :=
      { self with
        config_ :=
          { self.config_ with config_values_ := env.Invalidate self.config_.config_values_ } }
    { self with config_ := self.config_.ReloadConfig }

/-- Embeds `DataReductionProxyConfigServiceClient::ShouldRetryDueToAuthFailure`, with the
response code of `response_headers`: the returned boolean and the object afterwards.  The
function asserts `DCHECK(!use_local_config_)` on the branch of a 407. -/
def DataReductionProxyConfigServiceClient.ShouldRetryDueToAuthFailure
    (self : DataReductionProxyConfigServiceClient) (env : FetchEnvironment)
    (response_code : Int) (proxy_server : HostPortPair) :
    Bool × DataReductionProxyConfigServiceClient :=
  if (IsDataReductionProxy self.config_.config_values_ proxy_server none).1 then
    if response_code == HTTP_PROXY_AUTHENTICATION_REQUIRED then
      let self :=
        if self.previous_request_failed_authentication_ then
          { self with
            backoff_entry_ :=
              self.backoff_entry_ ++ [BackoffEntryCall.InformOfRequest false] }
        else self
      let self := { self with previous_request_failed_authentication_ := true }
      let self := self.InvalidateConfig env
      let self := self.RetrieveConfig env
      (true, self)
    else
      (false, { self with previous_request_failed_authentication_ := false })
  else
    (false, self)

/-! ## Enabling the proxy -/

/-- Embeds `DataReductionProxyConfig::SecureProxyCheck`: a probe is handed to the
`SecureProxyChecker`. -/
def DataReductionProxyConfig.SecureProxyCheck (self : DataReductionProxyConfig) :
    DataReductionProxyConfig :=
  { self with secure_proxy_checks_ := self.secure_proxy_checks_ + 1 }

/-- Embeds `DataReductionProxyConfig::SetProxyConfig`. -/
def DataReductionProxyConfig.SetProxyConfig (self : DataReductionProxyConfig)
    (enabled at_startup : Bool) : DataReductionProxyConfig :=
  let self := { self with enabled_by_user_ := enabled }
  let self := self.UpdateConfigurator self.enabled_by_user_ self.secure_proxy_allowed_ at_startup
  if enabled then self.SecureProxyCheck else self

/-! ## Changes of the IP address -/

/-- What `OnIPAddressChanged` reads from its surroundings: whether the session is in the
field trial that keeps Data Saver on under a VPN
(`params::IsIncludedInUseDataSaverOnVPNFieldTrial()`), the names of the network interfaces
that `GetNetworkList` returns, and `params::ShouldUseSecureProxyByDefault()`. -/
structure IPAddressEnvironment where
  IsIncludedInUseDataSaverOnVPNFieldTrial : Bool
  GetNetworkList : List String
  ShouldUseSecureProxyByDefault : Bool
deriving DecidableEq, Repr

/-- The test `base::LowerCaseEqualsASCII(interface_name.begin(), interface_name.begin() +
vpn_interface_name_prefix.size(), "tun")`: the first three characters of the name, in
lower case, are "tun".  A name shorter than the prefix fails the comparison. -/
def HasVpnInterfaceNamePrefix (interface_name : String) : Bool :=
  (interface_name.data.take "tun".length).map Char.toLower == "tun".data

/-- Embeds `DataReductionProxyConfig::MaybeDisableIfVPN`: the returned boolean and the
object afterwards.  The sample of `RecordNetworkChangeEvent` is not kept. -/
def DataReductionProxyConfig.MaybeDisableIfVPN (self : DataReductionProxyConfig)
    (env : IPAddressEnvironment) : Bool × DataReductionProxyConfig :=
  if env.IsIncludedInUseDataSaverOnVPNFieldTrial then (false, self)
  else if env.GetNetworkList.any HasVpnInterfaceNamePrefix then
    let self := { self with disabled_on_vpn_ := true }
    (true, self.ReloadConfig)
  else if self.disabled_on_vpn_ then
    let self := { self with disabled_on_vpn_ := false }
    (false, self.ReloadConfig)
  else (false, self)

/-- Embeds `DataReductionProxyConfig::OnIPAddressChanged`. -/
def DataReductionProxyConfig.OnIPAddressChanged (self : DataReductionProxyConfig)
    (env : IPAddressEnvironment) : DataReductionProxyConfig :=
  if self.enabled_by_user_ then
    let r := self.MaybeDisableIfVPN env
    if r.1 then r.2
    else
      let self := r.2
      let should_use_secure_proxy := env.ShouldUseSecureProxyByDefault
      let self :=
        if !should_use_secure_proxy && self.secure_proxy_allowed_ then
          let self := { self with secure_proxy_allowed_ := false }
          let self := self.RecordSecureProxyCheckFetchResult
            SecureProxyCheckFetchResult.PROXY_DISABLED_BEFORE_CHECK
          self.ReloadConfig
        else self
      self.SecureProxyCheck
  else self

/-- A call on a `DataReductionProxyConfig` that may change `secure_proxy_allowed_` or the
configurator, with its arguments and, for a change of the IP address, its surroundings. -/
inductive ConfigCall where
  | SetProxyConfig (enabled at_startup : Bool)
  | ReloadConfig
  | HandleSecureProxyCheckResponse (response : String) (status : URLRequestStatus)
      (http_response_code : Int)
  | OnIPAddressChanged (env : IPAddressEnvironment)
deriving DecidableEq, Repr

/-- The object after one call. -/
def DataReductionProxyConfig.Call (self : DataReductionProxyConfig) :
    ConfigCall → DataReductionProxyConfig
  | ConfigCall.SetProxyConfig enabled at_startup => self.SetProxyConfig enabled at_startup
  | ConfigCall.ReloadConfig => self.ReloadConfig
  | ConfigCall.HandleSecureProxyCheckResponse response status http_response_code =>
    self.HandleSecureProxyCheckResponse response status http_response_code
  | ConfigCall.OnIPAddressChanged env => self.OnIPAddressChanged env

/-- The object after a sequence of calls, oldest first. -/
def DataReductionProxyConfig.Calls (self : DataReductionProxyConfig)
    (calls : List ConfigCall) : DataReductionProxyConfig :=
  calls.foldl DataReductionProxyConfig.Call self

/-! ## The backoff policy -/

/-- A `net::BackoffEntry::Policy`, with the fields in the order of the initialiser of
`kDefaultBackoffPolicy`; the two `double` fields hold the decimal literals written
there. -/
structure BackoffEntry.Policy where
  num_errors_to_ignore : Int
  initial_delay_ms : Int
  multiply_factor : ℚ
  jitter_factor : ℚ
  maximum_backoff_ms : Int
  entry_lifetime_ms : Int
  always_use_initial_delay : Bool
deriving DecidableEq

/-- The default backoff policy used to communicate with the Data Reduction Proxy
configuration service. -/
def kDefaultBackoffPolicy : BackoffEntry.Policy :=
  { num_errors_to_ignore := 0
    initial_delay_ms := 1 * 1000
    multiply_factor := 4
    jitter_factor := 0.10
    maximum_backoff_ms := 30 * 60 * 1000
    entry_lifetime_ms := -1
    always_use_initial_delay := true }

/-- Embeds `GetBackoffPolicy`. -/
def GetBackoffPolicy : BackoffEntry.Policy := kDefaultBackoffPolicy

/-- Modelled from the spec: `net::BackoffEntry` is defined outside the sources at hand.
The spec gives the policy as "initial 1s delay, ×4 multiplier, 10% jitter, capped at 30
minutes, no error-count ignored, always apply initial delay even on first failure" and
the delays under repeated failure as "1000ms, then ~4000ms (±10% jitter), then ~16000ms,
capped eventually at 1,800,000ms".  This is the delay in milliseconds, before jitter,
after the `n`-th consecutive failure (`n` counted from 1): the initial delay, multiplied
by the factor once per further failure, never above the maximum. -/
def NominalBackoffDelay (policy : BackoffEntry.Policy) (n : Nat) : ℚ :=
  min ((policy.initial_delay_ms : ℚ) * policy.multiply_factor ^ (n - 1))
    (policy.maximum_backoff_ms : ℚ)

/-! ## Sample values -/

/-- A proxy server with the given scheme, host and port. -/
def mkProxy (scheme : Scheme) (host : String) (port : Nat) : ProxyServer :=
  { scheme := scheme, host_port_pair := { host := host, port := port } }

/-- Configuration values with a primary and a fallback HTTP proxy and a secure proxy
followed by the same fallback in the HTTPS list. -/
def sampleValues : DataReductionProxyConfigValues :=
  { proxies_for_http :=
      [mkProxy Scheme.SCHEME_HTTP "origin.net" 80, mkProxy Scheme.SCHEME_HTTP "fallback.net" 80]
    proxies_for_https :=
      [mkProxy Scheme.SCHEME_HTTPS "ssl.net" 443, mkProxy Scheme.SCHEME_HTTP "fallback.net" 80]
    holdback := false
    allowed := true }

/-- A `proxy_info` object as default-constructed by a caller. -/
def sampleInfo : DataReductionProxyTypeInfo :=
  { proxy_servers := [], is_fallback := false, is_ssl := false }

/-- The URI of a proxy server in the way of `net::ProxyServer::ToURI`: the scheme,
left out for HTTP, then host and port. -/
def sampleToURI (proxy : ProxyServer) : String :=
  let host_port := proxy.host_port_pair.host ++ ":" ++ toString proxy.host_port_pair.port
  match proxy.scheme with
  | Scheme.SCHEME_INVALID => ""
  | Scheme.SCHEME_DIRECT => "direct://"
  | Scheme.SCHEME_HTTP => host_port
  | Scheme.SCHEME_SOCKS4 => "socks4://" ++ host_port
  | Scheme.SCHEME_SOCKS5 => "socks5://" ++ host_port
  | Scheme.SCHEME_HTTPS => "https://" ++ host_port
  | Scheme.SCHEME_QUIC => "quic://" ++ host_port

/-- Per-scheme proxy rules whose HTTP list holds the two sample HTTP proxies. -/
def sampleRules : ProxyRules :=
  { type := ProxyRulesType.TYPE_PROXY_PER_SCHEME
    http_proxy_list := some sampleValues.proxies_for_http
    https_proxy_list := none }

/-- Per-scheme proxy rules whose HTTP list holds one proxy that is not a Data Reduction
Proxy. -/
def sampleForeignRules : ProxyRules :=
  { type := ProxyRulesType.TYPE_PROXY_PER_SCHEME
    http_proxy_list := some [mkProxy Scheme.SCHEME_HTTP "other.net" 8080]
    https_proxy_list := none }

/-- A retry map in which both sample HTTP proxies are bad until the given time. -/
def sampleRetryMap (bad_until : TimeTicks) : ProxyRetryInfoMap :=
  [ ("fallback.net:80", { current_delay := 300000000, bad_until := bad_until }),
    ("origin.net:80", { current_delay := 60000000, bad_until := bad_until }) ]

/-- A configuration object freshly constructed over the sample values: the secure proxy
is allowed by default, Lo-Fi is not disabled by flags, the connection is Wi-Fi. -/
def sampleConfig : DataReductionProxyConfig :=
  DataReductionProxyConfig.new sampleValues true false ConnectionType.CONNECTION_WIFI

/-- Surroundings of a main-frame request: Lo-Fi forced on by flag, enabled field trial
group, a 4G connection. -/
def sampleLoFiEnvironment : LoFiEnvironment :=
  { IsLoFiAlwaysOnViaFlags := true
    IsLoFiCellularOnlyViaFlags := false
    LoFiFieldTrialFullName := "Enabled"
    GetConnectionType := ConnectionType.CONNECTION_4G
    IsConnectionCellular := fun type =>
      type == ConnectionType.CONNECTION_2G || type == ConnectionType.CONNECTION_3G ||
        type == ConnectionType.CONNECTION_4G
    Now := 5000000 }

/-- A main-frame request in the sample surroundings with a slow network estimate. -/
def sampleRequest : MainFrameRequest :=
  { env := sampleLoFiEnvironment
    user_temporarily_disabled_lofi := false
    network_quality_estimator := some (some { rtt := 3000000, downstream_throughput_kbps := 1 }) }

/-- A client configuration whose only proxy server has an unspecified scheme. -/
def sampleUnusableClientConfig : proto.ClientConfig :=
  { session_key := "session|credentials"
    expire_time := { seconds := 1500000000, nanos := 0 }
    proxy_config := some
      { http_proxy_servers :=
          [{ scheme := proto.ProxyScheme.UNSPECIFIED, host := "origin.net", port := 80 }] } }

/-- Surroundings of the client in which every response body parses into
`sampleUnusableClientConfig`. -/
def sampleClientEnvironment : ClientEnvironment :=
  { ParseFromString := fun _ => some sampleUnusableClientConfig
    SchemeFromProxyScheme := fun scheme =>
      match scheme with
      | proto.ProxyScheme.HTTP => Scheme.SCHEME_HTTP
      | proto.ProxyScheme.HTTPS => Scheme.SCHEME_HTTPS
      | proto.ProxyScheme.QUIC => Scheme.SCHEME_QUIC
      | proto.ProxyScheme.UNSPECIFIED => Scheme.SCHEME_INVALID
    ParseLocalSessionKey := fun _ => none
    TimestampToTime := fun timestamp => timestamp.seconds * 1000000 + timestamp.nanos / 1000
    Base64Encode := fun data => data
    Now := 1400000000000000
    GetTimeUntilRelease := fun _ => 1000000 }

/-- A client of the remote configuration service over the sample configuration. -/
def sampleClient : DataReductionProxyConfigServiceClient :=
  DataReductionProxyConfigServiceClient.new sampleConfig false

/-- A client configuration with a secure proxy, a server of unspecified scheme and a
fallback proxy. -/
def sampleClientConfig : proto.ClientConfig :=
  { session_key := "session|credentials"
    expire_time := { seconds := 1500000000, nanos := 0 }
    proxy_config := some
      { http_proxy_servers :=
          [ { scheme := proto.ProxyScheme.HTTPS, host := "origin.net", port := 443 },
            { scheme := proto.ProxyScheme.UNSPECIFIED, host := "ignored.net", port := 80 },
            { scheme := proto.ProxyScheme.HTTP, host := "fallback.net", port := 80 } ] } }

/-- Surroundings of the client in which the body "config" parses into
`sampleClientConfig` and nothing else parses, the local session key
"session|credentials" splits into its two halves, invalidated configuration values hold
no proxies, the static response is "config" and a fetcher can be created. -/
def sampleFetchEnvironment : FetchEnvironment :=
  { toClientEnvironment :=
      { sampleClientEnvironment with
        ParseFromString := fun data => if data = "config" then some sampleClientConfig else none
        ParseLocalSessionKey := fun key =>
          if key = "session|credentials" then some ("session", "credentials") else none }
    Invalidate := fun values => { values with proxies_for_http := [], proxies_for_https := [] }
    ConstructStaticResponse := fun _ => "config"
    GetURLFetcherForConfig := true }

/-- A client that uses a local (static) configuration, over the sample configuration. -/
def sampleLocalClient : DataReductionProxyConfigServiceClient :=
  DataReductionProxyConfigServiceClient.new sampleConfig true

/-- Surroundings of a main-frame request with no Lo-Fi flag set, in the given field
trial group, on Wi-Fi. -/
def sampleTrialEnvironment (group : String) : LoFiEnvironment :=
  { sampleLoFiEnvironment with
    IsLoFiAlwaysOnViaFlags := false
    LoFiFieldTrialFullName := group
    GetConnectionType := ConnectionType.CONNECTION_WIFI }

/-- The sample configuration with Auto Lo-Fi parameters (RTT above 2 s or throughput
below 100 kbps is slow, hysteresis 60 s) and the given Lo-Fi status. -/
def sampleLoFiConfig (status : LoFiStatus) : DataReductionProxyConfig :=
  { sampleConfig with
    auto_lofi_minimum_rtt_ := 2000000
    auto_lofi_maximum_kbps_ := 100
    auto_lofi_hysteresis_ := 60000000
    lofi_status_ := status }

/-- An estimator that reports a slow network: RTT 3 s, throughput 1 kbps. -/
def sampleSlowEstimator : NetworkQualityEstimator :=
  some (some { rtt := 3000000, downstream_throughput_kbps := 1 })

/-- An estimator that reports a fast network: RTT 10 ms, throughput 10000 kbps. -/
def sampleFastEstimator : NetworkQualityEstimator :=
  some (some { rtt := 10000, downstream_throughput_kbps := 10000 })

/-- Surroundings on Wi-Fi, in the enabled group with no flag set, at the given time. -/
def sampleEnvironmentAt (now : TimeTicks) : LoFiEnvironment :=
  { sampleTrialEnvironment "Enabled" with Now := now }

/-- The sample Lo-Fi configuration holding a cached result "slow" computed at time 1 s on
Wi-Fi. -/
def sampleCachedSlowConfig : DataReductionProxyConfig :=
  { sampleLoFiConfig LoFiStatus.LOFI_STATUS_ACTIVE with
    network_quality_last_updated_ := 1000000
    network_prohibitively_slow_ := true }

/-- Surroundings of a change of the IP address without VPN interface: a loopback and a
wireless interface; the secure proxy is used by default or not, as given. -/
def sampleIPAddressEnvironment (should_use_secure_proxy : Bool) : IPAddressEnvironment :=
  { IsIncludedInUseDataSaverOnVPNFieldTrial := false
    GetNetworkList := ["lo", "wlan0"]
    ShouldUseSecureProxyByDefault := should_use_secure_proxy }

/-- The sample configuration after the user has enabled the proxy. -/
def sampleEnabledConfig : DataReductionProxyConfig :=
  sampleConfig.SetProxyConfig true false

/-! ## Predicates used to state the properties -/

/-- The entry `proxy` of a proxy list matches the queried pair: it is valid and its
host:port equals the query. -/
def Matches (proxy : ProxyServer) (host_port_pair : HostPortPair) : Prop :=
  proxy.is_valid = true ∧ proxy.host_port_pair = host_port_pair

instance (proxy : ProxyServer) (host_port_pair : HostPortPair) :
    Decidable (Matches proxy host_port_pair) :=
  inferInstanceAs (Decidable (proxy.is_valid = true ∧ proxy.host_port_pair = host_port_pair))

/-- The index `i` is the lowest index of an entry of `proxy_list` that matches the
queried pair. -/
def IsLowestMatch (proxy_list : List ProxyServer) (host_port_pair : HostPortPair)
    (i : Nat) : Prop :=
  (∃ proxy, proxy_list[i]? = some proxy ∧ Matches proxy host_port_pair) ∧
    ∀ j < i, ∀ proxy, proxy_list[j]? = some proxy → ¬ Matches proxy host_port_pair

/-- The value `IsDataReductionProxy` leaves in `proxy_info` after a match at index `i`
of the HTTP list. -/
def HttpMatchInfo (config_values_ : DataReductionProxyConfigValues) (i : Nat)
    (info : DataReductionProxyTypeInfo) : DataReductionProxyTypeInfo :=
  { proxy_servers := config_values_.proxies_for_http.drop i
    is_fallback := decide (i ≠ 0)
    is_ssl := info.is_ssl }

/-- The value `IsDataReductionProxy` leaves in `proxy_info` after a match at index `i`
of the HTTPS list. -/
def HttpsMatchInfo (config_values_ : DataReductionProxyConfigValues) (i : Nat) :
    DataReductionProxyTypeInfo :=
  { proxy_servers := config_values_.proxies_for_https.drop i
    is_fallback := decide (i ≠ 0)
    is_ssl := true }

/-- The entry `proxy` of a proxy list is a Data Reduction Proxy for `AreProxiesBypassed`:
valid, not direct, and `IsDataReductionProxy` is true of its host:port. -/
def IsDataReductionProxyEntry (config_values_ : DataReductionProxyConfigValues)
    (proxy : ProxyServer) : Prop :=
  proxy.is_valid = true ∧ proxy.is_direct = false ∧
    (IsDataReductionProxy config_values_ proxy.host_port_pair none).1 = true

/-- The retry map has an entry for `proxy` whose bad-until time is in the future. -/
def BadUntilInFuture (ToURI : ProxyServer → String) (now : TimeTicks)
    (retry_map : ProxyRetryInfoMap) (proxy : ProxyServer) : Prop :=
  ∃ found, retry_map.lookup (ToURI proxy) = some found ∧ now < found.bad_until

/-- The retry map has an entry for `proxy` whose bad-until time is not in the past: it
is the current time or later. -/
def BadUntilNotPast (ToURI : ProxyServer → String) (now : TimeTicks)
    (retry_map : ProxyRetryInfoMap) (proxy : ProxyServer) : Prop :=
  ∃ found, retry_map.lookup (ToURI proxy) = some found ∧ now ≤ found.bad_until

/-- The property of `AreProxiesBypassed` as the specification words it: for per-scheme
rules with a list for the scheme, the result is true iff every Data Reduction Proxy entry
of the list has a retry-map entry whose bad-until time is in the future. -/
def AreProxiesBypassedIffAllInFuture (config_values_ : DataReductionProxyConfigValues)
    (ToURI : ProxyServer → String) (now : TimeTicks) (retry_map : ProxyRetryInfoMap)
    (proxy_rules : ProxyRules) (is_https : Bool) : Prop :=
  ∀ proxies, proxy_rules.type = ProxyRulesType.TYPE_PROXY_PER_SCHEME →
    proxy_rules.MapUrlSchemeToProxyList is_https = some proxies →
    ((AreProxiesBypassed config_values_ ToURI now retry_map proxy_rules is_https none).1 =
        true ↔
      ∀ proxy ∈ proxies, IsDataReductionProxyEntry config_values_ proxy →
        BadUntilInFuture ToURI now retry_map proxy)

/-- The property of `HandleSecureProxyCheckResponse` as the specification words it: a
probe that ends with a non-2xx HTTP response code or with a network error leaves the proxy
restricted. -/
def RestrictedAfterFailedProbe (self : DataReductionProxyConfig) (response : String)
    (status : URLRequestStatus) (http_response_code : Int) : Prop :=
  (¬ (200 ≤ http_response_code ∧ http_response_code < 300) ∨
      status.status = URLRequestStatus.Status.FAILED) →
    (self.HandleSecureProxyCheckResponse response status
      http_response_code).secure_proxy_allowed_ = false

/-- The response is one on which `HandleResponse` succeeds: status `SUCCESS`, code 200,
the body parses into `config` and `ParseAndApplyProxyConfig` accepts `config`. -/
def ResponseSucceeds (self : DataReductionProxyConfigServiceClient) (env : ClientEnvironment)
    (config_data : String) (status : URLRequestStatus) (response_code : Int)
    (config : proto.ClientConfig) : Prop :=
  status.status = URLRequestStatus.Status.SUCCESS ∧ response_code = HTTP_OK ∧
    env.ParseFromString config_data = some config ∧
    (self.ParseAndApplyProxyConfig env config).1 = true

/-- The property of `HandleResponse` as the specification words it: whenever the
response succeeds, the storage callback is invoked with the base64 encoding of the body
and the backoff entry is informed of a success. -/
def StoredAndInformedOnSuccess (self : DataReductionProxyConfigServiceClient)
    (env : ClientEnvironment) (config_data : String) (status : URLRequestStatus)
    (response_code : Int) : Prop :=
  ∀ config, ResponseSucceeds self env config_data status response_code config →
    (self.HandleResponse env config_data status response_code).config_storer_ =
      self.config_storer_ ++ [env.Base64Encode config_data] ∧
    (self.HandleResponse env config_data status response_code).backoff_entry_ =
      self.backoff_entry_ ++ [BackoffEntryCall.InformOfRequest true]

/-- The servers of a `ProxyConfig` message that are left after those of unspecified scheme
are dropped. -/
def SpecifiedServers (proxy_config : proto.ProxyConfig) : List proto.ProxyServer :=
  proxy_config.http_proxy_servers.filter
    fun server => server.scheme != proto.ProxyScheme.UNSPECIFIED

/-- The condition under which `UpdateConfigurator` enables the configurator: `enabled` is
true, the proxy is not disabled on VPN, the config is not in holdback and one of the two
proxy lists is non-empty. -/
def MayEnableConfigurator (self : DataReductionProxyConfig) (enabled : Bool) : Prop :=
  enabled = true ∧ self.disabled_on_vpn_ = false ∧ self.config_values_.holdback = false ∧
    (self.config_values_.proxies_for_http ≠ [] ∨ self.config_values_.proxies_for_https ≠ [])

/-- The Lo-Fi status after a main-frame request on which the user has temporarily
disabled Lo-Fi, from the status before it. -/
def StatusAfterUserDisabled : LoFiStatus → LoFiStatus
  | LoFiStatus.LOFI_STATUS_ACTIVE => LoFiStatus.LOFI_STATUS_TEMPORARILY_OFF
  | LoFiStatus.LOFI_STATUS_ACTIVE_FROM_FLAGS => LoFiStatus.LOFI_STATUS_TEMPORARILY_OFF
  | LoFiStatus.LOFI_STATUS_INACTIVE => LoFiStatus.LOFI_STATUS_TEMPORARILY_OFF
  | status => status

/-- The property of the enabled field trial group as the specification words it: after
`UpdateLoFiStatusOnMainFrameRequest` with no flags set, a session in the enabled group
emits the Lo-Fi header iff the network is prohibitively slow. -/
def EnabledGroupEmitsIffSlow (self : DataReductionProxyConfig) (env : LoFiEnvironment)
    (user_temporarily_disabled_lofi : Bool)
    (network_quality_estimator : NetworkQualityEstimator) : Prop :=
  env.IsLoFiAlwaysOnViaFlags = false → env.IsLoFiCellularOnlyViaFlags = false →
    IsIncludedInLoFiEnabledFieldTrial env = true →
    (ShouldUseLoFiHeaderForRequests
        (self.UpdateLoFiStatusOnMainFrameRequest env user_temporarily_disabled_lofi
          network_quality_estimator).lofi_status_ = true ↔
      (self.IsNetworkQualityProhibitivelySlow env network_quality_estimator).1 = true)

/-- The test of `IsNetworkQualityProhibitivelySlow` for answering from the cache: the
connection type has not changed, a result was computed before (the time of the last update
is not null) and the hysteresis window has not elapsed. -/
def ServedFromCache (self : DataReductionProxyConfig) (env : LoFiEnvironment) : Prop :=
  env.GetConnectionType = self.connection_type_ ∧ self.network_quality_last_updated_ ≠ 0 ∧
    env.Now - self.network_quality_last_updated_ ≤ self.auto_lofi_hysteresis_

instance (self : DataReductionProxyConfig) (env : LoFiEnvironment) :
    Decidable (ServedFromCache self env) :=
  inferInstanceAs (Decidable (env.GetConnectionType = self.connection_type_ ∧
    self.network_quality_last_updated_ ≠ 0 ∧
    env.Now - self.network_quality_last_updated_ ≤ self.auto_lofi_hysteresis_))

/-- The estimate makes the network prohibitively slow: the throughput is available
(positive) and below the floor, or the round-trip time is available (not the maximal
`TimeDelta`) and above the ceiling. -/
def EstimateIsSlow (self : DataReductionProxyConfig) (network_quality : NetworkQuality) :
    Prop :=
  (0 < network_quality.downstream_throughput_kbps ∧
      network_quality.downstream_throughput_kbps < self.auto_lofi_maximum_kbps_) ∨
    (network_quality.rtt ≠ TimeDelta.Max ∧ self.auto_lofi_minimum_rtt_ < network_quality.rtt)

instance (self : DataReductionProxyConfig) (network_quality : NetworkQuality) :
    Decidable (EstimateIsSlow self network_quality) :=
  inferInstanceAs (Decidable
    ((0 < network_quality.downstream_throughput_kbps ∧
        network_quality.downstream_throughput_kbps < self.auto_lofi_maximum_kbps_) ∨
      (network_quality.rtt ≠ TimeDelta.Max ∧
        self.auto_lofi_minimum_rtt_ < network_quality.rtt)))

/-- The property of the cache as the specification words it: if a call with a non-null
estimator recomputes, then a later call made within the hysteresis window of it with an
unchanged connection type returns what the recomputing call returned. -/
def LaterCallReturnsRecomputed (self : DataReductionProxyConfig) (env : LoFiEnvironment)
    (network_quality_estimator : NetworkQualityEstimator) (later_env : LoFiEnvironment)
    (later_estimator : NetworkQualityEstimator) : Prop :=
  network_quality_estimator ≠ none → ¬ ServedFromCache self env →
    later_env.Now - env.Now ≤ self.auto_lofi_hysteresis_ →
    later_env.GetConnectionType = env.GetConnectionType →
    ((self.IsNetworkQualityProhibitivelySlow env
        network_quality_estimator).2.IsNetworkQualityProhibitivelySlow later_env
      later_estimator).1 =
      (self.IsNetworkQualityProhibitivelySlow env network_quality_estimator).1

/-- A later call as the cache serves it after a recomputation in the surroundings `env`:
made with a non-null estimator, within the hysteresis window, on the same connection
type. -/
def WithinWindow (self : DataReductionProxyConfig) (env : LoFiEnvironment)
    (call : LoFiEnvironment × NetworkQualityEstimator) : Prop :=
  call.2 ≠ none ∧ call.1.Now - env.Now ≤ self.auto_lofi_hysteresis_ ∧
    call.1.GetConnectionType = env.GetConnectionType

/-- The delay `m` is the minimum of `measure` over the retry-map entries of the Data
Reduction Proxy entries of `proxies`: some such entry attains it and none is below it. -/
def IsMinimumOverEntries (config_values_ : DataReductionProxyConfigValues)
    (ToURI : ProxyServer → String) (retry_map : ProxyRetryInfoMap)
    (proxies : List ProxyServer) (measure : ProxyRetryInfo → TimeDelta) (m : TimeDelta) :
    Prop :=
  (∃ proxy ∈ proxies, IsDataReductionProxyEntry config_values_ proxy ∧
      ∃ found, retry_map.lookup (ToURI proxy) = some found ∧ measure found = m) ∧
    ∀ proxy ∈ proxies, IsDataReductionProxyEntry config_values_ proxy →
      ∀ found, retry_map.lookup (ToURI proxy) = some found → m ≤ measure found

/-- The property of `min_retry_delay` as the specification words it: when
`AreProxiesBypassed` returns true and `min_retry_delay` is supplied, the value written is
the minimum of the remaining delays, bad-until time minus current time. -/
def WritesMinimumRemainingDelay (config_values_ : DataReductionProxyConfigValues)
    (ToURI : ProxyServer → String) (now : TimeTicks) (retry_map : ProxyRetryInfoMap)
    (proxy_rules : ProxyRules) (is_https : Bool) (min_retry_delay : TimeDelta) : Prop :=
  ∀ proxies, proxy_rules.MapUrlSchemeToProxyList is_https = some proxies →
    (AreProxiesBypassed config_values_ ToURI now retry_map proxy_rules is_https
      (some min_retry_delay)).1 = true →
    ∃ m, (AreProxiesBypassed config_values_ ToURI now retry_map proxy_rules is_https
        (some min_retry_delay)).2 = some m ∧
      IsMinimumOverEntries config_values_ ToURI retry_map proxies
        (fun found => found.bad_until - now) m

/-- The property of `OnIPAddressChanged` as the specification words it: when the proxy
is enabled by the user and no VPN interface is detected, the secure tier is disabled before
the probe result arrives. -/
def DisablesSecureTierBeforeProbe (self : DataReductionProxyConfig)
    (env : IPAddressEnvironment) : Prop :=
  self.enabled_by_user_ = true → (self.MaybeDisableIfVPN env).1 = false →
    (self.OnIPAddressChanged env).secure_proxy_allowed_ = false

/-- The call `UpdateConfigurator` makes on the configurator for the given arguments. -/
def DataReductionProxyConfig.ConfiguratorCallFor (self : DataReductionProxyConfig)
    (enabled secure_proxy_allowed : Bool) : ConfiguratorCall :=
  if enabled && !self.disabled_on_vpn_ && !self.config_values_.holdback &&
      (!self.config_values_.proxies_for_http.isEmpty ||
        !self.config_values_.proxies_for_https.isEmpty) then
    ConfiguratorCall.Enable (!secure_proxy_allowed) self.config_values_.proxies_for_http
      self.config_values_.proxies_for_https
  else ConfiguratorCall.Disable

/-- The configurator is in step with the object: when the proxy is enabled by the user,
the most recent call on the configurator is the one `ReloadConfig` would make now. -/
def ConfiguratorInStep (self : DataReductionProxyConfig) : Prop :=
  self.enabled_by_user_ = true →
    self.configurator_.getLast? =
      some (self.ConfiguratorCallFor true self.secure_proxy_allowed_)

/-- The result of `CalculateNextConfigRefreshTime` as the specification words it: the
larger of `config_expiration - now` and the backoff delay after a success, the backoff
delay after a failure. -/
def RefreshTimeAsWorded (fetch_succeeded : Bool) (config_expiration now : Time)
    (backoff_delay : TimeDelta) : Prop :=
  CalculateNextConfigRefreshTime fetch_succeeded config_expiration now backoff_delay =
    if fetch_succeeded then max (config_expiration - now) backoff_delay else backoff_delay

/-- The static configuration is accepted by a client that uses a local configuration:
the response parses, it has a proxy configuration with a server of a specified scheme,
and its session key splits into session and credentials. -/
def StaticConfigAccepted (env : ClientEnvironment) (static_response : String) : Prop :=
  ∃ config proxy_config session credentials,
    env.ParseFromString static_response = some config ∧
    config.proxy_config = some proxy_config ∧
    SpecifiedServers proxy_config ≠ [] ∧
    env.ParseLocalSessionKey config.session_key = some (session, credentials)

/-- The effects of a retry as the specification words them: when
`ShouldRetryDueToAuthFailure` returns true, the storage callback has been called with the
empty string, the request options and the configuration values have been invalidated, the
configurator has been reloaded and a new fetch has been started. -/
def InvalidatesAsWorded (self : DataReductionProxyConfigServiceClient)
    (env : FetchEnvironment) (response_code : Int) (proxy_server : HostPortPair) : Prop :=
  (self.ShouldRetryDueToAuthFailure env response_code proxy_server).1 = true →
    (self.ShouldRetryDueToAuthFailure env response_code proxy_server).2.config_storer_ =
      self.config_storer_ ++ [""] ∧
    (self.ShouldRetryDueToAuthFailure env response_code proxy_server).2.request_options_ =
      self.request_options_ ++ [RequestOptionsCall.Invalidate] ∧
    (self.ShouldRetryDueToAuthFailure env response_code proxy_server).2.config_ =
      DataReductionProxyConfig.ReloadConfig
        { self.config_ with config_values_ := env.Invalidate self.config_.config_values_ } ∧
    (env.GetURLFetcherForConfig = true →
      (self.ShouldRetryDueToAuthFailure env response_code proxy_server).2.fetcher_ =
        self.fetcher_ + 1)

/-- The calls on the backoff entry as the specification words them: a 407 from a Data
Reduction Proxy informs it of exactly one failure when the flag
`previous_request_failed_authentication_` is not set and of exactly two when it is. -/
def InformsFailuresAsWorded (self : DataReductionProxyConfigServiceClient)
    (env : FetchEnvironment) (proxy_server : HostPortPair) : Prop :=
  (IsDataReductionProxy self.config_.config_values_ proxy_server none).1 = true →
    env.GetURLFetcherForConfig = true →
    (self.ShouldRetryDueToAuthFailure env 407 proxy_server).2.backoff_entry_ =
      self.backoff_entry_ ++
        (if self.previous_request_failed_authentication_ then
          [BackoffEntryCall.InformOfRequest false, BackoffEntryCall.InformOfRequest false]
        else [BackoffEntryCall.InformOfRequest false])

/-- Surroundings like `sampleFetchEnvironment`, but the static response is "garbage",
which does not parse. -/
def sampleUnparsedFetchEnvironment : FetchEnvironment :=
  { sampleFetchEnvironment with ConstructStaticResponse := fun _ => "garbage" }

end data_reduction_proxy

/-! # Media gallery permissions

The definitions follow `extensions/common/permissions/media_galleries_permission.cc`. -/

namespace extensions

/-- Embeds `IsValidPermissionSet`: copyTo permission requires delete permission as a
prerequisite, delete permission requires read permission as a prerequisite.  `error` is
the nullable out-parameter; the result is the returned boolean and the string `error`
points to afterwards. -/
def IsValidPermissionSet (has_read has_copy_to has_delete : Bool) (error : Option String) :
    Bool × Option String :=
  if has_copy_to then
    if has_read && has_delete then (true, error)
    else (false, error.map fun _ => "copyTo permission requires read and delete permissions")
  else if has_delete then
    if has_read then (true, error)
    else (false, error.map fun _ => "delete permission requires read permission")
  else (true, error)

/-- The permission name `MediaGalleriesPermission::kAllAutoDetectedPermission`. -/
def kAllAutoDetectedPermission : String := "allAutoDetected"

/-- The permission name `MediaGalleriesPermission::kScanPermission`. -/
def kScanPermission : String := "scan"

/-- The permission name `MediaGalleriesPermission::kReadPermission`. -/
def kReadPermission : String := "read"

/-- The permission name `MediaGalleriesPermission::kCopyToPermission`. -/
def kCopyToPermission : String := "copyTo"

/-- The permission name `MediaGalleriesPermission::kDeletePermission`. -/
def kDeletePermission : String := "delete"

/-- What the call of `SetDisjunctionPermission<...>::FromValue` (defined outside the
sources at hand) leaves behind: the boolean it returns, the `permission()` of the elements
of `data_set_` in the order of the set, and the values of `*error` and
`*unhandled_permissions` afterwards. -/
structure SetDisjunctionPermissionFromValue where
  parsed_ok : Bool
  data_set_ : List String
  error : Option String
  unhandled_permissions : Option (List String)
deriving DecidableEq, Repr

/-- The three flags that the loop of `MediaGalleriesPermission::FromValue` computes. -/
structure PermissionFlags where
  has_read : Bool
  has_copy_to : Bool
  has_delete : Bool
deriving DecidableEq, Repr

/-- The loop of `MediaGalleriesPermission::FromValue` over the elements of `data_set_`
still to visit; `none` is the `return false` after `NOTREACHED()`. -/
def MediaGalleriesPermission.FromValue.loop : List String → PermissionFlags →
    Option PermissionFlags
  | [], flags => some flags
  | permission :: rest, flags =>
    if permission == kAllAutoDetectedPermission || permission == kScanPermission then
      MediaGalleriesPermission.FromValue.loop rest flags
    else if permission == kReadPermission then
      MediaGalleriesPermission.FromValue.loop rest { flags with has_read := true }
    else if permission == kCopyToPermission then
      MediaGalleriesPermission.FromValue.loop rest { flags with has_copy_to := true }
    else if permission == kDeletePermission then
      MediaGalleriesPermission.FromValue.loop rest { flags with has_delete := true }
    else none

/-- The rewriting of the entries of `*unhandled_permissions` from index
`unhandled_permissions_count` on. -/
def WrapUnhandledPermissions (unhandled_permissions_count : Nat)
    (unhandled_permissions : List String) : List String :=
  unhandled_permissions.take unhandled_permissions_count ++
    (unhandled_permissions.drop unhandled_permissions_count).map fun permission =>
      "\x7b\"mediaGalleries\": [" ++ permission ++ "]\x7d"

/-- Embeds `MediaGalleriesPermission::FromValue`.  `parsed` is what the call of the base
class leaves behind, `unhandled_permissions` the value the nullable out-parameter points
to before the call.  The result is the returned boolean and the values of `*error` and
`*unhandled_permissions` afterwards; `data_set_` is `parsed.data_set_`. -/
def MediaGalleriesPermission.FromValue (parsed : SetDisjunctionPermissionFromValue)
    (unhandled_permissions : Option (List String)) :
    Bool × Option String × Option (List String) :=
  let unhandled_permissions_count :=
    match unhandled_permissions with
    | some list => list.length
    | none => 0
  let parsed_ok := parsed.parsed_ok
  let unhandled_permissions :=
    parsed.unhandled_permissions.map (WrapUnhandledPermissions unhandled_permissions_count)
  if !parsed_ok then (false, parsed.error, unhandled_permissions)
  else
    match MediaGalleriesPermission.FromValue.loop parsed.data_set_
        { has_read := false, has_copy_to := false, has_delete := false } with
    | none => (false, parsed.error, unhandled_permissions)
    | some flags =>
      let r := IsValidPermissionSet flags.has_read flags.has_copy_to flags.has_delete
        parsed.error
      (r.1, r.2, unhandled_permissions)

/-- The prerequisites of the media gallery permissions: copyTo needs read and delete,
delete needs read. -/
def PrerequisitesHold (has_read has_copy_to has_delete : Bool) : Prop :=
  (has_copy_to = true → has_read = true ∧ has_delete = true) ∧
    (has_delete = true → has_read = true)

/-- A parse that succeeded with a copyTo and a delete permission but no read permission. -/
def sampleParsedPermissions : SetDisjunctionPermissionFromValue :=
  { parsed_ok := true
    data_set_ := ["allAutoDetected", "copyTo", "delete"]
    error := some ""
    unhandled_permissions := some ["\"write\""] }

end extensions

/-! # Media routes

The definitions follow `chrome/browser/media/router/media_route.cc`; the members of
`std::string` it calls are modelled on lists of characters. -/

namespace std

/-- The search of `std::string::find` from the position `i`, with the rest of the string
from there on; `none` is `npos`. -/
def find.loop (str : List Char) : List Char → Nat → Option Nat
  | [], i => if str.isPrefixOf [] then some i else none
  | c :: s, i => if str.isPrefixOf (c :: s) then some i else find.loop str s (i + 1)

/-- The member `std::string::find(str, pos)`: the lowest position at or after `pos` where
`str` occurs in `s`, `none` for `npos`. -/
def find (s str : List Char) (pos : Nat) : Option Nat :=
  if pos ≤ s.length then find.loop str (s.drop pos) pos else none

/-- The member `std::string::substr(pos, n)` for `pos` within the string; `n = none` is
the default `npos`. -/
def substr (s : List Char) (pos : Nat) (n : Option Nat) : List Char :=
  match n with
  | none => s.drop pos
  | some n => (s.drop pos).take n

end std

namespace media_router

/-- The constant `kRouteUrnPrefix`. -/
def kRouteUrnPrefix : List Char := "urn:x-org.chromium:media:route:".toList

/-- Embeds `GetPresentationIdAndUrl`; a `std::string` is the list of its characters. -/
def GetPresentationIdAndUrl (id : List Char) : List Char × List Char :=
  if std.find id kRouteUrnPrefix 0 != some 0 then ([], [])
  else
    let prefix_len := kRouteUrnPrefix.length
    match std.find id ['/'] 0 with
    | none => ([], [])
    | some first_delim =>
      if first_delim == prefix_len then ([], [])
      else
        let presentation_id := std.substr id prefix_len (some (first_delim - prefix_len))
        match std.find id ['/'] (first_delim + 1) with
        | none => ([], [])
        | some second_delim =>
          if second_delim == first_delim + 1 then ([], [])
          else if second_delim == id.length - 1 then ([], [])
          else (presentation_id, std.substr id (second_delim + 1) none)

/-- A route id of the documented format. -/
def WellFormedRouteId (id P S U : List Char) : Prop :=
  id = kRouteUrnPrefix ++ (P ++ '/' :: (S ++ '/' :: U)) ∧
    P ≠ [] ∧ '/' ∉ P ∧ S ≠ [] ∧ '/' ∉ S ∧ U ≠ []

/-- The route id "urn:x-org.chromium:media:route:pid/cast-sink1/http://a.com/b". -/
def sampleRouteId : List Char :=
  "urn:x-org.chromium:media:route:pid/cast-sink1/http://a.com/b".toList

end media_router

/-! # Spelling suggestions

The definitions follow `chrome/renderer/spellchecker/spellcheck.cc`. -/

namespace spellcheck

/-- The type `base::char16`: a UTF-16 code unit. -/
abbrev char16 := Nat

/-- Embeds `IsApostrophe`. -/
def IsApostrophe (c : char16) : Bool :=
  let kApostrophe := 0x27
  let kRightSingleQuotationMark := 0x2019
  c == kApostrophe || c == kRightSingleQuotationMark

/-- The search of `std::find_if(it, end, IsApostrophe)`: the characters from `it` on and
the position `it`; the result is the position found, or the end. -/
def find_if.loop : List char16 → Nat → Nat
  | [], it => it
  | c :: rest, it => if IsApostrophe c then it else find_if.loop rest (it + 1)

/-- The call `std::find_if(it, spelling_suggestion->end(), IsApostrophe)` with iterators
as positions in the string. -/
def find_if (spelling_suggestion : List char16) (it : Nat) : Nat :=
  find_if.loop (spelling_suggestion.drop it) it

/-- The loop of `PreserveOriginalApostropheTypes` over the characters of the misspelled
word still to visit, with the iterator `it` as a position in the suggestion. -/
def PreserveOriginalApostropheTypes.loop : List char16 → Nat → List char16 → List char16
  | [], _, spelling_suggestion => spelling_suggestion
  | c :: rest, it, spelling_suggestion =>
    if IsApostrophe c then
      let it := find_if spelling_suggestion it
      if it == spelling_suggestion.length then spelling_suggestion
      else PreserveOriginalApostropheTypes.loop rest (it + 1) (spelling_suggestion.set it c)
    else PreserveOriginalApostropheTypes.loop rest it spelling_suggestion

/-- Embeds `PreserveOriginalApostropheTypes`; the result is the suggestion afterwards. -/
def PreserveOriginalApostropheTypes (misspelled_word spelling_suggestion : List char16) :
    List char16 :=
  PreserveOriginalApostropheTypes.loop misspelled_word 0 spelling_suggestion

/-- The replacement as the specification words it: the k-th apostrophe of the suggestion
becomes the k-th of the given apostrophes as long as there is one, and every other
character stays. -/
def ReplaceApostrophes : List char16 → List char16 → List char16
  | _, [] => []
  | [], c :: rest => c :: rest
  | a :: apostrophes, c :: rest =>
    if IsApostrophe c then a :: ReplaceApostrophes apostrophes rest
    else c :: ReplaceApostrophes (a :: apostrophes) rest

/-- The misspelled word "don’t’" in UTF-16. -/
def sampleMisspelledWord : List char16 := [0x64, 0x6f, 0x6e, 0x2019, 0x74, 0x2019]

/-- The suggestion "d'on't're" in UTF-16. -/
def sampleSuggestion : List char16 := [0x64, 0x27, 0x6f, 0x6e, 0x27, 0x74, 0x27, 0x72, 0x65]

end spellcheck

/-! # Precaching

The definitions follow `components/precache/core/precache_fetcher.cc`. -/

namespace precache

/-- A `GURL`, kept as the string it was made from. -/
structure GURL where
  spec : String
deriving DecidableEq, Repr

/-- What the callbacks read of a completed `net::URLFetcher`: `GetStatus().is_success()`
and the string of `GetResponseAsString` (`none` when it returns false). -/
structure URLFetcher where
  status_is_success : Bool
  response_as_string : Option String
deriving DecidableEq, Repr

/-- The fields of the message `PrecacheConfigurationSettings` that the fetcher reads. -/
structure PrecacheConfigurationSettings where
  top_sites_count : Int
  forced_site : List String
deriving DecidableEq, Repr

/-- The message `PrecacheResource`; `url` is `none` when `has_url()` is false. -/
structure PrecacheResource where
  url : Option String
deriving DecidableEq, Repr

/-- The message `PrecacheManifest`. -/
structure PrecacheManifest where
  resource : List PrecacheResource
deriving DecidableEq, Repr

/-- What the fetcher takes from outside `precache_fetcher.cc`: the command line
(`GetConfigURL`, `GetDefaultManifestURLPrefix`), `net::EscapeQueryParamValue`, the default
of the field `top_sites_count`, `ParseFromString` of the two messages (its result and the
message afterwards), the order in which a `base::hash_set` that received the given
insertions is iterated, and the completed fetch that the network answers to a URL. -/
structure PrecacheEnvironment where
  GetConfigURL : GURL
  GetDefaultManifestURLPrefix : String
  EscapeQueryParamValue : String → Bool → String
  default_top_sites_count : Int
  ParseConfigFromString : String → Bool × PrecacheConfigurationSettings
  ParseManifestFromString : String → Bool × PrecacheManifest
  hash_set_order : List String → List String
  Fetch : GURL → URLFetcher

/-- A newly constructed `PrecacheConfigurationSettings`. -/
def PrecacheConfigurationSettings.new (env : PrecacheEnvironment) :
    PrecacheConfigurationSettings :=
  { top_sites_count := env.default_top_sites_count, forced_site := [] }

/-- A newly constructed `PrecacheManifest`. -/
def PrecacheManifest.new : PrecacheManifest :=
  { resource := [] }

/-- Embeds `ConstructManifestURL`. -/
def ConstructManifestURL (env : PrecacheEnvironment) (prefix_ name : String) : String :=
  prefix_ ++ env.EscapeQueryParamValue (env.EscapeQueryParamValue name false) false

/-- Embeds `ParseProtoFromFetchResponse`: the returned boolean and the message
afterwards. -/
def ParseProtoFromFetchResponse {Message : Type} (ParseFromString : String → Bool × Message)
    (source : URLFetcher) (message : Message) : Bool × Message :=
  if !source.status_is_success then (false, message)
  else
    match source.response_as_string with
    | none => (false, message)
    | some response_string =>
      let parsed := ParseFromString response_string
      if !parsed.1 then (false, parsed.2)
      else (true, parsed.2)

/-- The callback bound to a `PrecacheFetcher::Fetcher`. -/
inductive FetcherCallback where
  | OnConfigFetchComplete
  | OnManifestFetchComplete
  | OnResourceFetchComplete
deriving DecidableEq, Repr

/-- The class `PrecacheFetcher::Fetcher`. -/
structure Fetcher where
  url : GURL
  callback_ : FetcherCallback
  ignore_response_body : Bool
deriving DecidableEq, Repr

/-- The state of a `PrecacheFetcher`, with the URLs of the fetches started so far and the
number of calls of `precache_delegate_->OnDone()`. -/
structure PrecacheFetcher where
  starting_hosts_ : List String
  manifest_url_prefix_ : String
  fetcher_ : Option Fetcher
  manifest_urls_to_fetch_ : List GURL
  resource_urls_to_fetch_ : List GURL
  requested_urls : List GURL
  on_done_calls : Nat
deriving DecidableEq, Repr

/-- Embeds the constructor of `PrecacheFetcher`. -/
def PrecacheFetcher.new (starting_hosts : List String) ( manifest_url_prefix : String) :
    PrecacheFetcher :=
  { starting_hosts_ := starting_hosts
    manifest_url_prefix_ := manifest_url_prefix
    fetcher_ := none
    manifest_urls_to_fetch_ := []
    resource_urls_to_fetch_ := []
    requested_urls := []
    on_done_calls := 0 }

/-- The statement `fetcher_.reset(new Fetcher(...))`: the constructor of `Fetcher` creates
and starts a fetch of the URL. -/
def PrecacheFetcher.ResetFetcher (self : PrecacheFetcher) (url : GURL)
    (callback : FetcherCallback) (ignore_response_body : Bool) : PrecacheFetcher :=
  { self with
    fetcher_ := some { url := url, callback_ := callback,
                       ignore_response_body := ignore_response_body }
    requested_urls := self.requested_urls ++ [url] }

/-- Embeds `PrecacheFetcher::StartNextFetch`. -/
def PrecacheFetcher.StartNextFetch (self : PrecacheFetcher) : PrecacheFetcher :=
  match self.resource_urls_to_fetch_ with
  | front :: rest =>
    let self := self.ResetFetcher front FetcherCallback.OnResourceFetchComplete true
    { self with resource_urls_to_fetch_ := rest }
  | [] =>
    match self.manifest_urls_to_fetch_ with
    | front :: rest =>
      let self := self.ResetFetcher front FetcherCallback.OnManifestFetchComplete false
      { self with manifest_urls_to_fetch_ := rest }
    | [] => { self with on_done_calls := self.on_done_calls + 1 }

/-- The loop of `OnConfigFetchComplete` over the starting hosts still to visit, with the
`rank` so far and the insertions into `unique_manifest_urls` so far. -/
def PrecacheFetcher.OnConfigFetchComplete.loop (env : PrecacheEnvironment) (prefix_ : String)
    (top_sites_count : Int) : List String → Int → List String → List String
  | [], _, unique_manifest_urls => unique_manifest_urls
  | host :: rest, rank, unique_manifest_urls =>
    let rank := rank + 1
    if rank > top_sites_count then unique_manifest_urls
    else
      PrecacheFetcher.OnConfigFetchComplete.loop env prefix_ top_sites_count rest rank
        (unique_manifest_urls ++ [ConstructManifestURL env prefix_ host])

/-- Embeds `PrecacheFetcher::OnConfigFetchComplete`.  The set `unique_manifest_urls` is the
list of its insertions. -/
def PrecacheFetcher.OnConfigFetchComplete (self : PrecacheFetcher) (env : PrecacheEnvironment)
    (source : URLFetcher) : PrecacheFetcher :=
  let config := (ParseProtoFromFetchResponse env.ParseConfigFromString source
    (PrecacheConfigurationSettings.new env)).2
  let prefix_ :=
    if self.manifest_url_prefix_.isEmpty then env.GetDefaultManifestURLPrefix
    else self.manifest_url_prefix_
  let unique_manifest_urls :=
    PrecacheFetcher.OnConfigFetchComplete.loop env prefix_ config.top_sites_count
      self.starting_hosts_ 0 []
  let unique_manifest_urls :=
    unique_manifest_urls ++ config.forced_site.map (ConstructManifestURL env prefix_)
  let self := { self with
    manifest_urls_to_fetch_ := self.manifest_urls_to_fetch_ ++
      (env.hash_set_order unique_manifest_urls).map GURL.mk }
  self.StartNextFetch

/-- Embeds `PrecacheFetcher::OnManifestFetchComplete`. -/
def PrecacheFetcher.OnManifestFetchComplete (self : PrecacheFetcher)
    (env : PrecacheEnvironment) (source : URLFetcher) : PrecacheFetcher :=
  let parsed := ParseProtoFromFetchResponse env.ParseManifestFromString source
    PrecacheManifest.new
  let self :=
    if parsed.1 then
      { self with
        resource_urls_to_fetch_ := self.resource_urls_to_fetch_ ++
          parsed.2.resource.filterMap fun resource => resource.url.map GURL.mk }
    else self
  self.StartNextFetch

/-- Embeds `PrecacheFetcher::OnResourceFetchComplete`. -/
def PrecacheFetcher.OnResourceFetchComplete (self : PrecacheFetcher)
    (source : URLFetcher) : PrecacheFetcher :=
  self.StartNextFetch

end precache

/-! # Content security policies

The definitions follow `extensions/common/csp_validator.cc`.  A `std::string` is the list
of its characters.  The functions of `base/strings` that the validator calls
(`SplitString`, `StringTokenizer`, `StringToLowerASCII`, `StartsWithASCII`,
`LowerCaseEqualsASCII`, `IsAsciiDigit`, `JoinString`) are outside the sources at hand;
they are modelled on such lists as the library defines them. -/

namespace std

/-- The search of `std::string::rfind(str, pos)` over the start positions from `i` down to
zero; `none` is `npos`. -/
def rfind.loop (s str : List Char) : Nat → Option Nat
  | 0 => if str.isPrefixOf s then some 0 else none
  | i + 1 => if str.isPrefixOf (s.drop (i + 1)) then some (i + 1) else rfind.loop s str i

/-- The member `std::string::rfind(str, pos)`: the highest position at or before `pos`
where `str` occurs in `s`, `none` for `npos`. -/
def rfind (s str : List Char) (pos : Nat) : Option Nat :=
  if str.length ≤ s.length then rfind.loop s str (min pos (s.length - str.length)) else none

/-- The value `std::string::npos` of a 64-bit `size_t`. -/
def npos : Nat := 2 ^ 64 - 1

/-- The member `std::string::operator[]`; the position past the end holds the terminating
zero. -/
def index (s : List Char) (pos : Nat) : Char :=
  s.getD pos (Char.ofNat 0)

end std

namespace base

/-- The characters of `kWhitespaceASCII` (declared outside the sources at hand): tab,
line feed, vertical tab, form feed, carriage return and space. -/
def kWhitespaceASCII : List Char :=
  [Char.ofNat 0x09, Char.ofNat 0x0A, Char.ofNat 0x0B, Char.ofNat 0x0C, Char.ofNat 0x0D,
    Char.ofNat 0x20]

/-- Models `TrimWhitespaceASCII(input, TRIM_ALL, &output)`, defined outside the sources
at hand: the input without its leading and trailing characters of `kWhitespaceASCII`. -/
def TrimWhitespaceASCII (input : List Char) : List Char :=
  ((input.dropWhile kWhitespaceASCII.contains).reverse.dropWhile
    kWhitespaceASCII.contains).reverse

/-- Models the loop of `SplitString` over the characters still to read, with the piece
read so far since the last separator and the result so far.  At the end of the string the last
piece is added unless the result is empty and the piece is empty after trimming, which
avoids turning an empty or all-whitespace string into a vector of one empty string. -/
def SplitString.loop (c : Char) : List Char → List Char → List (List Char) →
    List (List Char)
  | [], tmp, r =>
    let tmp := TrimWhitespaceASCII tmp
    if r.isEmpty && tmp.isEmpty then r else r ++ [tmp]
  | x :: rest, tmp, r =>
    if x = c then SplitString.loop c rest [] (r ++ [TrimWhitespaceASCII tmp])
    else SplitString.loop c rest (tmp ++ [x]) r

/-- Models `base::SplitString(str, c, &r)` of `base/strings/string_split.h`, defined
outside the sources at hand: the pieces of `str` between the occurrences of `c`, each
trimmed of leading and trailing white space (the characters of `kWhitespaceASCII`). -/
def SplitString (str : List Char) (c : Char) : List (List Char) :=
  SplitString.loop c str [] []

/-- Models the scan of the tokenizer over the characters still to read, with the token
read so far. -/
def StringTokenizer.loop (delims : List Char) : List Char → List Char → List (List Char)
  | [], token => if token.isEmpty then [] else [token]
  | x :: rest, token =>
    if delims.contains x then
      if token.isEmpty then StringTokenizer.loop delims rest []
      else token :: StringTokenizer.loop delims rest []
    else StringTokenizer.loop delims rest (token ++ [x])

/-- Models the class `base::StringTokenizer` (defined outside the sources at hand) with
its default options, as the list of the tokens that the successive calls of `GetNext`
hand out: the maximal runs of characters that are no delimiters. -/
def StringTokenizer (input delims : List Char) : List (List Char) :=
  StringTokenizer.loop delims input []

/-- The upper-case ASCII letters with their lower-case letters. -/
def kLowerCaseOf : List (Char × Char) :=
  "ABCDEFGHIJKLMNOPQRSTUVWXYZ".toList.zip "abcdefghijklmnopqrstuvwxyz".toList

/-- Models `base::ToLowerASCII` on a character: an upper-case ASCII letter becomes its
lower-case letter, every other character stays. -/
def ToLowerASCII (c : Char) : Char :=
  (kLowerCaseOf.lookup c).getD c

/-- Models `base::StringToLowerASCII`, defined outside the sources at hand. -/
def StringToLowerASCII (s : List Char) : List Char :=
  s.map ToLowerASCII

/-- Models `base::StartsWithASCII(str, search, case_sensitive)`, defined outside the
sources at hand. -/
def StartsWithASCII (str search : List Char) (case_sensitive : Bool) : Bool :=
  if case_sensitive then search.isPrefixOf str
  else (StringToLowerASCII search).isPrefixOf (StringToLowerASCII str)

/-- Models `base::LowerCaseEqualsASCII(a, b)`, defined outside the sources at hand: the
lower-cased `a` equals `b`. -/
def LowerCaseEqualsASCII (a b : List Char) : Bool :=
  StringToLowerASCII a == b

/-- Models `base::IsAsciiDigit`, defined outside the sources at hand. -/
def IsAsciiDigit (c : Char) : Bool :=
  decide ('0' ≤ c) && decide (c ≤ '9')

/-- Models `JoinString(parts, separator)`, defined outside the sources at hand: the
parts with the separator between two of them. -/
def JoinString : List (List Char) → Char → List Char
  | [], _ => []
  | [part], _ => part
  | part :: rest, separator => part ++ separator :: JoinString rest separator

end base

namespace extensions

namespace csp_validator

/-- The option bit `OPTIONS_ALLOW_UNSAFE_EVAL`, declared in `csp_validator.h`. -/
def OPTIONS_ALLOW_UNSAFE_EVAL : Nat := 1 <<< 0

/-- The option bit `OPTIONS_ALLOW_INSECURE_OBJECT_SRC`, declared in `csp_validator.h`. -/
def OPTIONS_ALLOW_INSECURE_OBJECT_SRC : Nat := 1 <<< 1

/-- The constant `kDefaultSrc`. -/
def kDefaultSrc : List Char := "default-src".toList

/-- The constant `kScriptSrc`. -/
def kScriptSrc : List Char := "script-src".toList

/-- The constant `kObjectSrc`. -/
def kObjectSrc : List Char := "object-src".toList

/-- The constant `kPluginTypes`. -/
def kPluginTypes : List Char := "plugin-types".toList

/-- The constant `kObjectSrcDefaultDirective`. -/
def kObjectSrcDefaultDirective : List Char := "object-src 'self';".toList

/-- The constant `kScriptSrcDefaultDirective`. -/
def kScriptSrcDefaultDirective : List Char :=
  "script-src 'self' chrome-extension-resource:;".toList

/-- The constant `kSandboxedPluginTypes`. -/
def kSandboxedPluginTypes : List (List Char) :=
  ["application/pdf".toList, "application/x-google-chrome-pdf".toList,
    "application/x-pnacl".toList]

/-- The constant `extensions::kExtensionScheme`, declared in
`extensions/common/constants.h`. -/
def kExtensionScheme : List Char := "chrome-extension".toList

/-- The constant `url::kStandardSchemeSeparator`, declared in `url/`. -/
def kStandardSchemeSeparator : List Char := "://".toList

/-- The delimiters `" \t\r\n"` of the tokenizers. -/
def kTokenDelimiters : List Char :=
  [' ', Char.ofNat 0x09, Char.ofNat 0x0D, Char.ofNat 0x0A]

/-- What the validator takes from `net/`: the call
`GetRegistryLength(host, INCLUDE_UNKNOWN_REGISTRIES, INCLUDE_PRIVATE_REGISTRIES)`. -/
structure RegistryEnvironment where
  GetRegistryLength : List Char → Nat

/-- The struct `DirectiveStatus`. -/
structure DirectiveStatus where
  directive_name : List Char
  seen_in_policy : Bool
deriving DecidableEq, Repr

/-- The constructor of `DirectiveStatus`. -/
def DirectiveStatus.new (name : List Char) : DirectiveStatus :=
  { directive_name := name, seen_in_policy := false }

/-- The port check loop of `isNonWildcardTLD`: `count` positions from `i` on are left
below `end_of_host`; the result is `is_valid_port` after the loop. -/
def isNonWildcardTLD.loop (url : List Char) : Nat → Nat → Bool → Bool
  | 0, _, is_valid_port => is_valid_port
  | count + 1, i, _ =>
    let is_valid_port := base.IsAsciiDigit (std.index url i) || std.index url i == '*'
    if !is_valid_port then is_valid_port
    else isNonWildcardTLD.loop url count (i + 1) is_valid_port

/-- Embeds `isNonWildcardTLD`; positions are 64-bit values. -/
def isNonWildcardTLD (env : RegistryEnvironment) (url scheme_and_separator : List Char)
    (should_check_rcd : Bool) : Bool :=
  if !base.StartsWithASCII url scheme_and_separator true then false
  else
    let start_of_host := scheme_and_separator.length
    let end_of_host :=
      match std.find url ['/'] start_of_host with
      | none => url.length
      | some end_of_host => end_of_host
    let is_wildcard_subdomain := decide (end_of_host > start_of_host + 2) &&
      std.index url start_of_host == '*' && std.index url (start_of_host + 1) == '.'
    let start_of_host := if is_wildcard_subdomain then start_of_host + 2 else start_of_host
    let start_of_port :=
      match std.rfind url [':'] end_of_host with
      | none => std.npos
      | some start_of_port => start_of_port
    let end_of_host :=
      if decide (start_of_port > start_of_host) && std.index url (start_of_port - 1) != ':' then
        let is_valid_port := isNonWildcardTLD.loop url
          (end_of_host - (start_of_port + 1) % 2 ^ 64) ((start_of_port + 1) % 2 ^ 64) false
        if is_valid_port then start_of_port else end_of_host
      else end_of_host
    let host := std.substr url start_of_host (some (end_of_host - start_of_host))
    if host.isEmpty || (std.find host ['*'] 0).isSome then false
    else if !is_wildcard_subdomain || !should_check_rcd then true
    else if host == "googleapis.com".toList then true
    else
      let registry_length := env.GetRegistryLength host
      registry_length != 0

/-- The test of `GetSecureDirectiveValues` that sets `is_secure_csp_token`, on the
lower-cased source. -/
def IsSecureCspToken (env : RegistryEnvironment) (options : Nat) (source : List Char) : Bool :=
  if source == "'self'".toList || source == "'none'".toList ||
      source == "http://127.0.0.1".toList ||
      base.LowerCaseEqualsASCII source "blob:".toList ||
      base.LowerCaseEqualsASCII source "filesystem:".toList ||
      base.LowerCaseEqualsASCII source "http://localhost".toList ||
      base.StartsWithASCII source "http://127.0.0.1:".toList true ||
      base.StartsWithASCII source "http://localhost:".toList true ||
      isNonWildcardTLD env source "https://".toList true ||
      isNonWildcardTLD env source "chrome://".toList false ||
      isNonWildcardTLD env source (kExtensionScheme ++ kStandardSchemeSeparator) false ||
      base.StartsWithASCII source "chrome-extension-resource:".toList true then
    true
  else if (options &&& OPTIONS_ALLOW_UNSAFE_EVAL != 0) && source == "'unsafe-eval'".toList then
    true
  else false

/-- The loop of `GetSecureDirectiveValues` over the tokens that the tokenizer still hands
out. -/
def GetSecureDirectiveValues.loop (env : RegistryEnvironment) (options : Nat) :
    List (List Char) → List (List Char) → List (List Char)
  | [], sane_csp_parts => sane_csp_parts
  | token :: tokenizer, sane_csp_parts =>
    let source := base.StringToLowerASCII token
    let is_secure_csp_token := IsSecureCspToken env options source
    if is_secure_csp_token then
      GetSecureDirectiveValues.loop env options tokenizer (sane_csp_parts ++ [source])
    else GetSecureDirectiveValues.loop env options tokenizer sane_csp_parts

/-- The statement `sane_csp_parts->back().push_back(c)` on a vector that is not empty. -/
def PushBackToBack (sane_csp_parts : List (List Char)) (c : Char) : List (List Char) :=
  match sane_csp_parts.getLast? with
  | none => sane_csp_parts
  | some back => sane_csp_parts.dropLast ++ [back ++ [c]]

/-- Embeds `GetSecureDirectiveValues`: the vector `sane_csp_parts` afterwards.  The
tokenizer is the list of the tokens it still hands out; the warnings are left out. -/
def GetSecureDirectiveValues (env : RegistryEnvironment) (directive_name : List Char)
    (tokenizer : List (List Char)) (options : Nat) (sane_csp_parts : List (List Char)) :
    List (List Char) :=
  let sane_csp_parts := sane_csp_parts ++ [directive_name]
  let sane_csp_parts := GetSecureDirectiveValues.loop env options tokenizer sane_csp_parts
  PushBackToBack sane_csp_parts ';'

/-- Embeds `UpdateStatus`: the returned boolean, the status and the vector
`sane_csp_parts` afterwards. -/
def UpdateStatus (env : RegistryEnvironment) (directive_name : List Char)
    (tokenizer : List (List Char)) (status : DirectiveStatus) (options : Nat)
    (sane_csp_parts : List (List Char)) : Bool × DirectiveStatus × List (List Char) :=
  if directive_name != status.directive_name then (false, status, sane_csp_parts)
  else if !status.seen_in_policy then
    (true, { status with seen_in_policy := true },
      GetSecureDirectiveValues env directive_name tokenizer options sane_csp_parts)
  else
    (true, status,
      GetSecureDirectiveValues env directive_name tokenizer options sane_csp_parts)

/-- Embeds `PluginTypeAllowed`. -/
def PluginTypeAllowed (plugin_type : List Char) : Bool :=
  kSandboxedPluginTypes.any fun sandboxed => plugin_type == sandboxed

/-- The loop of `AllowedToHaveInsecureObjectSrc` over the directives still to visit. -/
def AllowedToHaveInsecureObjectSrc.loop : List (List Char) → Bool
  | [] => false
  | input :: rest =>
    match base.StringTokenizer input kTokenDelimiters with
    | [] => AllowedToHaveInsecureObjectSrc.loop rest
    | token :: tokenizer =>
      if !base.LowerCaseEqualsASCII token kPluginTypes then
        AllowedToHaveInsecureObjectSrc.loop rest
      else tokenizer.all PluginTypeAllowed

/-- Embeds `AllowedToHaveInsecureObjectSrc`. -/
def AllowedToHaveInsecureObjectSrc (options : Nat) (directives : List (List Char)) : Bool :=
  if !(options &&& OPTIONS_ALLOW_INSECURE_OBJECT_SRC != 0) then false
  else AllowedToHaveInsecureObjectSrc.loop directives

/-- The variables of `SanitizeContentSecurityPolicy` that its loop changes. -/
structure SanitizeState where
  default_src_status : DirectiveStatus
  script_src_status : DirectiveStatus
  object_src_status : DirectiveStatus
  sane_csp_parts : List (List Char)
deriving DecidableEq, Repr

/-- The loop of `SanitizeContentSecurityPolicy` over the directives still to visit. -/
def SanitizeContentSecurityPolicy.loop (env : RegistryEnvironment) (options : Nat)
    (allow_insecure_object_src : Bool) : List (List Char) → SanitizeState → SanitizeState
  | [], state => state
  | input :: rest, state =>
    match base.StringTokenizer input kTokenDelimiters with
    | [] => SanitizeContentSecurityPolicy.loop env options allow_insecure_object_src rest state
    | token :: tokenizer =>
      let directive_name := base.StringToLowerASCII token
      let updated := UpdateStatus env directive_name tokenizer state.default_src_status
        options state.sane_csp_parts
      if updated.1 then
        SanitizeContentSecurityPolicy.loop env options allow_insecure_object_src rest
          { state with default_src_status := updated.2.1, sane_csp_parts := updated.2.2 }
      else
        let updated := UpdateStatus env directive_name tokenizer state.script_src_status
          options state.sane_csp_parts
        if updated.1 then
          SanitizeContentSecurityPolicy.loop env options allow_insecure_object_src rest
            { state with script_src_status := updated.2.1, sane_csp_parts := updated.2.2 }
        else
          let updated := UpdateStatus env directive_name tokenizer state.object_src_status
            options state.sane_csp_parts
          if !allow_insecure_object_src && updated.1 then
            SanitizeContentSecurityPolicy.loop env options allow_insecure_object_src rest
              { state with object_src_status := updated.2.1, sane_csp_parts := updated.2.2 }
          else
            SanitizeContentSecurityPolicy.loop env options allow_insecure_object_src rest
              { state with sane_csp_parts := state.sane_csp_parts ++ [input ++ [';']] }

/-- Embeds `SanitizeContentSecurityPolicy`; the warnings are left out. -/
def SanitizeContentSecurityPolicy (env : RegistryEnvironment) (policy : List Char)
    (options : Nat) : List Char :=
  let directives := base.SplitString policy ';'
  let allow_insecure_object_src := AllowedToHaveInsecureObjectSrc options directives
  let state := SanitizeContentSecurityPolicy.loop env options allow_insecure_object_src
    directives
    { default_src_status := DirectiveStatus.new kDefaultSrc
      script_src_status := DirectiveStatus.new kScriptSrc
      object_src_status := DirectiveStatus.new kObjectSrc
      sane_csp_parts := [] }
  let sane_csp_parts :=
    if state.default_src_status.seen_in_policy then state.sane_csp_parts
    else
      let sane_csp_parts :=
        if !state.script_src_status.seen_in_policy then
          state.sane_csp_parts ++ [kScriptSrcDefaultDirective]
        else state.sane_csp_parts
      if !state.object_src_status.seen_in_policy && !allow_insecure_object_src then
        sane_csp_parts ++ [kObjectSrcDefaultDirective]
      else sane_csp_parts
  base.JoinString sane_csp_parts ' '

/-- The directive names whose sources are checked: default-src, script-src, and
object-src unless an insecure object-src is allowed. -/
def IsCheckedDirective (allow_insecure_object_src : Bool) (directive_name : List Char) :
    Bool :=
  directive_name == kDefaultSrc || directive_name == kScriptSrc ||
    (!allow_insecure_object_src && directive_name == kObjectSrc)

/-- The lower-cased sources of a directive that pass the test of
`GetSecureDirectiveValues`, in their order. -/
def SecureSources (env : RegistryEnvironment) (options : Nat) (tokenizer : List (List Char)) :
    List (List Char) :=
  (tokenizer.map base.StringToLowerASCII).filter (IsSecureCspToken env options)

/-- The text, without the closing semicolon, that the sanitizer emits for a directive of
the policy: nothing for a directive without token, the lower-cased name followed by the
secure sources for a checked directive, and the directive as it is otherwise. -/
def SanitizedDirective (env : RegistryEnvironment) (options : Nat)
    (allow_insecure_object_src : Bool) (input : List Char) : Option (List Char) :=
  match base.StringTokenizer input kTokenDelimiters with
  | [] => none
  | token :: tokenizer =>
    if IsCheckedDirective allow_insecure_object_src (base.StringToLowerASCII token) then
      some (base.JoinString
        (base.StringToLowerASCII token :: SecureSources env options tokenizer) ' ')
    else some input

/-- The parts that `GetSecureDirectiveValues` adds for a directive. -/
def DirectiveParts (env : RegistryEnvironment) (options : Nat) (directive_name : List Char)
    (tokenizer : List (List Char)) : List (List Char) :=
  (directive_name :: SecureSources env options tokenizer).dropLast ++
    [(directive_name :: SecureSources env options tokenizer).getLast (by simp) ++ [';']]

/-- Every part preceded by a space. -/
def FlatParts (sane_csp_parts : List (List Char)) : List Char :=
  sane_csp_parts.flatMap fun part => ' ' :: part

/-- Every directive preceded by a space and closed by a semicolon. -/
def FlatDirectives (directives : List (List Char)) : List Char :=
  directives.flatMap fun directive => ' ' :: (directive ++ [';'])

/-- The lower-cased names of the directives that have a token. -/
def DirectiveNames (directives : List (List Char)) : List (List Char) :=
  directives.filterMap fun input =>
    (base.StringTokenizer input kTokenDelimiters).head?.map base.StringToLowerASCII

/-- The directives that the sanitizer appends: without a default-src directive in the
policy, the default script-src directive when the policy has no script-src, and the
default object-src directive when it has no object-src and an insecure object-src is not
allowed. -/
def AppendedDirectives (allow_insecure_object_src : Bool) (names : List (List Char)) :
    List (List Char) :=
  if kDefaultSrc ∈ names then []
  else
    (if kScriptSrc ∈ names then []
      else ["script-src 'self' chrome-extension-resource:".toList]) ++
    (if kObjectSrc ∈ names ∨ allow_insecure_object_src = true then []
      else ["object-src 'self'".toList])

/-- The directives of the sanitized policy, each without its closing semicolon. -/
def SanitizedDirectives (env : RegistryEnvironment) (policy : List Char) (options : Nat) :
    List (List Char) :=
  (base.SplitString policy ';').filterMap
      (SanitizedDirective env options
        (AllowedToHaveInsecureObjectSrc options (base.SplitString policy ';'))) ++
    AppendedDirectives (AllowedToHaveInsecureObjectSrc options (base.SplitString policy ';'))
      (DirectiveNames (base.SplitString policy ';'))

/-- The policy text made of the given directives: each closed by a semicolon, with a
space between two directives. -/
def JoinDirectives (directives : List (List Char)) : List Char :=
  base.JoinString (directives.map fun directive => directive ++ [';']) ' '

/-- The text before the last colon of a text and the text after it; `none` for a text
without colon. -/
def SplitAtLastColon : List Char → Option (List Char × List Char)
  | [] => none
  | c :: rest =>
    match SplitAtLastColon rest with
    | some (host, port) => some (c :: host, port)
    | none => if c = ':' then some ([], rest) else none

/-- A port as the validator reads one: one or more characters, each a digit or an
asterisk. -/
def IsPortNumber (port : List Char) : Bool :=
  !port.isEmpty && port.all fun c => base.IsAsciiDigit c || c == '*'

/-- The host of a host with an optional port: the text before the last colon when that
text is not empty, does not end in a colon itself (as the last part of an IPv6 address
would make it) and a port follows the colon; the whole text otherwise. -/
def HostWithoutPort (host_and_port : List Char) : List Char :=
  match SplitAtLastColon host_and_port with
  | some (host, port) =>
    if !host.isEmpty && host.getLast? != some ':' && IsPortNumber port then host
    else host_and_port
  | none => host_and_port

/-- The authority of a source of the given scheme: what stands between the scheme with
its separator and the first slash after it. -/
def Authority (source scheme_and_separator : List Char) : List Char :=
  (source.drop scheme_and_separator.length).takeWhile fun c => c != '/'

/-- The authority starts with the wildcard "*." for the subdomains of a host. -/
def HasSubdomainWildcard (authority : List Char) : Bool :=
  decide (2 < authority.length) && "*.".toList.isPrefixOf authority

/-- The host of an authority: the authority without the wildcard "*." for subdomains and
without the port. -/
def HostOf (authority : List Char) : List Char :=
  HostWithoutPort (if HasSubdomainWildcard authority then authority.drop 2 else authority)

/-- A source of the given scheme whose host is non-empty and free of a disallowed
wildcard: the host holds no asterisk, and with `check_registry` a wildcard "*." for
subdomains stands before "googleapis.com" or before a host that is more than a registry
(a public suffix). -/
def HasSecureHost (env : RegistryEnvironment) (source scheme_and_separator : List Char)
    (check_registry : Bool) : Prop :=
  scheme_and_separator <+: source ∧
  HostOf (Authority source scheme_and_separator) ≠ [] ∧
  '*' ∉ HostOf (Authority source scheme_and_separator) ∧
  (HasSubdomainWildcard (Authority source scheme_and_separator) = true →
    check_registry = true →
    HostOf (Authority source scheme_and_separator) = "googleapis.com".toList ∨
      env.GetRegistryLength (HostOf (Authority source scheme_and_separator)) ≠ 0)

instance (env : RegistryEnvironment) (source scheme_and_separator : List Char)
    (check_registry : Bool) :
    Decidable (HasSecureHost env source scheme_and_separator check_registry) := by
  unfold HasSecureHost
  exact inferInstance

/-- The whitelist of sources for a lower-cased source, worded as the specification words
it except for the two loopback sources: 'self', 'none', http://127.0.0.1 and
http://localhost (each alone or followed by a colon and anything), blob:, filesystem:,
the sources of the schemes https, chrome and chrome-extension with a secure host, the
sources that start with chrome-extension-resource:, and 'unsafe-eval' with
`OPTIONS_ALLOW_UNSAFE_EVAL`. -/
def Whitelisted (env : RegistryEnvironment) (options : Nat) (source : List Char) : Prop :=
  source = "'self'".toList ∨ source = "'none'".toList ∨
  source = "http://127.0.0.1".toList ∨ "http://127.0.0.1:".toList <+: source ∨
  source = "http://localhost".toList ∨ "http://localhost:".toList <+: source ∨
  source = "blob:".toList ∨ source = "filesystem:".toList ∨
  HasSecureHost env source "https://".toList true ∨
  HasSecureHost env source "chrome://".toList false ∨
  HasSecureHost env source "chrome-extension://".toList false ∨
  "chrome-extension-resource:".toList <+: source ∨
  (options &&& OPTIONS_ALLOW_UNSAFE_EVAL ≠ 0 ∧ source = "'unsafe-eval'".toList)

instance (env : RegistryEnvironment) (options : Nat) (source : List Char) :
    Decidable (Whitelisted env options source) := by
  unfold Whitelisted
  exact inferInstance

/-- A registry in which every host has a registry of three characters. -/
def sampleRegistryEnvironment : RegistryEnvironment :=
  { GetRegistryLength := fun _ => 3 }

end csp_validator

end extensions

namespace base

/-- A string without leading and trailing white space. -/
def IsTrimmed (s : List Char) : Prop :=
  (∀ c, s.head? = some c → kWhitespaceASCII.contains c = false) ∧
    (∀ c, s.getLast? = some c → kWhitespaceASCII.contains c = false)

end base

namespace extensions

namespace csp_validator

/-- The policy has no vertical tab and no form feed. -/
def NoVerticalTabOrFormFeed (policy : List Char) : Prop :=
  ∀ c ∈ policy, c ≠ Char.ofNat 0x0B ∧ c ≠ Char.ofNat 0x0C

instance (policy : List Char) : Decidable (NoVerticalTabOrFormFeed policy) :=
  inferInstanceAs (Decidable (∀ c ∈ policy, c ≠ Char.ofNat 0x0B ∧ c ≠ Char.ofNat 0x0C))

/-- A token without white space and without semicolon. -/
def IsCleanToken (token : List Char) : Prop :=
  token ≠ [] ∧ ∀ c ∈ token, kTokenDelimiters.contains c = false ∧
    base.kWhitespaceASCII.contains c = false ∧ c ≠ ';'

/-- Sanitizing the sanitized policy changes nothing. -/
def IsIdempotentOn (env : RegistryEnvironment) (policy : List Char) (options : Nat) : Prop :=
  SanitizeContentSecurityPolicy env (SanitizeContentSecurityPolicy env policy options)
      options =
    SanitizeContentSecurityPolicy env policy options

instance (env : RegistryEnvironment) (policy : List Char) (options : Nat) :
    Decidable (IsIdempotentOn env policy options) :=
  inferInstanceAs (Decidable (_ = _))

/-- A policy whose script-src directive has a secure source that ends in a vertical tab,
followed by an insecure source. -/
def sampleVerticalTabPolicy : List Char :=
  "script-src chrome-extension-resource:\x0b x".toList

/-- A policy whose script-src directive has a secure source that ends in a form feed,
followed by an insecure source. -/
def sampleFormFeedPolicy : List Char :=
  "script-src chrome-extension-resource:\x0c x".toList

/-- The policy "script-src https://A.com 'unsafe-inline'; img-src *". -/
def samplePolicy : List Char :=
  "script-src https://A.com 'unsafe-inline'; img-src *".toList

/-- The policy "img-src *; plugin-types application/pdf". -/
def samplePluginPolicy : List Char :=
  "img-src *; plugin-types application/pdf".toList

end csp_validator

end extensions

namespace data_reduction_proxy

/-! ## Properties of the proxy list lookup -/

theorem bne_zero_eq (i : Nat) : (i != 0) = decide (i ≠ 0) := by
  cases i <;> simp

theorem HostPortPair.Equals_iff (a b : HostPortPair) : a.Equals b = true ↔ a = b := by
  cases a; cases b
  simp [HostPortPair.Equals]

theorem matches_iff (proxy : ProxyServer) (host_port_pair : HostPortPair) :
    (proxy.is_valid && proxy.host_port_pair.Equals host_port_pair) = true ↔
      Matches proxy host_port_pair := by
  simp [Matches, HostPortPair.Equals_iff]

theorem FindProxyInList.loop_no_match (host_port_pair : HostPortPair)
    (proxy_list : List ProxyServer) (proxy_index index : Nat)
    (h : ∀ proxy ∈ proxy_list, ¬ Matches proxy host_port_pair) :
    FindProxyInList.loop host_port_pair proxy_list proxy_index index = (false, index) := by
  induction proxy_list generalizing proxy_index with
  | nil => rfl
  | cons proxy rest ih =>
    have hp : ¬ Matches proxy host_port_pair := h proxy (List.mem_cons_self _ _)
    have hb : (proxy.is_valid && proxy.host_port_pair.Equals host_port_pair) = false := by
      rw [Bool.eq_false_iff]
      intro hc
      exact hp ((matches_iff _ _).1 hc)
    simp only [FindProxyInList.loop, hb]
    exact ih (proxy_index + 1) fun q hq => h q (List.mem_cons_of_mem _ hq)

theorem FindProxyInList.loop_lowest (host_port_pair : HostPortPair)
    (proxy_list : List ProxyServer) (proxy_index index i : Nat)
    (h : IsLowestMatch proxy_list host_port_pair i) :
    FindProxyInList.loop host_port_pair proxy_list proxy_index index =
      (true, proxy_index + i) := by
  induction proxy_list generalizing proxy_index i with
  | nil =>
    obtain ⟨⟨proxy, hget, _⟩, _⟩ := h
    simp at hget
  | cons proxy rest ih =>
    obtain ⟨⟨found, hget, hfound⟩, hlow⟩ := h
    cases i with
    | zero =>
      simp only [List.getElem?_cons_zero, Option.some.injEq] at hget
      subst hget
      have hb := (matches_iff proxy host_port_pair).2 hfound
      simp [FindProxyInList.loop, hb]
    | succ k =>
      have hp : ¬ Matches proxy host_port_pair :=
        hlow 0 (Nat.succ_pos k) proxy (by simp)
      have hb : (proxy.is_valid && proxy.host_port_pair.Equals host_port_pair) = false := by
        rw [Bool.eq_false_iff]
        intro hc
        exact hp ((matches_iff _ _).1 hc)
      simp only [FindProxyInList.loop, hb]
      have hrest : IsLowestMatch rest host_port_pair k := by
        refine ⟨⟨found, by simpa using hget, hfound⟩, ?_⟩
        intro j hj q hq
        exact hlow (j + 1) (Nat.succ_lt_succ hj) q (by simpa using hq)
      rw [ih (proxy_index + 1) k hrest, Nat.add_assoc, Nat.add_comm 1 k]
      simp

theorem exists_lowest_match (host_port_pair : HostPortPair) (proxy_list : List ProxyServer)
    (h : ∃ proxy ∈ proxy_list, Matches proxy host_port_pair) :
    ∃ i, IsLowestMatch proxy_list host_port_pair i := by
  induction proxy_list with
  | nil => simp at h
  | cons proxy rest ih =>
    by_cases hp : Matches proxy host_port_pair
    · exact ⟨0, ⟨proxy, by simp, hp⟩, fun j hj => absurd hj (Nat.not_lt_zero j)⟩
    · obtain ⟨q, hq, hm⟩ := h
      have hq2 : q ∈ rest := by
        rcases List.mem_cons.1 hq with rfl | hq2
        · exact absurd hm hp
        · exact hq2
      obtain ⟨i, ⟨found, hget, hfound⟩, hlow⟩ := ih ⟨q, hq2, hm⟩
      refine ⟨i + 1, ⟨found, by simpa using hget, hfound⟩, ?_⟩
      intro j hj r hr
      cases j with
      | zero =>
        simp only [List.getElem?_cons_zero, Option.some.injEq] at hr
        subst hr
        exact hp
      | succ k => exact hlow k (Nat.lt_of_succ_lt_succ hj) r (by simpa using hr)

/-- C1: for every pair of HTTP and HTTPS proxy lists and every host:port pair that
equals the host:port of no entry in either list, `IsDataReductionProxy` returns false
(and leaves `proxy_info` as it was). -/
theorem C1_IsDataReductionProxy_absent (config_values_ : DataReductionProxyConfigValues)
    (host_port_pair : HostPortPair) (proxy_info : Option DataReductionProxyTypeInfo)
    (hhttp : ∀ proxy ∈ config_values_.proxies_for_http,
      proxy.host_port_pair ≠ host_port_pair)
    (hhttps : ∀ proxy ∈ config_values_.proxies_for_https,
      proxy.host_port_pair ≠ host_port_pair) :
    IsDataReductionProxy config_values_ host_port_pair proxy_info = (false, proxy_info) := by
  have h1 := FindProxyInList.loop_no_match host_port_pair config_values_.proxies_for_http 0 0
    fun proxy hp hm => hhttp proxy hp hm.2
  have h2 := FindProxyInList.loop_no_match host_port_pair config_values_.proxies_for_https 0 0
    fun proxy hp hm => hhttps proxy hp hm.2
  simp [IsDataReductionProxy, FindProxyInList, h1, h2]

/-- C1 at a concrete input: a pair that is in neither sample list. -/
theorem C1_IsDataReductionProxy_absent_witness :
    IsDataReductionProxy sampleValues { host := "other.net", port := 80 } (some sampleInfo) =
      (false, some sampleInfo) :=
  C1_IsDataReductionProxy_absent sampleValues { host := "other.net", port := 80 }
    (some sampleInfo) (by decide) (by decide)

/-- C2: `IsDataReductionProxy` scans the HTTP list before the HTTPS list and the first
match wins.  If `i` is the lowest index of a valid HTTP-list entry whose host:port equals
the query, it returns true and `proxy_info` receives the HTTP list from `i` on with
`is_fallback = (i != 0)` (`is_ssl` is not written), whatever the HTTPS list holds;
otherwise, if `i` is the lowest such index of the HTTPS list, it returns true and
`proxy_info` receives the HTTPS list from `i` on with `is_fallback = (i != 0)` and
`is_ssl = true`.  For a `proxy_info` that starts with `is_ssl` false, `is_ssl` is true
afterwards iff no HTTP entry matched and an HTTPS entry did. -/
theorem C2_IsDataReductionProxy_first_match (config_values_ : DataReductionProxyConfigValues)
    (host_port_pair : HostPortPair) (proxy_info : Option DataReductionProxyTypeInfo) :
    (∀ i, IsLowestMatch config_values_.proxies_for_http host_port_pair i →
      IsDataReductionProxy config_values_ host_port_pair proxy_info =
        (true, proxy_info.map (HttpMatchInfo config_values_ i))) ∧
    (∀ i, (∀ proxy ∈ config_values_.proxies_for_http, ¬ Matches proxy host_port_pair) →
      IsLowestMatch config_values_.proxies_for_https host_port_pair i →
      IsDataReductionProxy config_values_ host_port_pair proxy_info =
        (true, proxy_info.map fun _ => HttpsMatchInfo config_values_ i)) ∧
    (∀ info, proxy_info = some info → info.is_ssl = false →
      ((IsDataReductionProxy config_values_ host_port_pair proxy_info).2.map
          (fun result => result.is_ssl) = some true ↔
        (∀ proxy ∈ config_values_.proxies_for_http, ¬ Matches proxy host_port_pair) ∧
          ∃ proxy ∈ config_values_.proxies_for_https, Matches proxy host_port_pair)) := by
  have http_case : ∀ i, IsLowestMatch config_values_.proxies_for_http host_port_pair i →
      IsDataReductionProxy config_values_ host_port_pair proxy_info =
        (true, proxy_info.map (HttpMatchInfo config_values_ i)) := by
    intro i hi
    have h1 := FindProxyInList.loop_lowest host_port_pair config_values_.proxies_for_http
      0 0 i hi
    cases proxy_info <;>
      simp [IsDataReductionProxy, FindProxyInList, h1, HttpMatchInfo, bne_zero_eq]
  have https_case : ∀ i,
      (∀ proxy ∈ config_values_.proxies_for_http, ¬ Matches proxy host_port_pair) →
      IsLowestMatch config_values_.proxies_for_https host_port_pair i →
      IsDataReductionProxy config_values_ host_port_pair proxy_info =
        (true, proxy_info.map fun _ => HttpsMatchInfo config_values_ i) := by
    intro i hno hi
    have h1 := FindProxyInList.loop_no_match host_port_pair config_values_.proxies_for_http
      0 0 hno
    have h2 := FindProxyInList.loop_lowest host_port_pair config_values_.proxies_for_https
      0 0 i hi
    cases proxy_info <;>
      simp [IsDataReductionProxy, FindProxyInList, h1, h2, HttpsMatchInfo, bne_zero_eq]
  refine ⟨http_case, https_case, ?_⟩
  intro info hinfo hssl
  subst hinfo
  by_cases hhttp : ∃ proxy ∈ config_values_.proxies_for_http, Matches proxy host_port_pair
  · obtain ⟨i, hi⟩ := exists_lowest_match host_port_pair _ hhttp
    rw [http_case i hi]
    obtain ⟨proxy, hmem, hm⟩ := hhttp
    constructor
    · intro h
      simp [HttpMatchInfo, hssl] at h
    · intro h
      exact absurd hm (h.1 proxy hmem)
  · have hno : ∀ proxy ∈ config_values_.proxies_for_http, ¬ Matches proxy host_port_pair :=
      fun proxy hmem hm => hhttp ⟨proxy, hmem, hm⟩
    by_cases hhttps :
        ∃ proxy ∈ config_values_.proxies_for_https, Matches proxy host_port_pair
    · obtain ⟨i, hi⟩ := exists_lowest_match host_port_pair _ hhttps
      rw [https_case i hno hi]
      simp only [Option.map_some', HttpsMatchInfo, true_iff]
      exact ⟨hno, hhttps⟩
    · have h1 := FindProxyInList.loop_no_match host_port_pair
        config_values_.proxies_for_http 0 0 hno
      have h2 := FindProxyInList.loop_no_match host_port_pair
        config_values_.proxies_for_https 0 0
        fun proxy hmem hm => hhttps ⟨proxy, hmem, hm⟩
      constructor
      · intro h
        simp [IsDataReductionProxy, FindProxyInList, h1, h2, hssl] at h
      · intro h
        exact absurd h.2 hhttps

/-- C2 at a concrete input: the fallback proxy is in both sample lists, at index 1 of
each; the HTTP list wins, and `is_ssl` stays false. -/
theorem C2_IsDataReductionProxy_first_match_witness :
    IsDataReductionProxy sampleValues { host := "fallback.net", port := 80 }
        (some sampleInfo) =
      (true, some { proxy_servers := [mkProxy Scheme.SCHEME_HTTP "fallback.net" 80]
                    is_fallback := true
                    is_ssl := false }) :=
  (C2_IsDataReductionProxy_first_match sampleValues { host := "fallback.net", port := 80 }
    (some sampleInfo)).1 1
    ⟨⟨mkProxy Scheme.SCHEME_HTTP "fallback.net" 80, by decide, by decide⟩, by
      intro j hj proxy hget hm
      have hj0 : j = 0 := by omega
      subst hj0
      simp [sampleValues] at hget
      subst hget
      exact absurd hm.2 (by decide)⟩

/-! ## Properties of the bypass test -/

theorem IsProxyBypassed_iff (ToURI : ProxyServer → String) (now : TimeTicks)
    (retry_map : ProxyRetryInfoMap) (proxy : ProxyServer) (retry_delay : Option TimeDelta) :
    (IsProxyBypassed ToURI now retry_map proxy retry_delay).1 = true ↔
      BadUntilNotPast ToURI now retry_map proxy := by
  unfold IsProxyBypassed BadUntilNotPast
  cases hfind : retry_map.lookup (ToURI proxy) with
  | none => simp
  | some found =>
    by_cases hlt : found.bad_until < now
    · simp [hlt]
    · simp [hlt, Int.not_lt.1 hlt]

theorem entry_skipped_iff (config_values_ : DataReductionProxyConfigValues)
    (proxy : ProxyServer) :
    IsDataReductionProxyEntry config_values_ proxy ↔
      (!proxy.is_valid || proxy.is_direct) = false ∧
        (IsDataReductionProxy config_values_ proxy.host_port_pair none).1 = true := by
  unfold IsDataReductionProxyEntry
  cases proxy.is_valid <;> cases proxy.is_direct <;> simp

theorem AreProxiesBypassed.loop_none_iff (config_values_ : DataReductionProxyConfigValues)
    (ToURI : ProxyServer → String) (now : TimeTicks) (retry_map : ProxyRetryInfoMap)
    (proxies : List ProxyServer) (min_delay : TimeDelta) (bypassed : Bool) :
    AreProxiesBypassed.loop config_values_ ToURI now retry_map proxies min_delay bypassed =
        none ↔
      ∃ proxy ∈ proxies, IsDataReductionProxyEntry config_values_ proxy ∧
        ¬ BadUntilNotPast ToURI now retry_map proxy := by
  induction proxies generalizing min_delay bypassed with
  | nil => simp [AreProxiesBypassed.loop]
  | cons proxy rest ih =>
    rw [List.exists_mem_cons_iff, entry_skipped_iff, ← IsProxyBypassed_iff ToURI now retry_map
      proxy (some 0)]
    unfold AreProxiesBypassed.loop
    by_cases hskip : (!proxy.is_valid || proxy.is_direct) = true
    · simp [hskip, ih]
    · have hskip2 : (!proxy.is_valid || proxy.is_direct) = false := by simpa using hskip
      by_cases hdrp : (IsDataReductionProxy config_values_ proxy.host_port_pair none).1 = true
      · by_cases hbyp : (IsProxyBypassed ToURI now retry_map proxy (some 0)).1 = true
        · simp [hskip2, hdrp, hbyp, ih]
        · simp [hskip2, hdrp, hbyp]
      · simp [hskip2, hdrp, ih]

theorem AreProxiesBypassed.loop_some (config_values_ : DataReductionProxyConfigValues)
    (ToURI : ProxyServer → String) (now : TimeTicks) (retry_map : ProxyRetryInfoMap)
    (proxies : List ProxyServer) (min_delay : TimeDelta) (bypassed : Bool)
    (result : TimeDelta × Bool)
    (h : AreProxiesBypassed.loop config_values_ ToURI now retry_map proxies min_delay
      bypassed = some result) :
    (result.2 = true ↔
      bypassed = true ∨ ∃ proxy ∈ proxies, IsDataReductionProxyEntry config_values_ proxy) := by
  induction proxies generalizing min_delay bypassed with
  | nil =>
    simp only [AreProxiesBypassed.loop, Option.some.injEq] at h
    subst h
    simp
  | cons proxy rest ih =>
    rw [List.exists_mem_cons_iff, entry_skipped_iff]
    unfold AreProxiesBypassed.loop at h
    by_cases hskip : (!proxy.is_valid || proxy.is_direct) = true
    · simp only [hskip, if_true] at h
      rw [ih _ _ h]
      simp [hskip]
    · have hskip2 : (!proxy.is_valid || proxy.is_direct) = false := by simpa using hskip
      by_cases hdrp : (IsDataReductionProxy config_values_ proxy.host_port_pair none).1 = true
      · by_cases hbyp : (IsProxyBypassed ToURI now retry_map proxy (some 0)).1 = true
        · simp only [hskip2, hdrp, hbyp, if_true, Bool.false_eq_true, if_false,
            Bool.not_true] at h
          rw [ih _ _ h]
          simp [hskip2, hdrp]
        · simp [hskip2, hdrp, hbyp] at h
      · simp only [hskip2, hdrp, Bool.false_eq_true, if_false] at h
        rw [ih _ _ h]
        simp [hskip2, hdrp]

/-- C3, refuted as stated at two inputs.  With a scheme list that holds no Data
Reduction Proxy, every Data Reduction Proxy entry (there is none) has a bad-until time in
the future, yet `AreProxiesBypassed` returns false.  With the two sample proxies bad until
exactly the current time, no bad-until time is in the future, yet it returns true. -/
theorem C3_AreProxiesBypassed_counterexample :
    ¬ AreProxiesBypassedIffAllInFuture sampleValues sampleToURI 1000 (sampleRetryMap 2000)
        sampleForeignRules false ∧
    ¬ AreProxiesBypassedIffAllInFuture sampleValues sampleToURI 1000 (sampleRetryMap 1000)
        sampleRules false := by
  constructor
  · intro h
    have h1 := (h [mkProxy Scheme.SCHEME_HTTP "other.net" 8080] rfl rfl).2 (by
      intro proxy hmem hdrp
      simp only [List.mem_singleton] at hmem
      subst hmem
      exact absurd hdrp.2.2 (by decide))
    exact absurd h1 (by decide)
  · intro h
    have h1 := (h sampleValues.proxies_for_http rfl rfl).1 (by decide)
      (mkProxy Scheme.SCHEME_HTTP "origin.net" 80) (by decide)
      ⟨by decide, by decide, by decide⟩
    obtain ⟨found, hfind, hlt⟩ := h1
    have hfound : found = { current_delay := 60000000, bad_until := 1000 } := by
      have h2 : (sampleRetryMap 1000).lookup
          (sampleToURI (mkProxy Scheme.SCHEME_HTTP "origin.net" 80)) =
          some { current_delay := 60000000, bad_until := 1000 } := by decide
      rw [h2] at hfind
      exact (Option.some.inj hfind).symm
    subst hfound
    exact absurd hlt (by decide)

/-- C3, amended: for per-scheme proxy rules that have a proxy list for the request's
scheme, `AreProxiesBypassed` returns true iff the list has at least one Data Reduction
Proxy entry (valid, not direct, `IsDataReductionProxy` true) and every such entry has a
retry-map entry whose bad-until time is not in the past (the current time or later); a
single such entry that is not bypassed forces the result false. -/
theorem C3_AreProxiesBypassed_iff (config_values_ : DataReductionProxyConfigValues)
    (ToURI : ProxyServer → String) (now : TimeTicks) (retry_map : ProxyRetryInfoMap)
    (proxy_rules : ProxyRules) (is_https : Bool) (min_retry_delay : Option TimeDelta)
    (proxies : List ProxyServer)
    (htype : proxy_rules.type = ProxyRulesType.TYPE_PROXY_PER_SCHEME)
    (hlist : proxy_rules.MapUrlSchemeToProxyList is_https = some proxies) :
    ((AreProxiesBypassed config_values_ ToURI now retry_map proxy_rules is_https
        min_retry_delay).1 = true ↔
      (∃ proxy ∈ proxies, IsDataReductionProxyEntry config_values_ proxy) ∧
        ∀ proxy ∈ proxies, IsDataReductionProxyEntry config_values_ proxy →
          BadUntilNotPast ToURI now retry_map proxy) ∧
    ((∃ proxy ∈ proxies, IsDataReductionProxyEntry config_values_ proxy ∧
        ¬ BadUntilNotPast ToURI now retry_map proxy) →
      (AreProxiesBypassed config_values_ ToURI now retry_map proxy_rules is_https
        min_retry_delay).1 = false) := by
  have hnone := AreProxiesBypassed.loop_none_iff config_values_ ToURI now retry_map proxies
    TimeDelta.Max false
  cases hloop : AreProxiesBypassed.loop config_values_ ToURI now retry_map proxies
      TimeDelta.Max false with
  | none =>
    have hbad := hnone.1 hloop
    have hres : (AreProxiesBypassed config_values_ ToURI now retry_map proxy_rules is_https
        min_retry_delay).1 = false := by
      simp [AreProxiesBypassed, htype, hlist, hloop]
    refine ⟨?_, fun _ => hres⟩
    rw [hres]
    constructor
    · intro h
      exact absurd h (by decide)
    · rintro ⟨_, hall⟩
      obtain ⟨proxy, hmem, hdrp, hnot⟩ := hbad
      exact absurd (hall proxy hmem hdrp) hnot
  | some result =>
    have hgood : ¬ ∃ proxy ∈ proxies, IsDataReductionProxyEntry config_values_ proxy ∧
        ¬ BadUntilNotPast ToURI now retry_map proxy := by
      intro hbad
      rw [hnone.2 hbad] at hloop
      exact Option.noConfusion hloop
    have hsome := AreProxiesBypassed.loop_some config_values_ ToURI now retry_map proxies
      TimeDelta.Max false result hloop
    have hres : (AreProxiesBypassed config_values_ ToURI now retry_map proxy_rules is_https
        min_retry_delay).1 = result.2 := by
      simp [AreProxiesBypassed, htype, hlist, hloop]
    refine ⟨?_, fun hbad => absurd hbad hgood⟩
    rw [hres, hsome]
    constructor
    · intro h
      rcases h with h | h
      · exact absurd h (by decide)
      · refine ⟨h, fun proxy hmem hdrp => ?_⟩
        by_contra hnot
        exact hgood ⟨proxy, hmem, hdrp, hnot⟩
    · rintro ⟨h, _⟩
      exact Or.inr h

/-- C3 amended, at a concrete input: both sample proxies are bad until exactly the
current time, and the result is true. -/
theorem C3_AreProxiesBypassed_iff_witness :
    (AreProxiesBypassed sampleValues sampleToURI 1000 (sampleRetryMap 1000) sampleRules
        false (some 0)).1 = true ∧
      ∀ proxy ∈ sampleValues.proxies_for_http,
        IsDataReductionProxyEntry sampleValues proxy →
          BadUntilNotPast sampleToURI 1000 (sampleRetryMap 1000) proxy :=
  ⟨by decide,
    ((C3_AreProxiesBypassed_iff sampleValues sampleToURI 1000 (sampleRetryMap 1000)
      sampleRules false (some 0) sampleValues.proxies_for_http rfl rfl).1.1 (by decide)).2⟩

/-! ## Properties of the Lo-Fi status -/

theorem UpdateLoFiStatusOnMainFrameRequest_off (self : DataReductionProxyConfig)
    (env : LoFiEnvironment) (user_temporarily_disabled_lofi : Bool)
    (network_quality_estimator : NetworkQualityEstimator)
    (h : self.lofi_status_ = LoFiStatus.LOFI_STATUS_OFF) :
    self.UpdateLoFiStatusOnMainFrameRequest env user_temporarily_disabled_lofi
      network_quality_estimator = self := by
  simp [DataReductionProxyConfig.UpdateLoFiStatusOnMainFrameRequest, h]

/-- C4: once the Lo-Fi status is `LOFI_STATUS_OFF`, a call of
`UpdateLoFiStatusOnMainFrameRequest` leaves it `LOFI_STATUS_OFF` for every value of
`user_temporarily_disabled_lofi`, flags, field-trial group, connection type and network
quality, and so does every sequence of such calls. -/
theorem C4_LoFi_off_is_terminal (self : DataReductionProxyConfig)
    (h : self.lofi_status_ = LoFiStatus.LOFI_STATUS_OFF) :
    (∀ (env : LoFiEnvironment) (user_temporarily_disabled_lofi : Bool)
        (network_quality_estimator : NetworkQualityEstimator),
      (self.UpdateLoFiStatusOnMainFrameRequest env user_temporarily_disabled_lofi
        network_quality_estimator).lofi_status_ = LoFiStatus.LOFI_STATUS_OFF) ∧
    ∀ requests : List MainFrameRequest,
      (self.UpdateLoFiStatusOnMainFrameRequests requests).lofi_status_ =
        LoFiStatus.LOFI_STATUS_OFF := by
  constructor
  · intro env user_temporarily_disabled_lofi network_quality_estimator
    rw [UpdateLoFiStatusOnMainFrameRequest_off self env _ _ h]
    exact h
  · intro requests
    induction requests generalizing self with
    | nil => exact h
    | cons request rest ih =>
      simp only [DataReductionProxyConfig.UpdateLoFiStatusOnMainFrameRequests,
        List.foldl_cons]
      rw [UpdateLoFiStatusOnMainFrameRequest_off self request.env _ _ h]
      exact ih self h

/-- C4 at a concrete input: a configuration switched off stays off over three requests
that would otherwise turn Lo-Fi on by flag. -/
theorem C4_LoFi_off_is_terminal_witness :
    (sampleConfig.SetLoFiModeOff.UpdateLoFiStatusOnMainFrameRequests
      [sampleRequest, sampleRequest, sampleRequest]).lofi_status_ =
        LoFiStatus.LOFI_STATUS_OFF :=
  (C4_LoFi_off_is_terminal sampleConfig.SetLoFiModeOff rfl).2
    [sampleRequest, sampleRequest, sampleRequest]

/-! ## Properties of the secure proxy check -/

theorem success_response_iff (response : String) :
    ("OK" == substr_0_2 response) = true ↔ "OK".data <+: response.data := by
  have hok : "OK".data = ['O', 'K'] := rfl
  rw [hok]
  cases response with
  | mk data =>
    simp only [substr_0_2, beq_iff_eq]
    constructor
    · intro h
      have h2 : ['O', 'K'] = data.take 2 := by
        have h3 := congrArg String.data h
        simpa using h3
      rw [h2]
      exact List.take_prefix 2 data
    · intro h
      obtain ⟨rest, hrest⟩ := h
      subst hrest
      rfl

theorem HandleSecureProxyCheckResponse_allowed (self : DataReductionProxyConfig)
    (response : String) (status : URLRequestStatus) (http_response_code : Int)
    (h : ¬ (status.status = URLRequestStatus.Status.FAILED ∧
      status.error = ERR_INTERNET_DISCONNECTED)) :
    (self.HandleSecureProxyCheckResponse response status
      http_response_code).secure_proxy_allowed_ = ("OK" == substr_0_2 response) := by
  have hcond : (status.status == URLRequestStatus.Status.FAILED &&
      status.error == ERR_INTERNET_DISCONNECTED) = false := by
    rw [Bool.eq_false_iff]
    intro hc
    simp only [Bool.and_eq_true, beq_iff_eq] at hc
    exact h hc
  unfold DataReductionProxyConfig.HandleSecureProxyCheckResponse
  simp only [hcond]
  cases hs : ("OK" == substr_0_2 response) <;> simp

/-- C5: after `HandleSecureProxyCheckResponse` for a probe that completed without a fetch
failure, the secure proxy is allowed iff the response body begins with the two bytes
"OK": "OK" and "OK-SOMETHING" give the unrestricted state and "NOTOK", the empty body and
a one-byte body give the restricted state, whatever the state was before. -/
theorem C5_secure_proxy_allowed_iff_OK (self : DataReductionProxyConfig)
    (status : URLRequestStatus) (http_response_code : Int)
    (h : status.status ≠ URLRequestStatus.Status.FAILED) :
    (∀ response : String,
      ((self.HandleSecureProxyCheckResponse response status
          http_response_code).secure_proxy_allowed_ = true ↔
        "OK".data <+: response.data)) ∧
    (self.HandleSecureProxyCheckResponse "OK" status
      http_response_code).secure_proxy_allowed_ = true ∧
    (self.HandleSecureProxyCheckResponse "OK-SOMETHING" status
      http_response_code).secure_proxy_allowed_ = true ∧
    (self.HandleSecureProxyCheckResponse "NOTOK" status
      http_response_code).secure_proxy_allowed_ = false ∧
    (self.HandleSecureProxyCheckResponse "" status
      http_response_code).secure_proxy_allowed_ = false ∧
    (self.HandleSecureProxyCheckResponse "O" status
      http_response_code).secure_proxy_allowed_ = false := by
  have hnot : ¬ (status.status = URLRequestStatus.Status.FAILED ∧
      status.error = ERR_INTERNET_DISCONNECTED) := fun hc => h hc.1
  refine ⟨?_, ?_, ?_, ?_, ?_, ?_⟩
  · intro response
    rw [HandleSecureProxyCheckResponse_allowed self response status _ hnot]
    exact success_response_iff response
  all_goals
    rw [HandleSecureProxyCheckResponse_allowed self _ status _ hnot]
    decide

/-- C5 at a concrete input: a restricted, user-enabled configuration becomes
unrestricted on the body "OK-SOMETHING" of a successful probe. -/
theorem C5_secure_proxy_allowed_iff_OK_witness :
    ({ sampleConfig with secure_proxy_allowed_ := false, enabled_by_user_ := true
      }.HandleSecureProxyCheckResponse "OK-SOMETHING"
        { status := URLRequestStatus.Status.SUCCESS, error := 0 } 200).secure_proxy_allowed_ =
      true :=
  (C5_secure_proxy_allowed_iff_OK
    { sampleConfig with secure_proxy_allowed_ := false, enabled_by_user_ := true }
    { status := URLRequestStatus.Status.SUCCESS, error := 0 } 200 (by decide)).2.2.1

/-- C6, refuted as stated at two inputs.  A probe answered with HTTP 404 and a body that
begins with "OK" lifts the restriction of a restricted configuration; a probe that fails
with `ERR_INTERNET_DISCONNECTED` leaves an unrestricted configuration unrestricted. -/
theorem C6_restricted_after_failed_probe_counterexample :
    ¬ RestrictedAfterFailedProbe { sampleConfig with secure_proxy_allowed_ := false } "OK"
        { status := URLRequestStatus.Status.SUCCESS, error := 0 } 404 ∧
    ¬ RestrictedAfterFailedProbe sampleConfig ""
        { status := URLRequestStatus.Status.FAILED, error := ERR_INTERNET_DISCONNECTED }
        (-1) := by
  constructor
  · intro h
    exact absurd (h (Or.inl (by decide))) (by decide)
  · intro h
    exact absurd (h (Or.inr rfl)) (by decide)

/-- C6, amended: if a secure-proxy probe ends with a non-2xx HTTP response code or with a
network error other than `ERR_INTERNET_DISCONNECTED`, then after
`HandleSecureProxyCheckResponse` the proxy is restricted iff the response body does not
begin with "OK"; neither the response code nor the error decides it. -/
theorem C6_restricted_iff_body_not_OK (self : DataReductionProxyConfig) (response : String)
    (status : URLRequestStatus) (http_response_code : Int)
    (hfailed : ¬ (200 ≤ http_response_code ∧ http_response_code < 300) ∨
      status.status = URLRequestStatus.Status.FAILED)
    (hconnected : ¬ (status.status = URLRequestStatus.Status.FAILED ∧
      status.error = ERR_INTERNET_DISCONNECTED)) :
    (self.HandleSecureProxyCheckResponse response status
        http_response_code).secure_proxy_allowed_ = false ↔
      ¬ "OK".data <+: response.data := by
  rw [← success_response_iff, HandleSecureProxyCheckResponse_allowed self response status _
    hconnected]
  simp

/-- C6 amended, at a concrete input: an unrestricted configuration becomes restricted
when the probe fails with a connection reset and an empty body. -/
theorem C6_restricted_iff_body_not_OK_witness :
    (sampleConfig.HandleSecureProxyCheckResponse ""
      { status := URLRequestStatus.Status.FAILED, error := -101 }
      (-1)).secure_proxy_allowed_ = false :=
  (C6_restricted_iff_body_not_OK sampleConfig ""
    { status := URLRequestStatus.Status.FAILED, error := -101 } (-1)
    (Or.inr rfl) (by decide)).2 (by decide)

/-- C7: `HandleSecureProxyCheckResponse` called with a `FAILED` status whose error is
`ERR_INTERNET_DISCONNECTED` changes neither `secure_proxy_allowed_` nor the configurator,
for every body, HTTP code and prior state; all it does is record the
`INTERNET_DISCONNECTED` sample. -/
theorem C7_internet_disconnected_keeps_state (self : DataReductionProxyConfig)
    (response : String) (status : URLRequestStatus) (http_response_code : Int)
    (hfailed : status.status = URLRequestStatus.Status.FAILED)
    (herror : status.error = ERR_INTERNET_DISCONNECTED) :
    (self.HandleSecureProxyCheckResponse response status
        http_response_code).secure_proxy_allowed_ = self.secure_proxy_allowed_ ∧
    (self.HandleSecureProxyCheckResponse response status
        http_response_code).configurator_ = self.configurator_ ∧
    self.HandleSecureProxyCheckResponse response status http_response_code =
      { self with
        probe_url_histogram_ :=
          self.probe_url_histogram_ ++ [SecureProxyCheckFetchResult.INTERNET_DISCONNECTED] } := by
  have h : self.HandleSecureProxyCheckResponse response status http_response_code =
      { self with
        probe_url_histogram_ :=
          self.probe_url_histogram_ ++
            [SecureProxyCheckFetchResult.INTERNET_DISCONNECTED] } := by
    simp [DataReductionProxyConfig.HandleSecureProxyCheckResponse, hfailed, herror,
      DataReductionProxyConfig.RecordSecureProxyCheckFetchResult]
  rw [h]
  exact ⟨rfl, rfl, rfl⟩

/-- C7 at a concrete input: a user-enabled, unrestricted configuration and a body that
would otherwise restrict it. -/
theorem C7_internet_disconnected_keeps_state_witness :
    ({ sampleConfig with enabled_by_user_ := true }.HandleSecureProxyCheckResponse "NOTOK"
        { status := URLRequestStatus.Status.FAILED, error := -106 }
        (-1)).secure_proxy_allowed_ = true ∧
    ({ sampleConfig with enabled_by_user_ := true }.HandleSecureProxyCheckResponse "NOTOK"
        { status := URLRequestStatus.Status.FAILED, error := -106 }
        (-1)).configurator_ = [] :=
  ⟨(C7_internet_disconnected_keeps_state { sampleConfig with enabled_by_user_ := true }
      "NOTOK" { status := URLRequestStatus.Status.FAILED, error := -106 } (-1) rfl rfl).1,
    (C7_internet_disconnected_keeps_state { sampleConfig with enabled_by_user_ := true }
      "NOTOK" { status := URLRequestStatus.Status.FAILED, error := -106 } (-1) rfl rfl).2.1⟩

/-! ## Properties of the configuration service client -/

theorem Time.Minus_of_representable (a b : Int) (hlow : -2 ^ 63 ≤ a - b)
    (hhigh : a - b < 2 ^ 63) : (a - b + 2 ^ 63) % 2 ^ 64 - 2 ^ 63 = a - b := by
  rw [Int.emod_eq_of_lt (by omega) (by omega)]
  omega

theorem expires_later (now : Int) :
    (now + 60 * 1000000 - now + 2 ^ 63) % 2 ^ 64 - 2 ^ 63 = 60 * 1000000 := by
  have h : now + 60 * 1000000 - now = 60 * 1000000 := by omega
  rw [h]
  norm_num

theorem expired_earlier (now : Int) :
    (now - 10 * 1000000 - now + 2 ^ 63) % 2 ^ 64 - 2 ^ 63 = -(10 * 1000000) := by
  have h : now - 10 * 1000000 - now = -(10 * 1000000) := by omega
  rw [h]
  norm_num

theorem wraps_around :
    ((-2 ^ 63 + 10 : Int) - 1400000000000000 + 2 ^ 63) % 2 ^ 64 - 2 ^ 63 =
      9221972036854775818 := by
  norm_num

/-- C8, as worded, fails: with an expiration at the lowest 64-bit time plus 10 and `now` at
1400000000000000 the 64-bit difference wraps around to 9221972036854775818, which is
returned, while the larger of `config_expiration - now` and the backoff of 5 s is 5 s. -/
theorem C8_CalculateNextConfigRefreshTime_counterexample :
    ¬ RefreshTimeAsWorded true (-2 ^ 63 + 10) 1400000000000000 5000000 := by
  unfold RefreshTimeAsWorded CalculateNextConfigRefreshTime Time.Minus
  rw [wraps_around]
  norm_num

/-- C8, amended: for every non-negative `backoff_delay` and every `config_expiration` and
`now` whose difference is representable in 64 bits, `CalculateNextConfigRefreshTime`
returns `max (config_expiration - now) backoff_delay` when the fetch succeeded; it returns
`backoff_delay` when the fetch failed; with an expiration 60 s after `now` and a backoff of
5 s the result is 60 s, with an expiration 10 s before `now` it is 5 s. -/
theorem C8_CalculateNextConfigRefreshTime (config_expiration now : Time)
    (backoff_delay : TimeDelta) (h : 0 ≤ backoff_delay)
    (hlow : -2 ^ 63 ≤ config_expiration - now) (hhigh : config_expiration - now < 2 ^ 63) :
    CalculateNextConfigRefreshTime true config_expiration now backoff_delay =
      max (config_expiration - now) backoff_delay ∧
    CalculateNextConfigRefreshTime false config_expiration now backoff_delay =
      backoff_delay ∧
    CalculateNextConfigRefreshTime true (now + TimeDelta.FromSeconds 60) now
      (TimeDelta.FromSeconds 5) = TimeDelta.FromSeconds 60 ∧
    CalculateNextConfigRefreshTime true (now - TimeDelta.FromSeconds 10) now
      (TimeDelta.FromSeconds 5) = TimeDelta.FromSeconds 5 := by
  have e1 : Time.Minus config_expiration now = config_expiration - now :=
    Time.Minus_of_representable config_expiration now hlow hhigh
  have e2 : Time.Minus (now + TimeDelta.FromSeconds 60) now = 60 * 1000000 :=
    expires_later now
  have e3 : Time.Minus (now - TimeDelta.FromSeconds 10) now = -(10 * 1000000) :=
    expired_earlier now
  refine ⟨?_, ?_, ?_, ?_⟩
  · simp only [CalculateNextConfigRefreshTime, if_true, e1]
    by_cases hgt : config_expiration - now > backoff_delay
    · rw [if_pos hgt, max_eq_left (le_of_lt hgt)]
    · rw [if_neg hgt, max_eq_right (not_lt.1 hgt)]
  · simp [CalculateNextConfigRefreshTime]
  · unfold CalculateNextConfigRefreshTime
    rw [if_pos rfl]
    simp only [e2]
    decide
  · unfold CalculateNextConfigRefreshTime
    rw [if_pos rfl]
    simp only [e3]
    decide

/-- C8 amended, at a concrete input: a configuration that expires 60 s from now and a
backoff of 5 s give a refresh in 60 s. -/
theorem C8_CalculateNextConfigRefreshTime_witness :
    CalculateNextConfigRefreshTime true 1400000060000000 1400000000000000 5000000 =
      max (1400000060000000 - 1400000000000000) 5000000 :=
  (C8_CalculateNextConfigRefreshTime 1400000060000000 1400000000000000 5000000
    (by decide) (by decide) (by decide)).1

theorem NominalBackoffDelay_default (n : Nat) :
    NominalBackoffDelay GetBackoffPolicy n = min (1000 * 4 ^ (n - 1)) 1800000 := by
  simp only [NominalBackoffDelay, GetBackoffPolicy, kDefaultBackoffPolicy]
  norm_num

/-- C9: the backoff policy returned by `GetBackoffPolicy` ignores no errors, has initial
delay 1000 ms, multiplication factor 4, jitter factor 10%, maximum delay 1,800,000 ms and
always applies the initial delay; the delay before jitter after the `n`-th consecutive
failure is `min (1000 * 4 ^ (n - 1)) 1800000` ms, that is 1000, 4000, 16000, ..., never
more than 1,800,000 ms, and exactly 1,800,000 ms from the seventh failure on. -/
theorem C9_backoff_policy :
    GetBackoffPolicy.num_errors_to_ignore = 0 ∧
    GetBackoffPolicy.initial_delay_ms = 1000 ∧
    GetBackoffPolicy.multiply_factor = 4 ∧
    GetBackoffPolicy.jitter_factor = 10 / 100 ∧
    GetBackoffPolicy.maximum_backoff_ms = 1800000 ∧
    GetBackoffPolicy.always_use_initial_delay = true ∧
    (∀ n : Nat, 1 ≤ n →
      NominalBackoffDelay GetBackoffPolicy n = min (1000 * 4 ^ (n - 1)) 1800000 ∧
      NominalBackoffDelay GetBackoffPolicy n ≤ 1800000) ∧
    NominalBackoffDelay GetBackoffPolicy 1 = 1000 ∧
    NominalBackoffDelay GetBackoffPolicy 2 = 4000 ∧
    NominalBackoffDelay GetBackoffPolicy 3 = 16000 ∧
    (∀ n : Nat, 7 ≤ n → NominalBackoffDelay GetBackoffPolicy n = 1800000) := by
  refine ⟨rfl, by decide, rfl, ?_, by decide, rfl, ?_, ?_, ?_, ?_, ?_⟩
  · simp only [GetBackoffPolicy, kDefaultBackoffPolicy]
    norm_num
  · intro n _
    refine ⟨NominalBackoffDelay_default n, ?_⟩
    rw [NominalBackoffDelay_default]
    exact min_le_right _ _
  · rw [NominalBackoffDelay_default]
    norm_num
  · rw [NominalBackoffDelay_default]
    norm_num
  · rw [NominalBackoffDelay_default]
    norm_num
  · intro n hn
    rw [NominalBackoffDelay_default]
    apply min_eq_right
    have hpow : (4 : ℚ) ^ 6 ≤ 4 ^ (n - 1) :=
      pow_le_pow_right₀ (by norm_num) (by omega)
    have h6 : (4 : ℚ) ^ 6 = 4096 := by norm_num
    rw [h6] at hpow
    linarith

/-- C9 at a concrete input: the delay before jitter after the fourth failure. -/
theorem C9_backoff_policy_witness :
    NominalBackoffDelay GetBackoffPolicy 4 = min (1000 * 4 ^ (4 - 1)) 1800000 ∧
      NominalBackoffDelay GetBackoffPolicy 4 ≤ 1800000 :=
  C9_backoff_policy.2.2.2.2.2.2.1 4 (by decide)

theorem ParseAndApplyProxyConfig_rejected (self : DataReductionProxyConfigServiceClient)
    (env : ClientEnvironment) (config : proto.ClientConfig)
    (h : (self.ParseAndApplyProxyConfig env config).1 = false) :
    (self.ParseAndApplyProxyConfig env config).2 = self := by
  unfold DataReductionProxyConfigServiceClient.ParseAndApplyProxyConfig at h ⊢
  cases hpc : config.proxy_config with
  | none => rfl
  | some proxy_config =>
    simp only [hpc] at h ⊢
    by_cases hempty : (GetProxiesForHTTP env proxy_config).isEmpty = true
    · simp [hempty]
    · by_cases hlocal : self.use_local_config_ = true
      · cases hkey : env.ParseLocalSessionKey config.session_key with
        | none => simp [hempty, hlocal, hkey]
        | some key => simp [hempty, hlocal, hkey] at h
      · simp [hempty, hlocal] at h

/-- C10: if `HandleResponse` receives a response whose request status is not `SUCCESS`,
whose HTTP code is not 200, whose body does not parse as a `ClientConfig`, or whose
configuration `ParseAndApplyProxyConfig` rejects, then the configuration object (with
its proxy server lists and its configurator) and the calls made on the request options
(the session credentials in force) are unchanged, the storage callback is not invoked,
and the backoff entry is informed of a failure. -/
theorem C10_HandleResponse_failure (self : DataReductionProxyConfigServiceClient)
    (env : ClientEnvironment) (config_data : String) (status : URLRequestStatus)
    (response_code : Int)
    (h : status.status ≠ URLRequestStatus.Status.SUCCESS ∨ response_code ≠ HTTP_OK ∨
      env.ParseFromString config_data = none ∨
      ∃ config, env.ParseFromString config_data = some config ∧
        (self.ParseAndApplyProxyConfig env config).1 = false) :
    (self.HandleResponse env config_data status response_code).config_ = self.config_ ∧
    (self.HandleResponse env config_data status
        response_code).config_.config_values_.proxies_for_http =
      self.config_.config_values_.proxies_for_http ∧
    (self.HandleResponse env config_data status response_code).request_options_ =
      self.request_options_ ∧
    (self.HandleResponse env config_data status response_code).config_storer_ =
      self.config_storer_ ∧
    (self.HandleResponse env config_data status response_code).backoff_entry_ =
      self.backoff_entry_ ++ [BackoffEntryCall.InformOfRequest false] := by
  have hr : (match (if status.status == URLRequestStatus.Status.SUCCESS &&
        response_code == HTTP_OK then env.ParseFromString config_data else none) with
      | some config => self.ParseAndApplyProxyConfig env config
      | none => (false, self)) = (false, self) := by
    by_cases hok : (status.status == URLRequestStatus.Status.SUCCESS &&
        response_code == HTTP_OK) = true
    · rw [if_pos hok]
      cases hparse : env.ParseFromString config_data with
      | none => rfl
      | some config =>
        have hrej : (self.ParseAndApplyProxyConfig env config).1 = false := by
          simp only [Bool.and_eq_true, beq_iff_eq] at hok
          rcases h with h | h | h | ⟨other, hother, hrej⟩
          · exact absurd hok.1 h
          · exact absurd hok.2 h
          · rw [hparse] at h
            exact Option.noConfusion h
          · rw [hparse] at hother
            rw [Option.some.inj hother]
            exact hrej
        exact Prod.ext hrej (ParseAndApplyProxyConfig_rejected self env config hrej)
    · rw [if_neg hok]
  unfold DataReductionProxyConfigServiceClient.HandleResponse
  simp only [hr]
  simp [DataReductionProxyConfigServiceClient.SetConfigRefreshTimer]

/-- C10 at a concrete input: a 200 response whose configuration lists only a proxy of
unspecified scheme is rejected; nothing is stored and the backoff entry hears of a
failure. -/
theorem C10_HandleResponse_failure_witness :
    (sampleClient.HandleResponse sampleClientEnvironment "config"
        { status := URLRequestStatus.Status.SUCCESS, error := 0 } 200).config_storer_ =
      sampleClient.config_storer_ ∧
    (sampleClient.HandleResponse sampleClientEnvironment "config"
        { status := URLRequestStatus.Status.SUCCESS, error := 0 } 200).backoff_entry_ =
      sampleClient.backoff_entry_ ++ [BackoffEntryCall.InformOfRequest false] :=
  (C10_HandleResponse_failure sampleClient sampleClientEnvironment "config"
    { status := URLRequestStatus.Status.SUCCESS, error := 0 } 200
    (Or.inr (Or.inr (Or.inr ⟨sampleUnusableClientConfig, rfl, by decide⟩)))).2.2.2

theorem ParseAndApplyProxyConfig_keeps (self : DataReductionProxyConfigServiceClient)
    (env : ClientEnvironment) (config : proto.ClientConfig) :
    (self.ParseAndApplyProxyConfig env config).2.config_storer_ = self.config_storer_ ∧
    (self.ParseAndApplyProxyConfig env config).2.backoff_entry_ = self.backoff_entry_ ∧
    (self.ParseAndApplyProxyConfig env config).2.use_local_config_ =
      self.use_local_config_ := by
  unfold DataReductionProxyConfigServiceClient.ParseAndApplyProxyConfig
  cases config.proxy_config with
  | none => exact ⟨rfl, rfl, rfl⟩
  | some proxy_config =>
    by_cases hempty : (GetProxiesForHTTP env proxy_config).isEmpty = true
    · simp [hempty]
    · by_cases hlocal : self.use_local_config_ = true
      · cases hkey : env.ParseLocalSessionKey config.session_key with
        | none => simp [hempty, hlocal, hkey]
        | some key => simp [hempty, hlocal, hkey]
      · simp [hempty, hlocal]

theorem HandleResponse_succeeded (self : DataReductionProxyConfigServiceClient)
    (env : ClientEnvironment) (config_data : String) (status : URLRequestStatus)
    (response_code : Int) (config : proto.ClientConfig)
    (h : ResponseSucceeds self env config_data status response_code config) :
    (self.HandleResponse env config_data status response_code).backoff_entry_ =
      self.backoff_entry_ ++ [BackoffEntryCall.InformOfRequest true] ∧
    (self.HandleResponse env config_data status response_code).config_storer_ =
      if self.use_local_config_ then self.config_storer_
      else self.config_storer_ ++ [env.Base64Encode config_data] := by
  obtain ⟨hstatus, hcode, hparse, haccept⟩ := h
  obtain ⟨hstorer, hbackoff, hlocal⟩ := ParseAndApplyProxyConfig_keeps self env config
  unfold DataReductionProxyConfigServiceClient.HandleResponse
  simp only [hstatus, hcode, hparse, beq_self_eq_true, Bool.and_self, if_true, haccept]
  cases hl : self.use_local_config_ <;>
    simp [DataReductionProxyConfigServiceClient.SetConfigRefreshTimer, hl, hlocal, hstorer,
      hbackoff]

/-- C11, refuted as stated: a client that uses a local configuration accepts the static
response "config" (status `SUCCESS`, code 200), and the storage callback is not invoked. -/
theorem C11_HandleResponse_success_counterexample :
    ¬ StoredAndInformedOnSuccess sampleLocalClient sampleFetchEnvironment.toClientEnvironment
        "config" { status := URLRequestStatus.Status.SUCCESS, error := 0 } 200 := by
  intro h
  have h1 := (h sampleClientConfig ⟨rfl, rfl, by decide, by decide⟩).1
  exact absurd h1 (by decide)

/-- C11, amended: whenever `HandleResponse` succeeds (status `SUCCESS`, code 200, the body
parses and `ParseAndApplyProxyConfig` accepts it), the backoff entry is informed of a
success; the storage callback is invoked, once and with the base64 encoding of the
response body, when the client fetches its configuration from the service, and is not
invoked when the client uses a local configuration. -/
theorem C11_HandleResponse_success (self : DataReductionProxyConfigServiceClient)
    (env : ClientEnvironment) (config_data : String) (status : URLRequestStatus)
    (response_code : Int) (config : proto.ClientConfig)
    (h : ResponseSucceeds self env config_data status response_code config) :
    (self.HandleResponse env config_data status response_code).backoff_entry_ =
      self.backoff_entry_ ++ [BackoffEntryCall.InformOfRequest true] ∧
    (self.use_local_config_ = false →
      (self.HandleResponse env config_data status response_code).config_storer_ =
        self.config_storer_ ++ [env.Base64Encode config_data]) ∧
    (self.use_local_config_ = true →
      (self.HandleResponse env config_data status response_code).config_storer_ =
        self.config_storer_) := by
  obtain ⟨hbackoff, hstorer⟩ :=
    HandleResponse_succeeded self env config_data status response_code config h
  refine ⟨hbackoff, ?_, ?_⟩
  · intro hl
    rw [hstorer, hl]
    rfl
  · intro hl
    rw [hstorer, hl]
    rfl

/-- C11 amended, at a concrete input: the client of the remote service stores the
encoded body "config" and informs the backoff entry of a success. -/
theorem C11_HandleResponse_success_witness :
    (sampleClient.HandleResponse sampleFetchEnvironment.toClientEnvironment "config"
        { status := URLRequestStatus.Status.SUCCESS, error := 0 } 200).backoff_entry_ =
      sampleClient.backoff_entry_ ++ [BackoffEntryCall.InformOfRequest true] ∧
    (sampleClient.HandleResponse sampleFetchEnvironment.toClientEnvironment "config"
        { status := URLRequestStatus.Status.SUCCESS, error := 0 } 200).config_storer_ =
      sampleClient.config_storer_ ++
        [sampleFetchEnvironment.toClientEnvironment.Base64Encode "config"] :=
  ⟨(C11_HandleResponse_success sampleClient sampleFetchEnvironment.toClientEnvironment
      "config" { status := URLRequestStatus.Status.SUCCESS, error := 0 } 200
      sampleClientConfig ⟨rfl, rfl, by decide, by decide⟩).1,
    (C11_HandleResponse_success sampleClient sampleFetchEnvironment.toClientEnvironment
      "config" { status := URLRequestStatus.Status.SUCCESS, error := 0 } 200
      sampleClientConfig ⟨rfl, rfl, by decide, by decide⟩).2.1 rfl⟩

theorem GetProxiesForHTTP_isEmpty (env : ClientEnvironment) (proxy_config : proto.ProxyConfig) :
    (GetProxiesForHTTP env proxy_config).isEmpty = true ↔ SpecifiedServers proxy_config = [] := by
  simp [GetProxiesForHTTP, SpecifiedServers, List.isEmpty_iff]

/-- C12: `ParseAndApplyProxyConfig` returns true iff the config has a `proxy_config` whose
HTTP proxy list, after dropping the servers of unspecified scheme, is non-empty and, when
a local (static) config is in use, the session key parses into session and credentials;
when it returns false the object is left as it was: neither the proxy values, the request
options nor the configurator are modified. -/
theorem C12_ParseAndApplyProxyConfig (self : DataReductionProxyConfigServiceClient)
    (env : ClientEnvironment) (config : proto.ClientConfig) :
    ((self.ParseAndApplyProxyConfig env config).1 = true ↔
      ∃ proxy_config, config.proxy_config = some proxy_config ∧
        SpecifiedServers proxy_config ≠ [] ∧
        (self.use_local_config_ = true →
          ∃ session credentials,
            env.ParseLocalSessionKey config.session_key = some (session, credentials))) ∧
    ((self.ParseAndApplyProxyConfig env config).1 = false →
      (self.ParseAndApplyProxyConfig env config).2 = self ∧
      (self.ParseAndApplyProxyConfig env config).2.config_.config_values_ =
        self.config_.config_values_ ∧
      (self.ParseAndApplyProxyConfig env config).2.request_options_ =
        self.request_options_ ∧
      (self.ParseAndApplyProxyConfig env config).2.config_.configurator_ =
        self.config_.configurator_) := by
  constructor
  · unfold DataReductionProxyConfigServiceClient.ParseAndApplyProxyConfig
    cases hpc : config.proxy_config with
    | none => simp
    | some proxy_config =>
      have hiff := GetProxiesForHTTP_isEmpty env proxy_config
      by_cases hempty : (GetProxiesForHTTP env proxy_config).isEmpty = true
      · simp [hempty, hiff.1 hempty]
      · have hne : SpecifiedServers proxy_config ≠ [] := fun hc => hempty (hiff.2 hc)
        by_cases hlocal : self.use_local_config_ = true
        · cases hkey : env.ParseLocalSessionKey config.session_key with
          | none => simp [hempty, hlocal, hkey]
          | some key =>
            obtain ⟨session, credentials⟩ := key
            simp [hempty, hlocal, hkey, hne]
        · simp [hempty, hlocal, hne]
  · intro h
    have hsame := ParseAndApplyProxyConfig_rejected self env config h
    rw [hsame]
    exact ⟨rfl, rfl, rfl, rfl⟩

/-- C12 at a concrete input: the client of the remote service rejects a configuration
whose only server has an unspecified scheme, and stays as it was. -/
theorem C12_ParseAndApplyProxyConfig_witness :
    (sampleClient.ParseAndApplyProxyConfig sampleClientEnvironment
      sampleUnusableClientConfig).2 = sampleClient :=
  ((C12_ParseAndApplyProxyConfig sampleClient sampleClientEnvironment
    sampleUnusableClientConfig).2 (by decide)).1

/-! ## Properties of the retry after an authentication failure -/

theorem HandleResponse_canceled (self : DataReductionProxyConfigServiceClient)
    (env : ClientEnvironment) (config_data : String) (error response_code : Int) :
    self.HandleResponse env config_data
        { status := URLRequestStatus.Status.CANCELED, error := error } response_code =
      { self with
        backoff_entry_ := self.backoff_entry_ ++ [BackoffEntryCall.InformOfRequest false]
        config_refresh_timer_ := some
          (env.GetTimeUntilRelease
            (self.backoff_entry_ ++ [BackoffEntryCall.InformOfRequest false])) } := by
  simp [DataReductionProxyConfigServiceClient.HandleResponse,
    DataReductionProxyConfigServiceClient.SetConfigRefreshTimer, CalculateNextConfigRefreshTime]

theorem RetrieveConfig_remote (self : DataReductionProxyConfigServiceClient)
    (env : FetchEnvironment) (h : self.use_local_config_ = false) :
    (self.RetrieveConfig env).config_storer_ = self.config_storer_ ∧
    (self.RetrieveConfig env).request_options_ = self.request_options_ ∧
    (self.RetrieveConfig env).config_ = self.config_ ∧
    (self.RetrieveConfig env).config_fetch_start_time_ = env.Now ∧
    (self.RetrieveConfig env).fetcher_ =
      if env.GetURLFetcherForConfig then self.fetcher_ + 1 else self.fetcher_ := by
  unfold DataReductionProxyConfigServiceClient.RetrieveConfig
    DataReductionProxyConfigServiceClient.RetrieveRemoteConfig
  cases hf : env.GetURLFetcherForConfig <;> simp [h, hf, HandleResponse_canceled]

theorem InvalidateConfig_remote (self : DataReductionProxyConfigServiceClient)
    (env : FetchEnvironment) (h : self.use_local_config_ = false) :
    self.InvalidateConfig env =
      { self with
        backoff_entry_ := self.backoff_entry_ ++ [BackoffEntryCall.InformOfRequest false]
        config_storer_ := self.config_storer_ ++ [""]
        request_options_ := self.request_options_ ++ [RequestOptionsCall.Invalidate]
        config_ :=
          DataReductionProxyConfig.ReloadConfig
            { self.config_ with config_values_ := env.Invalidate self.config_.config_values_ } } := by
  simp [DataReductionProxyConfigServiceClient.InvalidateConfig, h]

theorem ShouldRetryDueToAuthFailure_407 (self : DataReductionProxyConfigServiceClient)
    (env : FetchEnvironment) (proxy_server : HostPortPair)
    (hdrp : (IsDataReductionProxy self.config_.config_values_ proxy_server none).1 = true) :
    self.ShouldRetryDueToAuthFailure env 407 proxy_server =
      (true,
        DataReductionProxyConfigServiceClient.RetrieveConfig
          (DataReductionProxyConfigServiceClient.InvalidateConfig
            { (if self.previous_request_failed_authentication_ then
                { self with
                  backoff_entry_ :=
                    self.backoff_entry_ ++ [BackoffEntryCall.InformOfRequest false] }
              else self) with previous_request_failed_authentication_ := true } env) env) := by
  unfold DataReductionProxyConfigServiceClient.ShouldRetryDueToAuthFailure
  rw [if_pos hdrp, if_pos (by decide)]

theorem ShouldRetryDueToAuthFailure_other_code (self : DataReductionProxyConfigServiceClient)
    (env : FetchEnvironment) (response_code : Int) (proxy_server : HostPortPair)
    (hdrp : (IsDataReductionProxy self.config_.config_values_ proxy_server none).1 = true)
    (hcode : response_code ≠ 407) :
    self.ShouldRetryDueToAuthFailure env response_code proxy_server =
      (false, { self with previous_request_failed_authentication_ := false }) := by
  have hbeq : ¬ (response_code == HTTP_PROXY_AUTHENTICATION_REQUIRED) = true := by
    rw [beq_iff_eq]
    exact hcode
  unfold DataReductionProxyConfigServiceClient.ShouldRetryDueToAuthFailure
  rw [if_pos hdrp, if_neg hbeq]

theorem ShouldRetryDueToAuthFailure_other_proxy (self : DataReductionProxyConfigServiceClient)
    (env : FetchEnvironment) (response_code : Int) (proxy_server : HostPortPair)
    (hdrp : ¬ (IsDataReductionProxy self.config_.config_values_ proxy_server none).1 = true) :
    self.ShouldRetryDueToAuthFailure env response_code proxy_server = (false, self) := by
  unfold DataReductionProxyConfigServiceClient.ShouldRetryDueToAuthFailure
  rw [if_neg hdrp]

theorem auth_failure_recorded (self : DataReductionProxyConfigServiceClient) :
    ({ (if self.previous_request_failed_authentication_ then
          { self with
            backoff_entry_ := self.backoff_entry_ ++ [BackoffEntryCall.InformOfRequest false] }
        else self) with previous_request_failed_authentication_ := true } :
      DataReductionProxyConfigServiceClient) =
      { self with
        backoff_entry_ :=
          if self.previous_request_failed_authentication_ then
            self.backoff_entry_ ++ [BackoffEntryCall.InformOfRequest false]
          else self.backoff_entry_
        previous_request_failed_authentication_ := true } := by
  cases self.previous_request_failed_authentication_ <;> rfl

theorem invalidate_and_retrieve (self : DataReductionProxyConfigServiceClient)
    (env : FetchEnvironment) (hremote : self.use_local_config_ = false) :
    ((self.InvalidateConfig env).RetrieveConfig env).config_storer_ =
      self.config_storer_ ++ [""] ∧
    ((self.InvalidateConfig env).RetrieveConfig env).request_options_ =
      self.request_options_ ++ [RequestOptionsCall.Invalidate] ∧
    ((self.InvalidateConfig env).RetrieveConfig env).config_.config_values_ =
      env.Invalidate self.config_.config_values_ ∧
    ((self.InvalidateConfig env).RetrieveConfig env).config_ =
      DataReductionProxyConfig.ReloadConfig
        { self.config_ with config_values_ := env.Invalidate self.config_.config_values_ } ∧
    ((self.InvalidateConfig env).RetrieveConfig env).config_fetch_start_time_ = env.Now ∧
    (env.GetURLFetcherForConfig = true →
      ((self.InvalidateConfig env).RetrieveConfig env).fetcher_ = self.fetcher_ + 1) := by
  obtain ⟨h1, h2, h3, h4, h5⟩ := RetrieveConfig_remote (self.InvalidateConfig env) env
    (by rw [InvalidateConfig_remote self env hremote]; exact hremote)
  have hinv := InvalidateConfig_remote self env hremote
  refine ⟨?_, ?_, ?_, ?_, h4, ?_⟩
  · rw [h1, hinv]
  · rw [h2, hinv]
  · rw [h3, hinv]
    simp only [DataReductionProxyConfig.ReloadConfig,
      DataReductionProxyConfig.UpdateConfigurator]
    split <;> rfl
  · rw [h3, hinv]
  · intro hf
    rw [h5, hf, hinv]
    rfl

theorem ParseAndApplyProxyConfig_accepts (self : DataReductionProxyConfigServiceClient)
    (env : ClientEnvironment) (config : proto.ClientConfig)
    (hlocal : self.use_local_config_ = true) :
    (self.ParseAndApplyProxyConfig env config).1 = true ↔
      ∃ proxy_config session credentials, config.proxy_config = some proxy_config ∧
        SpecifiedServers proxy_config ≠ [] ∧
        env.ParseLocalSessionKey config.session_key = some (session, credentials) := by
  unfold DataReductionProxyConfigServiceClient.ParseAndApplyProxyConfig
  cases hpc : config.proxy_config with
  | none => simp
  | some proxy_config =>
    have hiff := GetProxiesForHTTP_isEmpty env proxy_config
    by_cases hempty : (GetProxiesForHTTP env proxy_config).isEmpty = true
    · simp [hempty, hiff.1 hempty]
    · have hne : SpecifiedServers proxy_config ≠ [] := fun hc => hempty (hiff.2 hc)
      cases hkey : env.ParseLocalSessionKey config.session_key with
      | none => simp [hempty, hlocal, hkey]
      | some key =>
        obtain ⟨session, credentials⟩ := key
        simp [hempty, hlocal, hkey, hne]

theorem ParseAndApplyProxyConfig_local (self : DataReductionProxyConfigServiceClient)
    (env : ClientEnvironment) (config : proto.ClientConfig)
    (hlocal : self.use_local_config_ = true) :
    (self.ParseAndApplyProxyConfig env config).2.fetcher_ = self.fetcher_ ∧
    (self.ParseAndApplyProxyConfig env config).2.previous_request_failed_authentication_ =
      self.previous_request_failed_authentication_ ∧
    ((self.ParseAndApplyProxyConfig env config).2.request_options_ = self.request_options_ ∨
      ∃ session credentials,
        (self.ParseAndApplyProxyConfig env config).2.request_options_ =
          self.request_options_ ++ [RequestOptionsCall.SetCredentials session credentials]) := by
  unfold DataReductionProxyConfigServiceClient.ParseAndApplyProxyConfig
  cases config.proxy_config with
  | none => exact ⟨rfl, rfl, Or.inl rfl⟩
  | some proxy_config =>
    by_cases hempty : (GetProxiesForHTTP env proxy_config).isEmpty = true
    · simp [hempty]
    · cases hkey : env.ParseLocalSessionKey config.session_key with
      | none => simp [hempty, hlocal, hkey]
      | some key =>
        obtain ⟨session, credentials⟩ := key
        simp [hempty, hlocal, hkey]

theorem HandleResponse_static (self : DataReductionProxyConfigServiceClient)
    (env : ClientEnvironment) (static_response : String)
    (hlocal : self.use_local_config_ = true) :
    (∃ succeeded : Bool,
      (succeeded = true ↔ StaticConfigAccepted env static_response) ∧
      (self.HandleResponse env static_response
          { status := URLRequestStatus.Status.SUCCESS, error := 0 } HTTP_OK).backoff_entry_ =
        self.backoff_entry_ ++ [BackoffEntryCall.InformOfRequest succeeded]) ∧
    (self.HandleResponse env static_response
        { status := URLRequestStatus.Status.SUCCESS, error := 0 } HTTP_OK).config_storer_ =
      self.config_storer_ ∧
    (self.HandleResponse env static_response
        { status := URLRequestStatus.Status.SUCCESS, error := 0 } HTTP_OK).fetcher_ =
      self.fetcher_ ∧
    (self.HandleResponse env static_response
        { status := URLRequestStatus.Status.SUCCESS, error := 0 }
        HTTP_OK).previous_request_failed_authentication_ =
      self.previous_request_failed_authentication_ ∧
    ((self.HandleResponse env static_response
          { status := URLRequestStatus.Status.SUCCESS, error := 0 }
          HTTP_OK).request_options_ = self.request_options_ ∨
      ∃ session credentials,
        (self.HandleResponse env static_response
            { status := URLRequestStatus.Status.SUCCESS, error := 0 }
            HTTP_OK).request_options_ =
          self.request_options_ ++ [RequestOptionsCall.SetCredentials session credentials]) := by
  cases hparse : env.ParseFromString static_response with
  | none =>
    have hstate : self.HandleResponse env static_response
        { status := URLRequestStatus.Status.SUCCESS, error := 0 } HTTP_OK =
        { self with
          backoff_entry_ := self.backoff_entry_ ++ [BackoffEntryCall.InformOfRequest false]
          config_refresh_timer_ := some
            (env.GetTimeUntilRelease
              (self.backoff_entry_ ++ [BackoffEntryCall.InformOfRequest false])) } := by
      simp [DataReductionProxyConfigServiceClient.HandleResponse,
        DataReductionProxyConfigServiceClient.SetConfigRefreshTimer,
        CalculateNextConfigRefreshTime, hparse]
    rw [hstate]
    refine ⟨⟨false, ⟨fun h => Bool.noConfusion h, ?_⟩, rfl⟩, rfl, rfl, rfl, Or.inl rfl⟩
    rintro ⟨config, _, _, _, hsome, _⟩
    rw [hparse] at hsome
    exact Option.noConfusion hsome
  | some config =>
    obtain ⟨hstorer, hbackoff, hkeeps⟩ := ParseAndApplyProxyConfig_keeps self env config
    obtain ⟨hfetcher, hflag, hoptions⟩ :=
      ParseAndApplyProxyConfig_local self env config hlocal
    have haccepts := ParseAndApplyProxyConfig_accepts self env config hlocal
    have hl : (self.ParseAndApplyProxyConfig env config).2.use_local_config_ = true := by
      rw [hkeeps, hlocal]
    unfold DataReductionProxyConfigServiceClient.HandleResponse
    simp only [beq_self_eq_true, Bool.and_self, if_true, hparse, hl, Bool.not_true,
      Bool.false_and, Bool.false_eq_true, if_false,
      DataReductionProxyConfigServiceClient.SetConfigRefreshTimer]
    refine ⟨⟨(self.ParseAndApplyProxyConfig env config).1, ⟨?_, ?_⟩, ?_⟩, hstorer, hfetcher,
      hflag, hoptions⟩
    · intro h
      obtain ⟨proxy_config, session, credentials, h1, h2, h3⟩ := haccepts.1 h
      exact ⟨config, proxy_config, session, credentials, hparse, h1, h2, h3⟩
    · rintro ⟨config', proxy_config, session, credentials, h0, h1, h2, h3⟩
      rw [hparse] at h0
      injection h0 with h0
      subst h0
      exact haccepts.2 ⟨proxy_config, session, credentials, h1, h2, h3⟩
    · rw [hbackoff]

theorem InvalidateConfig_local (self : DataReductionProxyConfigServiceClient)
    (env : FetchEnvironment) (h : self.use_local_config_ = true) :
    self.InvalidateConfig env =
      { self with
        backoff_entry_ :=
          self.backoff_entry_ ++ [BackoffEntryCall.InformOfRequest false] } := by
  simp [DataReductionProxyConfigServiceClient.InvalidateConfig, h]

theorem RetrieveConfig_local (self : DataReductionProxyConfigServiceClient)
    (env : FetchEnvironment) (h : self.use_local_config_ = true) :
    self.RetrieveConfig env =
      DataReductionProxyConfigServiceClient.HandleResponse
        { self with config_fetch_start_time_ := env.Now } env.toClientEnvironment
        (env.ConstructStaticResponse self.request_options_)
        { status := URLRequestStatus.Status.SUCCESS, error := 0 } HTTP_OK := by
  simp [DataReductionProxyConfigServiceClient.RetrieveConfig,
    DataReductionProxyConfigServiceClient.ReadAndApplyStaticConfig, h]

theorem ShouldRetryDueToAuthFailure_local (self : DataReductionProxyConfigServiceClient)
    (env : FetchEnvironment) (proxy_server : HostPortPair)
    (hdrp : (IsDataReductionProxy self.config_.config_values_ proxy_server none).1 = true)
    (hlocal : self.use_local_config_ = true) :
    self.ShouldRetryDueToAuthFailure env 407 proxy_server =
      (true,
        DataReductionProxyConfigServiceClient.HandleResponse
          { self with
            backoff_entry_ :=
              (if self.previous_request_failed_authentication_ then
                self.backoff_entry_ ++ [BackoffEntryCall.InformOfRequest false]
              else self.backoff_entry_) ++ [BackoffEntryCall.InformOfRequest false]
            previous_request_failed_authentication_ := true
            config_fetch_start_time_ := env.Now }
          env.toClientEnvironment (env.ConstructStaticResponse self.request_options_)
          { status := URLRequestStatus.Status.SUCCESS, error := 0 } HTTP_OK) := by
  rw [ShouldRetryDueToAuthFailure_407 self env proxy_server hdrp, auth_failure_recorded]
  have hinv := InvalidateConfig_local
    { self with
      backoff_entry_ :=
        if self.previous_request_failed_authentication_ then
          self.backoff_entry_ ++ [BackoffEntryCall.InformOfRequest false]
        else self.backoff_entry_
      previous_request_failed_authentication_ := true } env hlocal
  rw [hinv]
  exact congrArg (Prod.mk true)
    (RetrieveConfig_local
      { self with
        backoff_entry_ :=
          (if self.previous_request_failed_authentication_ then
            self.backoff_entry_ ++ [BackoffEntryCall.InformOfRequest false]
          else self.backoff_entry_) ++ [BackoffEntryCall.InformOfRequest false]
        previous_request_failed_authentication_ := true } env hlocal)

/-- C13, as worded, fails: a client that uses a local configuration answers a 407 from the
sample fallback proxy with true, and the storage callback has not been called. -/
theorem C13_ShouldRetryDueToAuthFailure_counterexample :
    ¬ InvalidatesAsWorded sampleLocalClient sampleFetchEnvironment 407
        { host := "fallback.net", port := 80 } := by
  intro h
  exact absurd (h (by decide)).1 (by decide)

/-- C13, amended: `ShouldRetryDueToAuthFailure` returns true iff the given proxy server is
a Data Reduction Proxy (`IsDataReductionProxy`) and the response code is 407.  In that
case a client of the remote service invalidates the current config: the storage callback
is called with the empty string, the request options and the config values are
invalidated and the configurator is reloaded over the invalidated values; and it starts a
new config fetch.  A client that uses a local configuration, in that case, invalidates
nothing, does not call the storage callback and starts no fetch: after recording the
failure it reads the static configuration and hands it to `HandleResponse`, which at most
sets the credentials on the request options.  When the function returns false none of
this happens. -/
theorem C13_ShouldRetryDueToAuthFailure (self : DataReductionProxyConfigServiceClient)
    (env : FetchEnvironment) (response_code : Int) (proxy_server : HostPortPair) :
    ((self.ShouldRetryDueToAuthFailure env response_code proxy_server).1 = true ↔
      (IsDataReductionProxy self.config_.config_values_ proxy_server none).1 = true ∧
        response_code = 407) ∧
    ((self.ShouldRetryDueToAuthFailure env response_code proxy_server).1 = true →
      self.use_local_config_ = false →
      (self.ShouldRetryDueToAuthFailure env response_code proxy_server).2.config_storer_ =
        self.config_storer_ ++ [""] ∧
      (self.ShouldRetryDueToAuthFailure env response_code proxy_server).2.request_options_ =
        self.request_options_ ++ [RequestOptionsCall.Invalidate] ∧
      (self.ShouldRetryDueToAuthFailure env response_code
          proxy_server).2.config_.config_values_ =
        env.Invalidate self.config_.config_values_ ∧
      (self.ShouldRetryDueToAuthFailure env response_code proxy_server).2.config_ =
        DataReductionProxyConfig.ReloadConfig
          { self.config_ with config_values_ := env.Invalidate self.config_.config_values_ } ∧
      (self.ShouldRetryDueToAuthFailure env response_code
          proxy_server).2.config_fetch_start_time_ = env.Now ∧
      (env.GetURLFetcherForConfig = true →
        (self.ShouldRetryDueToAuthFailure env response_code proxy_server).2.fetcher_ =
          self.fetcher_ + 1)) ∧
    ((self.ShouldRetryDueToAuthFailure env response_code proxy_server).1 = true →
      self.use_local_config_ = true →
      (self.ShouldRetryDueToAuthFailure env response_code proxy_server).2 =
        DataReductionProxyConfigServiceClient.HandleResponse
          { self with
            backoff_entry_ :=
              (if self.previous_request_failed_authentication_ then
                self.backoff_entry_ ++ [BackoffEntryCall.InformOfRequest false]
              else self.backoff_entry_) ++ [BackoffEntryCall.InformOfRequest false]
            previous_request_failed_authentication_ := true
            config_fetch_start_time_ := env.Now }
          env.toClientEnvironment (env.ConstructStaticResponse self.request_options_)
          { status := URLRequestStatus.Status.SUCCESS, error := 0 } HTTP_OK ∧
      (self.ShouldRetryDueToAuthFailure env response_code proxy_server).2.config_storer_ =
        self.config_storer_ ∧
      (self.ShouldRetryDueToAuthFailure env response_code proxy_server).2.fetcher_ =
        self.fetcher_ ∧
      ((self.ShouldRetryDueToAuthFailure env response_code proxy_server).2.request_options_ =
          self.request_options_ ∨
        ∃ session credentials,
          (self.ShouldRetryDueToAuthFailure env response_code
              proxy_server).2.request_options_ =
            self.request_options_ ++
              [RequestOptionsCall.SetCredentials session credentials])) ∧
    ((self.ShouldRetryDueToAuthFailure env response_code proxy_server).1 = false →
      (self.ShouldRetryDueToAuthFailure env response_code proxy_server).2.config_storer_ =
        self.config_storer_ ∧
      (self.ShouldRetryDueToAuthFailure env response_code proxy_server).2.request_options_ =
        self.request_options_ ∧
      (self.ShouldRetryDueToAuthFailure env response_code proxy_server).2.config_ =
        self.config_ ∧
      (self.ShouldRetryDueToAuthFailure env response_code proxy_server).2.backoff_entry_ =
        self.backoff_entry_ ∧
      (self.ShouldRetryDueToAuthFailure env response_code proxy_server).2.fetcher_ =
        self.fetcher_) := by
  by_cases hdrp : (IsDataReductionProxy self.config_.config_values_ proxy_server none).1 = true
  · by_cases hcode : response_code = 407
    · subst hcode
      refine ⟨?_, ?_, ?_, ?_⟩
      · rw [ShouldRetryDueToAuthFailure_407 self env proxy_server hdrp]
        exact ⟨fun _ => ⟨hdrp, rfl⟩, fun _ => rfl⟩
      · rw [ShouldRetryDueToAuthFailure_407 self env proxy_server hdrp, auth_failure_recorded]
        exact fun _ hremote => invalidate_and_retrieve _ env hremote
      · intro _ hlocal
        rw [ShouldRetryDueToAuthFailure_local self env proxy_server hdrp hlocal]
        obtain ⟨_, hstorer, hfetcher, _, hoptions⟩ :=
          HandleResponse_static
            { self with
              backoff_entry_ :=
                (if self.previous_request_failed_authentication_ then
                  self.backoff_entry_ ++ [BackoffEntryCall.InformOfRequest false]
                else self.backoff_entry_) ++ [BackoffEntryCall.InformOfRequest false]
              previous_request_failed_authentication_ := true
              config_fetch_start_time_ := env.Now }
            env.toClientEnvironment (env.ConstructStaticResponse self.request_options_)
            hlocal
        exact ⟨rfl, hstorer, hfetcher, hoptions⟩
      · rw [ShouldRetryDueToAuthFailure_407 self env proxy_server hdrp]
        exact fun hfalse => Bool.noConfusion hfalse
    · rw [ShouldRetryDueToAuthFailure_other_code self env response_code proxy_server hdrp hcode]
      exact ⟨⟨fun h => Bool.noConfusion h, fun h => absurd h.2 hcode⟩,
        fun h => Bool.noConfusion h, fun h => Bool.noConfusion h,
        fun _ => ⟨rfl, rfl, rfl, rfl, rfl⟩⟩
  · rw [ShouldRetryDueToAuthFailure_other_proxy self env response_code proxy_server hdrp]
    exact ⟨⟨fun h => Bool.noConfusion h, fun h => absurd h.1 hdrp⟩,
      fun h => Bool.noConfusion h, fun h => Bool.noConfusion h,
      fun _ => ⟨rfl, rfl, rfl, rfl, rfl⟩⟩

/-- C13 amended, at concrete inputs: a 407 from the sample fallback proxy makes the client
of the remote service store the empty string and start a new fetcher, and leaves the
storage callback of the client with a local configuration uncalled. -/
theorem C13_ShouldRetryDueToAuthFailure_witness :
    (sampleClient.ShouldRetryDueToAuthFailure sampleFetchEnvironment 407
        { host := "fallback.net", port := 80 }).2.config_storer_ =
      sampleClient.config_storer_ ++ [""] ∧
    (sampleClient.ShouldRetryDueToAuthFailure sampleFetchEnvironment 407
        { host := "fallback.net", port := 80 }).2.fetcher_ = sampleClient.fetcher_ + 1 ∧
    (sampleLocalClient.ShouldRetryDueToAuthFailure sampleFetchEnvironment 407
        { host := "fallback.net", port := 80 }).2.config_storer_ =
      sampleLocalClient.config_storer_ :=
  ⟨((C13_ShouldRetryDueToAuthFailure sampleClient sampleFetchEnvironment 407
      { host := "fallback.net", port := 80 }).2.1 (by decide) rfl).1,
    ((C13_ShouldRetryDueToAuthFailure sampleClient sampleFetchEnvironment 407
      { host := "fallback.net", port := 80 }).2.1 (by decide) rfl).2.2.2.2.2 rfl,
    ((C13_ShouldRetryDueToAuthFailure sampleLocalClient sampleFetchEnvironment 407
      { host := "fallback.net", port := 80 }).2.2.1 (by decide) rfl).2.1⟩

/-! ## Properties of the configurator -/

theorem UpdateConfigurator_condition (self : DataReductionProxyConfig) (enabled : Bool) :
    (enabled && !self.disabled_on_vpn_ && !self.config_values_.holdback &&
        (!self.config_values_.proxies_for_http.isEmpty ||
          !self.config_values_.proxies_for_https.isEmpty)) = true ↔
      MayEnableConfigurator self enabled := by
  unfold MayEnableConfigurator
  simp [List.isEmpty_iff, and_assoc]

/-- C14: `UpdateConfigurator(enabled, secure_proxy_allowed, at_startup)` calls the
configurator's `Enable` with `restricted = !secure_proxy_allowed` and the current HTTP and
HTTPS proxy lists iff `enabled` is true, the proxy is not disabled on VPN, the config is
not in holdback and at least one of the two lists is non-empty; in every other case it
calls `Disable`.  It makes that one call and changes nothing else; `SetProxyConfig` makes
it with the `enabled` it is given and the current `secure_proxy_allowed_`. -/
theorem C14_UpdateConfigurator (self : DataReductionProxyConfig)
    (enabled secure_proxy_allowed at_startup : Bool) :
    ((self.UpdateConfigurator enabled secure_proxy_allowed at_startup).configurator_ =
        self.configurator_ ++
          [ConfiguratorCall.Enable (!secure_proxy_allowed) self.config_values_.proxies_for_http
            self.config_values_.proxies_for_https] ↔
      MayEnableConfigurator self enabled) ∧
    (¬ MayEnableConfigurator self enabled →
      (self.UpdateConfigurator enabled secure_proxy_allowed at_startup).configurator_ =
        self.configurator_ ++ [ConfiguratorCall.Disable]) ∧
    self.UpdateConfigurator enabled secure_proxy_allowed at_startup =
      { self with
        configurator_ :=
          (self.UpdateConfigurator enabled secure_proxy_allowed at_startup).configurator_ } ∧
    (self.SetProxyConfig enabled at_startup).configurator_ =
      (DataReductionProxyConfig.UpdateConfigurator { self with enabled_by_user_ := enabled }
        enabled self.secure_proxy_allowed_ at_startup).configurator_ := by
  have hcond := UpdateConfigurator_condition self enabled
  by_cases hmay : MayEnableConfigurator self enabled
  · have hb := hcond.2 hmay
    have hres : self.UpdateConfigurator enabled secure_proxy_allowed at_startup =
        { self with
          configurator_ := self.configurator_ ++
            [ConfiguratorCall.Enable (!secure_proxy_allowed)
              self.config_values_.proxies_for_http
              self.config_values_.proxies_for_https] } := by
      unfold DataReductionProxyConfig.UpdateConfigurator
      rw [if_pos hb]
    refine ⟨?_, fun hnot => absurd hmay hnot, ?_, ?_⟩
    · rw [hres]
      exact ⟨fun _ => hmay, fun _ => rfl⟩
    · rw [hres]
    · unfold DataReductionProxyConfig.SetProxyConfig
      cases enabled <;> rfl
  · have hb : ¬ (enabled && !self.disabled_on_vpn_ && !self.config_values_.holdback &&
        (!self.config_values_.proxies_for_http.isEmpty ||
          !self.config_values_.proxies_for_https.isEmpty)) = true :=
      fun hc => hmay (hcond.1 hc)
    have hres : self.UpdateConfigurator enabled secure_proxy_allowed at_startup =
        { self with configurator_ := self.configurator_ ++ [ConfiguratorCall.Disable] } := by
      unfold DataReductionProxyConfig.UpdateConfigurator
      rw [if_neg hb]
    refine ⟨?_, fun _ => ?_, ?_, ?_⟩
    · rw [hres]
      constructor
      · intro h
        have h2 := List.append_cancel_left h
        simp at h2
      · intro h
        exact absurd h hmay
    · rw [hres]
    · rw [hres]
    · unfold DataReductionProxyConfig.SetProxyConfig
      cases enabled <;> rfl

/-- C14 at a concrete input: disabled on VPN, the sample configuration is sent
`Disable` although the user enabled the proxy. -/
theorem C14_UpdateConfigurator_witness :
    (DataReductionProxyConfig.UpdateConfigurator { sampleConfig with disabled_on_vpn_ := true }
      true true false).configurator_ = sampleConfig.configurator_ ++ [ConfiguratorCall.Disable] :=
  (C14_UpdateConfigurator { sampleConfig with disabled_on_vpn_ := true } true true false).2.1
    fun h => absurd h.2.1 (by decide)

/-! ## Properties of the Lo-Fi status update -/

theorem UpdateLoFiStatusOnMainFrameRequest_user_disabled (self : DataReductionProxyConfig)
    (env : LoFiEnvironment) (network_quality_estimator : NetworkQualityEstimator)
    (h : self.lofi_status_ ≠ LoFiStatus.LOFI_STATUS_OFF) :
    self.UpdateLoFiStatusOnMainFrameRequest env true network_quality_estimator =
      { self with lofi_status_ := StatusAfterUserDisabled self.lofi_status_ } := by
  unfold DataReductionProxyConfig.UpdateLoFiStatusOnMainFrameRequest
  cases hs : self.lofi_status_ <;> first
    | exact absurd hs h
    | (cases self; simp_all [StatusAfterUserDisabled])

theorem UpdateLoFiStatusOnMainFrameRequest_evaluates (self : DataReductionProxyConfig)
    (env : LoFiEnvironment) (network_quality_estimator : NetworkQualityEstimator)
    (h : self.lofi_status_ ≠ LoFiStatus.LOFI_STATUS_OFF) :
    self.UpdateLoFiStatusOnMainFrameRequest env false network_quality_estimator =
      self.UpdateLoFiStatusFromFlagsAndTrials env network_quality_estimator := by
  unfold DataReductionProxyConfig.UpdateLoFiStatusOnMainFrameRequest
  have hb : ¬ (self.lofi_status_ == LoFiStatus.LOFI_STATUS_OFF) = true := by
    rw [beq_iff_eq]
    exact h
  rw [if_neg hb]
  rfl

theorem IsNetworkQualityProhibitivelySlow_status (self : DataReductionProxyConfig)
    (env : LoFiEnvironment) (network_quality_estimator : NetworkQualityEstimator)
    (status : LoFiStatus) :
    DataReductionProxyConfig.IsNetworkQualityProhibitivelySlow
        { self with lofi_status_ := status } env network_quality_estimator =
      ((self.IsNetworkQualityProhibitivelySlow env network_quality_estimator).1,
        { (self.IsNetworkQualityProhibitivelySlow env network_quality_estimator).2 with
          lofi_status_ := status }) := by
  unfold DataReductionProxyConfig.IsNetworkQualityProhibitivelySlow
  cases network_quality_estimator with
  | none => rfl
  | some GetEstimate =>
    simp only
    split
    · split
      · rfl
      · cases GetEstimate with
        | none => rfl
        | some network_quality =>
          simp only
          split <;> rfl
    · split
      · rfl
      · cases GetEstimate with
        | none => rfl
        | some network_quality =>
          simp only
          split <;> rfl

theorem UpdateLoFiStatusFromFlagsAndTrials_status (self : DataReductionProxyConfig)
    (env : LoFiEnvironment) (network_quality_estimator : NetworkQualityEstimator)
    (status : LoFiStatus) :
    DataReductionProxyConfig.UpdateLoFiStatusFromFlagsAndTrials
        { self with lofi_status_ := status } env network_quality_estimator =
      self.UpdateLoFiStatusFromFlagsAndTrials env network_quality_estimator := by
  unfold DataReductionProxyConfig.UpdateLoFiStatusFromFlagsAndTrials
  rw [IsNetworkQualityProhibitivelySlow_status]

theorem StatusAfterUserDisabled_ne_off (status : LoFiStatus)
    (h : status ≠ LoFiStatus.LOFI_STATUS_OFF) :
    StatusAfterUserDisabled status ≠ LoFiStatus.LOFI_STATUS_OFF := by
  cases status <;> simp_all [StatusAfterUserDisabled]

/-- C15: when the Lo-Fi status is not `OFF` and `user_temporarily_disabled_lofi` is true,
`UpdateLoFiStatusOnMainFrameRequest` sets the status to `TEMPORARILY_OFF` if it was
`ACTIVE`, `ACTIVE_FROM_FLAGS` or `INACTIVE` and leaves it unchanged if it was
`TEMPORARILY_OFF`, `ACTIVE_CONTROL` or `INACTIVE_CONTROL`, whatever the flags, the
field-trial group and the network quality, and changes nothing else; the next call made
with `user_temporarily_disabled_lofi` false re-evaluates the status from flags and trials
and ends as it would have ended without the suppression. -/
theorem C15_user_temporarily_disabled (self : DataReductionProxyConfig)
    (h : self.lofi_status_ ≠ LoFiStatus.LOFI_STATUS_OFF) :
    (∀ (env : LoFiEnvironment) (network_quality_estimator : NetworkQualityEstimator),
      self.UpdateLoFiStatusOnMainFrameRequest env true network_quality_estimator =
        { self with lofi_status_ := StatusAfterUserDisabled self.lofi_status_ }) ∧
    StatusAfterUserDisabled LoFiStatus.LOFI_STATUS_ACTIVE =
      LoFiStatus.LOFI_STATUS_TEMPORARILY_OFF ∧
    StatusAfterUserDisabled LoFiStatus.LOFI_STATUS_ACTIVE_FROM_FLAGS =
      LoFiStatus.LOFI_STATUS_TEMPORARILY_OFF ∧
    StatusAfterUserDisabled LoFiStatus.LOFI_STATUS_INACTIVE =
      LoFiStatus.LOFI_STATUS_TEMPORARILY_OFF ∧
    StatusAfterUserDisabled LoFiStatus.LOFI_STATUS_TEMPORARILY_OFF =
      LoFiStatus.LOFI_STATUS_TEMPORARILY_OFF ∧
    StatusAfterUserDisabled LoFiStatus.LOFI_STATUS_ACTIVE_CONTROL =
      LoFiStatus.LOFI_STATUS_ACTIVE_CONTROL ∧
    StatusAfterUserDisabled LoFiStatus.LOFI_STATUS_INACTIVE_CONTROL =
      LoFiStatus.LOFI_STATUS_INACTIVE_CONTROL ∧
    (∀ (env next_env : LoFiEnvironment)
        (network_quality_estimator next_estimator : NetworkQualityEstimator),
      DataReductionProxyConfig.UpdateLoFiStatusOnMainFrameRequest
          (self.UpdateLoFiStatusOnMainFrameRequest env true network_quality_estimator)
          next_env false next_estimator =
        self.UpdateLoFiStatusFromFlagsAndTrials next_env next_estimator ∧
      DataReductionProxyConfig.UpdateLoFiStatusOnMainFrameRequest
          (self.UpdateLoFiStatusOnMainFrameRequest env true network_quality_estimator)
          next_env false next_estimator =
        self.UpdateLoFiStatusOnMainFrameRequest next_env false next_estimator) := by
  refine ⟨fun env network_quality_estimator =>
    UpdateLoFiStatusOnMainFrameRequest_user_disabled self env network_quality_estimator h,
    rfl, rfl, rfl, rfl, rfl, rfl, ?_⟩
  intro env next_env network_quality_estimator next_estimator
  rw [UpdateLoFiStatusOnMainFrameRequest_user_disabled self env network_quality_estimator h,
    UpdateLoFiStatusOnMainFrameRequest_evaluates _ next_env next_estimator
      (StatusAfterUserDisabled_ne_off _ h),
    UpdateLoFiStatusFromFlagsAndTrials_status,
    UpdateLoFiStatusOnMainFrameRequest_evaluates self next_env next_estimator h]
  exact ⟨rfl, rfl⟩

/-- C15 at a concrete input: in the enabled group on a slow network an active status is
suppressed by the user, and the next request makes it active again. -/
theorem C15_user_temporarily_disabled_witness :
    ((sampleLoFiConfig LoFiStatus.LOFI_STATUS_ACTIVE).UpdateLoFiStatusOnMainFrameRequest
        (sampleTrialEnvironment "Enabled") true sampleSlowEstimator).lofi_status_ =
      LoFiStatus.LOFI_STATUS_TEMPORARILY_OFF ∧
    (DataReductionProxyConfig.UpdateLoFiStatusOnMainFrameRequest
        ((sampleLoFiConfig LoFiStatus.LOFI_STATUS_ACTIVE).UpdateLoFiStatusOnMainFrameRequest
          (sampleTrialEnvironment "Enabled") true sampleSlowEstimator)
        (sampleTrialEnvironment "Enabled") false sampleSlowEstimator).lofi_status_ =
      LoFiStatus.LOFI_STATUS_ACTIVE :=
  ⟨congrArg DataReductionProxyConfig.lofi_status_
      ((C15_user_temporarily_disabled (sampleLoFiConfig LoFiStatus.LOFI_STATUS_ACTIVE)
        (by decide)).1 (sampleTrialEnvironment "Enabled") sampleSlowEstimator),
    by decide⟩

theorem enabled_group_is_not_control (env : LoFiEnvironment)
    (h : IsIncludedInLoFiEnabledFieldTrial env = true) :
    IsIncludedInLoFiControlFieldTrial env = false := by
  unfold IsIncludedInLoFiEnabledFieldTrial at h
  unfold IsIncludedInLoFiControlFieldTrial
  rw [beq_iff_eq] at h
  rw [h]
  decide

theorem UpdateLoFiStatusFromFlagsAndTrials_lofi_status (self : DataReductionProxyConfig)
    (env : LoFiEnvironment) (network_quality_estimator : NetworkQualityEstimator) :
    (self.UpdateLoFiStatusFromFlagsAndTrials env network_quality_estimator).lofi_status_ =
      if env.IsLoFiAlwaysOnViaFlags then LoFiStatus.LOFI_STATUS_ACTIVE_FROM_FLAGS
      else if env.IsLoFiCellularOnlyViaFlags then
        if env.IsConnectionCellular env.GetConnectionType then
          LoFiStatus.LOFI_STATUS_ACTIVE_FROM_FLAGS
        else LoFiStatus.LOFI_STATUS_TEMPORARILY_OFF
      else if IsIncludedInLoFiControlFieldTrial env then
        if (self.IsNetworkQualityProhibitivelySlow env network_quality_estimator).1 then
          LoFiStatus.LOFI_STATUS_ACTIVE_CONTROL
        else LoFiStatus.LOFI_STATUS_INACTIVE_CONTROL
      else if IsIncludedInLoFiEnabledFieldTrial env then
        if (self.IsNetworkQualityProhibitivelySlow env network_quality_estimator).1 then
          LoFiStatus.LOFI_STATUS_ACTIVE
        else LoFiStatus.LOFI_STATUS_INACTIVE
      else LoFiStatus.LOFI_STATUS_OFF := by
  unfold DataReductionProxyConfig.UpdateLoFiStatusFromFlagsAndTrials
  split
  · rfl
  · split
    · split <;> rfl
    · split
      · rfl
      · split <;> rfl

/-- C16: when the Lo-Fi status is not `OFF` and `user_temporarily_disabled_lofi` is false,
`UpdateLoFiStatusOnMainFrameRequest` sets the status by this priority: the always-on flag
gives `ACTIVE_FROM_FLAGS`; else the cellular-only flag gives `ACTIVE_FROM_FLAGS` on a
cellular connection and `TEMPORARILY_OFF` otherwise; else the control group gives
`ACTIVE_CONTROL` if the network is prohibitively slow and `INACTIVE_CONTROL` if not; else
the enabled group gives `ACTIVE` if slow and `INACTIVE` if not; else `OFF`.  The two flag
cases hold whatever the trial group. -/
theorem C16_status_priority (self : DataReductionProxyConfig) (env : LoFiEnvironment)
    (network_quality_estimator : NetworkQualityEstimator)
    (h : self.lofi_status_ ≠ LoFiStatus.LOFI_STATUS_OFF) :
    (env.IsLoFiAlwaysOnViaFlags = true →
      (self.UpdateLoFiStatusOnMainFrameRequest env false
        network_quality_estimator).lofi_status_ = LoFiStatus.LOFI_STATUS_ACTIVE_FROM_FLAGS) ∧
    (env.IsLoFiAlwaysOnViaFlags = false → env.IsLoFiCellularOnlyViaFlags = true →
      (self.UpdateLoFiStatusOnMainFrameRequest env false
        network_quality_estimator).lofi_status_ =
          if env.IsConnectionCellular env.GetConnectionType then
            LoFiStatus.LOFI_STATUS_ACTIVE_FROM_FLAGS
          else LoFiStatus.LOFI_STATUS_TEMPORARILY_OFF) ∧
    (env.IsLoFiAlwaysOnViaFlags = false → env.IsLoFiCellularOnlyViaFlags = false →
      IsIncludedInLoFiControlFieldTrial env = true →
      (self.UpdateLoFiStatusOnMainFrameRequest env false
        network_quality_estimator).lofi_status_ =
          if (self.IsNetworkQualityProhibitivelySlow env network_quality_estimator).1 then
            LoFiStatus.LOFI_STATUS_ACTIVE_CONTROL
          else LoFiStatus.LOFI_STATUS_INACTIVE_CONTROL) ∧
    (env.IsLoFiAlwaysOnViaFlags = false → env.IsLoFiCellularOnlyViaFlags = false →
      IsIncludedInLoFiControlFieldTrial env = false →
      IsIncludedInLoFiEnabledFieldTrial env = true →
      (self.UpdateLoFiStatusOnMainFrameRequest env false
        network_quality_estimator).lofi_status_ =
          if (self.IsNetworkQualityProhibitivelySlow env network_quality_estimator).1 then
            LoFiStatus.LOFI_STATUS_ACTIVE
          else LoFiStatus.LOFI_STATUS_INACTIVE) ∧
    (env.IsLoFiAlwaysOnViaFlags = false → env.IsLoFiCellularOnlyViaFlags = false →
      IsIncludedInLoFiControlFieldTrial env = false →
      IsIncludedInLoFiEnabledFieldTrial env = false →
      (self.UpdateLoFiStatusOnMainFrameRequest env false
        network_quality_estimator).lofi_status_ = LoFiStatus.LOFI_STATUS_OFF) := by
  rw [UpdateLoFiStatusOnMainFrameRequest_evaluates self env network_quality_estimator h,
    UpdateLoFiStatusFromFlagsAndTrials_lofi_status]
  refine ⟨?_, ?_, ?_, ?_, ?_⟩
  · intro h1
    simp [h1]
  · intro h1 h2
    simp [h1, h2]
  · intro h1 h2 h3
    simp [h1, h2, h3]
  · intro h1 h2 h3 h4
    simp [h1, h2, h3, h4]
  · intro h1 h2 h3 h4
    simp [h1, h2, h3, h4]

/-- C16 at a concrete input: with the always-on flag set, a session of the enabled group
on a fast network gets `ACTIVE_FROM_FLAGS`. -/
theorem C16_status_priority_witness :
    ((sampleLoFiConfig LoFiStatus.LOFI_STATUS_INACTIVE).UpdateLoFiStatusOnMainFrameRequest
      sampleLoFiEnvironment false sampleFastEstimator).lofi_status_ =
        LoFiStatus.LOFI_STATUS_ACTIVE_FROM_FLAGS :=
  (C16_status_priority (sampleLoFiConfig LoFiStatus.LOFI_STATUS_INACTIVE)
    sampleLoFiEnvironment sampleFastEstimator (by decide)).1 rfl

/-- C17, refuted as stated at two inputs, both in the enabled group with no flag set and
a slow network: when the user has temporarily disabled Lo-Fi an active status becomes
`TEMPORARILY_OFF`, and when the status is `OFF` it stays `OFF`; no header is emitted. -/
theorem C17_enabled_group_counterexample :
    ¬ EnabledGroupEmitsIffSlow (sampleLoFiConfig LoFiStatus.LOFI_STATUS_ACTIVE)
        (sampleTrialEnvironment "Enabled") true sampleSlowEstimator ∧
    ¬ EnabledGroupEmitsIffSlow (sampleLoFiConfig LoFiStatus.LOFI_STATUS_OFF)
        (sampleTrialEnvironment "Enabled") false sampleSlowEstimator := by
  constructor
  · intro h
    exact absurd ((h rfl rfl (by decide)).2 (by decide)) (by decide)
  · intro h
    exact absurd ((h rfl rfl (by decide)).2 (by decide)) (by decide)

/-- C17, amended: `ShouldUseLoFiHeaderForRequests(status)` is true iff `status` is `ACTIVE`
or `ACTIVE_FROM_FLAGS`; consequently, after `UpdateLoFiStatusOnMainFrameRequest` with no
flags set, a session in the control group never emits the Lo-Fi header whatever the
network quality, and a session in the enabled group whose status was not `OFF` and whose
user has not temporarily disabled Lo-Fi emits it iff the network is prohibitively slow;
from `OFF`, or when the user has temporarily disabled Lo-Fi, it does not emit it. -/
theorem C17_header_by_group (self : DataReductionProxyConfig) (env : LoFiEnvironment)
    (network_quality_estimator : NetworkQualityEstimator)
    (halways : env.IsLoFiAlwaysOnViaFlags = false)
    (hcellular : env.IsLoFiCellularOnlyViaFlags = false) :
    (∀ status, ShouldUseLoFiHeaderForRequests status = true ↔
      status = LoFiStatus.LOFI_STATUS_ACTIVE ∨
        status = LoFiStatus.LOFI_STATUS_ACTIVE_FROM_FLAGS) ∧
    (IsIncludedInLoFiControlFieldTrial env = true →
      ∀ user_temporarily_disabled_lofi,
        ShouldUseLoFiHeaderForRequests
          (self.UpdateLoFiStatusOnMainFrameRequest env user_temporarily_disabled_lofi
            network_quality_estimator).lofi_status_ = false) ∧
    (IsIncludedInLoFiEnabledFieldTrial env = true →
      (self.lofi_status_ ≠ LoFiStatus.LOFI_STATUS_OFF →
        (ShouldUseLoFiHeaderForRequests
            (self.UpdateLoFiStatusOnMainFrameRequest env false
              network_quality_estimator).lofi_status_ = true ↔
          (self.IsNetworkQualityProhibitivelySlow env network_quality_estimator).1 = true)) ∧
      (self.lofi_status_ = LoFiStatus.LOFI_STATUS_OFF →
        ∀ user_temporarily_disabled_lofi,
          ShouldUseLoFiHeaderForRequests
            (self.UpdateLoFiStatusOnMainFrameRequest env user_temporarily_disabled_lofi
              network_quality_estimator).lofi_status_ = false) ∧
      ShouldUseLoFiHeaderForRequests
        (self.UpdateLoFiStatusOnMainFrameRequest env true
          network_quality_estimator).lofi_status_ = false) := by
  have hoff : ∀ user_temporarily_disabled_lofi,
      self.lofi_status_ = LoFiStatus.LOFI_STATUS_OFF →
      ShouldUseLoFiHeaderForRequests
        (self.UpdateLoFiStatusOnMainFrameRequest env user_temporarily_disabled_lofi
          network_quality_estimator).lofi_status_ = false := by
    intro user_temporarily_disabled_lofi hs
    rw [UpdateLoFiStatusOnMainFrameRequest_off self env _ _ hs, hs]
    rfl
  have huser : ShouldUseLoFiHeaderForRequests
      (self.UpdateLoFiStatusOnMainFrameRequest env true
        network_quality_estimator).lofi_status_ = false := by
    by_cases hs : self.lofi_status_ = LoFiStatus.LOFI_STATUS_OFF
    · exact hoff true hs
    · rw [UpdateLoFiStatusOnMainFrameRequest_user_disabled self env _ hs]
      cases hstatus : self.lofi_status_ <;> rfl
  refine ⟨?_, ?_, ?_⟩
  · intro status
    cases status <;> simp [ShouldUseLoFiHeaderForRequests]
  · intro hcontrol user_temporarily_disabled_lofi
    cases user_temporarily_disabled_lofi with
    | true => exact huser
    | false =>
      by_cases hs : self.lofi_status_ = LoFiStatus.LOFI_STATUS_OFF
      · exact hoff false hs
      · rw [UpdateLoFiStatusOnMainFrameRequest_evaluates self env _ hs,
          UpdateLoFiStatusFromFlagsAndTrials_lofi_status]
        simp only [halways, hcellular, hcontrol, Bool.false_eq_true, if_false, if_true]
        split <;> rfl
  · intro henabled
    have hcontrol := enabled_group_is_not_control env henabled
    refine ⟨?_, fun hs user_temporarily_disabled_lofi =>
      hoff user_temporarily_disabled_lofi hs, huser⟩
    intro hs
    rw [UpdateLoFiStatusOnMainFrameRequest_evaluates self env _ hs,
      UpdateLoFiStatusFromFlagsAndTrials_lofi_status]
    simp only [halways, hcellular, hcontrol, henabled, Bool.false_eq_true, if_false, if_true]
    cases (self.IsNetworkQualityProhibitivelySlow env network_quality_estimator).1 <;>
      simp [ShouldUseLoFiHeaderForRequests]

/-- C17 amended, at a concrete input: an inactive session of the enabled group emits the
header after a request on a slow network. -/
theorem C17_header_by_group_witness :
    ShouldUseLoFiHeaderForRequests
      ((sampleLoFiConfig LoFiStatus.LOFI_STATUS_INACTIVE).UpdateLoFiStatusOnMainFrameRequest
        (sampleTrialEnvironment "Enabled") false sampleSlowEstimator).lofi_status_ = true :=
  (((C17_header_by_group (sampleLoFiConfig LoFiStatus.LOFI_STATUS_INACTIVE)
    (sampleTrialEnvironment "Enabled") sampleSlowEstimator rfl rfl).2.2 (by decide)).1
      (by decide)).2 (by decide)

/-! ## Properties of the network quality test -/

theorem IsNetworkQualityProhibitivelySlow_cached (self : DataReductionProxyConfig)
    (env : LoFiEnvironment) (GetEstimate : Option NetworkQuality)
    (h : ServedFromCache self env) :
    self.IsNetworkQualityProhibitivelySlow env (some GetEstimate) =
      (self.network_prohibitively_slow_, self) := by
  obtain ⟨htype, hnull, hwindow⟩ := h
  unfold DataReductionProxyConfig.IsNetworkQualityProhibitivelySlow
  simp [htype, hnull, hwindow]

theorem estimate_test_eq (self : DataReductionProxyConfig) (network_quality : NetworkQuality) :
    ((decide (network_quality.downstream_throughput_kbps > 0) &&
        decide (network_quality.downstream_throughput_kbps < self.auto_lofi_maximum_kbps_)) ||
      (network_quality.rtt != TimeDelta.Max &&
        decide (network_quality.rtt > self.auto_lofi_minimum_rtt_))) =
      decide (EstimateIsSlow self network_quality) := by
  rw [Bool.eq_iff_iff]
  simp [EstimateIsSlow]

theorem cache_test_eq (self : DataReductionProxyConfig) (env : LoFiEnvironment) :
    (!(env.GetConnectionType != self.connection_type_) &&
        !(self.network_quality_last_updated_ == 0) &&
        decide (env.Now - self.network_quality_last_updated_ ≤ self.auto_lofi_hysteresis_)) =
      decide (ServedFromCache self env) := by
  rw [Bool.eq_iff_iff]
  simp [ServedFromCache, and_assoc]

theorem IsNetworkQualityProhibitivelySlow_recomputed (self : DataReductionProxyConfig)
    (env : LoFiEnvironment) (GetEstimate : Option NetworkQuality)
    (h : ¬ ServedFromCache self env) :
    self.IsNetworkQualityProhibitivelySlow env (some GetEstimate) =
      match GetEstimate with
      | none =>
        (false,
          { self with
            connection_type_ := env.GetConnectionType
            network_quality_last_updated_ := env.Now })
      | some network_quality =>
        (decide (EstimateIsSlow self network_quality),
          { self with
            connection_type_ := env.GetConnectionType
            network_quality_last_updated_ := env.Now
            network_prohibitively_slow_ := decide (EstimateIsSlow self network_quality) }) := by
  have hcache := cache_test_eq self env
  rw [decide_eq_false h] at hcache
  have hest := estimate_test_eq self
  unfold DataReductionProxyConfig.IsNetworkQualityProhibitivelySlow
  by_cases htype : env.GetConnectionType = self.connection_type_
  · have hbne : (env.GetConnectionType != self.connection_type_) = false := by
      rw [bne_eq_false_iff_eq]
      exact htype
    simp only [hbne, Bool.false_eq_true, if_false] at hcache ⊢
    simp only [hcache, Bool.false_eq_true, if_false]
    cases GetEstimate with
    | none =>
      simp only
      rw [htype]
    | some network_quality =>
      simp only [hest network_quality]
      by_cases hslow : EstimateIsSlow self network_quality
      · simp [hslow, htype]
      · simp [hslow, htype]
  · have hbne : (env.GetConnectionType != self.connection_type_) = true := by
      rw [bne_iff_ne]
      exact htype
    simp only [hbne, if_true, Bool.not_true, Bool.false_and, Bool.false_eq_true, if_false]
    cases GetEstimate with
    | none => rfl
    | some network_quality =>
      have hest2 := estimate_test_eq
        { self with connection_type_ := env.GetConnectionType } network_quality
      simp only [hest2]
      by_cases hslow : EstimateIsSlow self network_quality
      · have hslow2 : EstimateIsSlow
            { self with connection_type_ := env.GetConnectionType } network_quality := hslow
        simp [hslow, hslow2]
      · have hslow2 : ¬ EstimateIsSlow
            { self with connection_type_ := env.GetConnectionType } network_quality := hslow
        simp [hslow, hslow2]

/-- C18: when `IsNetworkQualityProhibitivelySlow` recomputes and the estimator supplies an
estimate, it returns true iff the measured downstream throughput is available (positive)
and below the floor `auto_lofi_maximum_kbps_`, or the measured RTT is available (not the
maximal `TimeDelta`) and above the ceiling `auto_lofi_minimum_rtt_`; either condition
alone suffices, and the value returned is the value cached. -/
theorem C18_slow_iff_estimate (self : DataReductionProxyConfig) (env : LoFiEnvironment)
    (network_quality : NetworkQuality) (hrecompute : ¬ ServedFromCache self env) :
    ((self.IsNetworkQualityProhibitivelySlow env (some (some network_quality))).1 = true ↔
      (0 < network_quality.downstream_throughput_kbps ∧
          network_quality.downstream_throughput_kbps < self.auto_lofi_maximum_kbps_) ∨
        (network_quality.rtt ≠ TimeDelta.Max ∧
          self.auto_lofi_minimum_rtt_ < network_quality.rtt)) ∧
    (0 < network_quality.downstream_throughput_kbps →
      network_quality.downstream_throughput_kbps < self.auto_lofi_maximum_kbps_ →
      (self.IsNetworkQualityProhibitivelySlow env (some (some network_quality))).1 = true) ∧
    (network_quality.rtt ≠ TimeDelta.Max →
      self.auto_lofi_minimum_rtt_ < network_quality.rtt →
      (self.IsNetworkQualityProhibitivelySlow env (some (some network_quality))).1 = true) ∧
    (self.IsNetworkQualityProhibitivelySlow env
        (some (some network_quality))).2.network_prohibitively_slow_ =
      (self.IsNetworkQualityProhibitivelySlow env (some (some network_quality))).1 := by
  rw [IsNetworkQualityProhibitivelySlow_recomputed self env (some network_quality) hrecompute]
  have hiff : decide (EstimateIsSlow self network_quality) = true ↔
      (0 < network_quality.downstream_throughput_kbps ∧
          network_quality.downstream_throughput_kbps < self.auto_lofi_maximum_kbps_) ∨
        (network_quality.rtt ≠ TimeDelta.Max ∧
          self.auto_lofi_minimum_rtt_ < network_quality.rtt) := by
    rw [decide_eq_true_iff]
    rfl
  exact ⟨hiff, fun h1 h2 => hiff.2 (Or.inl ⟨h1, h2⟩), fun h1 h2 => hiff.2 (Or.inr ⟨h1, h2⟩),
    rfl⟩

/-- C18 at a concrete input: nothing was computed before; a throughput of 1 kbps under a
floor of 100 kbps makes the network slow. -/
theorem C18_slow_iff_estimate_witness :
    ((sampleLoFiConfig LoFiStatus.LOFI_STATUS_INACTIVE).IsNetworkQualityProhibitivelySlow
      (sampleEnvironmentAt 5000000)
      (some (some { rtt := 10000, downstream_throughput_kbps := 1 }))).1 = true :=
  (C18_slow_iff_estimate (sampleLoFiConfig LoFiStatus.LOFI_STATUS_INACTIVE)
    (sampleEnvironmentAt 5000000) { rtt := 10000, downstream_throughput_kbps := 1 }
    (by decide)).2.1 (by decide) (by decide)

theorem IsNetworkQualityProhibitivelySlowCalls_cached (self : DataReductionProxyConfig)
    (env : LoFiEnvironment) (hnow : self.network_quality_last_updated_ = env.Now)
    (hnonnull : env.Now ≠ 0) (htype : self.connection_type_ = env.GetConnectionType)
    (calls : List (LoFiEnvironment × NetworkQualityEstimator))
    (hcalls : ∀ call ∈ calls, WithinWindow self env call) :
    self.IsNetworkQualityProhibitivelySlowCalls calls =
      (calls.map fun _ => self.network_prohibitively_slow_, self) := by
  induction calls with
  | nil => rfl
  | cons call rest ih =>
    obtain ⟨later_env, later_estimator⟩ := call
    obtain ⟨hest, hwindow, hsame⟩ :=
      hcalls (later_env, later_estimator) (List.mem_cons_self _ _)
    cases later_estimator with
    | none => exact absurd rfl hest
    | some GetEstimate =>
      have hserved : ServedFromCache self later_env := by
        refine ⟨?_, ?_, ?_⟩
        · rw [htype]
          exact hsame
        · rw [hnow]
          exact hnonnull
        · rw [hnow]
          exact hwindow
      simp only [DataReductionProxyConfig.IsNetworkQualityProhibitivelySlowCalls,
        IsNetworkQualityProhibitivelySlow_cached self later_env GetEstimate hserved,
        ih fun call hmem => hcalls call (List.mem_cons_of_mem _ hmem), List.map_cons]

/-- C19, refuted as stated at two inputs.  After the window has elapsed, a call whose
estimator supplies no estimate recomputes and returns false, but leaves the cached "slow"
in place, and the next call within the window returns true.  And a call that recomputes
"slow" is followed, within the window, by a call with a null estimator, which returns
false. -/
theorem C19_cache_counterexample :
    ¬ LaterCallReturnsRecomputed sampleCachedSlowConfig (sampleEnvironmentAt 100000000)
        (some none) (sampleEnvironmentAt 100000001) sampleFastEstimator ∧
    ¬ LaterCallReturnsRecomputed (sampleLoFiConfig LoFiStatus.LOFI_STATUS_ACTIVE)
        (sampleEnvironmentAt 5000000) sampleSlowEstimator (sampleEnvironmentAt 5000001)
        none := by
  constructor
  · intro h
    exact absurd (h (by decide) (by decide) (by decide) rfl) (by decide)
  · intro h
    exact absurd (h (by decide) (by decide) (by decide) rfl) (by decide)

/-- C19, amended: `IsNetworkQualityProhibitivelySlow` caches its result for the
hysteresis window.  A call with a non-null estimator made while the connection type is
unchanged, a result was computed before and the window has not elapsed returns the cached
value and changes nothing, whatever the estimator would report; otherwise the call
recomputes and stamps the current time.  If a call recomputes at a time `t` (not the null
`TimeTicks`) with an estimate supplied and returns `b`, then all later calls with a
non-null estimator at times `t'` with `t' - t <= auto_lofi_hysteresis_` and an unchanged
connection type return `b` and leave the object as the recomputing call left it.  A call
with a null estimator returns false and changes nothing. -/
theorem C19_cache_within_window (self : DataReductionProxyConfig) (env : LoFiEnvironment)
    (network_quality : NetworkQuality) :
    (∀ GetEstimate : Option NetworkQuality, ServedFromCache self env →
      self.IsNetworkQualityProhibitivelySlow env (some GetEstimate) =
        (self.network_prohibitively_slow_, self)) ∧
    (∀ GetEstimate : Option NetworkQuality, ¬ ServedFromCache self env →
      (self.IsNetworkQualityProhibitivelySlow env
        (some GetEstimate)).2.network_quality_last_updated_ = env.Now) ∧
    (¬ ServedFromCache self env → env.Now ≠ 0 →
      ∀ calls : List (LoFiEnvironment × NetworkQualityEstimator),
        (∀ call ∈ calls, WithinWindow self env call) →
        DataReductionProxyConfig.IsNetworkQualityProhibitivelySlowCalls
            (self.IsNetworkQualityProhibitivelySlow env (some (some network_quality))).2
            calls =
          (calls.map fun _ =>
              (self.IsNetworkQualityProhibitivelySlow env (some (some network_quality))).1,
            (self.IsNetworkQualityProhibitivelySlow env (some (some network_quality))).2)) ∧
    self.IsNetworkQualityProhibitivelySlow env none = (false, self) := by
  refine ⟨fun GetEstimate h => IsNetworkQualityProhibitivelySlow_cached self env GetEstimate h,
    ?_, ?_, rfl⟩
  · intro GetEstimate h
    rw [IsNetworkQualityProhibitivelySlow_recomputed self env GetEstimate h]
    cases GetEstimate <;> rfl
  · intro h hnonnull calls hcalls
    rw [IsNetworkQualityProhibitivelySlow_recomputed self env (some network_quality) h]
    exact IsNetworkQualityProhibitivelySlowCalls_cached _ env rfl hnonnull rfl calls hcalls

/-- C19 amended, at a concrete input: a recomputation at 5 s finds the network slow, and
two calls 10 s and 60 s later, with an estimator that reports a fast network, still
return true. -/
theorem C19_cache_within_window_witness :
    (DataReductionProxyConfig.IsNetworkQualityProhibitivelySlowCalls
        ((sampleLoFiConfig LoFiStatus.LOFI_STATUS_ACTIVE).IsNetworkQualityProhibitivelySlow
          (sampleEnvironmentAt 5000000)
          (some (some { rtt := 3000000, downstream_throughput_kbps := 1 }))).2
        [(sampleEnvironmentAt 15000000, sampleFastEstimator),
          (sampleEnvironmentAt 65000000, sampleFastEstimator)]).1 = [true, true] :=
  congrArg Prod.fst
    ((C19_cache_within_window (sampleLoFiConfig LoFiStatus.LOFI_STATUS_ACTIVE)
      (sampleEnvironmentAt 5000000) { rtt := 3000000, downstream_throughput_kbps := 1 }).2.2.1
      (by decide) (by decide)
      [(sampleEnvironmentAt 15000000, sampleFastEstimator),
        (sampleEnvironmentAt 65000000, sampleFastEstimator)]
      (by
        intro call hmem
        simp only [List.mem_cons, List.mem_singleton, List.not_mem_nil, or_false] at hmem
        rcases hmem with rfl | rfl
        · exact ⟨by decide, by decide, rfl⟩
        · exact ⟨by decide, by decide, rfl⟩))

/-! ## Properties of the minimum retry delay -/

theorem IsProxyBypassed_delay (ToURI : ProxyServer → String) (now : TimeTicks)
    (retry_map : ProxyRetryInfoMap) (proxy : ProxyServer) (retry_delay : TimeDelta)
    (h : (IsProxyBypassed ToURI now retry_map proxy (some retry_delay)).1 = true) :
    ∃ found, retry_map.lookup (ToURI proxy) = some found ∧
      (IsProxyBypassed ToURI now retry_map proxy (some retry_delay)).2 =
        some found.current_delay := by
  unfold IsProxyBypassed at h ⊢
  cases hfind : retry_map.lookup (ToURI proxy) with
  | none => simp [hfind] at h
  | some found =>
    by_cases hlt : found.bad_until < now
    · simp [hfind, hlt] at h
    · exact ⟨found, rfl, by simp [hlt]⟩

theorem AreProxiesBypassed.loop_min (config_values_ : DataReductionProxyConfigValues)
    (ToURI : ProxyServer → String) (now : TimeTicks) (retry_map : ProxyRetryInfoMap)
    (proxies : List ProxyServer) (min_delay : TimeDelta) (bypassed : Bool)
    (result : TimeDelta × Bool)
    (h : AreProxiesBypassed.loop config_values_ ToURI now retry_map proxies min_delay
      bypassed = some result) :
    (result.1 = min_delay ∨
      ∃ proxy ∈ proxies, IsDataReductionProxyEntry config_values_ proxy ∧
        ∃ found, retry_map.lookup (ToURI proxy) = some found ∧
          found.current_delay = result.1) ∧
    result.1 ≤ min_delay ∧
    ∀ proxy ∈ proxies, IsDataReductionProxyEntry config_values_ proxy →
      ∀ found, retry_map.lookup (ToURI proxy) = some found →
        result.1 ≤ found.current_delay := by
  induction proxies generalizing min_delay bypassed with
  | nil =>
    simp only [AreProxiesBypassed.loop, Option.some.injEq] at h
    subst h
    exact ⟨Or.inl rfl, le_refl _, fun proxy hmem => absurd hmem (List.not_mem_nil proxy)⟩
  | cons proxy rest ih =>
    unfold AreProxiesBypassed.loop at h
    have hskipped : ¬ IsDataReductionProxyEntry config_values_ proxy →
        AreProxiesBypassed.loop config_values_ ToURI now retry_map rest min_delay bypassed =
          some result →
        (result.1 = min_delay ∨
          ∃ q ∈ proxy :: rest, IsDataReductionProxyEntry config_values_ q ∧
            ∃ found, retry_map.lookup (ToURI q) = some found ∧
              found.current_delay = result.1) ∧
        result.1 ≤ min_delay ∧
        ∀ q ∈ proxy :: rest, IsDataReductionProxyEntry config_values_ q →
          ∀ found, retry_map.lookup (ToURI q) = some found →
            result.1 ≤ found.current_delay := by
      intro hnot hrest
      obtain ⟨h1, h2, h3⟩ := ih _ _ hrest
      refine ⟨?_, h2, ?_⟩
      · rcases h1 with h1 | ⟨q, hq, hdrp, hfound⟩
        · exact Or.inl h1
        · exact Or.inr ⟨q, List.mem_cons_of_mem _ hq, hdrp, hfound⟩
      · intro q hq hdrp found hfind
        rcases List.mem_cons.1 hq with rfl | hq2
        · exact absurd hdrp hnot
        · exact h3 q hq2 hdrp found hfind
    by_cases hskip : (!proxy.is_valid || proxy.is_direct) = true
    · simp only [hskip, if_true] at h
      exact hskipped (fun hdrp => by
        have := ((entry_skipped_iff config_values_ proxy).1 hdrp).1
        rw [hskip] at this
        exact Bool.noConfusion this) h
    · have hskip2 : (!proxy.is_valid || proxy.is_direct) = false := by simpa using hskip
      by_cases hdrp : (IsDataReductionProxy config_values_ proxy.host_port_pair none).1 = true
      · have hentry : IsDataReductionProxyEntry config_values_ proxy :=
          (entry_skipped_iff config_values_ proxy).2 ⟨hskip2, hdrp⟩
        by_cases hbyp : (IsProxyBypassed ToURI now retry_map proxy (some 0)).1 = true
        · obtain ⟨found, hfind, hdelay⟩ := IsProxyBypassed_delay ToURI now retry_map proxy 0 hbyp
          simp only [hskip2, hdrp, hbyp, hdelay, if_true, Bool.false_eq_true, if_false,
            Bool.not_true, Option.getD_some] at h
          obtain ⟨h1, h2, h3⟩ := ih _ _ h
          have hle : (if found.current_delay < min_delay then found.current_delay
              else min_delay) ≤ min_delay := by
            split
            · exact le_of_lt (by assumption)
            · exact le_refl _
          have hle2 : (if found.current_delay < min_delay then found.current_delay
              else min_delay) ≤ found.current_delay := by
            split
            · exact le_refl _
            · exact not_lt.1 (by assumption)
          refine ⟨?_, le_trans h2 hle, ?_⟩
          · rcases h1 with h1 | ⟨q, hq, hqdrp, hfound⟩
            · by_cases hlt : found.current_delay < min_delay
              · rw [if_pos hlt] at h1
                exact Or.inr ⟨proxy, List.mem_cons_self _ _, hentry, found, hfind, h1.symm⟩
              · rw [if_neg hlt] at h1
                exact Or.inl h1
            · exact Or.inr ⟨q, List.mem_cons_of_mem _ hq, hqdrp, hfound⟩
          · intro q hq hqdrp other hother
            rcases List.mem_cons.1 hq with rfl | hq2
            · rw [hfind] at hother
              rw [← Option.some.inj hother]
              exact le_trans h2 hle2
            · exact h3 q hq2 hqdrp other hother
        · simp [hskip2, hdrp, hbyp] at h
      · simp only [hskip2, hdrp, Bool.false_eq_true, if_false] at h
        exact hskipped (fun hentry =>
          hdrp ((entry_skipped_iff config_values_ proxy).1 hentry).2) h

/-- C20, refuted as stated: both sample proxies are bypassed with 1 ms left until their
bad-until time, and the value written to `min_retry_delay` is 60 s, the smaller of their
current retry delays. -/
theorem C20_min_retry_delay_counterexample :
    ¬ WritesMinimumRemainingDelay sampleValues sampleToURI 1000 (sampleRetryMap 2000)
        sampleRules false 0 := by
  intro h
  obtain ⟨m, hm, ⟨proxy, hmem, _, found, hfind, hmeasure⟩, _⟩ :=
    h sampleValues.proxies_for_http rfl (by decide)
  have hwritten : (AreProxiesBypassed sampleValues sampleToURI 1000 (sampleRetryMap 2000)
      sampleRules false (some 0)).2 = some 60000000 := by decide
  rw [hwritten] at hm
  have hm2 : m = 60000000 := (Option.some.inj hm).symm
  subst hm2
  simp only [sampleValues, List.mem_cons, List.mem_singleton, List.not_mem_nil,
    or_false] at hmem
  rcases hmem with rfl | rfl
  · have h2 : (sampleRetryMap 2000).lookup
        (sampleToURI (mkProxy Scheme.SCHEME_HTTP "origin.net" 80)) =
        some { current_delay := 60000000, bad_until := 2000 } := by decide
    rw [h2] at hfind
    rw [← Option.some.inj hfind] at hmeasure
    exact absurd hmeasure (by decide)
  · have h2 : (sampleRetryMap 2000).lookup
        (sampleToURI (mkProxy Scheme.SCHEME_HTTP "fallback.net" 80)) =
        some { current_delay := 300000000, bad_until := 2000 } := by decide
    rw [h2] at hfind
    rw [← Option.some.inj hfind] at hmeasure
    exact absurd hmeasure (by decide)

/-- C20, amended: when `AreProxiesBypassed` returns true and `min_retry_delay` is supplied,
the value written to it is the minimum, over the matching Data Reduction Proxy entries of
the scheme's list, of the entry's current retry delay in the retry map (`current_delay`,
a 64-bit value, so at most the maximal `TimeDelta`). -/
theorem C20_min_retry_delay (config_values_ : DataReductionProxyConfigValues)
    (ToURI : ProxyServer → String) (now : TimeTicks) (retry_map : ProxyRetryInfoMap)
    (proxy_rules : ProxyRules) (is_https : Bool) (min_retry_delay : TimeDelta)
    (proxies : List ProxyServer)
    (hlist : proxy_rules.MapUrlSchemeToProxyList is_https = some proxies)
    (hrange : ∀ proxy ∈ proxies, ∀ found, retry_map.lookup (ToURI proxy) = some found →
      found.current_delay ≤ TimeDelta.Max)
    (htrue : (AreProxiesBypassed config_values_ ToURI now retry_map proxy_rules is_https
      (some min_retry_delay)).1 = true) :
    ∃ m, (AreProxiesBypassed config_values_ ToURI now retry_map proxy_rules is_https
        (some min_retry_delay)).2 = some m ∧
      IsMinimumOverEntries config_values_ ToURI retry_map proxies
        (fun found => found.current_delay) m := by
  unfold AreProxiesBypassed at htrue ⊢
  by_cases htype : (proxy_rules.type != ProxyRulesType.TYPE_PROXY_PER_SCHEME) = true
  · simp [htype] at htrue
  · simp only [htype, Bool.false_eq_true, if_false, hlist] at htrue ⊢
    cases hloop : AreProxiesBypassed.loop config_values_ ToURI now retry_map proxies
        TimeDelta.Max false with
    | none => simp [hloop] at htrue
    | some result =>
      obtain ⟨m, bypassed⟩ := result
      simp only [hloop] at htrue ⊢
      have hb : bypassed = true := htrue
      subst hb
      obtain ⟨h1, _, h3⟩ := AreProxiesBypassed.loop_min config_values_ ToURI now retry_map
        proxies TimeDelta.Max false (m, true) hloop
      have hexists := (AreProxiesBypassed.loop_some config_values_ ToURI now retry_map proxies
        TimeDelta.Max false (m, true) hloop).1 rfl
      refine ⟨m, by simp, ?_, h3⟩
      rcases h1 with h1 | h1
      · rcases hexists with hfalse | ⟨proxy, hmem, hdrp⟩
        · exact Bool.noConfusion hfalse
        · have hnone := (AreProxiesBypassed.loop_none_iff config_values_ ToURI now retry_map
            proxies TimeDelta.Max false).not.1 (by rw [hloop]; exact Option.noConfusion)
          have hbyp : BadUntilNotPast ToURI now retry_map proxy := by
            by_contra hnot
            exact hnone ⟨proxy, hmem, hdrp, hnot⟩
          obtain ⟨found, hfind, _⟩ := hbyp
          refine ⟨proxy, hmem, hdrp, found, hfind, ?_⟩
          have hge := h3 proxy hmem hdrp found hfind
          have hle := hrange proxy hmem found hfind
          simp only at h1 hge
          rw [h1] at hge ⊢
          exact le_antisymm hle hge
      · exact h1

/-- C20 amended, at a concrete input: the value written for the two sample proxies is
60 s, the smaller of their current retry delays. -/
theorem C20_min_retry_delay_witness :
    ∃ m, (AreProxiesBypassed sampleValues sampleToURI 1000 (sampleRetryMap 2000) sampleRules
        false (some 0)).2 = some m ∧
      IsMinimumOverEntries sampleValues sampleToURI (sampleRetryMap 2000)
        sampleValues.proxies_for_http (fun found => found.current_delay) m :=
  C20_min_retry_delay sampleValues sampleToURI 1000 (sampleRetryMap 2000) sampleRules false 0
    sampleValues.proxies_for_http rfl
    (by
      intro proxy hmem found hfind
      simp only [sampleValues, List.mem_cons, List.mem_singleton, List.not_mem_nil,
        or_false] at hmem
      rcases hmem with rfl | rfl
      · have h2 : (sampleRetryMap 2000).lookup
            (sampleToURI (mkProxy Scheme.SCHEME_HTTP "origin.net" 80)) =
            some { current_delay := 60000000, bad_until := 2000 } := by decide
        rw [h2] at hfind
        rw [← Option.some.inj hfind]
        decide
      · have h2 : (sampleRetryMap 2000).lookup
            (sampleToURI (mkProxy Scheme.SCHEME_HTTP "fallback.net" 80)) =
            some { current_delay := 300000000, bad_until := 2000 } := by decide
        rw [h2] at hfind
        rw [← Option.some.inj hfind]
        decide)
    (by decide)

/-! ## Properties of a change of the IP address -/

theorem UpdateConfigurator_eq (self : DataReductionProxyConfig)
    (enabled secure_proxy_allowed at_startup : Bool) :
    self.UpdateConfigurator enabled secure_proxy_allowed at_startup =
      { self with
        configurator_ :=
          self.configurator_ ++ [self.ConfiguratorCallFor enabled secure_proxy_allowed] } := by
  unfold DataReductionProxyConfig.UpdateConfigurator
    DataReductionProxyConfig.ConfiguratorCallFor
  by_cases h : (enabled && !self.disabled_on_vpn_ && !self.config_values_.holdback &&
      (!self.config_values_.proxies_for_http.isEmpty ||
        !self.config_values_.proxies_for_https.isEmpty)) = true
  · simp only [h, if_true]
  · simp only [h, Bool.false_eq_true, if_false]

theorem ReloadConfig_eq (self : DataReductionProxyConfig) :
    self.ReloadConfig =
      { self with
        configurator_ :=
          self.configurator_ ++
            [self.ConfiguratorCallFor self.enabled_by_user_ self.secure_proxy_allowed_] } := by
  unfold DataReductionProxyConfig.ReloadConfig
  rw [UpdateConfigurator_eq]

theorem MaybeDisableIfVPN_keeps (self : DataReductionProxyConfig)
    (env : IPAddressEnvironment) :
    (self.MaybeDisableIfVPN env).2.secure_proxy_allowed_ = self.secure_proxy_allowed_ ∧
    (self.MaybeDisableIfVPN env).2.enabled_by_user_ = self.enabled_by_user_ ∧
    (self.MaybeDisableIfVPN env).2.secure_proxy_checks_ = self.secure_proxy_checks_ := by
  unfold DataReductionProxyConfig.MaybeDisableIfVPN
  simp only [ReloadConfig_eq]
  split
  · exact ⟨rfl, rfl, rfl⟩
  · split
    · exact ⟨rfl, rfl, rfl⟩
    · split <;> exact ⟨rfl, rfl, rfl⟩

theorem OnIPAddressChanged_no_vpn (self : DataReductionProxyConfig)
    (env : IPAddressEnvironment) (henabled : self.enabled_by_user_ = true)
    (hvpn : (self.MaybeDisableIfVPN env).1 = false) :
    self.OnIPAddressChanged env =
      if !env.ShouldUseSecureProxyByDefault && self.secure_proxy_allowed_ then
        { (self.MaybeDisableIfVPN env).2 with
          secure_proxy_allowed_ := false
          probe_url_histogram_ :=
            (self.MaybeDisableIfVPN env).2.probe_url_histogram_ ++
              [SecureProxyCheckFetchResult.PROXY_DISABLED_BEFORE_CHECK]
          configurator_ :=
            (self.MaybeDisableIfVPN env).2.configurator_ ++
              [(self.MaybeDisableIfVPN env).2.ConfiguratorCallFor true false]
          secure_proxy_checks_ := self.secure_proxy_checks_ + 1 }
      else
        { (self.MaybeDisableIfVPN env).2 with
          secure_proxy_checks_ := self.secure_proxy_checks_ + 1 } := by
  obtain ⟨hspa, hen, hchecks⟩ := MaybeDisableIfVPN_keeps self env
  unfold DataReductionProxyConfig.OnIPAddressChanged
  rw [if_pos henabled]
  simp only [hvpn, Bool.false_eq_true, if_false, hspa]
  split
  · simp only [ReloadConfig_eq, DataReductionProxyConfig.RecordSecureProxyCheckFetchResult,
      DataReductionProxyConfig.SecureProxyCheck, hen, henabled, hchecks]
    rfl
  · simp only [DataReductionProxyConfig.SecureProxyCheck, hchecks, hspa]

/-- C21, refuted as stated: with the secure proxy used by default
(`params::ShouldUseSecureProxyByDefault()`), a change of the IP address without VPN
interface leaves the secure tier of a user-enabled, unrestricted configuration allowed. -/
theorem C21_OnIPAddressChanged_counterexample :
    ¬ DisablesSecureTierBeforeProbe sampleEnabledConfig (sampleIPAddressEnvironment true) := by
  intro h
  exact absurd (h (by decide) (by decide)) (by decide)

/-- C21, amended: when the proxy is enabled by the user and no VPN interface is detected,
`OnIPAddressChanged` re-issues the secure-proxy probe, and, unless the secure proxy is
used by default (`params::ShouldUseSecureProxyByDefault()`), the secure tier is disabled
before the probe result arrives: `secure_proxy_allowed_` is false afterwards, and if it
was true the configurator is reloaded as restricted.  With the secure proxy used by
default `secure_proxy_allowed_` and the configurator are left as the VPN test left them.
When the proxy is not enabled by the user `OnIPAddressChanged` does nothing. -/
theorem C21_OnIPAddressChanged (self : DataReductionProxyConfig)
    (env : IPAddressEnvironment) :
    (self.enabled_by_user_ = false → self.OnIPAddressChanged env = self) ∧
    (self.enabled_by_user_ = true → (self.MaybeDisableIfVPN env).1 = false →
      (self.OnIPAddressChanged env).secure_proxy_checks_ = self.secure_proxy_checks_ + 1 ∧
      (env.ShouldUseSecureProxyByDefault = false →
        (self.OnIPAddressChanged env).secure_proxy_allowed_ = false ∧
        (self.secure_proxy_allowed_ = true →
          (self.OnIPAddressChanged env).configurator_ =
            (self.MaybeDisableIfVPN env).2.configurator_ ++
              [(self.MaybeDisableIfVPN env).2.ConfiguratorCallFor true false] ∧
          ∀ restricted proxies_for_http proxies_for_https,
            (self.MaybeDisableIfVPN env).2.ConfiguratorCallFor true false =
              ConfiguratorCall.Enable restricted proxies_for_http proxies_for_https →
            restricted = true)) ∧
      (env.ShouldUseSecureProxyByDefault = true →
        (self.OnIPAddressChanged env).secure_proxy_allowed_ = self.secure_proxy_allowed_ ∧
        (self.OnIPAddressChanged env).configurator_ =
          (self.MaybeDisableIfVPN env).2.configurator_)) := by
  constructor
  · intro hdisabled
    unfold DataReductionProxyConfig.OnIPAddressChanged
    simp [hdisabled]
  · intro henabled hvpn
    obtain ⟨hspa, _, _⟩ := MaybeDisableIfVPN_keeps self env
    rw [OnIPAddressChanged_no_vpn self env henabled hvpn]
    refine ⟨?_, ?_, ?_⟩
    · split <;> rfl
    · intro hdefault
      constructor
      · cases hallowed : self.secure_proxy_allowed_
        · simp [hdefault, hspa, hallowed]
        · simp [hdefault, hallowed]
      · intro hallowed
        constructor
        · simp [hdefault, hallowed]
        · intro restricted proxies_for_http proxies_for_https hcall
          unfold DataReductionProxyConfig.ConfiguratorCallFor at hcall
          split at hcall
          · injection hcall with h1
            exact h1.symm
          · exact ConfiguratorCall.noConfusion hcall
    · intro hdefault
      simp [hdefault, hspa]

/-- C21 amended, at a concrete input: the secure proxy is not used by default, and the
user-enabled, unrestricted sample configuration is restricted and probed again. -/
theorem C21_OnIPAddressChanged_witness :
    (sampleEnabledConfig.OnIPAddressChanged
        (sampleIPAddressEnvironment false)).secure_proxy_checks_ =
      sampleEnabledConfig.secure_proxy_checks_ + 1 ∧
    (sampleEnabledConfig.OnIPAddressChanged
      (sampleIPAddressEnvironment false)).secure_proxy_allowed_ = false :=
  ⟨((C21_OnIPAddressChanged sampleEnabledConfig (sampleIPAddressEnvironment false)).2
      (by decide) (by decide)).1,
    (((C21_OnIPAddressChanged sampleEnabledConfig (sampleIPAddressEnvironment false)).2
      (by decide) (by decide)).2.1 rfl).1⟩

/-! ## Properties of the backoff after an authentication failure -/

theorem RetrieveConfig_started (self : DataReductionProxyConfigServiceClient)
    (env : FetchEnvironment) (hremote : self.use_local_config_ = false)
    (hfetcher : env.GetURLFetcherForConfig = true) :
    self.RetrieveConfig env =
      { self with config_fetch_start_time_ := env.Now, fetcher_ := self.fetcher_ + 1 } := by
  simp [DataReductionProxyConfigServiceClient.RetrieveConfig,
    DataReductionProxyConfigServiceClient.RetrieveRemoteConfig, hremote, hfetcher]

/-- C26, as worded, fails for a client that uses a local configuration, whose flag is not
set: after a 407 from the sample fallback proxy the backoff entry has been informed of a
failure and then of the success of applying the static configuration; and when the static
response does not parse it has been informed of two failures. -/
theorem C26_backoff_on_auth_failure_counterexample :
    ¬ InformsFailuresAsWorded sampleLocalClient sampleFetchEnvironment
        { host := "fallback.net", port := 80 } ∧
    ¬ InformsFailuresAsWorded sampleLocalClient sampleUnparsedFetchEnvironment
        { host := "fallback.net", port := 80 } := by
  constructor
  · intro h
    exact absurd (h (by decide) rfl) (by decide)
  · intro h
    exact absurd (h (by decide) rfl) (by decide)

/-- C26, amended: on a 407 from a Data Reduction Proxy, `ShouldRetryDueToAuthFailure`
informs the backoff entry of exactly one failure when the previous response from a Data
Reduction Proxy was not a 407 and of exactly two failures when it was
(`previous_request_failed_authentication_` set), and sets the flag.  A client of the
remote service whose new fetcher is created informs it of nothing more; a client that uses
a local configuration informs it once more, of whether the static configuration was
accepted.  A non-407 response from a Data Reduction Proxy clears the flag and a response
from any other server leaves the flag and the backoff entry unchanged. -/
theorem C26_backoff_on_auth_failure (self : DataReductionProxyConfigServiceClient)
    (env : FetchEnvironment) (response_code : Int) (proxy_server : HostPortPair) :
    ((IsDataReductionProxy self.config_.config_values_ proxy_server none).1 = true →
      response_code = 407 → self.use_local_config_ = false →
      env.GetURLFetcherForConfig = true →
      (self.ShouldRetryDueToAuthFailure env response_code proxy_server).2.backoff_entry_ =
        self.backoff_entry_ ++
          (if self.previous_request_failed_authentication_ then
            [BackoffEntryCall.InformOfRequest false, BackoffEntryCall.InformOfRequest false]
          else [BackoffEntryCall.InformOfRequest false]) ∧
      (self.ShouldRetryDueToAuthFailure env response_code
        proxy_server).2.previous_request_failed_authentication_ = true) ∧
    ((IsDataReductionProxy self.config_.config_values_ proxy_server none).1 = true →
      response_code = 407 → self.use_local_config_ = true →
      (∃ succeeded : Bool,
        (succeeded = true ↔
          StaticConfigAccepted env.toClientEnvironment
            (env.ConstructStaticResponse self.request_options_)) ∧
        (self.ShouldRetryDueToAuthFailure env response_code proxy_server).2.backoff_entry_ =
          self.backoff_entry_ ++
            (if self.previous_request_failed_authentication_ then
              [BackoffEntryCall.InformOfRequest false, BackoffEntryCall.InformOfRequest false]
            else [BackoffEntryCall.InformOfRequest false]) ++
            [BackoffEntryCall.InformOfRequest succeeded]) ∧
      (self.ShouldRetryDueToAuthFailure env response_code
        proxy_server).2.previous_request_failed_authentication_ = true) ∧
    ((IsDataReductionProxy self.config_.config_values_ proxy_server none).1 = true →
      response_code ≠ 407 →
      (self.ShouldRetryDueToAuthFailure env response_code
        proxy_server).2.previous_request_failed_authentication_ = false ∧
      (self.ShouldRetryDueToAuthFailure env response_code proxy_server).2.backoff_entry_ =
        self.backoff_entry_) ∧
    ((IsDataReductionProxy self.config_.config_values_ proxy_server none).1 = false →
      (self.ShouldRetryDueToAuthFailure env response_code
        proxy_server).2.previous_request_failed_authentication_ =
          self.previous_request_failed_authentication_ ∧
      (self.ShouldRetryDueToAuthFailure env response_code proxy_server).2.backoff_entry_ =
        self.backoff_entry_) := by
  refine ⟨?_, ?_, ?_, ?_⟩
  · intro hdrp hcode hremote hfetcher
    subst hcode
    rw [ShouldRetryDueToAuthFailure_407 self env proxy_server hdrp, auth_failure_recorded]
    have hinv := InvalidateConfig_remote
      { self with
        backoff_entry_ :=
          if self.previous_request_failed_authentication_ then
            self.backoff_entry_ ++ [BackoffEntryCall.InformOfRequest false]
          else self.backoff_entry_
        previous_request_failed_authentication_ := true } env hremote
    rw [RetrieveConfig_started _ env (by rw [hinv]; exact hremote) hfetcher, hinv]
    cases self.previous_request_failed_authentication_
    · exact ⟨rfl, rfl⟩
    · refine ⟨?_, rfl⟩
      simp
  · intro hdrp hcode hlocal
    subst hcode
    rw [ShouldRetryDueToAuthFailure_local self env proxy_server hdrp hlocal]
    obtain ⟨⟨succeeded, hiff, hbackoff⟩, _, _, hflag, _⟩ :=
      HandleResponse_static
        { self with
          backoff_entry_ :=
            (if self.previous_request_failed_authentication_ then
              self.backoff_entry_ ++ [BackoffEntryCall.InformOfRequest false]
            else self.backoff_entry_) ++ [BackoffEntryCall.InformOfRequest false]
          previous_request_failed_authentication_ := true
          config_fetch_start_time_ := env.Now }
        env.toClientEnvironment (env.ConstructStaticResponse self.request_options_)
        hlocal
    refine ⟨⟨succeeded, hiff, ?_⟩, hflag⟩
    rw [hbackoff]
    cases self.previous_request_failed_authentication_ <;> simp
  · intro hdrp hcode
    rw [ShouldRetryDueToAuthFailure_other_code self env response_code proxy_server hdrp hcode]
    exact ⟨rfl, rfl⟩
  · intro hdrp
    rw [ShouldRetryDueToAuthFailure_other_proxy self env response_code proxy_server
      (by rw [hdrp]; exact Bool.noConfusion)]
    exact ⟨rfl, rfl⟩

/-- C26 amended, at concrete inputs: a second 407 in a row from the sample fallback proxy
informs the backoff entry of the client of the remote service of two failures, and a
first 407 sets the flag of the client with a local configuration. -/
theorem C26_backoff_on_auth_failure_witness :
    (DataReductionProxyConfigServiceClient.ShouldRetryDueToAuthFailure
        { sampleClient with previous_request_failed_authentication_ := true }
        sampleFetchEnvironment 407 { host := "fallback.net", port := 80 }).2.backoff_entry_ =
      sampleClient.backoff_entry_ ++
        [BackoffEntryCall.InformOfRequest false, BackoffEntryCall.InformOfRequest false] ∧
    (sampleLocalClient.ShouldRetryDueToAuthFailure sampleFetchEnvironment 407
      { host := "fallback.net", port := 80 }).2.previous_request_failed_authentication_ =
        true :=
  ⟨((C26_backoff_on_auth_failure
      { sampleClient with previous_request_failed_authentication_ := true }
      sampleFetchEnvironment 407 { host := "fallback.net", port := 80 }).1
      (by decide) rfl rfl rfl).1,
    ((C26_backoff_on_auth_failure sampleLocalClient sampleFetchEnvironment 407
      { host := "fallback.net", port := 80 }).2.1 (by decide) rfl rfl).2⟩

/-! ## Properties of the configurator over sequences of calls -/

theorem ConfiguratorInStep_of_last (self : DataReductionProxyConfig)
    (previous : List ConfiguratorCall)
    (h : self.configurator_ =
      previous ++ [self.ConfiguratorCallFor self.enabled_by_user_ self.secure_proxy_allowed_]) :
    ConfiguratorInStep self := by
  intro henabled
  rw [h, List.getLast?_append, henabled]
  rfl

theorem ConfiguratorInStep_ReloadConfig (self : DataReductionProxyConfig) :
    ConfiguratorInStep self.ReloadConfig := by
  rw [ReloadConfig_eq]
  exact ConfiguratorInStep_of_last _ self.configurator_ rfl

theorem ConfiguratorInStep_SetProxyConfig (self : DataReductionProxyConfig)
    (enabled at_startup : Bool) :
    ConfiguratorInStep (self.SetProxyConfig enabled at_startup) := by
  unfold DataReductionProxyConfig.SetProxyConfig
  simp only [UpdateConfigurator_eq, DataReductionProxyConfig.SecureProxyCheck]
  cases enabled
  · exact ConfiguratorInStep_of_last _ self.configurator_ rfl
  · exact ConfiguratorInStep_of_last _ self.configurator_ rfl

theorem ConfiguratorInStep_HandleSecureProxyCheckResponse (self : DataReductionProxyConfig)
    (response : String) (status : URLRequestStatus) (http_response_code : Int)
    (h : ConfiguratorInStep self) :
    ConfiguratorInStep
      (self.HandleSecureProxyCheckResponse response status http_response_code) := by
  unfold DataReductionProxyConfig.HandleSecureProxyCheckResponse
  simp only [ReloadConfig_eq, DataReductionProxyConfig.RecordSecureProxyCheckFetchResult]
  by_cases hdisconnected : (status.status == URLRequestStatus.Status.FAILED &&
      status.error == ERR_INTERNET_DISCONNECTED) = true
  · rw [if_pos hdisconnected]
    exact h
  · rw [if_neg hdisconnected]
    cases henabled : self.enabled_by_user_
    · intro hc
      revert hc
      cases ("OK" == substr_0_2 response) <;>
        cases (status.status == URLRequestStatus.Status.FAILED) <;>
        simp [henabled]
    · have hlast := h henabled
      cases hallowed : self.secure_proxy_allowed_ <;>
        cases ("OK" == substr_0_2 response) <;>
        cases (status.status == URLRequestStatus.Status.FAILED) <;>
        intro _ <;>
        simp [henabled, hallowed, DataReductionProxyConfig.ConfiguratorCallFor] <;>
        simpa [henabled, hallowed, DataReductionProxyConfig.ConfiguratorCallFor] using hlast

theorem ConfiguratorInStep_MaybeDisableIfVPN (self : DataReductionProxyConfig)
    (env : IPAddressEnvironment) (h : ConfiguratorInStep self) :
    ConfiguratorInStep (self.MaybeDisableIfVPN env).2 := by
  unfold DataReductionProxyConfig.MaybeDisableIfVPN
  split
  · exact h
  · split
    · exact ConfiguratorInStep_ReloadConfig _
    · split
      · exact ConfiguratorInStep_ReloadConfig _
      · exact h

theorem ConfiguratorInStep_OnIPAddressChanged (self : DataReductionProxyConfig)
    (env : IPAddressEnvironment) (h : ConfiguratorInStep self) :
    ConfiguratorInStep (self.OnIPAddressChanged env) := by
  have hvpn := ConfiguratorInStep_MaybeDisableIfVPN self env h
  by_cases henabled : self.enabled_by_user_ = true
  · by_cases hdetected : (self.MaybeDisableIfVPN env).1 = true
    · have heq : self.OnIPAddressChanged env = (self.MaybeDisableIfVPN env).2 := by
        unfold DataReductionProxyConfig.OnIPAddressChanged
        rw [if_pos henabled]
        simp only [hdetected, if_true]
      rw [heq]
      exact hvpn
    · have hfalse : (self.MaybeDisableIfVPN env).1 = false := by simpa using hdetected
      rw [OnIPAddressChanged_no_vpn self env henabled hfalse]
      split
      · intro _
        simp only [List.getLast?_append, List.getLast?_singleton, Option.or_some]
        rfl
      · exact hvpn
  · have heq : self.OnIPAddressChanged env = self := by
      unfold DataReductionProxyConfig.OnIPAddressChanged
      rw [if_neg henabled]
    rw [heq]
    exact h

theorem ConfiguratorInStep_Call (self : DataReductionProxyConfig) (call : ConfigCall)
    (h : ConfiguratorInStep self) : ConfiguratorInStep (self.Call call) := by
  cases call with
  | SetProxyConfig enabled at_startup =>
    exact ConfiguratorInStep_SetProxyConfig self enabled at_startup
  | ReloadConfig => exact ConfiguratorInStep_ReloadConfig self
  | HandleSecureProxyCheckResponse response status http_response_code =>
    exact ConfiguratorInStep_HandleSecureProxyCheckResponse self response status
      http_response_code h
  | OnIPAddressChanged env => exact ConfiguratorInStep_OnIPAddressChanged self env h

theorem ConfiguratorInStep_Calls (self : DataReductionProxyConfig) (calls : List ConfigCall)
    (h : ConfiguratorInStep self) : ConfiguratorInStep (self.Calls calls) := by
  induction calls generalizing self with
  | nil => exact h
  | cons call rest ih =>
    exact ih (self.Call call) (ConfiguratorInStep_Call self call h)

/-- C30: over every sequence of `SetProxyConfig`, `ReloadConfig`,
`HandleSecureProxyCheckResponse` and `OnIPAddressChanged` calls, started from an object
whose configurator is in step (a freshly constructed object is), whenever the proxy is
enabled by the user the most recent configurator call is the one `ReloadConfig` would make
with the current `secure_proxy_allowed_`: if that call is `Enable`, its `restricted`
argument equals `!secure_proxy_allowed_`. -/
theorem C30_configurator_in_step (self : DataReductionProxyConfig) (calls : List ConfigCall)
    (h : ConfiguratorInStep self) :
    (∀ (config_values : DataReductionProxyConfigValues)
        (ShouldUseSecureProxyByDefault IsLoFiDisabledViaFlags : Bool)
        (GetConnectionType : ConnectionType),
      ConfiguratorInStep
        (DataReductionProxyConfig.new config_values ShouldUseSecureProxyByDefault
          IsLoFiDisabledViaFlags GetConnectionType)) ∧
    ((self.Calls calls).enabled_by_user_ = true →
      (self.Calls calls).configurator_.getLast? =
        some ((self.Calls calls).ConfiguratorCallFor true
          (self.Calls calls).secure_proxy_allowed_) ∧
      ∀ restricted proxies_for_http proxies_for_https,
        (self.Calls calls).configurator_.getLast? =
          some (ConfiguratorCall.Enable restricted proxies_for_http proxies_for_https) →
        restricted = !(self.Calls calls).secure_proxy_allowed_) := by
  constructor
  · intro config_values ShouldUseSecureProxyByDefault IsLoFiDisabledViaFlags GetConnectionType
      henabled
    unfold DataReductionProxyConfig.new at henabled
    cases IsLoFiDisabledViaFlags <;> exact Bool.noConfusion henabled
  · intro henabled
    have hlast := ConfiguratorInStep_Calls self calls h henabled
    refine ⟨hlast, ?_⟩
    intro restricted proxies_for_http proxies_for_https hcall
    rw [hlast] at hcall
    have hcall2 := Option.some.inj hcall
    unfold DataReductionProxyConfig.ConfiguratorCallFor at hcall2
    split at hcall2
    · injection hcall2 with h1
      exact h1.symm
    · exact ConfiguratorCall.noConfusion hcall2

/-- C30 at a concrete input: the user enables the proxy, a probe answers "NOTOK", the IP
address changes and the next probe answers "OK"; the last configurator call enables the
proxy unrestricted, as `secure_proxy_allowed_` is true. -/
theorem C30_configurator_in_step_witness :
    (sampleConfig.Calls
        [ConfigCall.SetProxyConfig true false,
          ConfigCall.HandleSecureProxyCheckResponse "NOTOK"
            { status := URLRequestStatus.Status.SUCCESS, error := 0 } 200,
          ConfigCall.OnIPAddressChanged (sampleIPAddressEnvironment false),
          ConfigCall.HandleSecureProxyCheckResponse "OK"
            { status := URLRequestStatus.Status.SUCCESS, error := 0 }
            200]).configurator_.getLast? =
      some (ConfiguratorCall.Enable false sampleValues.proxies_for_http
        sampleValues.proxies_for_https) :=
  ((C30_configurator_in_step sampleConfig
    [ConfigCall.SetProxyConfig true false,
      ConfigCall.HandleSecureProxyCheckResponse "NOTOK"
        { status := URLRequestStatus.Status.SUCCESS, error := 0 } 200,
      ConfigCall.OnIPAddressChanged (sampleIPAddressEnvironment false),
      ConfigCall.HandleSecureProxyCheckResponse "OK"
        { status := URLRequestStatus.Status.SUCCESS, error := 0 } 200]
    (fun henabled => Bool.noConfusion henabled)).2 (by decide)).1

end data_reduction_proxy

namespace extensions

/-! ## Properties of the media gallery permissions -/

theorem MediaGalleriesPermission.FromValue.loop_flags (data_set_ : List String)
    (flags result : PermissionFlags)
    (h : MediaGalleriesPermission.FromValue.loop data_set_ flags = some result) :
    (result.has_read = true ↔ flags.has_read = true ∨ kReadPermission ∈ data_set_) ∧
    (result.has_copy_to = true ↔ flags.has_copy_to = true ∨ kCopyToPermission ∈ data_set_) ∧
    (result.has_delete = true ↔ flags.has_delete = true ∨ kDeletePermission ∈ data_set_) := by
  induction data_set_ generalizing flags with
  | nil =>
    simp only [MediaGalleriesPermission.FromValue.loop, Option.some.injEq] at h
    subst h
    simp
  | cons permission rest ih =>
    unfold MediaGalleriesPermission.FromValue.loop at h
    by_cases h1 : (permission == kAllAutoDetectedPermission || permission == kScanPermission) = true
    · rw [if_pos h1] at h
      have hne : permission ≠ kReadPermission ∧ permission ≠ kCopyToPermission ∧
          permission ≠ kDeletePermission := by
        simp only [Bool.or_eq_true, beq_iff_eq] at h1
        rcases h1 with h1 | h1 <;> rw [h1] <;> decide
      obtain ⟨ha, hb, hc⟩ := ih flags h
      simp only [List.mem_cons, ha, hb, hc]
      refine ⟨?_, ?_, ?_⟩ <;> constructor <;> intro hx <;> rcases hx with hx | hx
      · exact Or.inl hx
      · exact Or.inr (Or.inr hx)
      · exact Or.inl hx
      · rcases hx with hx | hx
        · exact absurd hx.symm hne.1
        · exact Or.inr hx
      · exact Or.inl hx
      · exact Or.inr (Or.inr hx)
      · exact Or.inl hx
      · rcases hx with hx | hx
        · exact absurd hx.symm hne.2.1
        · exact Or.inr hx
      · exact Or.inl hx
      · exact Or.inr (Or.inr hx)
      · exact Or.inl hx
      · rcases hx with hx | hx
        · exact absurd hx.symm hne.2.2
        · exact Or.inr hx
    · rw [if_neg h1] at h
      by_cases h2 : (permission == kReadPermission) = true
      · rw [if_pos h2] at h
        rw [beq_iff_eq] at h2
        subst h2
        obtain ⟨ha, hb, hc⟩ := ih _ h
        simp only [List.mem_cons, ha, hb, hc]
        refine ⟨by simp, ?_, ?_⟩
        · have : kCopyToPermission ≠ kReadPermission := by decide
          simp [this]
        · have : kDeletePermission ≠ kReadPermission := by decide
          simp [this]
      · rw [if_neg h2] at h
        by_cases h3 : (permission == kCopyToPermission) = true
        · rw [if_pos h3] at h
          rw [beq_iff_eq] at h3
          subst h3
          obtain ⟨ha, hb, hc⟩ := ih _ h
          simp only [List.mem_cons, ha, hb, hc]
          refine ⟨?_, by simp, ?_⟩
          · have : kReadPermission ≠ kCopyToPermission := by decide
            simp [this]
          · have : kDeletePermission ≠ kCopyToPermission := by decide
            simp [this]
        · rw [if_neg h3] at h
          by_cases h4 : (permission == kDeletePermission) = true
          · rw [if_pos h4] at h
            rw [beq_iff_eq] at h4
            subst h4
            obtain ⟨ha, hb, hc⟩ := ih _ h
            simp only [List.mem_cons, ha, hb, hc]
            refine ⟨?_, ?_, by simp⟩
            · have : kReadPermission ≠ kDeletePermission := by decide
              simp [this]
            · have : kCopyToPermission ≠ kDeletePermission := by decide
              simp [this]
          · rw [if_neg h4] at h
            exact Option.noConfusion h

theorem IsValidPermissionSet_iff (has_read has_copy_to has_delete : Bool)
    (error : Option String) :
    (IsValidPermissionSet has_read has_copy_to has_delete error).1 = true ↔
      PrerequisitesHold has_read has_copy_to has_delete := by
  cases has_read <;> cases has_copy_to <;> cases has_delete <;>
    simp [IsValidPermissionSet, PrerequisitesHold]

/-- C23: `IsValidPermissionSet(has_read, has_copy_to, has_delete)` is true iff
(`has_copy_to` implies `has_read` and `has_delete`) and (`has_delete` implies `has_read`);
a copyTo set lacking read or delete gives the error "copyTo permission requires read and
delete permissions"; a delete set lacking read, the copyTo case being the one before,
gives "delete permission requires read permission"; a valid set leaves the error as it
was; and `MediaGalleriesPermission::FromValue` returns false on every parsed set that
violates the prerequisites. -/
theorem C23_media_gallery_prerequisites (has_read has_copy_to has_delete : Bool)
    (error : Option String) (parsed : SetDisjunctionPermissionFromValue)
    (unhandled_permissions : Option (List String)) :
    ((IsValidPermissionSet has_read has_copy_to has_delete error).1 = true ↔
      (has_copy_to = true → has_read = true ∧ has_delete = true) ∧
        (has_delete = true → has_read = true)) ∧
    (has_copy_to = true → ¬ (has_read = true ∧ has_delete = true) →
      (IsValidPermissionSet has_read has_copy_to has_delete error).2 =
        error.map fun _ => "copyTo permission requires read and delete permissions") ∧
    (has_copy_to = false → has_delete = true → has_read = false →
      (IsValidPermissionSet has_read has_copy_to has_delete error).2 =
        error.map fun _ => "delete permission requires read permission") ∧
    ((IsValidPermissionSet has_read has_copy_to has_delete error).1 = true →
      (IsValidPermissionSet has_read has_copy_to has_delete error).2 = error) ∧
    (¬ PrerequisitesHold (decide (kReadPermission ∈ parsed.data_set_))
        (decide (kCopyToPermission ∈ parsed.data_set_))
        (decide (kDeletePermission ∈ parsed.data_set_)) →
      (MediaGalleriesPermission.FromValue parsed unhandled_permissions).1 = false) := by
  refine ⟨IsValidPermissionSet_iff has_read has_copy_to has_delete error, ?_, ?_, ?_, ?_⟩
  · intro h1 h2
    cases has_read <;> cases has_delete <;> simp_all [IsValidPermissionSet]
  · intro h1 h2 h3
    simp [IsValidPermissionSet, h1, h2, h3]
  · cases has_read <;> cases has_copy_to <;> cases has_delete <;>
      simp [IsValidPermissionSet]
  · intro hviolated
    unfold MediaGalleriesPermission.FromValue
    cases hok : parsed.parsed_ok
    · rfl
    · simp only [Bool.not_true, Bool.false_eq_true, if_false]
      cases hloop : MediaGalleriesPermission.FromValue.loop parsed.data_set_
          { has_read := false, has_copy_to := false, has_delete := false } with
      | none => rfl
      | some flags =>
        obtain ⟨ha, hb, hc⟩ :=
          MediaGalleriesPermission.FromValue.loop_flags parsed.data_set_ _ flags hloop
        simp only [Bool.false_eq_true, false_or] at ha hb hc
        rw [Bool.eq_false_iff]
        intro hvalid
        apply hviolated
        have hpre := (IsValidPermissionSet_iff _ _ _ _).1 hvalid
        unfold PrerequisitesHold at hpre ⊢
        simp only [decide_eq_true_eq]
        rw [ha, hb, hc] at hpre
        exact hpre

/-- C23 at a concrete input: a parsed set with copyTo and delete but without read is
refused. -/
theorem C23_media_gallery_prerequisites_witness :
    (MediaGalleriesPermission.FromValue sampleParsedPermissions (some [])).1 = false :=
  (C23_media_gallery_prerequisites false true true none sampleParsedPermissions
    (some [])).2.2.2.2 (by
      intro h
      exact absurd (h.1 (by decide)).1 (by decide))

end extensions

/-! ## Properties of `std::string::find` -/

namespace std

theorem find.loop_ge (str s : List Char) (i j : Nat) (h : find.loop str s i = some j) :
    i ≤ j := by
  induction s generalizing i with
  | nil =>
    unfold find.loop at h
    split at h
    · simp only [Option.some.injEq] at h; omega
    · exact Option.noConfusion h
  | cons c s ih =>
    unfold find.loop at h
    split at h
    · simp only [Option.some.injEq] at h; omega
    · have := ih _ h; omega

theorem find.loop_start (str s : List Char) (i : Nat) :
    find.loop str s i = some i ↔ str.isPrefixOf s = true := by
  cases s with
  | nil =>
    unfold find.loop
    by_cases h : str.isPrefixOf [] = true
    · simp [h]
    · simp [h]
  | cons c s =>
    unfold find.loop
    by_cases h : str.isPrefixOf (c :: s) = true
    · simp [h]
    · simp only [h, if_false, Bool.false_eq_true, iff_false]
      intro h2
      have := find.loop_ge _ _ _ _ h2
      omega

theorem find.loop_shift (str s : List Char) (i : Nat) :
    find.loop str s i = (find.loop str s 0).map (· + i) := by
  induction s generalizing i with
  | nil =>
    unfold find.loop
    split <;> simp
  | cons c s ih =>
    unfold find.loop
    split
    · simp
    · rw [ih (i + 1), ih (0 + 1)]
      simp only [Option.map_map]
      congr 1
      funext x
      simp only [Function.comp]
      omega

theorem find.loop_char_none (c : Char) (s : List Char) (i : Nat) (h : c ∉ s) :
    find.loop [c] s i = none := by
  induction s generalizing i with
  | nil => simp [find.loop, List.isPrefixOf]
  | cons d s ih =>
    simp only [List.mem_cons, not_or] at h
    unfold find.loop
    have : List.isPrefixOf [c] (d :: s) = false := by
      simp [List.isPrefixOf, h.1]
    rw [this]
    simp only [Bool.false_eq_true, if_false]
    exact ih _ h.2

theorem find.loop_char_first (c : Char) (a b : List Char) (i : Nat) (h : c ∉ a) :
    find.loop [c] (a ++ c :: b) i = some (i + a.length) := by
  induction a generalizing i with
  | nil => simp [find.loop, List.isPrefixOf]
  | cons d a ih =>
    simp only [List.mem_cons, not_or] at h
    simp only [List.cons_append]
    unfold find.loop
    have : List.isPrefixOf [c] (d :: (a ++ c :: b)) = false := by
      simp [List.isPrefixOf, h.1]
    rw [this]
    simp only [Bool.false_eq_true, if_false]
    rw [ih _ h.2]
    simp only [List.length_cons, Option.some.injEq]
    omega

theorem find.loop_char_some (c : Char) (s : List Char) (i j : Nat)
    (h : find.loop [c] s i = some j) :
    ∃ a b, s = a ++ c :: b ∧ c ∉ a ∧ j = i + a.length := by
  induction s generalizing i with
  | nil => simp [find.loop, List.isPrefixOf] at h
  | cons d s ih =>
    unfold find.loop at h
    by_cases hd : c = d
    · subst hd
      simp only [List.isPrefixOf, beq_self_eq_true, Bool.and_self, if_true,
        Option.some.injEq] at h
      exact ⟨[], s, rfl, by simp, by simp [h]⟩
    · have : List.isPrefixOf [c] (d :: s) = false := by
        simp [List.isPrefixOf, hd]
      rw [this] at h
      simp only [Bool.false_eq_true, if_false] at h
      obtain ⟨a, b, hs, hna, hj⟩ := ih _ h
      refine ⟨d :: a, b, by simp [hs], ?_, ?_⟩
      · simp only [List.mem_cons, not_or]
        exact ⟨hd, hna⟩
      · simp only [List.length_cons]
        omega

theorem find_at_start (s str : List Char) :
    find s str 0 = some 0 ↔ str <+: s := by
  unfold find
  simp only [Nat.zero_le, if_true, List.drop_zero]
  rw [find.loop_start, List.isPrefixOf_iff_prefix]

theorem find_char_first (c : Char) (a b : List Char) (h : c ∉ a) :
    find (a ++ c :: b) [c] 0 = some a.length := by
  unfold find
  simp only [Nat.zero_le, if_true, List.drop_zero]
  rw [find.loop_char_first c a b 0 h]
  simp

theorem find_char_none (c : Char) (s : List Char) (pos : Nat) (h : c ∉ s) :
    find s [c] pos = none := by
  unfold find
  split
  · exact find.loop_char_none c _ pos (fun hm => h (List.mem_of_mem_drop hm))
  · rfl

theorem find_char_after (c : Char) (a b : List Char) :
    find (a ++ c :: b) [c] (a.length + 1) = (find b [c] 0).map (· + (a.length + 1)) := by
  unfold find
  have hle : a.length + 1 ≤ (a ++ c :: b).length := by
    simp only [List.length_append, List.length_cons]; omega
  have hdrop : (a ++ c :: b).drop (a.length + 1) = b := by
    rw [show a ++ c :: b = (a ++ [c]) ++ b by simp]
    rw [List.drop_left' (by simp)]
  rw [if_pos hle, hdrop]
  simp only [Nat.zero_le, if_true, List.drop_zero]
  exact find.loop_shift _ _ _

theorem find_char_some (c : Char) (s : List Char) (j : Nat) (h : find s [c] 0 = some j) :
    ∃ a b, s = a ++ c :: b ∧ c ∉ a ∧ j = a.length := by
  unfold find at h
  simp only [Nat.zero_le, if_true, List.drop_zero] at h
  obtain ⟨a, b, hs, hna, hj⟩ := find.loop_char_some c s 0 j h
  exact ⟨a, b, hs, hna, by omega⟩

end std

namespace media_router

/-! ## Properties of the route ids -/

theorem kRouteUrnPrefix_no_slash : '/' ∉ kRouteUrnPrefix := by decide

theorem not_mem_prefix_append (P : List Char) (hP : '/' ∉ P) :
    '/' ∉ kRouteUrnPrefix ++ P := by
  simp only [List.mem_append, not_or]
  exact ⟨kRouteUrnPrefix_no_slash, hP⟩

/-- What `GetPresentationIdAndUrl` returns on an id with the prefix whose first "/"
comes after `P`. -/
theorem GetPresentationIdAndUrl_first (P rest : List Char) (hP : '/' ∉ P) :
    GetPresentationIdAndUrl (kRouteUrnPrefix ++ (P ++ '/' :: rest)) =
      if P = [] then ([], [])
      else
        match std.find rest ['/'] 0 with
        | none => ([], [])
        | some sink_len =>
          if sink_len = 0 then ([], [])
          else if sink_len + 1 = rest.length then ([], [])
          else (P, rest.drop (sink_len + 1)) := by
  have h0 : std.find (kRouteUrnPrefix ++ (P ++ '/' :: rest)) kRouteUrnPrefix 0 = some 0 :=
    (std.find_at_start _ _).2 (List.prefix_append _ _)
  have hassoc : kRouteUrnPrefix ++ (P ++ '/' :: rest) = (kRouteUrnPrefix ++ P) ++ '/' :: rest := by
    simp
  have h1 : std.find (kRouteUrnPrefix ++ (P ++ '/' :: rest)) ['/'] 0 =
      some (kRouteUrnPrefix ++ P).length := by
    rw [hassoc]
    exact std.find_char_first _ _ _ (not_mem_prefix_append P hP)
  have h2 : std.find (kRouteUrnPrefix ++ (P ++ '/' :: rest)) ['/']
      ((kRouteUrnPrefix ++ P).length + 1) =
      (std.find rest ['/'] 0).map (· + ((kRouteUrnPrefix ++ P).length + 1)) := by
    rw [hassoc]
    exact std.find_char_after _ _ _
  unfold GetPresentationIdAndUrl
  simp only [h0, h1, h2, bne_self_eq_false, Bool.false_eq_true, if_false]
  by_cases hPe : P = []
  · subst hPe
    simp
  · have hlen : 0 < P.length := List.length_pos.2 hPe
    have hne : ((kRouteUrnPrefix ++ P).length == kRouteUrnPrefix.length) = false := by
      simp only [List.length_append, beq_eq_false_iff_ne, ne_eq]
      omega
    simp only [hne, Bool.false_eq_true, if_false, hPe]
    cases hf : std.find rest ['/'] 0 with
    | none => rfl
    | some sink_len =>
      simp only [Option.map_some']
      by_cases hz : sink_len = 0
      · subst hz
        simp
      · have hne2 : (sink_len + ((kRouteUrnPrefix ++ P).length + 1) ==
            (kRouteUrnPrefix ++ P).length + 1) = false := by
          simp only [beq_eq_false_iff_ne, ne_eq]
          omega
        simp only [hne2, Bool.false_eq_true, if_false, hz]
        by_cases hl : sink_len + 1 = rest.length
        · have : (sink_len + ((kRouteUrnPrefix ++ P).length + 1) ==
              (kRouteUrnPrefix ++ (P ++ '/' :: rest)).length - 1) = true := by
            simp only [List.length_append, List.length_cons, beq_iff_eq]
            omega
          simp only [this, if_true, hl]
        · have : (sink_len + ((kRouteUrnPrefix ++ P).length + 1) ==
              (kRouteUrnPrefix ++ (P ++ '/' :: rest)).length - 1) = false := by
            simp only [List.length_append, List.length_cons, beq_eq_false_iff_ne, ne_eq]
            omega
          simp only [this, Bool.false_eq_true, if_false, hl]
          have hsub1 : std.substr (kRouteUrnPrefix ++ (P ++ '/' :: rest))
              kRouteUrnPrefix.length
              (some ((kRouteUrnPrefix ++ P).length - kRouteUrnPrefix.length)) = P := by
            unfold std.substr
            simp only [List.drop_left, List.length_append, Nat.add_sub_cancel_left]
            rw [List.take_left]
          have hsub2 : std.substr (kRouteUrnPrefix ++ (P ++ '/' :: rest))
              (sink_len + ((kRouteUrnPrefix ++ P).length + 1) + 1) none =
              rest.drop (sink_len + 1) := by
            unfold std.substr
            rw [show kRouteUrnPrefix ++ (P ++ '/' :: rest) =
              (kRouteUrnPrefix ++ P ++ ['/']) ++ rest by simp]
            rw [show sink_len + ((kRouteUrnPrefix ++ P).length + 1) + 1 =
              (kRouteUrnPrefix ++ P ++ ['/']).length + (sink_len + 1) by
                simp only [List.length_append, List.length_singleton]; omega]
            rw [List.drop_append]
          rw [hsub1, hsub2]

theorem exists_first_split (c : Char) (s : List Char) (h : c ∈ s) :
    ∃ a b, s = a ++ c :: b ∧ c ∉ a := by
  induction s with
  | nil => simp at h
  | cons d s ih =>
    by_cases hd : c = d
    · exact ⟨[], s, by simp [hd], by simp⟩
    · simp only [List.mem_cons, hd, false_or] at h
      obtain ⟨a, b, hs, hna⟩ := ih h
      exact ⟨d :: a, b, by simp [hs], by simp [hd, hna]⟩

theorem GetPresentationIdAndUrl_other_start (id : List Char) (h : ¬ kRouteUrnPrefix <+: id) :
    GetPresentationIdAndUrl id = ([], []) := by
  unfold GetPresentationIdAndUrl
  have : (std.find id kRouteUrnPrefix 0 != some 0) = true := by
    simp only [bne_iff_ne, ne_eq]
    exact fun hf => h ((std.find_at_start _ _).1 hf)
  rw [if_pos this]

theorem GetPresentationIdAndUrl_no_slash (id : List Char) (h : '/' ∉ id) :
    GetPresentationIdAndUrl id = ([], []) := by
  unfold GetPresentationIdAndUrl
  rw [std.find_char_none '/' id 0 h]
  split <;> rfl

theorem GetPresentationIdAndUrl_well_formed (id P S U : List Char)
    (h : WellFormedRouteId id P S U) : GetPresentationIdAndUrl id = (P, U) := by
  obtain ⟨hid, hP, hPs, hS, hSs, hU⟩ := h
  rw [hid, GetPresentationIdAndUrl_first P _ hPs, if_neg hP, std.find_char_first _ _ _ hSs]
  have h1 : ¬ S.length = 0 := fun h0 => hS (List.length_eq_zero.1 h0)
  have h2 : ¬ S.length + 1 = (S ++ '/' :: U).length := by
    have := List.length_pos.2 hU
    simp only [List.length_append, List.length_cons]
    omega
  simp only [h1, h2, if_false]
  rw [show S ++ '/' :: U = (S ++ ['/']) ++ U by simp,
    List.drop_left' (by simp)]

theorem GetPresentationIdAndUrl_otherwise (id : List Char)
    (h : ¬ ∃ P S U, WellFormedRouteId id P S U) :
    GetPresentationIdAndUrl id = ([], []) := by
  by_cases hpre : kRouteUrnPrefix <+: id
  · obtain ⟨r, hr⟩ := hpre
    by_cases hslash : '/' ∈ r
    · obtain ⟨P, rest, hsplit, hPs⟩ := exists_first_split '/' r hslash
      have hid : id = kRouteUrnPrefix ++ (P ++ '/' :: rest) := by rw [← hr, hsplit]
      rw [hid, GetPresentationIdAndUrl_first P rest hPs]
      by_cases hP : P = []
      · rw [if_pos hP]
      · rw [if_neg hP]
        cases hf : std.find rest ['/'] 0 with
        | none => rfl
        | some sink_len =>
          obtain ⟨S, U, hrest, hSs, hlen⟩ := std.find_char_some _ _ _ hf
          by_cases h1 : sink_len = 0
          · simp only [h1, if_true]
          · by_cases h2 : sink_len + 1 = rest.length
            · simp only [h1, h2, if_true, if_false]
            · exfalso
              apply h
              refine ⟨P, S, U, by rw [hid, hrest], hP, hPs, ?_, hSs, ?_⟩
              · intro hS
                apply h1
                rw [hlen, hS]
                rfl
              · intro hU
                apply h2
                rw [hlen, hrest, hU]
                simp
    · apply GetPresentationIdAndUrl_no_slash
      rw [← hr]
      exact not_mem_prefix_append r hslash
  · exact GetPresentationIdAndUrl_other_start id hpre

/-- C24: for every id equal to "urn:x-org.chromium:media:route:" + P + "/" + S + "/" + U
with P and S non-empty and without "/" and U non-empty, `GetPresentationIdAndUrl` returns
the pair (P, U); for every id that lacks the prefix, or has an empty presentation id, an
empty sink, an empty source, or no source or no sink at all, and indeed for every id that
is not of the format, it returns a pair of empty strings. -/
theorem C24_GetPresentationIdAndUrl (id P S U rest : List Char) :
    (WellFormedRouteId id P S U → GetPresentationIdAndUrl id = (P, U)) ∧
    (¬ kRouteUrnPrefix <+: id → GetPresentationIdAndUrl id = ([], [])) ∧
    (id = kRouteUrnPrefix ++ '/' :: rest → GetPresentationIdAndUrl id = ([], [])) ∧
    ('/' ∉ P → id = kRouteUrnPrefix ++ (P ++ '/' :: '/' :: rest) →
      GetPresentationIdAndUrl id = ([], [])) ∧
    ('/' ∉ P → '/' ∉ S → id = kRouteUrnPrefix ++ (P ++ '/' :: (S ++ ['/'])) →
      GetPresentationIdAndUrl id = ([], [])) ∧
    ('/' ∉ P → '/' ∉ S → id = kRouteUrnPrefix ++ (P ++ '/' :: S) →
      GetPresentationIdAndUrl id = ([], [])) ∧
    ('/' ∉ P → id = kRouteUrnPrefix ++ P → GetPresentationIdAndUrl id = ([], [])) ∧
    ((¬ ∃ P' S' U', WellFormedRouteId id P' S' U') →
      GetPresentationIdAndUrl id = ([], [])) := by
  refine ⟨GetPresentationIdAndUrl_well_formed id P S U,
    GetPresentationIdAndUrl_other_start id, ?_, ?_, ?_, ?_, ?_,
    GetPresentationIdAndUrl_otherwise id⟩
  · intro hid
    have := GetPresentationIdAndUrl_first [] rest (by simp)
    simp only [List.nil_append, if_true] at this
    rw [hid, this]
  · intro hPs hid
    rw [hid, GetPresentationIdAndUrl_first P _ hPs]
    have hf : std.find ('/' :: rest) ['/'] 0 = some 0 :=
      std.find_char_first '/' [] rest (by simp)
    rw [hf]
    split <;> simp
  · intro hPs hSs hid
    rw [hid, GetPresentationIdAndUrl_first P _ hPs]
    have hf : std.find (S ++ ['/']) ['/'] 0 = some S.length :=
      std.find_char_first '/' S [] hSs
    rw [hf]
    split
    · rfl
    · simp
  · intro hPs hSs hid
    rw [hid, GetPresentationIdAndUrl_first P _ hPs, std.find_char_none '/' S 0 hSs]
    split <;> rfl
  · intro hPs hid
    apply GetPresentationIdAndUrl_no_slash
    rw [hid]
    exact not_mem_prefix_append P hPs

/-- C24 at a concrete input: the presentation id and the source of a route id. -/
theorem C24_GetPresentationIdAndUrl_witness :
    GetPresentationIdAndUrl sampleRouteId = ("pid".toList, "http://a.com/b".toList) :=
  (C24_GetPresentationIdAndUrl sampleRouteId "pid".toList "cast-sink1".toList
    "http://a.com/b".toList []).1
    ⟨by decide, by decide, by decide, by decide, by decide, by decide⟩

end media_router

namespace spellcheck

/-! ## Properties of the apostrophes of a suggestion -/

theorem ReplaceApostrophes_nil (s : List char16) : ReplaceApostrophes [] s = s := by
  cases s <;> rfl

theorem ReplaceApostrophes_none (A s : List char16) (h : ∀ x ∈ s, IsApostrophe x = false) :
    ReplaceApostrophes A s = s := by
  induction s with
  | nil => cases A <;> rfl
  | cons c s ih =>
    cases A with
    | nil => rfl
    | cons a A =>
      simp only [ReplaceApostrophes, h c (List.mem_cons_self _ _), Bool.false_eq_true,
        if_false]
      rw [ih (fun x hx => h x (List.mem_cons_of_mem _ hx))]

theorem ReplaceApostrophes_first (a x : char16) (A pre post : List char16)
    (hpre : ∀ y ∈ pre, IsApostrophe y = false) (hx : IsApostrophe x = true) :
    ReplaceApostrophes (a :: A) (pre ++ x :: post) = pre ++ a :: ReplaceApostrophes A post := by
  induction pre with
  | nil =>
    simp only [List.nil_append, ReplaceApostrophes, hx, if_true]
  | cons c pre ih =>
    simp only [List.cons_append, ReplaceApostrophes, hpre c (List.mem_cons_self _ _),
      Bool.false_eq_true, if_false]
    exact congrArg (c :: ·) (ih (fun y hy => hpre y (List.mem_cons_of_mem _ hy)))

theorem find_if.loop_finds (d : List char16) (it : Nat) :
    (find_if.loop d it = it + d.length ∧ ∀ x ∈ d, IsApostrophe x = false) ∨
    ∃ pre x post, d = pre ++ x :: post ∧ IsApostrophe x = true ∧
      (∀ y ∈ pre, IsApostrophe y = false) ∧ find_if.loop d it = it + pre.length := by
  induction d generalizing it with
  | nil => left; simp [find_if.loop]
  | cons c d ih =>
    unfold find_if.loop
    by_cases hc : IsApostrophe c = true
    · right
      exact ⟨[], c, d, rfl, hc, by simp, by simp [hc]⟩
    · rw [if_neg hc]
      rcases ih (it + 1) with ⟨h1, h2⟩ | ⟨pre, x, post, h1, h2, h3, h4⟩
      · left
        refine ⟨by rw [h1, List.length_cons]; omega, ?_⟩
        intro x hx
        rcases List.mem_cons.1 hx with hx | hx
        · rw [hx]; simpa using hc
        · exact h2 x hx
      · right
        refine ⟨c :: pre, x, post, by rw [h1]; rfl, h2, ?_, by rw [h4, List.length_cons]; omega⟩
        intro y hy
        rcases List.mem_cons.1 hy with hy | hy
        · rw [hy]; simpa using hc
        · exact h3 y hy

theorem PreserveOriginalApostropheTypes.loop_replaces (misspelled_word t d : List char16) :
    PreserveOriginalApostropheTypes.loop misspelled_word t.length (t ++ d) =
      t ++ ReplaceApostrophes (misspelled_word.filter IsApostrophe) d := by
  induction misspelled_word generalizing t d with
  | nil => simp [PreserveOriginalApostropheTypes.loop, ReplaceApostrophes_nil]
  | cons c rest ih =>
    unfold PreserveOriginalApostropheTypes.loop
    by_cases hc : IsApostrophe c = true
    · rw [if_pos hc, List.filter_cons_of_pos hc]
      have hfind : find_if (t ++ d) t.length = find_if.loop d t.length := by
        unfold find_if
        rw [List.drop_left]
      simp only [hfind]
      rcases find_if.loop_finds d t.length with ⟨h1, h2⟩ | ⟨pre, x, post, h1, h2, h3, h4⟩
      · rw [h1, ReplaceApostrophes_none _ _ h2]
        simp
      · have hne : (find_if.loop d t.length == (t ++ d).length) = false := by
          rw [h4, h1]
          simp only [List.length_append, List.length_cons, beq_eq_false_iff_ne, ne_eq]
          omega
        rw [hne]
        simp only [Bool.false_eq_true, if_false]
        rw [h4, h1, ReplaceApostrophes_first c x _ pre post h3 h2]
        have hset : (t ++ (pre ++ x :: post)).set (t.length + pre.length) c =
            (t ++ pre ++ [c]) ++ post := by
          rw [show t ++ (pre ++ x :: post) = (t ++ pre) ++ x :: post by simp]
          rw [show t.length + pre.length = (t ++ pre).length by simp]
          rw [List.set_append_right _ _ (le_refl _)]
          simp
        rw [hset]
        have hlen : t.length + pre.length + 1 = (t ++ pre ++ [c]).length := by
          simp only [List.length_append, List.length_singleton]
        rw [hlen, ih (t ++ pre ++ [c]) post]
        simp
    · rw [if_neg hc, List.filter_cons_of_neg hc]
      exact ih t d

theorem PreserveOriginalApostropheTypes_eq (misspelled_word spelling_suggestion : List char16) :
    PreserveOriginalApostropheTypes misspelled_word spelling_suggestion =
      ReplaceApostrophes (misspelled_word.filter IsApostrophe) spelling_suggestion :=
  PreserveOriginalApostropheTypes.loop_replaces misspelled_word [] spelling_suggestion

theorem ReplaceApostrophes_length (A s : List char16) :
    (ReplaceApostrophes A s).length = s.length := by
  induction s generalizing A with
  | nil => cases A <;> rfl
  | cons c s ih =>
    cases A with
    | nil => rfl
    | cons a A =>
      simp only [ReplaceApostrophes]
      split <;> simp [ih]

theorem ReplaceApostrophes_kept (A s : List char16) (i : Nat) (c : char16)
    (hi : s[i]? = some c) (hc : IsApostrophe c = false) :
    (ReplaceApostrophes A s)[i]? = some c := by
  induction s generalizing A i with
  | nil => simp at hi
  | cons d s ih =>
    cases A with
    | nil => exact hi
    | cons a A =>
      simp only [ReplaceApostrophes]
      cases i with
      | zero =>
        simp only [List.getElem?_cons_zero, Option.some.injEq] at hi
        subst hi
        simp [hc]
      | succ i =>
        simp only [List.getElem?_cons_succ] at hi
        split
        · simp only [List.getElem?_cons_succ]
          exact ih A i hi
        · simp only [List.getElem?_cons_succ]
          exact ih (a :: A) i hi

theorem ReplaceApostrophes_positions (A s : List char16)
    (hA : ∀ a ∈ A, IsApostrophe a = true) :
    (ReplaceApostrophes A s).map IsApostrophe = s.map IsApostrophe := by
  induction s generalizing A with
  | nil => cases A <;> rfl
  | cons d s ih =>
    cases A with
    | nil => rfl
    | cons a A =>
      simp only [ReplaceApostrophes]
      by_cases hd : IsApostrophe d = true
      · simp only [hd, if_true, List.map_cons, hA a (List.mem_cons_self _ _)]
        rw [ih A (fun x hx => hA x (List.mem_cons_of_mem _ hx))]
      · have hd' : IsApostrophe d = false := by simpa using hd
        simp only [hd', Bool.false_eq_true, if_false, List.map_cons]
        rw [ih (a :: A) hA]

theorem ReplaceApostrophes_filter (A s : List char16)
    (hA : ∀ a ∈ A, IsApostrophe a = true) :
    (ReplaceApostrophes A s).filter IsApostrophe =
      A.take (s.filter IsApostrophe).length ++ (s.filter IsApostrophe).drop A.length := by
  induction s generalizing A with
  | nil => cases A <;> simp [ReplaceApostrophes]
  | cons d s ih =>
    cases A with
    | nil => simp [ReplaceApostrophes]
    | cons a A =>
      simp only [ReplaceApostrophes]
      by_cases hd : IsApostrophe d = true
      · simp only [hd, if_true, List.filter_cons_of_pos hd,
          List.filter_cons_of_pos (hA a (List.mem_cons_self _ _)), List.length_cons,
          List.take_succ_cons, List.drop_succ_cons, List.cons_append]
        rw [ih A (fun x hx => hA x (List.mem_cons_of_mem _ hx))]
      · have hd' : IsApostrophe d = false := by simpa using hd
        simp only [hd', Bool.false_eq_true, if_false, List.filter_cons_of_neg hd]
        rw [ih (a :: A) hA]

theorem take_append_drop_getElem?_lt (X Y : List char16) (k : Nat)
    (hX : k < X.length) (hY : k < Y.length) :
    (X.take Y.length ++ Y.drop X.length)[k]? = X[k]? := by
  rw [List.getElem?_append_left (by rw [List.length_take]; omega)]
  rw [List.getElem?_take_of_lt hY]

theorem take_append_drop_getElem?_ge (X Y : List char16) (k : Nat) (hX : X.length ≤ k) :
    (X.take Y.length ++ Y.drop X.length)[k]? = Y[k]? := by
  by_cases hle : X.length ≤ Y.length
  · rw [List.take_of_length_le hle, List.getElem?_append_right hX, List.getElem?_drop]
    congr 1
    omega
  · have h1 : Y.drop X.length = [] := List.drop_eq_nil_of_le (by omega)
    rw [h1, List.append_nil, List.getElem?_eq_none (by rw [List.length_take]; omega),
      List.getElem?_eq_none (by omega)]

/-- C28: `PreserveOriginalApostropheTypes(misspelled_word, suggestion)` keeps the length
of the suggestion, every character of it that is no apostrophe and the positions of its
apostrophes; for each k smaller than both apostrophe counts the k-th apostrophe of the
result is the k-th apostrophe of the misspelled word, and from the apostrophe count of
the misspelled word on the apostrophes of the result are those of the suggestion. -/
theorem C28_PreserveOriginalApostropheTypes (misspelled_word spelling_suggestion : List char16) :
    (PreserveOriginalApostropheTypes misspelled_word spelling_suggestion).length =
      spelling_suggestion.length ∧
    (∀ (i : Nat) (c : char16), spelling_suggestion[i]? = some c → IsApostrophe c = false →
      (PreserveOriginalApostropheTypes misspelled_word spelling_suggestion)[i]? = some c) ∧
    (PreserveOriginalApostropheTypes misspelled_word spelling_suggestion).map IsApostrophe =
      spelling_suggestion.map IsApostrophe ∧
    (∀ k : Nat, k < (misspelled_word.filter IsApostrophe).length →
      k < (spelling_suggestion.filter IsApostrophe).length →
      ((PreserveOriginalApostropheTypes misspelled_word spelling_suggestion).filter
        IsApostrophe)[k]? = (misspelled_word.filter IsApostrophe)[k]?) ∧
    (∀ k : Nat, (misspelled_word.filter IsApostrophe).length ≤ k →
      ((PreserveOriginalApostropheTypes misspelled_word spelling_suggestion).filter
        IsApostrophe)[k]? = (spelling_suggestion.filter IsApostrophe)[k]?) := by
  have hA : ∀ a ∈ misspelled_word.filter IsApostrophe, IsApostrophe a = true :=
    fun a ha => (List.mem_filter.1 ha).2
  rw [PreserveOriginalApostropheTypes_eq]
  refine ⟨ReplaceApostrophes_length _ _,
    fun i c h1 h2 => ReplaceApostrophes_kept _ spelling_suggestion i c h1 h2,
    ReplaceApostrophes_positions _ _ hA, ?_, ?_⟩
  · intro k h1 h2
    rw [ReplaceApostrophes_filter _ _ hA]
    exact take_append_drop_getElem?_lt _ _ k h1 h2
  · intro k h1
    rw [ReplaceApostrophes_filter _ _ hA]
    exact take_append_drop_getElem?_ge _ _ k h1

/-- C28 at a concrete input: the first two apostrophes of "d'on't're" become
typographical ones, as in the misspelled word, and the third stays. -/
theorem C28_PreserveOriginalApostropheTypes_witness :
    PreserveOriginalApostropheTypes sampleMisspelledWord sampleSuggestion =
      [0x64, 0x2019, 0x6f, 0x6e, 0x2019, 0x74, 0x27, 0x72, 0x65] ∧
    ((PreserveOriginalApostropheTypes sampleMisspelledWord sampleSuggestion).filter
      IsApostrophe)[1]? = (sampleMisspelledWord.filter IsApostrophe)[1]? :=
  ⟨by decide,
    (C28_PreserveOriginalApostropheTypes sampleMisspelledWord sampleSuggestion).2.2.2.1 1
      (by decide) (by decide)⟩

end spellcheck

namespace precache

/-! ## Properties of the precache fetcher -/

end precache

/-! ## Properties of the content security policy sanitizer -/

namespace base

/-- Every part preceded by the separator. -/
theorem JoinString_eq_tail (parts : List (List Char)) (separator : Char) :
    JoinString parts separator = (parts.flatMap fun part => separator :: part).tail := by
  induction parts with
  | nil => rfl
  | cons part rest ih =>
    cases rest with
    | nil => simp [JoinString]
    | cons next rest =>
      show part ++ separator :: JoinString (next :: rest) separator = _
      rw [ih]
      simp

theorem JoinString_cons (part : List Char) (rest : List (List Char)) (separator : Char) :
    JoinString (part :: rest) separator =
      part ++ rest.flatMap fun next => separator :: next := by
  rw [JoinString_eq_tail]
  simp

end base

namespace extensions

namespace csp_validator

theorem GetSecureDirectiveValues.loop_appends (env : RegistryEnvironment) (options : Nat)
    (tokenizer sane_csp_parts : List (List Char)) :
    GetSecureDirectiveValues.loop env options tokenizer sane_csp_parts =
      sane_csp_parts ++ SecureSources env options tokenizer := by
  induction tokenizer generalizing sane_csp_parts with
  | nil => simp [GetSecureDirectiveValues.loop, SecureSources]
  | cons token rest ih =>
    unfold GetSecureDirectiveValues.loop
    by_cases h : IsSecureCspToken env options (base.StringToLowerASCII token) = true
    · simp only [h, if_true]
      rw [ih]
      simp [SecureSources, List.filter_cons, h]
    · simp only [h, if_false, Bool.false_eq_true]
      rw [ih]
      simp [SecureSources, List.filter_cons, h]

theorem PushBackToBack_append (parts group : List (List Char)) (back : List Char) (c : Char) :
    PushBackToBack (parts ++ (group ++ [back])) c = parts ++ (group ++ [back ++ [c]]) := by
  unfold PushBackToBack
  rw [← List.append_assoc, List.getLast?_append, List.getLast?_singleton]
  simp

theorem GetSecureDirectiveValues_eq (env : RegistryEnvironment) (directive_name : List Char)
    (tokenizer : List (List Char)) (options : Nat) (sane_csp_parts : List (List Char)) :
    GetSecureDirectiveValues env directive_name tokenizer options sane_csp_parts =
      sane_csp_parts ++ DirectiveParts env options directive_name tokenizer := by
  unfold GetSecureDirectiveValues DirectiveParts
  simp only [GetSecureDirectiveValues.loop_appends]
  have hsplit : sane_csp_parts ++ [directive_name] ++ SecureSources env options tokenizer =
      sane_csp_parts ++ ((directive_name :: SecureSources env options tokenizer).dropLast ++
        [(directive_name :: SecureSources env options tokenizer).getLast (by simp)]) := by
    rw [List.dropLast_append_getLast]
    simp
  rw [hsplit, PushBackToBack_append]

theorem FlatParts_append (a b : List (List Char)) :
    FlatParts (a ++ b) = FlatParts a ++ FlatParts b := by
  simp [FlatParts]

theorem FlatDirectives_append (a b : List (List Char)) :
    FlatDirectives (a ++ b) = FlatDirectives a ++ FlatDirectives b := by
  simp [FlatDirectives]

theorem FlatParts_DirectiveParts (env : RegistryEnvironment) (options : Nat)
    (directive_name : List Char) (tokenizer : List (List Char)) :
    FlatParts (DirectiveParts env options directive_name tokenizer) =
      FlatDirectives [base.JoinString
        (directive_name :: SecureSources env options tokenizer) ' '] := by
  have h : FlatParts (DirectiveParts env options directive_name tokenizer) =
      FlatParts (directive_name :: SecureSources env options tokenizer) ++ [';'] := by
    conv_rhs => rw [← List.dropLast_append_getLast
      (List.cons_ne_nil directive_name (SecureSources env options tokenizer))]
    unfold DirectiveParts
    simp [FlatParts]
  rw [h, base.JoinString_cons]
  simp [FlatParts, FlatDirectives]

theorem UpdateStatus_eq (env : RegistryEnvironment) (directive_name : List Char)
    (tokenizer : List (List Char)) (status : DirectiveStatus) (options : Nat)
    (sane_csp_parts : List (List Char)) (h : directive_name = status.directive_name) :
    UpdateStatus env directive_name tokenizer status options sane_csp_parts =
      (true, { directive_name := status.directive_name, seen_in_policy := true },
        sane_csp_parts ++ DirectiveParts env options directive_name tokenizer) := by
  unfold UpdateStatus
  have h1 : (directive_name != status.directive_name) = false := by simp [h]
  rw [h1]
  simp only [Bool.false_eq_true, if_false, GetSecureDirectiveValues_eq]
  cases hs : status.seen_in_policy
  · simp
  · simp only [Bool.not_true, Bool.false_eq_true, if_false]
    cases status
    simp_all

theorem UpdateStatus_ne (env : RegistryEnvironment) (directive_name : List Char)
    (tokenizer : List (List Char)) (status : DirectiveStatus) (options : Nat)
    (sane_csp_parts : List (List Char)) (h : directive_name ≠ status.directive_name) :
    UpdateStatus env directive_name tokenizer status options sane_csp_parts =
      (false, status, sane_csp_parts) := by
  unfold UpdateStatus
  have h1 : (directive_name != status.directive_name) = true := by simp [h]
  rw [h1]
  simp

theorem DirectiveNames_cons_nil (input : List Char) (rest : List (List Char))
    (h : base.StringTokenizer input kTokenDelimiters = []) :
    DirectiveNames (input :: rest) = DirectiveNames rest := by
  simp [DirectiveNames, List.filterMap_cons, h]

theorem DirectiveNames_cons_token (input token : List Char) (tokenizer rest : List (List Char))
    (h : base.StringTokenizer input kTokenDelimiters = token :: tokenizer) :
    DirectiveNames (input :: rest) = base.StringToLowerASCII token :: DirectiveNames rest := by
  simp [DirectiveNames, List.filterMap_cons, h]

theorem kDefaultSrc_ne_kScriptSrc : kDefaultSrc ≠ kScriptSrc := by decide

theorem kDefaultSrc_ne_kObjectSrc : kDefaultSrc ≠ kObjectSrc := by decide

theorem kScriptSrc_ne_kObjectSrc : kScriptSrc ≠ kObjectSrc := by decide

/-- The state after the loop of `SanitizeContentSecurityPolicy`. -/
theorem SanitizeContentSecurityPolicy.loop_state (env : RegistryEnvironment) (options : Nat)
    (allow : Bool) (directives : List (List Char)) :
    ∀ state : SanitizeState,
      state.default_src_status.directive_name = kDefaultSrc →
      state.script_src_status.directive_name = kScriptSrc →
      state.object_src_status.directive_name = kObjectSrc →
      (SanitizeContentSecurityPolicy.loop env options allow directives
          state).default_src_status.seen_in_policy =
        (state.default_src_status.seen_in_policy ||
          decide (kDefaultSrc ∈ DirectiveNames directives)) ∧
      (SanitizeContentSecurityPolicy.loop env options allow directives
          state).script_src_status.seen_in_policy =
        (state.script_src_status.seen_in_policy ||
          decide (kScriptSrc ∈ DirectiveNames directives)) ∧
      (SanitizeContentSecurityPolicy.loop env options allow directives
          state).object_src_status.seen_in_policy =
        (state.object_src_status.seen_in_policy ||
          (!allow && decide (kObjectSrc ∈ DirectiveNames directives))) ∧
      FlatParts (SanitizeContentSecurityPolicy.loop env options allow directives
          state).sane_csp_parts =
        FlatParts state.sane_csp_parts ++
          FlatDirectives (directives.filterMap (SanitizedDirective env options allow)) := by
  induction directives with
  | nil =>
    intro state _ _ _
    simp [SanitizeContentSecurityPolicy.loop, DirectiveNames, FlatDirectives]
  | cons input rest ih =>
    intro state hd hs ho
    cases htok : base.StringTokenizer input kTokenDelimiters with
    | nil =>
      have hloop : SanitizeContentSecurityPolicy.loop env options allow (input :: rest) state =
          SanitizeContentSecurityPolicy.loop env options allow rest state := by
        rw [SanitizeContentSecurityPolicy.loop]
        simp only [htok]
      have hsd : SanitizedDirective env options allow input = none := by
        simp [SanitizedDirective, htok]
      rw [hloop, DirectiveNames_cons_nil input rest htok, List.filterMap_cons_none hsd]
      exact ih state hd hs ho
    | cons token tokenizer =>
      rw [DirectiveNames_cons_token input token tokenizer rest htok]
      by_cases h1 : base.StringToLowerASCII token = kDefaultSrc
      · have hloop : SanitizeContentSecurityPolicy.loop env options allow (input :: rest)
            state =
            SanitizeContentSecurityPolicy.loop env options allow rest
              { state with
                default_src_status := { directive_name := kDefaultSrc, seen_in_policy := true }
                sane_csp_parts := state.sane_csp_parts ++
                  DirectiveParts env options kDefaultSrc tokenizer } := by
          rw [SanitizeContentSecurityPolicy.loop]
          simp only [htok]
          rw [UpdateStatus_eq env _ tokenizer state.default_src_status options _ (by rw [h1, hd])]
          simp only [if_true, hd, h1]
        have hsd : SanitizedDirective env options allow input =
            some (base.JoinString (kDefaultSrc :: SecureSources env options tokenizer) ' ') := by
          simp [SanitizedDirective, htok, h1, IsCheckedDirective]
        rw [hloop, List.filterMap_cons_some hsd]
        obtain ⟨i1, i2, i3, i4⟩ := ih
          { state with
            default_src_status := { directive_name := kDefaultSrc, seen_in_policy := true }
            sane_csp_parts := state.sane_csp_parts ++
              DirectiveParts env options kDefaultSrc tokenizer } rfl hs ho
        refine ⟨?_, ?_, ?_, ?_⟩
        · rw [i1]; simp [h1]
        · rw [i2]
          simp [h1, kDefaultSrc_ne_kScriptSrc.symm]
        · rw [i3]
          simp [h1, kDefaultSrc_ne_kObjectSrc.symm]
        · rw [i4]
          simp only [FlatParts_append, FlatParts_DirectiveParts, List.append_assoc]
          rw [← FlatDirectives_append]
          rfl
      · by_cases h2 : base.StringToLowerASCII token = kScriptSrc
        · have hloop : SanitizeContentSecurityPolicy.loop env options allow (input :: rest)
              state =
              SanitizeContentSecurityPolicy.loop env options allow rest
                { state with
                  script_src_status := { directive_name := kScriptSrc, seen_in_policy := true }
                  sane_csp_parts := state.sane_csp_parts ++
                    DirectiveParts env options kScriptSrc tokenizer } := by
            rw [SanitizeContentSecurityPolicy.loop]
            simp only [htok]
            rw [UpdateStatus_ne env _ tokenizer state.default_src_status options _
              (by rw [hd]; exact h1)]
            rw [UpdateStatus_eq env _ tokenizer state.script_src_status options _
              (by rw [h2, hs])]
            simp only [if_true, hs, h2, Bool.false_eq_true, if_false]
          have hsd : SanitizedDirective env options allow input =
              some (base.JoinString (kScriptSrc :: SecureSources env options tokenizer) ' ') := by
            simp [SanitizedDirective, htok, h2, IsCheckedDirective]
          rw [hloop, List.filterMap_cons_some hsd]
          obtain ⟨i1, i2, i3, i4⟩ := ih
            { state with
              script_src_status := { directive_name := kScriptSrc, seen_in_policy := true }
              sane_csp_parts := state.sane_csp_parts ++
                DirectiveParts env options kScriptSrc tokenizer } hd rfl ho
          refine ⟨?_, ?_, ?_, ?_⟩
          · rw [i1]
            simp [h2, kDefaultSrc_ne_kScriptSrc]
          · rw [i2]; simp [h2]
          · rw [i3]
            simp [h2, kScriptSrc_ne_kObjectSrc.symm]
          · rw [i4]
            simp only [FlatParts_append, FlatParts_DirectiveParts, List.append_assoc]
            rw [← FlatDirectives_append]
            rfl
        · by_cases h3 : allow = false ∧ base.StringToLowerASCII token = kObjectSrc
          · obtain ⟨ha, h3⟩ := h3
            have hloop : SanitizeContentSecurityPolicy.loop env options allow (input :: rest)
                state =
                SanitizeContentSecurityPolicy.loop env options allow rest
                  { state with
                    object_src_status :=
                      { directive_name := kObjectSrc, seen_in_policy := true }
                    sane_csp_parts := state.sane_csp_parts ++
                      DirectiveParts env options kObjectSrc tokenizer } := by
              rw [SanitizeContentSecurityPolicy.loop]
              simp only [htok]
              rw [UpdateStatus_ne env _ tokenizer state.default_src_status options _
                (by rw [hd]; exact h1)]
              rw [UpdateStatus_ne env _ tokenizer state.script_src_status options _
                (by rw [hs]; exact h2)]
              rw [UpdateStatus_eq env _ tokenizer state.object_src_status options _
                (by rw [h3, ho])]
              simp only [if_true, ho, h3, ha, Bool.false_eq_true, if_false, Bool.not_false,
                Bool.and_self]
            have hsd : SanitizedDirective env options allow input =
                some (base.JoinString
                  (kObjectSrc :: SecureSources env options tokenizer) ' ') := by
              simp [SanitizedDirective, htok, h3, ha, IsCheckedDirective]
            rw [hloop, List.filterMap_cons_some hsd]
            obtain ⟨i1, i2, i3, i4⟩ := ih
              { state with
                object_src_status := { directive_name := kObjectSrc, seen_in_policy := true }
                sane_csp_parts := state.sane_csp_parts ++
                  DirectiveParts env options kObjectSrc tokenizer } hd hs rfl
            refine ⟨?_, ?_, ?_, ?_⟩
            · rw [i1]
              simp [h3, kDefaultSrc_ne_kObjectSrc]
            · rw [i2]
              simp [h3, kScriptSrc_ne_kObjectSrc]
            · rw [i3]; simp [h3, ha]
            · rw [i4]
              simp only [FlatParts_append, FlatParts_DirectiveParts, List.append_assoc]
              rw [← FlatDirectives_append]
              rfl
          · have hloop : SanitizeContentSecurityPolicy.loop env options allow (input :: rest)
                state =
                SanitizeContentSecurityPolicy.loop env options allow rest
                  { state with sane_csp_parts := state.sane_csp_parts ++ [input ++ [';']] } := by
              rw [SanitizeContentSecurityPolicy.loop]
              simp only [htok]
              rw [UpdateStatus_ne env _ tokenizer state.default_src_status options _
                (by rw [hd]; exact h1)]
              rw [UpdateStatus_ne env _ tokenizer state.script_src_status options _
                (by rw [hs]; exact h2)]
              simp only [Bool.false_eq_true, if_false]
              by_cases h4 : base.StringToLowerASCII token = kObjectSrc
              · have ha : allow = true := by
                  cases allow
                  · exact absurd ⟨rfl, h4⟩ h3
                  · rfl
                simp [ha]
              · rw [UpdateStatus_ne env _ tokenizer state.object_src_status options _
                  (by rw [ho]; exact h4)]
                simp
            have hsd : SanitizedDirective env options allow input = some input := by
              have hc : IsCheckedDirective allow (base.StringToLowerASCII token) = false := by
                unfold IsCheckedDirective
                cases allow
                · have h4 : base.StringToLowerASCII token ≠ kObjectSrc :=
                    fun h4 => h3 ⟨rfl, h4⟩
                  simp [h1, h2, h4]
                · simp [h1, h2]
              simp [SanitizedDirective, htok, hc]
            rw [hloop, List.filterMap_cons_some hsd]
            obtain ⟨i1, i2, i3, i4⟩ := ih
              { state with sane_csp_parts := state.sane_csp_parts ++ [input ++ [';']] } hd hs ho
            refine ⟨?_, ?_, ?_, ?_⟩
            · rw [i1]
              simp [Ne.symm h1]
            · rw [i2]
              simp [Ne.symm h2]
            · rw [i3]
              cases allow
              · have h4 : kObjectSrc ≠ base.StringToLowerASCII token :=
                  fun h4 => h3 ⟨rfl, h4.symm⟩
                simp [h4]
              · simp
            · rw [i4]
              simp [FlatParts, FlatDirectives]

theorem JoinString_space (parts : List (List Char)) :
    base.JoinString parts ' ' = (FlatParts parts).tail :=
  base.JoinString_eq_tail parts ' '

theorem JoinDirectives_eq_tail (directives : List (List Char)) :
    JoinDirectives directives = (FlatDirectives directives).tail := by
  unfold JoinDirectives FlatDirectives
  rw [base.JoinString_eq_tail]
  congr 1
  induction directives with
  | nil => rfl
  | cons d rest ih => simp [ih]

theorem FlatParts_kScriptSrcDefaultDirective :
    FlatParts [kScriptSrcDefaultDirective] =
      FlatDirectives ["script-src 'self' chrome-extension-resource:".toList] := by
  decide

theorem FlatParts_kObjectSrcDefaultDirective :
    FlatParts [kObjectSrcDefaultDirective] = FlatDirectives ["object-src 'self'".toList] := by
  decide

/-- The sanitized policy is the text of the sanitized directives. -/
theorem SanitizeContentSecurityPolicy_eq (env : RegistryEnvironment) (policy : List Char)
    (options : Nat) :
    SanitizeContentSecurityPolicy env policy options =
      JoinDirectives (SanitizedDirectives env policy options) := by
  obtain ⟨h1, h2, h3, h4⟩ := SanitizeContentSecurityPolicy.loop_state env options
    (AllowedToHaveInsecureObjectSrc options (base.SplitString policy ';'))
    (base.SplitString policy ';')
    { default_src_status := DirectiveStatus.new kDefaultSrc
      script_src_status := DirectiveStatus.new kScriptSrc
      object_src_status := DirectiveStatus.new kObjectSrc
      sane_csp_parts := [] } rfl rfl rfl
  unfold SanitizeContentSecurityPolicy SanitizedDirectives
  simp only []
  generalize SanitizeContentSecurityPolicy.loop env options
    (AllowedToHaveInsecureObjectSrc options (base.SplitString policy ';'))
    (base.SplitString policy ';')
    { default_src_status := DirectiveStatus.new kDefaultSrc
      script_src_status := DirectiveStatus.new kScriptSrc
      object_src_status := DirectiveStatus.new kObjectSrc
      sane_csp_parts := [] } = final at h1 h2 h3 h4 ⊢
  generalize AllowedToHaveInsecureObjectSrc options (base.SplitString policy ';') = allow
    at h1 h2 h3 h4 ⊢
  simp only [DirectiveStatus.new, Bool.false_or] at h1 h2 h3
  have h4' : FlatParts final.sane_csp_parts =
      FlatDirectives (List.filterMap (SanitizedDirective env options allow)
        (base.SplitString policy ';')) := by
    rw [h4]
    rfl
  rw [JoinString_space, JoinDirectives_eq_tail]
  congr 1
  rw [h1, h2, h3, FlatDirectives_append, ← h4']
  unfold AppendedDirectives
  by_cases m1 : kDefaultSrc ∈ DirectiveNames (base.SplitString policy ';')
  · simp [m1, FlatDirectives]
  · by_cases m2 : kScriptSrc ∈ DirectiveNames (base.SplitString policy ';') <;>
      by_cases m3 : kObjectSrc ∈ DirectiveNames (base.SplitString policy ';') <;>
      cases allow <;>
      simp [m1, m2, m3, FlatParts_append, FlatDirectives_append,
        FlatParts_kScriptSrcDefaultDirective, FlatParts_kObjectSrcDefaultDirective] <;>
      decide

end csp_validator

end extensions

namespace base

theorem lookup_getD_cases (table : List (Char × Char)) (c : Char) :
    (table.lookup c).getD c = c ∨ (table.lookup c).getD c ∈ table.map Prod.snd := by
  induction table with
  | nil => left; rfl
  | cons entry rest ih =>
    obtain ⟨k, v⟩ := entry
    by_cases h : c = k
    · right
      subst h
      simp [List.lookup]
    · have hne : (c == k) = false := by simpa using h
      rw [List.lookup_cons, hne]
      rcases ih with ih | ih
      · left; exact ih
      · right
        simp only [List.map_cons, List.mem_cons]
        right
        exact ih

theorem ToLowerASCII_cases (c : Char) :
    ToLowerASCII c = c ∨ ToLowerASCII c ∈ "abcdefghijklmnopqrstuvwxyz".toList := by
  rcases lookup_getD_cases kLowerCaseOf c with h | h
  · left; exact h
  · right
    have hmap : kLowerCaseOf.map Prod.snd = "abcdefghijklmnopqrstuvwxyz".toList := by decide
    rw [hmap] at h
    exact h

theorem ToLowerASCII_lower :
    ∀ c ∈ "abcdefghijklmnopqrstuvwxyz".toList, ToLowerASCII c = c := by
  decide

theorem ToLowerASCII_idem (c : Char) : ToLowerASCII (ToLowerASCII c) = ToLowerASCII c := by
  rcases ToLowerASCII_cases c with h | h
  · rw [h]
    exact h
  · exact ToLowerASCII_lower _ h

theorem StringToLowerASCII_idem (s : List Char) :
    StringToLowerASCII (StringToLowerASCII s) = StringToLowerASCII s := by
  unfold StringToLowerASCII
  rw [List.map_map]
  apply List.map_congr_left
  intro c _
  exact ToLowerASCII_idem c

/-- Lower-casing leaves a character that is no letter in place: a set of characters
without lower-case letters contains the lower-cased character only if it contains the
character. -/
theorem ToLowerASCII_mem (set : List Char)
    (hset : ∀ c ∈ "abcdefghijklmnopqrstuvwxyz".toList, c ∉ set) (c : Char)
    (h : ToLowerASCII c ∈ set) : c ∈ set := by
  rcases ToLowerASCII_cases c with h1 | h1
  · rw [h1] at h; exact h
  · exact absurd h (hset _ h1)

theorem StringTokenizer.loop_token_run (delims token rest : List Char) (current : List Char)
    (h : ∀ c ∈ token, delims.contains c = false) :
    StringTokenizer.loop delims (token ++ rest) current =
      StringTokenizer.loop delims rest (current ++ token) := by
  induction token generalizing current with
  | nil => simp
  | cons c token ih =>
    rw [List.cons_append, StringTokenizer.loop, h c (List.mem_cons_self _ _)]
    simp only [Bool.false_eq_true, if_false]
    rw [ih _ (fun x hx => h x (List.mem_cons_of_mem _ hx))]
    simp

theorem StringTokenizer.loop_join (delims : List Char) (separator : Char)
    (hsep : delims.contains separator = true) (tokens : List (List Char))
    (h : ∀ token ∈ tokens, token ≠ [] ∧ ∀ c ∈ token, delims.contains c = false)
    (current : List Char) (hcurrent : current ≠ []) :
    StringTokenizer.loop delims (tokens.flatMap fun token => separator :: token) current =
      current :: tokens := by
  induction tokens generalizing current with
  | nil =>
    simp only [List.flatMap_nil, StringTokenizer.loop]
    simp [hcurrent]
  | cons token rest ih =>
    rw [List.flatMap_cons, List.cons_append, StringTokenizer.loop, hsep]
    simp only [if_true, List.isEmpty_eq_true, hcurrent, if_false]
    rw [StringTokenizer.loop_token_run delims token _ [] (h token (List.mem_cons_self _ _)).2]
    rw [List.nil_append,
      ih (fun t ht => h t (List.mem_cons_of_mem _ ht)) token (h token (List.mem_cons_self _ _)).1]

/-- The tokenizer recovers the tokens that were joined by a delimiter. -/
theorem StringTokenizer_JoinString (delims : List Char) (separator : Char)
    (hsep : delims.contains separator = true) (tokens : List (List Char))
    (h : ∀ token ∈ tokens, token ≠ [] ∧ ∀ c ∈ token, delims.contains c = false) :
    StringTokenizer (JoinString tokens separator) delims = tokens := by
  cases tokens with
  | nil => rfl
  | cons token rest =>
    rw [JoinString_cons]
    unfold StringTokenizer
    rw [StringTokenizer.loop_token_run delims token _ [] (h token (List.mem_cons_self _ _)).2,
      List.nil_append]
    exact StringTokenizer.loop_join delims separator hsep rest
      (fun t ht => h t (List.mem_cons_of_mem _ ht)) token (h token (List.mem_cons_self _ _)).1

theorem StringTokenizer.loop_tokens (delims : List Char) (input current : List Char)
    (hcurrent : ∀ c ∈ current, delims.contains c = false) :
    ∀ token ∈ StringTokenizer.loop delims input current,
      token ≠ [] ∧ (∀ c ∈ token, delims.contains c = false) ∧
        ∀ c ∈ token, c ∈ current ∨ c ∈ input := by
  induction input generalizing current with
  | nil =>
    intro token ht
    unfold StringTokenizer.loop at ht
    by_cases he : current.isEmpty = true
    · simp [he] at ht
    · simp only [he, if_false, List.mem_singleton, Bool.false_eq_true] at ht
      subst ht
      exact ⟨by simpa using he, hcurrent, fun c hc => Or.inl hc⟩
  | cons x rest ih =>
    intro token ht
    unfold StringTokenizer.loop at ht
    by_cases hx : delims.contains x = true
    · simp only [hx, if_true] at ht
      by_cases he : current.isEmpty = true
      · simp only [he, if_true] at ht
        obtain ⟨h1, h2, h3⟩ := ih [] (by simp) token ht
        exact ⟨h1, h2, fun c hc => by
          rcases h3 c hc with h | h
          · simp at h
          · exact Or.inr (List.mem_cons_of_mem _ h)⟩
      · simp only [he, if_false, List.mem_cons, Bool.false_eq_true] at ht
        rcases ht with ht | ht
        · subst ht
          exact ⟨by simpa using he, hcurrent, fun c hc => Or.inl hc⟩
        · obtain ⟨h1, h2, h3⟩ := ih [] (by simp) token ht
          exact ⟨h1, h2, fun c hc => by
            rcases h3 c hc with h | h
            · simp at h
            · exact Or.inr (List.mem_cons_of_mem _ h)⟩
    · have hx' : delims.contains x = false := by simpa using hx
      simp only [hx', if_false, Bool.false_eq_true] at ht
      have hnew : ∀ c ∈ current ++ [x], delims.contains c = false := by
        intro c hc
        rcases List.mem_append.1 hc with hc | hc
        · exact hcurrent c hc
        · rw [List.mem_singleton.1 hc]; exact hx'
      obtain ⟨h1, h2, h3⟩ := ih (current ++ [x]) hnew token ht
      exact ⟨h1, h2, fun c hc => by
        rcases h3 c hc with h | h
        · rcases List.mem_append.1 h with h | h
          · exact Or.inl h
          · rw [List.mem_singleton.1 h]; exact Or.inr (List.mem_cons_self _ _)
        · exact Or.inr (List.mem_cons_of_mem _ h)⟩

/-- Every token is non-empty, free of delimiters and made of characters of the input. -/
theorem StringTokenizer_tokens (input delims : List Char) :
    ∀ token ∈ StringTokenizer input delims,
      token ≠ [] ∧ (∀ c ∈ token, delims.contains c = false) ∧ ∀ c ∈ token, c ∈ input := by
  intro token ht
  obtain ⟨h1, h2, h3⟩ := StringTokenizer.loop_tokens delims input [] (by simp) token ht
  exact ⟨h1, h2, fun c hc => by
    rcases h3 c hc with h | h
    · simp at h
    · exact h⟩

end base

/-! ## Properties of the whitelist of sources -/

namespace std

theorem index_append_right (X Y : List Char) (k : Nat) :
    index (X ++ Y) (X.length + k) = index Y k := by
  unfold index
  rw [List.getD_append_right _ _ _ _ (by omega)]
  congr 1
  omega

theorem index_cons_zero (c : Char) (Y : List Char) : index (c :: Y) 0 = c := rfl

theorem isPrefixOf_singleton_drop (c : Char) (s : List Char) (i : Nat) :
    [c].isPrefixOf (s.drop i) = true ↔ s[i]? = some c := by
  rw [← List.head?_drop]
  cases s.drop i with
  | nil => simp [List.isPrefixOf]
  | cons d t =>
    simp [List.isPrefixOf]
    exact eq_comm

theorem rfind.loop_last (c : Char) (s : List Char) (p : Nat) (hp : s[p]? = some c) (i : Nat)
    (hle : p ≤ i) (hlast : ∀ q, p < q → q ≤ i → s[q]? ≠ some c) :
    rfind.loop s [c] i = some p := by
  induction i with
  | zero =>
    have h0 : p = 0 := by omega
    subst h0
    unfold rfind.loop
    have := (isPrefixOf_singleton_drop c s 0).2 hp
    rw [List.drop_zero] at this
    rw [if_pos this]
  | succ i ih =>
    unfold rfind.loop
    by_cases h : p = i + 1
    · subst h
      rw [if_pos ((isPrefixOf_singleton_drop c s (i + 1)).2 hp)]
    · have hne : ¬ [c].isPrefixOf (s.drop (i + 1)) = true := by
        rw [isPrefixOf_singleton_drop]
        exact hlast (i + 1) (by omega) (le_refl _)
      rw [if_neg hne]
      exact ih (by omega) (fun q h1 h2 => hlast q h1 (by omega))

theorem rfind_last (c : Char) (X Y tail : List Char) (hY : c ∉ Y)
    (htail : tail.head? ≠ some c) :
    rfind (X ++ c :: (Y ++ tail)) [c] (X.length + 1 + Y.length) = some X.length := by
  unfold rfind
  have hlen : [c].length ≤ (X ++ c :: (Y ++ tail)).length := by
    simp only [List.length_append, List.length_cons, List.length_nil]
    omega
  rw [if_pos hlen]
  apply rfind.loop_last
  · rw [List.getElem?_append_right (le_refl _)]
    simp
  · simp only [List.length_append, List.length_cons, List.length_nil]
    omega
  · intro q h1 h2
    have hq : q = X.length + (q - X.length - 1 + 1) := by omega
    rw [hq, List.getElem?_append_right (by omega)]
    simp only [Nat.add_sub_cancel_left, List.getElem?_cons_succ]
    by_cases h3 : q - X.length - 1 < Y.length
    · rw [List.getElem?_append_left h3]
      intro h4
      exact hY (List.mem_iff_getElem?.2 ⟨_, h4⟩)
    · rw [List.getElem?_append_right (by omega)]
      have h5 : q - X.length - 1 - Y.length = 0 := by
        simp only [List.length_append, List.length_cons, List.length_nil] at h2
        omega
      rw [h5]
      cases tail with
      | nil => simp
      | cons d t =>
        simp only [List.head?_cons, ne_eq, Option.some.injEq] at htail
        simpa using htail

theorem find_slash (S A tail : List Char) (hA : '/' ∉ A)
    (htail : tail = [] ∨ ∃ t, tail = '/' :: t) :
    (find (S ++ (A ++ tail)) ['/'] S.length).getD (S ++ (A ++ tail)).length =
      S.length + A.length := by
  unfold find
  rw [if_pos (by simp), List.drop_left]
  rcases htail with rfl | ⟨t, rfl⟩
  · rw [List.append_nil, find.loop_char_none '/' A _ hA]
    simp
  · rw [find.loop_char_first '/' A t _ hA]
    simp

theorem substr_middle (P h r : List Char) :
    substr (P ++ (h ++ r)) P.length (some h.length) = h := by
  unfold substr
  simp

theorem find_isSome (c : Char) (s : List Char) : (find s [c] 0).isSome = true ↔ c ∈ s := by
  constructor
  · intro h
    by_contra hc
    rw [find_char_none c s 0 hc] at h
    exact Bool.noConfusion h
  · intro h
    obtain ⟨a, b, rfl⟩ := List.append_of_mem h
    by_cases ha : c ∈ a
    · cases hf : find (a ++ c :: b) [c] 0 with
      | some j => rfl
      | none =>
        exfalso
        unfold find at hf
        simp only [Nat.zero_le, if_true, List.drop_zero] at hf
        clear h
        induction a with
        | nil => simp [find.loop, List.isPrefixOf] at hf
        | cons d a ih =>
          simp only [List.cons_append] at hf
          unfold find.loop at hf
          split at hf
          · exact Option.noConfusion hf
          · rw [find.loop_shift] at hf
            cases h0 : find.loop [c] (a ++ c :: b) 0 with
            | none =>
              by_cases ha2 : c ∈ a
              · exact ih ha2 h0
              · rw [find.loop_char_first c a b 0 ha2] at h0
                exact Option.noConfusion h0
            | some j =>
              rw [h0] at hf
              exact Option.noConfusion hf
    · rw [find_char_first c a b ha]
      rfl

end std

namespace extensions

namespace csp_validator

theorem SplitAtLastColon_none (s : List Char) :
    SplitAtLastColon s = none ↔ ':' ∉ s := by
  induction s with
  | nil => simp [SplitAtLastColon]
  | cons c rest ih =>
    unfold SplitAtLastColon
    cases h : SplitAtLastColon rest with
    | some pair =>
      have hin : ':' ∈ rest := by
        by_contra hc
        rw [ih.2 hc] at h
        exact Option.noConfusion h
      simp [hin]
    | none =>
      have hnot := ih.1 h
      by_cases hc : c = ':'
      · simp [hc]
      · simp [hc, hnot, Ne.symm hc]

theorem SplitAtLastColon_some (s host port : List Char)
    (h : SplitAtLastColon s = some (host, port)) :
    s = host ++ ':' :: port ∧ ':' ∉ port := by
  induction s generalizing host port with
  | nil => simp [SplitAtLastColon] at h
  | cons c rest ih =>
    unfold SplitAtLastColon at h
    cases hr : SplitAtLastColon rest with
    | some pair =>
      obtain ⟨host', port'⟩ := pair
      rw [hr] at h
      simp only [Option.some.injEq, Prod.mk.injEq] at h
      obtain ⟨h1, h2⟩ := h
      obtain ⟨h3, h4⟩ := ih host' port' hr
      subst h1 h2
      exact ⟨by rw [h3]; rfl, h4⟩
    | none =>
      rw [hr] at h
      have hnot := (SplitAtLastColon_none rest).1 hr
      by_cases hc : c = ':'
      · simp only [hc, if_true, Option.some.injEq, Prod.mk.injEq] at h
        obtain ⟨h1, h2⟩ := h
        subst h1 h2 hc
        exact ⟨rfl, hnot⟩
      · simp [hc] at h

theorem isNonWildcardTLD.loop_port (X d tail : List Char) (is_valid_port : Bool) :
    isNonWildcardTLD.loop (X ++ (d ++ tail)) d.length X.length is_valid_port =
      if d = [] then is_valid_port
      else d.all fun c => base.IsAsciiDigit c || c == '*' := by
  induction d generalizing X is_valid_port with
  | nil => simp [isNonWildcardTLD.loop]
  | cons c d ih =>
    have hidx : std.index (X ++ (c :: d ++ tail)) X.length = c := by
      have := std.index_append_right X (c :: d ++ tail) 0
      rw [Nat.add_zero] at this
      rw [this]
      rfl
    simp only [List.length_cons]
    unfold isNonWildcardTLD.loop
    simp only [hidx, List.cons_ne_nil, if_false, List.all_cons]
    by_cases hc : (base.IsAsciiDigit c || c == '*') = true
    · have hX : X ++ (c :: d ++ tail) = (X ++ [c]) ++ (d ++ tail) := by simp
      have hl : X.length + 1 = (X ++ [c]).length := by simp
      simp only [hc, Bool.not_true, Bool.false_eq_true, if_false, Bool.true_and]
      rw [hX, hl, ih]
      by_cases hd : d = []
      · simp [hd]
      · simp [hd]
    · simp only [Bool.not_eq_true] at hc
      simp [hc]

end csp_validator

end extensions

namespace extensions

namespace csp_validator

theorem rfind_colon (url P HP tail : List Char) (hurl : url = P ++ (HP ++ tail))
    (hP : ':' ∈ P) (htail : tail = [] ∨ ∃ t, tail = '/' :: t) :
    ∃ sp, std.rfind url [':'] (P.length + HP.length) = some sp ∧
      match SplitAtLastColon HP with
      | some (h, _) => sp = P.length + h.length
      | none => sp < P.length := by
  have hhead : tail.head? ≠ some ':' := by
    rcases htail with rfl | ⟨t, rfl⟩
    · simp
    · simp
  cases hs : SplitAtLastColon HP with
  | some pair =>
    obtain ⟨h, d⟩ := pair
    obtain ⟨h1, h2⟩ := SplitAtLastColon_some HP h d hs
    refine ⟨P.length + h.length, ?_, rfl⟩
    have hform : url = (P ++ h) ++ ':' :: (d ++ tail) := by
      rw [hurl, h1]; simp
    have hpos : P.length + HP.length = (P ++ h).length + 1 + d.length := by
      rw [h1]; simp only [List.length_append, List.length_cons]; omega
    rw [hform, hpos, std.rfind_last ':' (P ++ h) d tail h2 hhead, List.length_append]
  | none =>
    have hno := (SplitAtLastColon_none HP).1 hs
    cases hp : SplitAtLastColon P with
    | none => exact absurd hP ((SplitAtLastColon_none P).1 hp)
    | some pair =>
      obtain ⟨P1, P2⟩ := pair
      obtain ⟨h1, h2⟩ := SplitAtLastColon_some P P1 P2 hp
      refine ⟨P1.length, ?_, ?_⟩
      · have hform : url = P1 ++ ':' :: ((P2 ++ HP) ++ tail) := by
          rw [hurl, h1]; simp
        have hpos : P.length + HP.length = P1.length + 1 + (P2 ++ HP).length := by
          rw [h1]; simp only [List.length_append, List.length_cons]; omega
        have hY : ':' ∉ P2 ++ HP := by
          simp only [List.mem_append, not_or]
          exact ⟨h2, hno⟩
        rw [hform, hpos, std.rfind_last ':' P1 (P2 ++ HP) tail hY hhead]
      · show P1.length < P.length
        rw [h1]
        simp only [List.length_append, List.length_cons]
        omega

theorem wildcard_subdomain (S A tail : List Char) :
    (decide (S.length + A.length > S.length + 2) && std.index (S ++ (A ++ tail)) S.length == '*' &&
      std.index (S ++ (A ++ tail)) (S.length + 1) == '.') = HasSubdomainWildcard A := by
  have h0 := std.index_append_right S (A ++ tail) 0
  have h1 := std.index_append_right S (A ++ tail) 1
  rw [Nat.add_zero] at h0
  rw [h0, h1]
  unfold HasSubdomainWildcard
  match A with
  | [] => simp
  | [a] => simp
  | [a, b] => simp
  | a :: b :: c :: r =>
    have hlen : decide (S.length + (a :: b :: c :: r).length > S.length + 2) = true := by
      simp only [List.length_cons, decide_eq_true_eq]
      omega
    have hlen2 : decide (2 < (a :: b :: c :: r).length) = true := by
      simp only [List.length_cons, decide_eq_true_eq]
      omega
    rw [hlen, hlen2]
    by_cases ha : a = '*'
    · by_cases hb : b = '.'
      · subst ha hb
        rfl
      · have e1 : std.index (a :: b :: c :: r ++ tail) 1 = b := rfl
        have e2 : "*.".toList.isPrefixOf (a :: b :: c :: r) = false := by
          show List.isPrefixOf ['*', '.'] (a :: b :: c :: r) = false
          simp [List.isPrefixOf, hb, Ne.symm hb]
        rw [e1, e2]
        simp [hb]
    · have e1 : std.index (a :: b :: c :: r ++ tail) 0 = a := rfl
      have e2 : "*.".toList.isPrefixOf (a :: b :: c :: r) = false := by
        show List.isPrefixOf ['*', '.'] (a :: b :: c :: r) = false
        simp [List.isPrefixOf, ha, Ne.symm ha]
      rw [e1, e2]
      simp [ha]

theorem index_getLast (P h r : List Char) (hne : h ≠ []) :
    (std.index (P ++ (h ++ r)) (P.length + h.length - 1) != ':') =
      (h.getLast? != some ':') := by
  obtain ⟨h', c, rfl⟩ : ∃ h' c, h = h' ++ [c] := by
    refine ⟨h.dropLast, h.getLast hne, ?_⟩
    exact (List.dropLast_append_getLast hne).symm
  have hidx : std.index (P ++ (h' ++ [c] ++ r)) (P.length + (h' ++ [c]).length - 1) = c := by
    have hform : P ++ (h' ++ [c] ++ r) = (P ++ h') ++ (c :: r) := by simp
    have hpos : P.length + (h' ++ [c]).length - 1 = (P ++ h').length + 0 := by
      simp only [List.length_append, List.length_singleton]
      omega
    rw [hform, hpos, std.index_append_right]
    rfl
  rw [hidx, List.getLast?_append, List.getLast?_singleton]
  by_cases hc : c = ':'
  · subst hc
    rfl
  · have e1 : (c != ':') = true := bne_iff_ne.2 hc
    have e2 : (some c != some ':') = true := bne_iff_ne.2 fun h => hc (Option.some.inj h)
    rw [e1]
    exact e2.symm

theorem host_of_positions (url P HP tail : List Char) (sp SH E : Nat)
    (hurl : url = P ++ (HP ++ tail)) (hSH : SH = P.length) (hE : E = P.length + HP.length)
    (hsize : url.length < 2 ^ 64)
    (hsp : match SplitAtLastColon HP with
      | some (h, _) => sp = P.length + h.length
      | none => sp < P.length) :
    std.substr url SH
        (some
          ((if (decide (sp > SH) && std.index url (sp - 1) != ':') = true then
              if isNonWildcardTLD.loop url (E - (sp + 1) % 2 ^ 64) ((sp + 1) % 2 ^ 64) false =
                  true then sp
              else E
            else E) - SH)) = HostWithoutPort HP := by
  subst hSH hE
  have hwhole : std.substr url P.length (some (P.length + HP.length - P.length)) = HP := by
    rw [Nat.add_sub_cancel_left, hurl]
    exact std.substr_middle P HP tail
  unfold HostWithoutPort
  cases hs : SplitAtLastColon HP with
  | none =>
    rw [hs] at hsp
    have hlt : ¬ sp > P.length := by
      have : sp < P.length := hsp
      omega
    simp only [hlt, decide_False, Bool.false_and, Bool.false_eq_true, if_false]
    exact hwhole
  | some pair =>
    obtain ⟨h, d⟩ := pair
    rw [hs] at hsp
    have hspv : sp = P.length + h.length := hsp
    obtain ⟨h1, h2⟩ := SplitAtLastColon_some HP h d hs
    subst hspv
    simp only []
    by_cases hne : h = []
    · subst hne
      simp only [List.length_nil, Nat.add_zero, gt_iff_lt, Nat.lt_irrefl, decide_False,
        Bool.false_and, Bool.false_eq_true, if_false, List.isEmpty_nil, Bool.not_true]
      exact hwhole
    · have hgt : decide (P.length + h.length > P.length) = true := by
        rw [decide_eq_true_eq]
        have : 0 < h.length := List.length_pos.2 hne
        omega
      have hempty : h.isEmpty = false := by
        cases h with
        | nil => exact absurd rfl hne
        | cons _ _ => rfl
      have hlast : (std.index url (P.length + h.length - 1) != ':') =
          (h.getLast? != some ':') := by
        rw [hurl, h1]
        simp only [List.append_assoc, List.cons_append]
        exact index_getLast P h (':' :: (d ++ tail)) hne
      have hmod : (P.length + h.length + 1) % 2 ^ 64 = P.length + h.length + 1 := by
        apply Nat.mod_eq_of_lt
        rw [hurl, h1] at hsize
        simp only [List.length_append, List.length_cons] at hsize
        omega
      have hcount : P.length + HP.length - (P.length + h.length + 1) = d.length := by
        rw [h1]
        simp only [List.length_append, List.length_cons]
        omega
      have hloop : isNonWildcardTLD.loop url d.length (P.length + h.length + 1) false =
          IsPortNumber d := by
        have hform : url = (P ++ h ++ [':']) ++ (d ++ tail) := by
          rw [hurl, h1]; simp
        have hl : P.length + h.length + 1 = (P ++ h ++ [':']).length := by
          simp only [List.length_append, List.length_singleton]
        rw [hform, hl, isNonWildcardTLD.loop_port]
        unfold IsPortNumber
        by_cases hd : d = []
        · simp [hd]
        · have : d.isEmpty = false := by
            cases d with
            | nil => exact absurd rfl hd
            | cons _ _ => rfl
          simp [hd, this]
      rw [hgt, hlast, hmod, hcount, hloop, hempty]
      simp only [Bool.true_and, Bool.not_false]
      by_cases hc1 : (h.getLast? != some ':') = true
      · by_cases hc2 : IsPortNumber d = true
        · simp only [hc1, hc2, if_true, Bool.and_self, Nat.add_sub_cancel_left]
          rw [hurl, h1]
          simp only [List.append_assoc, List.cons_append]
          exact std.substr_middle P h (':' :: (d ++ tail))
        · simp only [hc1, hc2, if_true, if_false, Bool.and_false, Bool.false_eq_true]
          exact hwhole
      · simp only [hc1, if_false, Bool.false_and, Bool.false_eq_true]
        exact hwhole

theorem isNonWildcardTLD_authority (env : RegistryEnvironment) (S A tail : List Char)
    (should_check_rcd : Bool) (hS : ':' ∈ S) (hA : '/' ∉ A)
    (htail : tail = [] ∨ ∃ t, tail = '/' :: t)
    (hsize : (S ++ (A ++ tail)).length < 2 ^ 64) :
    isNonWildcardTLD env (S ++ (A ++ tail)) S should_check_rcd =
      if (HostOf A).isEmpty || (std.find (HostOf A) ['*'] 0).isSome then false
      else if !HasSubdomainWildcard A || !should_check_rcd then true
      else if HostOf A == "googleapis.com".toList then true
      else env.GetRegistryLength (HostOf A) != 0 := by
  have hW := wildcard_subdomain S A tail
  generalize hurl : S ++ (A ++ tail) = url at hsize hW ⊢
  have hstart : base.StartsWithASCII url S true = true := by
    unfold base.StartsWithASCII
    rw [if_pos rfl, List.isPrefixOf_iff_prefix, ← hurl]
    exact List.prefix_append _ _
  have hE : (match std.find url ['/'] S.length with
      | none => url.length
      | some end_of_host => end_of_host) = S.length + A.length := by
    have := std.find_slash S A tail hA htail
    rw [hurl] at this
    cases hf : std.find url ['/'] S.length with
    | none => rw [hf] at this; exact this
    | some e => rw [hf] at this; exact this
  unfold isNonWildcardTLD
  simp only [hstart, Bool.not_true, Bool.false_eq_true, if_false, hE, hW]
  unfold HostOf
  cases hw : HasSubdomainWildcard A with
  | false =>
    simp only [Bool.false_eq_true, if_false]
    obtain ⟨sp, hsp, hchar⟩ := rfind_colon url S A tail hurl.symm hS htail
    rw [hsp]
    simp only []
    rw [host_of_positions url S A tail sp S.length (S.length + A.length) hurl.symm rfl rfl
      hsize hchar]
  | true =>
    simp only [if_true]
    have hA2 : A = A.take 2 ++ A.drop 2 := (List.take_append_drop 2 A).symm
    have hlen2 : (A.take 2).length = 2 := by
      unfold HasSubdomainWildcard at hw
      simp only [Bool.and_eq_true, decide_eq_true_eq] at hw
      rw [List.length_take]
      omega
    have hurl2 : url = (S ++ A.take 2) ++ (A.drop 2 ++ tail) := by
      rw [← hurl, List.append_assoc, ← List.append_assoc (A.take 2), List.take_append_drop]
    have hP : ':' ∈ S ++ A.take 2 := List.mem_append_left _ hS
    have hPlen : (S ++ A.take 2).length = S.length + 2 := by
      rw [List.length_append, hlen2]
    have hpos : (S ++ A.take 2).length + (A.drop 2).length = S.length + A.length := by
      rw [hPlen]
      have : A.length = (A.take 2).length + (A.drop 2).length := by
        conv_lhs => rw [hA2]
        exact List.length_append _ _
      omega
    obtain ⟨sp, hsp, hchar⟩ := rfind_colon url (S ++ A.take 2) (A.drop 2) tail hurl2 hP htail
    rw [hpos] at hsp
    rw [hsp]
    simp only []
    rw [host_of_positions url (S ++ A.take 2) (A.drop 2) tail sp (S.length + 2)
      (S.length + A.length) hurl2 hPlen.symm hpos.symm hsize hchar]

end csp_validator

end extensions

namespace extensions

namespace csp_validator

theorem isNonWildcardTLD_iff (env : RegistryEnvironment) (url S : List Char)
    (should_check_rcd : Bool) (hS : ':' ∈ S) (hsize : url.length < 2 ^ 64) :
    isNonWildcardTLD env url S should_check_rcd = true ↔
      HasSecureHost env url S should_check_rcd := by
  by_cases hp : S <+: url
  · obtain ⟨rest, rfl⟩ := hp
    have hrest : rest = rest.takeWhile (fun c => c != '/') ++ rest.dropWhile (fun c => c != '/') :=
      (List.takeWhile_append_dropWhile _ rest).symm
    have hA : '/' ∉ rest.takeWhile (fun c => c != '/') := by
      intro hmem
      have := List.mem_takeWhile_imp hmem
      exact absurd this (by decide)
    have htail : rest.dropWhile (fun c => c != '/') = [] ∨
        ∃ t, rest.dropWhile (fun c => c != '/') = '/' :: t := by
      cases hd : rest.dropWhile (fun c => c != '/') with
      | nil => exact Or.inl rfl
      | cons c t =>
        right
        have hc := List.head_dropWhile_not (fun c => c != '/') rest
          (by rw [hd]; exact List.cons_ne_nil _ _)
        simp only [hd, List.head_cons, Bool.not_eq_true, bne_eq_false_iff_eq] at hc
        exact ⟨t, by rw [hc]⟩
    have hauth : Authority (S ++ rest) S = rest.takeWhile (fun c => c != '/') := by
      unfold Authority
      rw [List.drop_left]
    have hcode := isNonWildcardTLD_authority env S (rest.takeWhile (fun c => c != '/'))
      (rest.dropWhile (fun c => c != '/')) should_check_rcd hS hA htail
      (by rw [← hrest]; exact hsize)
    rw [← hrest] at hcode
    rw [hcode]
    unfold HasSecureHost
    rw [hauth]
    generalize HostOf (rest.takeWhile (fun c => c != '/')) = host
    generalize HasSubdomainWildcard (rest.takeWhile (fun c => c != '/')) = wildcard
    have hstar : (std.find host ['*'] 0).isSome = true ↔ '*' ∈ host := std.find_isSome '*' host
    by_cases h1 : host = []
    · subst h1
      simp
    · have hempty : host.isEmpty = false := by
        cases host with
        | nil => exact absurd rfl h1
        | cons _ _ => rfl
      by_cases h2 : '*' ∈ host
      · simp [hempty, hstar.2 h2, h2]
      · have h2' : (std.find host ['*'] 0).isSome = false := by
          cases hf : (std.find host ['*'] 0).isSome with
          | false => rfl
          | true => exact absurd (hstar.1 hf) h2
        simp only [hempty, h2', Bool.or_self, Bool.false_eq_true, if_false]
        cases wildcard <;> cases should_check_rcd <;>
          simp [h1, h2, List.prefix_append]
  · have hstart : base.StartsWithASCII url S true = false := by
      unfold base.StartsWithASCII
      rw [if_pos rfl]
      cases h : S.isPrefixOf url with
      | false => rfl
      | true => exact absurd (List.isPrefixOf_iff_prefix.1 h) hp
    unfold isNonWildcardTLD HasSecureHost
    simp [hstart, hp]

end csp_validator

end extensions

namespace extensions

namespace csp_validator

theorem IsSecureCspToken_iff (env : RegistryEnvironment) (options : Nat) (source : List Char)
    (hlower : base.StringToLowerASCII source = source) (hsize : source.length < 2 ^ 64) :
    IsSecureCspToken env options source = true ↔ Whitelisted env options source := by
  have hscheme : kExtensionScheme ++ kStandardSchemeSeparator = "chrome-extension://".toList := by
    decide
  have e1 := isNonWildcardTLD_iff env source "https://".toList true (by decide) hsize
  have e2 := isNonWildcardTLD_iff env source "chrome://".toList false (by decide) hsize
  have e3 := isNonWildcardTLD_iff env source "chrome-extension://".toList false (by decide)
    hsize
  unfold IsSecureCspToken Whitelisted
  rw [hscheme]
  simp only [base.LowerCaseEqualsASCII, hlower, base.StartsWithASCII, if_true]
  generalize HasSecureHost env source "https://".toList true = H1 at e1 ⊢
  generalize HasSecureHost env source "chrome://".toList false = H2 at e2 ⊢
  generalize HasSecureHost env source "chrome-extension://".toList false = H3 at e3 ⊢
  by_cases h : (source == "'self'".toList || source == "'none'".toList ||
      source == "http://127.0.0.1".toList || source == "blob:".toList ||
      source == "filesystem:".toList || source == "http://localhost".toList ||
      "http://127.0.0.1:".toList.isPrefixOf source ||
      "http://localhost:".toList.isPrefixOf source ||
      isNonWildcardTLD env source "https://".toList true ||
      isNonWildcardTLD env source "chrome://".toList false ||
      isNonWildcardTLD env source "chrome-extension://".toList false ||
      "chrome-extension-resource:".toList.isPrefixOf source) = true
  · rw [if_pos h]
    simp only [Bool.or_eq_true, beq_iff_eq, List.isPrefixOf_iff_prefix, e1, e2, e3] at h
    clear e1 e2 e3 hscheme hlower hsize
    simp only [true_iff]
    tauto
  · rw [if_neg h]
    simp only [Bool.or_eq_true, beq_iff_eq, List.isPrefixOf_iff_prefix, not_or, e1, e2, e3] at h
    clear e1 e2 e3 hscheme hlower hsize
    by_cases h2 : (options &&& OPTIONS_ALLOW_UNSAFE_EVAL != 0 &&
        source == "'unsafe-eval'".toList) = true
    · rw [if_pos h2]
      simp only [Bool.and_eq_true, bne_iff_ne, ne_eq, beq_iff_eq] at h2
      simp only [true_iff]
      tauto
    · rw [if_neg h2]
      simp only [Bool.and_eq_true, bne_iff_ne, ne_eq, beq_iff_eq] at h2
      simp only [Bool.false_eq_true, false_iff]
      tauto

theorem IsSecureCspToken_self (env : RegistryEnvironment) (options : Nat) :
    IsSecureCspToken env options "'self'".toList = true :=
  (IsSecureCspToken_iff env options _ (by decide) (by decide)).2 (Or.inl rfl)

theorem IsSecureCspToken_resource (env : RegistryEnvironment) (options : Nat) :
    IsSecureCspToken env options "chrome-extension-resource:".toList = true :=
  (IsSecureCspToken_iff env options _ (by decide) (by decide)).2
    (Or.inr (Or.inr (Or.inr (Or.inr (Or.inr (Or.inr (Or.inr (Or.inr (Or.inr (Or.inr (Or.inr
      (Or.inl (List.prefix_refl _)))))))))))))

theorem no_letter_in_kTokenDelimiters :
    ∀ c ∈ "abcdefghijklmnopqrstuvwxyz".toList, c ∉ kTokenDelimiters := by
  decide

/-- Lower-casing keeps a token a token. -/
theorem token_StringToLowerASCII (token : List Char)
    (h : token ≠ [] ∧ ∀ c ∈ token, kTokenDelimiters.contains c = false) :
    base.StringToLowerASCII token ≠ [] ∧
      ∀ c ∈ base.StringToLowerASCII token, kTokenDelimiters.contains c = false := by
  refine ⟨by simpa [base.StringToLowerASCII] using h.1, ?_⟩
  intro c hc
  unfold base.StringToLowerASCII at hc
  obtain ⟨c', hc', rfl⟩ := List.mem_map.1 hc
  have h1 := h.2 c' hc'
  rw [Bool.eq_false_iff] at h1 ⊢
  intro h2
  apply h1
  rw [List.elem_iff] at h2 ⊢
  exact base.ToLowerASCII_mem kTokenDelimiters no_letter_in_kTokenDelimiters c' h2

theorem SecureSources_mem (env : RegistryEnvironment) (options : Nat)
    (tokenizer : List (List Char)) (source : List Char)
    (h : source ∈ SecureSources env options tokenizer) :
    IsSecureCspToken env options source = true ∧
      ∃ token ∈ tokenizer, source = base.StringToLowerASCII token := by
  unfold SecureSources at h
  obtain ⟨h1, h2⟩ := List.mem_filter.1 h
  obtain ⟨token, h3, h4⟩ := List.mem_map.1 h1
  exact ⟨h2, token, h3, h4.symm⟩

/-- The tokens of the text emitted for a checked directive are its lower-cased name and
its secure sources. -/
theorem StringTokenizer_checked (env : RegistryEnvironment) (options : Nat)
    (input token : List Char) (tokenizer : List (List Char))
    (htok : base.StringTokenizer input kTokenDelimiters = token :: tokenizer) :
    base.StringTokenizer
        (base.JoinString
          (base.StringToLowerASCII token :: SecureSources env options tokenizer) ' ')
        kTokenDelimiters =
      base.StringToLowerASCII token :: SecureSources env options tokenizer := by
  have hwf := base.StringTokenizer_tokens input kTokenDelimiters
  rw [htok] at hwf
  apply base.StringTokenizer_JoinString kTokenDelimiters ' ' (by decide)
  intro t ht
  rcases List.mem_cons.1 ht with ht | ht
  · rw [ht]
    have := hwf token (List.mem_cons_self _ _)
    exact token_StringToLowerASCII token ⟨this.1, this.2.1⟩
  · obtain ⟨_, t', ht', rfl⟩ := SecureSources_mem env options tokenizer t ht
    have := hwf t' (List.mem_cons_of_mem _ ht')
    exact token_StringToLowerASCII t' ⟨this.1, this.2.1⟩

theorem SanitizedDirective_cases (env : RegistryEnvironment) (options : Nat) (allow : Bool)
    (input directive : List Char)
    (h : SanitizedDirective env options allow input = some directive) :
    ∃ token tokenizer, base.StringTokenizer input kTokenDelimiters = token :: tokenizer ∧
      ((IsCheckedDirective allow (base.StringToLowerASCII token) = true ∧
        directive = base.JoinString
          (base.StringToLowerASCII token :: SecureSources env options tokenizer) ' ') ∨
      (IsCheckedDirective allow (base.StringToLowerASCII token) = false ∧
        directive = input)) := by
  unfold SanitizedDirective at h
  cases htok : base.StringTokenizer input kTokenDelimiters with
  | nil => simp [htok] at h
  | cons token tokenizer =>
    simp only [htok] at h
    refine ⟨token, tokenizer, rfl, ?_⟩
    by_cases hc : IsCheckedDirective allow (base.StringToLowerASCII token) = true
    · rw [if_pos hc] at h
      exact Or.inl ⟨hc, (Option.some.inj h).symm⟩
    · rw [if_neg hc] at h
      exact Or.inr ⟨by simpa using hc, (Option.some.inj h).symm⟩

theorem AppendedDirectives_mem (allow : Bool) (names : List (List Char))
    (directive : List Char) (h : directive ∈ AppendedDirectives allow names) :
    (directive = "script-src 'self' chrome-extension-resource:".toList ∧
        kDefaultSrc ∉ names ∧ kScriptSrc ∉ names) ∨
      (directive = "object-src 'self'".toList ∧ kDefaultSrc ∉ names ∧ kObjectSrc ∉ names ∧
        allow = false) := by
  unfold AppendedDirectives at h
  by_cases h1 : kDefaultSrc ∈ names
  · simp [h1] at h
  · rw [if_neg h1] at h
    rcases List.mem_append.1 h with h | h
    · by_cases h2 : kScriptSrc ∈ names
      · simp [h2] at h
      · rw [if_neg h2] at h
        exact Or.inl ⟨List.mem_singleton.1 h, h1, h2⟩
    · by_cases h3 : kObjectSrc ∈ names ∨ allow = true
      · simp [h3] at h
      · rw [if_neg h3] at h
        simp only [not_or] at h3
        exact Or.inr ⟨List.mem_singleton.1 h, h1, h3.1, by simpa using h3.2⟩

/-- The text emitted for a directive has the name of the directive. -/
theorem DirectiveNames_SanitizedDirective (env : RegistryEnvironment) (options : Nat)
    (allow : Bool) (directives : List (List Char)) :
    DirectiveNames (directives.filterMap (SanitizedDirective env options allow)) =
      DirectiveNames directives := by
  induction directives with
  | nil => rfl
  | cons input rest ih =>
    cases hsd : SanitizedDirective env options allow input with
    | none =>
      have htok : base.StringTokenizer input kTokenDelimiters = [] := by
        unfold SanitizedDirective at hsd
        cases htok : base.StringTokenizer input kTokenDelimiters with
        | nil => rfl
        | cons token tokenizer =>
          simp only [htok] at hsd
          split at hsd <;> exact Option.noConfusion hsd
      rw [List.filterMap_cons_none hsd, DirectiveNames_cons_nil input rest htok, ih]
    | some directive =>
      obtain ⟨token, tokenizer, htok, hcase | hcase⟩ :=
        SanitizedDirective_cases env options allow input directive hsd
      · rw [List.filterMap_cons_some hsd, DirectiveNames_cons_token input token tokenizer rest htok,
          DirectiveNames_cons_token directive (base.StringToLowerASCII token)
            (SecureSources env options tokenizer) _
            (by rw [hcase.2]; exact StringTokenizer_checked env options input token tokenizer htok),
          ih, base.StringToLowerASCII_idem]
      · rw [List.filterMap_cons_some hsd, hcase.2,
          DirectiveNames_cons_token input token tokenizer rest htok,
          DirectiveNames_cons_token input token tokenizer _ htok, ih]

theorem DirectiveNames_append (a b : List (List Char)) :
    DirectiveNames (a ++ b) = DirectiveNames a ++ DirectiveNames b := by
  simp [DirectiveNames]

theorem AllowedToHaveInsecureObjectSrc.loop_true (directives : List (List Char))
    (h : AllowedToHaveInsecureObjectSrc.loop directives = true) :
    ∃ input ∈ directives, ∃ token plugin_types,
      base.StringTokenizer input kTokenDelimiters = token :: plugin_types ∧
      base.StringToLowerASCII token = kPluginTypes ∧
      ∀ plugin_type ∈ plugin_types, plugin_type ∈ kSandboxedPluginTypes := by
  induction directives with
  | nil => exact absurd h (by decide)
  | cons input rest ih =>
    unfold AllowedToHaveInsecureObjectSrc.loop at h
    cases htok : base.StringTokenizer input kTokenDelimiters with
    | nil =>
      simp only [htok] at h
      obtain ⟨i, hi, rest'⟩ := ih h
      exact ⟨i, List.mem_cons_of_mem _ hi, rest'⟩
    | cons token tokenizer =>
      simp only [htok] at h
      by_cases hp : base.LowerCaseEqualsASCII token kPluginTypes = true
      · simp only [hp, Bool.not_true, Bool.false_eq_true, if_false] at h
        refine ⟨input, List.mem_cons_self _ _, token, tokenizer, htok, ?_, ?_⟩
        · simpa [base.LowerCaseEqualsASCII] using hp
        · intro plugin_type hpt
          have := List.all_eq_true.1 h plugin_type hpt
          unfold PluginTypeAllowed at this
          obtain ⟨sandboxed, hs1, hs2⟩ := List.any_eq_true.1 this
          rw [beq_iff_eq] at hs2
          rw [hs2]
          exact hs1
      · simp only [hp, Bool.not_false, if_true] at h
        obtain ⟨i, hi, rest'⟩ := ih h
        exact ⟨i, List.mem_cons_of_mem _ hi, rest'⟩

end csp_validator

end extensions

namespace base

theorem dropWhile_eq_self_of_head (p : Char → Bool) (s : List Char)
    (h : ∀ c, s.head? = some c → p c = false) : s.dropWhile p = s := by
  cases s with
  | nil => rfl
  | cons a rest =>
    have := h a rfl
    simp [List.dropWhile_cons, this]

theorem head_dropWhile (p : Char → Bool) (s : List Char) :
    ∀ c, (s.dropWhile p).head? = some c → p c = false := by
  induction s with
  | nil => intro c h; simp at h
  | cons a rest ih =>
    intro c h
    by_cases ha : p a = true
    · rw [List.dropWhile_cons_of_pos ha] at h
      exact ih c h
    · rw [List.dropWhile_cons_of_neg ha] at h
      simp only [List.head?_cons, Option.some.injEq] at h
      rw [← h]
      simpa using ha

theorem TrimWhitespaceASCII_of_IsTrimmed (s : List Char) (h : IsTrimmed s) :
    TrimWhitespaceASCII s = s := by
  unfold TrimWhitespaceASCII
  rw [dropWhile_eq_self_of_head _ s h.1,
    dropWhile_eq_self_of_head _ s.reverse (by
      intro c hc
      rw [List.head?_reverse] at hc
      exact h.2 c hc),
    List.reverse_reverse]

theorem getLast?_suffix_dropWhile (p : Char → Bool) (s : List Char) (c : Char)
    (h : (s.dropWhile p).getLast? = some c) : s.getLast? = some c := by
  induction s with
  | nil => simp at h
  | cons a rest ih =>
    by_cases ha : p a = true
    · rw [List.dropWhile_cons_of_pos ha] at h
      have h1 := ih h
      cases rest with
      | nil => simp at h1
      | cons b rest' =>
        rw [List.getLast?_cons_cons]
        exact h1
    · rw [List.dropWhile_cons_of_neg ha] at h
      exact h

theorem IsTrimmed_TrimWhitespaceASCII (s : List Char) : IsTrimmed (TrimWhitespaceASCII s) := by
  unfold TrimWhitespaceASCII
  constructor
  · intro c hc
    rw [List.head?_reverse] at hc
    have h1 := getLast?_suffix_dropWhile _ _ c hc
    rw [List.getLast?_reverse] at h1
    exact head_dropWhile _ s c h1
  · intro c hc
    rw [List.getLast?_reverse] at hc
    exact head_dropWhile _ _ c hc

theorem mem_TrimWhitespaceASCII (s : List Char) (c : Char)
    (h : c ∈ TrimWhitespaceASCII s) : c ∈ s := by
  unfold TrimWhitespaceASCII at h
  rw [List.mem_reverse] at h
  have h1 := (List.dropWhile_suffix _).subset h
  rw [List.mem_reverse] at h1
  exact (List.dropWhile_suffix _).subset h1

theorem TrimWhitespaceASCII_space (s : List Char) :
    TrimWhitespaceASCII (' ' :: s) = TrimWhitespaceASCII s := by
  unfold TrimWhitespaceASCII
  rw [List.dropWhile_cons_of_pos (by decide)]

theorem SplitString.loop_piece_run (c : Char) (piece rest tmp : List Char) (r : List (List Char))
    (h : c ∉ piece) :
    SplitString.loop c (piece ++ rest) tmp r = SplitString.loop c rest (tmp ++ piece) r := by
  induction piece generalizing tmp with
  | nil => simp
  | cons x piece ih =>
    simp only [List.mem_cons, not_or] at h
    rw [List.cons_append, SplitString.loop, if_neg (Ne.symm h.1), ih _ h.2]
    simp

theorem SplitString.loop_separator (c : Char) (rest tmp : List Char) (r : List (List Char)) :
    SplitString.loop c (c :: rest) tmp r =
      SplitString.loop c rest [] (r ++ [TrimWhitespaceASCII tmp]) := by
  rw [SplitString.loop, if_pos rfl]

/-- Every piece is trimmed, free of the separator and made of characters of the string. -/
theorem SplitString.loop_pieces (c : Char) (str tmp : List Char) (r : List (List Char))
    (htmp : c ∉ tmp) :
    ∀ piece ∈ SplitString.loop c str tmp r,
      piece ∈ r ∨ (IsTrimmed piece ∧ c ∉ piece ∧ ∀ x ∈ piece, x ∈ tmp ∨ x ∈ str) := by
  induction str generalizing tmp r with
  | nil =>
    intro piece hp
    unfold SplitString.loop at hp
    simp only [] at hp
    split at hp
    · exact Or.inl hp
    · rcases List.mem_append.1 hp with hp | hp
      · exact Or.inl hp
      · right
        rw [List.mem_singleton.1 hp]
        exact ⟨IsTrimmed_TrimWhitespaceASCII tmp,
          fun hc => htmp (mem_TrimWhitespaceASCII tmp c hc),
          fun x hx => Or.inl (mem_TrimWhitespaceASCII tmp x hx)⟩
  | cons x rest ih =>
    intro piece hp
    unfold SplitString.loop at hp
    by_cases hx : x = c
    · rw [if_pos hx] at hp
      rcases ih [] (r ++ [TrimWhitespaceASCII tmp]) (by simp) piece hp with h | ⟨h1, h2, h3⟩
      · rcases List.mem_append.1 h with h | h
        · exact Or.inl h
        · right
          rw [List.mem_singleton.1 h]
          exact ⟨IsTrimmed_TrimWhitespaceASCII tmp,
            fun hc => htmp (mem_TrimWhitespaceASCII tmp c hc),
            fun y hy => Or.inl (mem_TrimWhitespaceASCII tmp y hy)⟩
      · right
        refine ⟨h1, h2, fun y hy => ?_⟩
        rcases h3 y hy with h | h
        · simp at h
        · exact Or.inr (List.mem_cons_of_mem _ h)
    · rw [if_neg hx] at hp
      have htmp' : c ∉ tmp ++ [x] := by
        simp only [List.mem_append, List.mem_singleton, not_or]
        exact ⟨htmp, Ne.symm hx⟩
      rcases ih (tmp ++ [x]) r htmp' piece hp with h | ⟨h1, h2, h3⟩
      · exact Or.inl h
      · right
        refine ⟨h1, h2, fun y hy => ?_⟩
        rcases h3 y hy with h | h
        · rcases List.mem_append.1 h with h | h
          · exact Or.inl h
          · rw [List.mem_singleton.1 h]
            exact Or.inr (List.mem_cons_self _ _)
        · exact Or.inr (List.mem_cons_of_mem _ h)

theorem SplitString_pieces (str : List Char) (c : Char) :
    ∀ piece ∈ SplitString str c, IsTrimmed piece ∧ c ∉ piece ∧ ∀ x ∈ piece, x ∈ str := by
  intro piece hp
  rcases SplitString.loop_pieces c str [] [] (by simp) piece hp with h | ⟨h1, h2, h3⟩
  · simp at h
  · refine ⟨h1, h2, fun x hx => ?_⟩
    rcases h3 x hx with h | h
    · simp at h
    · exact h

end base

namespace extensions

namespace csp_validator

theorem SplitString.loop_FlatDirectives (directives : List (List Char))
    (h : ∀ directive ∈ directives, base.IsTrimmed directive ∧ ';' ∉ directive)
    (r : List (List Char)) (hr : r ≠ []) :
    base.SplitString.loop ';' (FlatDirectives directives) [] r = r ++ directives ++ [[]] := by
  induction directives generalizing r with
  | nil =>
    unfold FlatDirectives
    rw [List.flatMap_nil, base.SplitString.loop]
    have : r.isEmpty = false := by
      cases r with
      | nil => exact absurd rfl hr
      | cons _ _ => rfl
    simp only [this, Bool.false_and, Bool.false_eq_true, if_false]
    simp
    rfl
  | cons directive rest ih =>
    have hd := h directive (List.mem_cons_self _ _)
    have hflat : FlatDirectives (directive :: rest) =
        ' ' :: (directive ++ ';' :: FlatDirectives rest) := by
      simp [FlatDirectives]
    rw [hflat, base.SplitString.loop, if_neg (by decide),
      base.SplitString.loop_piece_run ';' directive _ _ _ hd.2, base.SplitString.loop_separator,
      List.nil_append, List.singleton_append, base.TrimWhitespaceASCII_space,
      base.TrimWhitespaceASCII_of_IsTrimmed directive hd.1,
      ih (fun d hdm => h d (List.mem_cons_of_mem _ hdm)) _ (by simp)]
    simp

/-- Splitting the text of directives at the semicolons gives the directives back, and an
empty piece after the last semicolon. -/
theorem SplitString_JoinDirectives (directives : List (List Char)) (hne : directives ≠ [])
    (h : ∀ directive ∈ directives, base.IsTrimmed directive ∧ ';' ∉ directive) :
    base.SplitString (JoinDirectives directives) ';' = directives ++ [[]] := by
  cases directives with
  | nil => exact absurd rfl hne
  | cons directive rest =>
    have hd := h directive (List.mem_cons_self _ _)
    have hjoin : JoinDirectives (directive :: rest) =
        directive ++ ';' :: FlatDirectives rest := by
      rw [JoinDirectives_eq_tail]
      simp [FlatDirectives]
    unfold base.SplitString
    rw [hjoin, base.SplitString.loop_piece_run ';' directive _ _ _ hd.2,
      base.SplitString.loop_separator, List.nil_append, List.nil_append,
      base.TrimWhitespaceASCII_of_IsTrimmed directive hd.1,
      SplitString.loop_FlatDirectives rest (fun d hdm => h d (List.mem_cons_of_mem _ hdm)) _
        (by simp)]
    simp

theorem not_whitespace_of_not_delimiter (c : Char)
    (hd : kTokenDelimiters.contains c = false) (hv : c ≠ Char.ofNat 0x0B)
    (hf : c ≠ Char.ofNat 0x0C) : base.kWhitespaceASCII.contains c = false := by
  rw [Bool.eq_false_iff] at hd ⊢
  intro h
  rw [List.elem_iff] at h
  simp only [base.kWhitespaceASCII, List.mem_cons, List.mem_singleton, List.not_mem_nil,
    or_false] at h
  rcases h with h | h | h | h | h | h
  · exact hd (by rw [h]; decide)
  · exact hd (by rw [h]; decide)
  · exact hv h
  · exact hf h
  · exact hd (by rw [h]; decide)
  · exact hd (by rw [h]; decide)

theorem no_letter_in_kWhitespaceASCII :
    ∀ c ∈ "abcdefghijklmnopqrstuvwxyz".toList, c ∉ base.kWhitespaceASCII := by
  decide

theorem no_letter_is_semicolon :
    ∀ c ∈ "abcdefghijklmnopqrstuvwxyz".toList, c ∉ [';'] := by
  decide

/-- The lower-cased tokens of the directives of a policy without vertical tab and form
feed are clean. -/
theorem IsCleanToken_of_token (policy input token : List Char)
    (hpolicy : NoVerticalTabOrFormFeed policy) (hinput : input ∈ base.SplitString policy ';')
    (htoken : token ∈ base.StringTokenizer input kTokenDelimiters) :
    IsCleanToken (base.StringToLowerASCII token) := by
  obtain ⟨_, h2, h3⟩ := base.SplitString_pieces policy ';' input hinput
  obtain ⟨t1, t2, t3⟩ := base.StringTokenizer_tokens input kTokenDelimiters token htoken
  have hlow := token_StringToLowerASCII token ⟨t1, t2⟩
  refine ⟨hlow.1, fun c hc => ⟨hlow.2 c hc, ?_, ?_⟩⟩
  · unfold base.StringToLowerASCII at hc
    obtain ⟨c', hc', rfl⟩ := List.mem_map.1 hc
    have hp := hpolicy c' (h3 c' (t3 c' hc'))
    have hw := not_whitespace_of_not_delimiter c' (t2 c' hc') hp.1 hp.2
    rw [Bool.eq_false_iff] at hw ⊢
    intro h
    apply hw
    rw [List.elem_iff] at h ⊢
    exact base.ToLowerASCII_mem base.kWhitespaceASCII no_letter_in_kWhitespaceASCII c' h
  · unfold base.StringToLowerASCII at hc
    obtain ⟨c', hc', rfl⟩ := List.mem_map.1 hc
    intro h
    have h1 : base.ToLowerASCII c' ∈ [';'] := by rw [h]; exact List.mem_singleton_self _
    have h4 := base.ToLowerASCII_mem [';'] no_letter_is_semicolon c' h1
    rw [List.mem_singleton] at h4
    rw [h4] at hc'
    exact h2 (t3 _ hc')

theorem JoinString_ne_nil (tokens : List (List Char)) (hne : tokens ≠ [])
    (h : ∀ token ∈ tokens, token ≠ []) : base.JoinString tokens ' ' ≠ [] := by
  cases tokens with
  | nil => exact absurd rfl hne
  | cons token rest =>
    rw [base.JoinString_cons]
    intro h1
    exact h token (List.mem_cons_self _ _) (List.append_eq_nil.1 h1).1

theorem mem_JoinString (tokens : List (List Char)) (c : Char)
    (h : c ∈ base.JoinString tokens ' ') : c = ' ' ∨ ∃ token ∈ tokens, c ∈ token := by
  cases tokens with
  | nil => simp [base.JoinString] at h
  | cons token rest =>
    rw [base.JoinString_cons] at h
    rcases List.mem_append.1 h with h | h
    · exact Or.inr ⟨token, List.mem_cons_self _ _, h⟩
    · obtain ⟨t, ht, hc⟩ := List.mem_flatMap.1 h
      rcases List.mem_cons.1 hc with hc | hc
      · exact Or.inl hc
      · exact Or.inr ⟨t, List.mem_cons_of_mem _ ht, hc⟩

theorem getLast?_cons_of_ne_nil (a : Char) (l : List Char) (h : l ≠ []) :
    (a :: l).getLast? = l.getLast? := by
  cases l with
  | nil => exact absurd rfl h
  | cons b rest => exact List.getLast?_cons_cons

theorem getLast?_JoinString (tokens : List (List Char)) (hne : tokens ≠ [])
    (h : ∀ token ∈ tokens, token ≠ []) (c : Char)
    (hc : (base.JoinString tokens ' ').getLast? = some c) : ∃ token ∈ tokens, c ∈ token := by
  induction tokens with
  | nil => exact absurd rfl hne
  | cons token rest ih =>
    cases rest with
    | nil =>
      simp only [base.JoinString] at hc
      exact ⟨token, List.mem_cons_self _ _, List.mem_of_mem_getLast? hc⟩
    | cons next rest =>
      have hrest : ∀ t ∈ next :: rest, t ≠ [] := fun t ht => h t (List.mem_cons_of_mem _ ht)
      have hjoin : base.JoinString (token :: next :: rest) ' ' =
          token ++ ' ' :: base.JoinString (next :: rest) ' ' := rfl
      rw [hjoin, List.getLast?_append_of_ne_nil _ (by simp),
        getLast?_cons_of_ne_nil _ _ (JoinString_ne_nil _ (by simp) hrest)] at hc
      obtain ⟨t, ht, hct⟩ := ih (by simp) hrest hc
      exact ⟨t, List.mem_cons_of_mem _ ht, hct⟩

theorem JoinString_clean (tokens : List (List Char)) (hne : tokens ≠ [])
    (h : ∀ token ∈ tokens, IsCleanToken token) :
    base.IsTrimmed (base.JoinString tokens ' ') ∧ ';' ∉ base.JoinString tokens ' ' := by
  refine ⟨⟨?_, ?_⟩, ?_⟩
  · intro c hc
    cases tokens with
    | nil => exact absurd rfl hne
    | cons token rest =>
      have ht := h token (List.mem_cons_self _ _)
      rw [base.JoinString_cons, List.head?_append_of_ne_nil _ ht.1] at hc
      exact (ht.2 c (List.mem_of_mem_head? hc)).2.1
  · intro c hc
    obtain ⟨token, ht, hct⟩ := getLast?_JoinString tokens hne (fun t ht => (h t ht).1) c hc
    exact ((h token ht).2 c hct).2.1
  · intro hmem
    rcases mem_JoinString tokens ';' hmem with h1 | ⟨token, ht, hct⟩
    · exact absurd h1 (by decide)
    · exact ((h token ht).2 ';' hct).2.2 rfl

theorem IsTrimmed_script_default :
    base.IsTrimmed "script-src 'self' chrome-extension-resource:".toList ∧
      ';' ∉ "script-src 'self' chrome-extension-resource:".toList := by
  refine ⟨⟨fun c hc => ?_, fun c hc => ?_⟩, by decide⟩
  · have : c = 's' := (Option.some.inj hc).symm
    rw [this]; decide
  · have h1 : "script-src 'self' chrome-extension-resource:".toList.getLast? = some ':' := by
      decide
    rw [h1] at hc
    rw [← Option.some.inj hc]; decide

theorem IsTrimmed_object_default :
    base.IsTrimmed "object-src 'self'".toList ∧ ';' ∉ "object-src 'self'".toList := by
  refine ⟨⟨fun c hc => ?_, fun c hc => ?_⟩, by decide⟩
  · have : c = 'o' := (Option.some.inj hc).symm
    rw [this]; decide
  · have h1 : "object-src 'self'".toList.getLast? = some (Char.ofNat 39) := by decide
    rw [h1] at hc
    rw [← Option.some.inj hc]; decide

/-- The directives of the sanitized policy are trimmed and free of semicolons when the
policy has no vertical tab and no form feed. -/
theorem SanitizedDirectives_clean (env : RegistryEnvironment) (policy : List Char)
    (options : Nat) (hpolicy : NoVerticalTabOrFormFeed policy) :
    ∀ directive ∈ SanitizedDirectives env policy options,
      base.IsTrimmed directive ∧ ';' ∉ directive := by
  intro directive hd
  rcases List.mem_append.1 hd with hd | hd
  · obtain ⟨input, hinput, hsd⟩ := List.mem_filterMap.1 hd
    obtain ⟨token, tokenizer, htok, hcase | hcase⟩ :=
      SanitizedDirective_cases env options _ input directive hsd
    · rw [hcase.2]
      apply JoinString_clean _ (by simp)
      intro t ht
      rcases List.mem_cons.1 ht with ht | ht
      · rw [ht]
        exact IsCleanToken_of_token policy input token hpolicy hinput
          (by rw [htok]; exact List.mem_cons_self _ _)
      · obtain ⟨_, t', ht', rfl⟩ := SecureSources_mem env options tokenizer t ht
        exact IsCleanToken_of_token policy input t' hpolicy hinput
          (by rw [htok]; exact List.mem_cons_of_mem _ ht')
    · rw [hcase.2]
      obtain ⟨h1, h2, _⟩ := base.SplitString_pieces policy ';' input hinput
      exact ⟨h1, h2⟩
  · rcases AppendedDirectives_mem _ _ directive hd with ⟨h1, _⟩ | ⟨h1, _⟩
    · rw [h1]; exact IsTrimmed_script_default
    · rw [h1]; exact IsTrimmed_object_default

theorem DirectiveNames_ne_nil (directives : List (List Char)) (name : List Char)
    (h : name ∈ DirectiveNames directives) : directives ≠ [] := by
  intro hnil
  rw [hnil] at h
  simp [DirectiveNames] at h

theorem SanitizedDirectives_ne_nil (env : RegistryEnvironment) (policy : List Char)
    (options : Nat) : SanitizedDirectives env policy options ≠ [] := by
  unfold SanitizedDirectives
  intro h
  obtain ⟨h1, h2⟩ := List.append_eq_nil.1 h
  have hnames : DirectiveNames (base.SplitString policy ';') = [] := by
    rw [← DirectiveNames_SanitizedDirective env options
      (AllowedToHaveInsecureObjectSrc options (base.SplitString policy ';')), h1]
    rfl
  rw [hnames] at h2
  unfold AppendedDirectives at h2
  simp at h2

theorem SecureSources_SecureSources (env : RegistryEnvironment) (options : Nat)
    (tokenizer : List (List Char)) :
    SecureSources env options (SecureSources env options tokenizer) =
      SecureSources env options tokenizer := by
  have hmap : (SecureSources env options tokenizer).map base.StringToLowerASCII =
      SecureSources env options tokenizer := by
    conv_rhs => rw [← List.map_id (SecureSources env options tokenizer)]
    apply List.map_congr_left
    intro s hs
    obtain ⟨_, t, _, rfl⟩ := SecureSources_mem env options tokenizer s hs
    rw [base.StringToLowerASCII_idem]
    rfl
  show List.filter (IsSecureCspToken env options)
    ((SecureSources env options tokenizer).map base.StringToLowerASCII) = _
  rw [hmap, List.filter_eq_self]
  intro s hs
  exact (SecureSources_mem env options tokenizer s hs).1

/-- The sanitizer emits a sanitized directive as it is. -/
theorem SanitizedDirective_fixed (env : RegistryEnvironment) (policy : List Char)
    (options : Nat) :
    ∀ directive ∈ SanitizedDirectives env policy options,
      SanitizedDirective env options
        (AllowedToHaveInsecureObjectSrc options (base.SplitString policy ';')) directive =
        some directive := by
  intro directive hd
  rcases List.mem_append.1 hd with hd | hd
  · obtain ⟨input, hinput, hsd⟩ := List.mem_filterMap.1 hd
    obtain ⟨token, tokenizer, htok, hcase | hcase⟩ :=
      SanitizedDirective_cases env options _ input directive hsd
    · rw [hcase.2]
      unfold SanitizedDirective
      rw [StringTokenizer_checked env options input token tokenizer htok]
      simp only [base.StringToLowerASCII_idem, hcase.1, if_true, SecureSources_SecureSources]
    · rw [hcase.2]
      exact hcase.2 ▸ hsd
  · rcases AppendedDirectives_mem _ _ directive hd with ⟨h1, _⟩ | ⟨h1, _, _, hallow⟩
    · have ht : base.StringTokenizer directive kTokenDelimiters =
          [kScriptSrc, "'self'".toList, "chrome-extension-resource:".toList] := by
        rw [h1]; decide
      have hchecked : IsCheckedDirective
          (AllowedToHaveInsecureObjectSrc options (base.SplitString policy ';'))
          (base.StringToLowerASCII kScriptSrc) = true := by
        cases AllowedToHaveInsecureObjectSrc options (base.SplitString policy ';') <;> decide
      have hsecure : SecureSources env options
          ["'self'".toList, "chrome-extension-resource:".toList] =
          ["'self'".toList, "chrome-extension-resource:".toList] := by
        have e1 : base.StringToLowerASCII "'self'".toList = "'self'".toList := by decide
        have e2 : base.StringToLowerASCII "chrome-extension-resource:".toList =
            "chrome-extension-resource:".toList := by decide
        unfold SecureSources
        rw [List.map_cons, List.map_cons, List.map_nil, e1, e2, List.filter_eq_self]
        intro s hs
        rcases List.mem_cons.1 hs with hs | hs
        · rw [hs]; exact IsSecureCspToken_self env options
        · rw [List.mem_singleton.1 hs]; exact IsSecureCspToken_resource env options
      unfold SanitizedDirective
      rw [ht]
      simp only [hchecked, if_true, hsecure]
      rw [h1]
      decide
    · have ht : base.StringTokenizer directive kTokenDelimiters =
          [kObjectSrc, "'self'".toList] := by
        rw [h1]; decide
      have hchecked : IsCheckedDirective
          (AllowedToHaveInsecureObjectSrc options (base.SplitString policy ';'))
          (base.StringToLowerASCII kObjectSrc) = true := by
        rw [hallow]; decide
      have hsecure : SecureSources env options ["'self'".toList] = ["'self'".toList] := by
        have e1 : base.StringToLowerASCII "'self'".toList = "'self'".toList := by decide
        unfold SecureSources
        rw [List.map_cons, List.map_nil, e1, List.filter_eq_self]
        intro s hs
        rw [List.mem_singleton.1 hs]; exact IsSecureCspToken_self env options
      unfold SanitizedDirective
      rw [ht]
      simp only [hchecked, if_true, hsecure]
      rw [h1]
      decide

/-- C29: the output of `SanitizeContentSecurityPolicy` is the text of the directives kept
from the policy followed by the appended ones; with a default-src directive in the policy
nothing is appended, and without one "script-src 'self' chrome-extension-resource:;" is
appended when the policy has no script-src and "object-src 'self';" when it has no
object-src and an insecure object-src is not allowed.  So the output has a default-src
directive, or else a script-src directive and, unless an insecure object-src is allowed,
an object-src directive.  An insecure object-src is allowed only with
`OPTIONS_ALLOW_INSECURE_OBJECT_SRC` and a plugin-types directive listing only sandboxed
types. -/
theorem C29_required_directives (env : RegistryEnvironment) (policy : List Char)
    (options : Nat) :
    SanitizeContentSecurityPolicy env policy options =
      JoinDirectives
        ((base.SplitString policy ';').filterMap
            (SanitizedDirective env options
              (AllowedToHaveInsecureObjectSrc options (base.SplitString policy ';'))) ++
          if kDefaultSrc ∈ DirectiveNames (base.SplitString policy ';') then []
          else
            (if kScriptSrc ∈ DirectiveNames (base.SplitString policy ';') then []
              else ["script-src 'self' chrome-extension-resource:".toList]) ++
            (if kObjectSrc ∈ DirectiveNames (base.SplitString policy ';') ∨
                AllowedToHaveInsecureObjectSrc options (base.SplitString policy ';') = true
              then []
              else ["object-src 'self'".toList])) ∧
    (kDefaultSrc ∈ DirectiveNames (SanitizedDirectives env policy options) ∨
      (kScriptSrc ∈ DirectiveNames (SanitizedDirectives env policy options) ∧
        (AllowedToHaveInsecureObjectSrc options (base.SplitString policy ';') = false →
          kObjectSrc ∈ DirectiveNames (SanitizedDirectives env policy options)))) ∧
    (AllowedToHaveInsecureObjectSrc options (base.SplitString policy ';') = true →
      options &&& OPTIONS_ALLOW_INSECURE_OBJECT_SRC ≠ 0 ∧
      ∃ input ∈ base.SplitString policy ';', ∃ token plugin_types,
        base.StringTokenizer input kTokenDelimiters = token :: plugin_types ∧
        base.StringToLowerASCII token = kPluginTypes ∧
        ∀ plugin_type ∈ plugin_types, plugin_type ∈ kSandboxedPluginTypes) := by
  refine ⟨SanitizeContentSecurityPolicy_eq env policy options, ?_, ?_⟩
  · unfold SanitizedDirectives
    rw [DirectiveNames_append, DirectiveNames_SanitizedDirective]
    unfold AppendedDirectives
    by_cases h1 : kDefaultSrc ∈ DirectiveNames (base.SplitString policy ';')
    · left
      exact List.mem_append_left _ h1
    · right
      rw [if_neg h1]
      constructor
      · by_cases h2 : kScriptSrc ∈ DirectiveNames (base.SplitString policy ';')
        · exact List.mem_append_left _ h2
        · apply List.mem_append_right
          rw [if_neg h2, DirectiveNames_append]
          exact List.mem_append_left _ (by decide)
      · intro hallow
        by_cases h3 : kObjectSrc ∈ DirectiveNames (base.SplitString policy ';')
        · exact List.mem_append_left _ h3
        · apply List.mem_append_right
          have hcond : ¬ (kObjectSrc ∈ DirectiveNames (base.SplitString policy ';') ∨
              AllowedToHaveInsecureObjectSrc options (base.SplitString policy ';') = true) := by
            rw [hallow]
            simp [h3]
          rw [if_neg hcond, DirectiveNames_append]
          exact List.mem_append_right _ (by decide)
  · intro hallow
    unfold AllowedToHaveInsecureObjectSrc at hallow
    by_cases hbit : (options &&& OPTIONS_ALLOW_INSECURE_OBJECT_SRC != 0) = true
    · simp only [hbit, Bool.not_true, Bool.false_eq_true, if_false] at hallow
      exact ⟨by simpa using hbit, AllowedToHaveInsecureObjectSrc.loop_true _ hallow⟩
    · simp only [hbit, Bool.not_false, if_true] at hallow
      exact absurd hallow (by decide)

/-- C29 at a concrete input: with `OPTIONS_ALLOW_INSECURE_OBJECT_SRC` and only sandboxed
plugin types the script-src directive is appended and the object-src directive is not. -/
theorem C29_required_directives_witness :
    SanitizeContentSecurityPolicy sampleRegistryEnvironment samplePluginPolicy
        OPTIONS_ALLOW_INSECURE_OBJECT_SRC =
      ("img-src *; plugin-types application/pdf; " ++
        "script-src 'self' chrome-extension-resource:;").toList ∧
    OPTIONS_ALLOW_INSECURE_OBJECT_SRC &&& OPTIONS_ALLOW_INSECURE_OBJECT_SRC ≠ 0 :=
  ⟨by decide,
    ((C29_required_directives sampleRegistryEnvironment samplePluginPolicy
      OPTIONS_ALLOW_INSECURE_OBJECT_SRC).2.2 (by decide)).1⟩

theorem IsCheckedDirective_ne_kPluginTypes (allow : Bool) (directive_name : List Char)
    (h : IsCheckedDirective allow directive_name = true) : directive_name ≠ kPluginTypes := by
  unfold IsCheckedDirective at h
  simp only [Bool.or_eq_true, Bool.and_eq_true, beq_iff_eq] at h
  rcases h with (h | h) | ⟨_, h⟩ <;> rw [h] <;> decide

theorem SanitizedDirective_eq_none (env : RegistryEnvironment) (options : Nat) (allow : Bool)
    (input : List Char) (h : SanitizedDirective env options allow input = none) :
    base.StringTokenizer input kTokenDelimiters = [] := by
  unfold SanitizedDirective at h
  cases htok : base.StringTokenizer input kTokenDelimiters with
  | nil => rfl
  | cons token tokenizer =>
    simp only [htok] at h
    split at h <;> exact Option.noConfusion h

/-- The sanitized directives allow an insecure object-src exactly when the directives of
the policy do. -/
theorem AllowedToHaveInsecureObjectSrc.loop_sanitized (env : RegistryEnvironment)
    (options : Nat) (allow : Bool) (directives appended : List (List Char))
    (happended : AllowedToHaveInsecureObjectSrc.loop appended = false) :
    AllowedToHaveInsecureObjectSrc.loop
        (directives.filterMap (SanitizedDirective env options allow) ++ appended) =
      AllowedToHaveInsecureObjectSrc.loop directives := by
  induction directives with
  | nil => simpa using happended
  | cons input rest ih =>
    cases hsd : SanitizedDirective env options allow input with
    | none =>
      have htok := SanitizedDirective_eq_none env options allow input hsd
      rw [List.filterMap_cons_none hsd, ih]
      conv_rhs => rw [AllowedToHaveInsecureObjectSrc.loop]
      simp only [htok]
    | some directive =>
      rw [List.filterMap_cons_some hsd, List.cons_append]
      obtain ⟨token, tokenizer, htok, hcase | hcase⟩ :=
        SanitizedDirective_cases env options allow input directive hsd
      · have hne := IsCheckedDirective_ne_kPluginTypes allow _ hcase.1
        have h1 : base.LowerCaseEqualsASCII token kPluginTypes = false := by
          simpa [base.LowerCaseEqualsASCII] using hne
        have h2 : base.LowerCaseEqualsASCII (base.StringToLowerASCII token) kPluginTypes =
            false := by
          simpa [base.LowerCaseEqualsASCII, base.StringToLowerASCII_idem] using hne
        rw [AllowedToHaveInsecureObjectSrc.loop]
        conv_rhs => rw [AllowedToHaveInsecureObjectSrc.loop]
        rw [hcase.2, StringTokenizer_checked env options input token tokenizer htok]
        simp only [htok, h1, h2, Bool.not_false, if_true]
        exact ih
      · rw [hcase.2, AllowedToHaveInsecureObjectSrc.loop]
        conv_rhs => rw [AllowedToHaveInsecureObjectSrc.loop]
        simp only [htok]
        by_cases hp : base.LowerCaseEqualsASCII token kPluginTypes = true
        · simp only [hp, Bool.not_true, Bool.false_eq_true, if_false]
        · simp only [hp, Bool.not_false, if_true]
          exact ih

theorem AllowedToHaveInsecureObjectSrc.loop_appended (allow : Bool)
    (names : List (List Char)) :
    AllowedToHaveInsecureObjectSrc.loop (AppendedDirectives allow names ++ [[]]) = false := by
  unfold AppendedDirectives
  by_cases h1 : kDefaultSrc ∈ names
  · rw [if_pos h1]; decide
  · rw [if_neg h1]
    by_cases h2 : kScriptSrc ∈ names <;>
      by_cases h3 : kObjectSrc ∈ names ∨ allow = true <;>
      simp only [h2, h3, if_true, if_false] <;> decide

theorem AppendedDirectives_eq_nil (allow : Bool) (names : List (List Char))
    (h : kDefaultSrc ∈ names ∨
      (kScriptSrc ∈ names ∧ (kObjectSrc ∈ names ∨ allow = true))) :
    AppendedDirectives allow names = [] := by
  unfold AppendedDirectives
  by_cases h1 : kDefaultSrc ∈ names
  · rw [if_pos h1]
  · rw [if_neg h1]
    rcases h with h | ⟨h2, h3⟩
    · exact absurd h h1
    · rw [if_pos h2, if_pos h3]
      rfl

theorem AppendedDirectives_of_sanitized (allow : Bool) (names : List (List Char)) :
    AppendedDirectives allow (names ++ DirectiveNames (AppendedDirectives allow names)) =
      [] := by
  apply AppendedDirectives_eq_nil
  by_cases h1 : kDefaultSrc ∈ names
  · exact Or.inl (List.mem_append_left _ h1)
  · right
    constructor
    · by_cases h2 : kScriptSrc ∈ names
      · exact List.mem_append_left _ h2
      · apply List.mem_append_right
        unfold AppendedDirectives
        rw [if_neg h1, if_neg h2, DirectiveNames_append]
        exact List.mem_append_left _ (by decide)
    · by_cases h3 : kObjectSrc ∈ names ∨ allow = true
      · rcases h3 with h3 | h3
        · exact Or.inl (List.mem_append_left _ h3)
        · exact Or.inr h3
      · left
        apply List.mem_append_right
        unfold AppendedDirectives
        rw [if_neg h1, if_neg h3, DirectiveNames_append]
        exact List.mem_append_right _ (by decide)

theorem filterMap_eq_self (f : List Char → Option (List Char)) (l : List (List Char))
    (h : ∀ x ∈ l, f x = some x) : l.filterMap f = l := by
  induction l with
  | nil => rfl
  | cons x rest ih =>
    rw [List.filterMap_cons_some (h x (List.mem_cons_self _ _)),
      ih (fun y hy => h y (List.mem_cons_of_mem _ hy))]

/-- The sanitized directives of the sanitized policy are the sanitized directives of
the policy. -/
theorem SanitizedDirectives_JoinDirectives (env : RegistryEnvironment) (policy : List Char)
    (options : Nat) (hpolicy : NoVerticalTabOrFormFeed policy) :
    SanitizedDirectives env (JoinDirectives (SanitizedDirectives env policy options)) options =
      SanitizedDirectives env policy options := by
  have hsplit := SplitString_JoinDirectives (SanitizedDirectives env policy options)
    (SanitizedDirectives_ne_nil env policy options)
    (SanitizedDirectives_clean env policy options hpolicy)
  have hfixed := SanitizedDirective_fixed env policy options
  have hallow : AllowedToHaveInsecureObjectSrc options
      (SanitizedDirectives env policy options ++ [[]]) =
      AllowedToHaveInsecureObjectSrc options (base.SplitString policy ';') := by
    unfold AllowedToHaveInsecureObjectSrc
    split
    · rfl
    · unfold SanitizedDirectives
      rw [List.append_assoc]
      exact AllowedToHaveInsecureObjectSrc.loop_sanitized env options _ _ _
        (AllowedToHaveInsecureObjectSrc.loop_appended _ _)
  have hnames : AppendedDirectives
      (AllowedToHaveInsecureObjectSrc options (base.SplitString policy ';'))
      (DirectiveNames (SanitizedDirectives env policy options ++ [[]])) = [] := by
    have hn : DirectiveNames (SanitizedDirectives env policy options ++ [[]]) =
        DirectiveNames (base.SplitString policy ';') ++
          DirectiveNames (AppendedDirectives
            (AllowedToHaveInsecureObjectSrc options (base.SplitString policy ';'))
            (DirectiveNames (base.SplitString policy ';'))) := by
      unfold SanitizedDirectives
      rw [DirectiveNames_append, DirectiveNames_append, DirectiveNames_SanitizedDirective]
      have : DirectiveNames [[]] = [] := by decide
      rw [this, List.append_nil]
    rw [hn]
    exact AppendedDirectives_of_sanitized _ _
  generalize SanitizedDirectives env policy options = sanitized at hsplit hfixed hallow hnames ⊢
  unfold SanitizedDirectives
  rw [hsplit, hallow, hnames, List.append_nil, List.filterMap_append,
    filterMap_eq_self _ sanitized hfixed]
  have hempty : SanitizedDirective env options
      (AllowedToHaveInsecureObjectSrc options (base.SplitString policy ';')) [] = none := by
    unfold SanitizedDirective
    have : base.StringTokenizer [] kTokenDelimiters = [] := by decide
    simp only [this]
  rw [List.filterMap_cons_none hempty]
  simp

/-- C22, as worded, fails: a secure source that ends in a vertical tab or a form feed and
is followed by an insecure source loses that character when the sanitized policy is
sanitized again. -/
theorem C22_idempotent_counterexample :
    ¬ IsIdempotentOn sampleRegistryEnvironment sampleVerticalTabPolicy 0 ∧
      ¬ IsIdempotentOn sampleRegistryEnvironment sampleFormFeedPolicy 0 := by
  decide

/-- C22, amended: for every policy without vertical tab and form feed and for every
options value, sanitizing the sanitized policy gives the sanitized policy. -/
theorem C22_idempotent (env : RegistryEnvironment) (policy : List Char) (options : Nat)
    (hpolicy : NoVerticalTabOrFormFeed policy) :
    SanitizeContentSecurityPolicy env (SanitizeContentSecurityPolicy env policy options)
        options =
      SanitizeContentSecurityPolicy env policy options := by
  rw [SanitizeContentSecurityPolicy_eq env policy options,
    SanitizeContentSecurityPolicy_eq env _ options,
    SanitizedDirectives_JoinDirectives env policy options hpolicy]

/-- C22 at a concrete input: the sample policy, whose sanitized text is
"script-src https://a.com; img-src *; object-src 'self';". -/
theorem C22_idempotent_witness :
    SanitizeContentSecurityPolicy sampleRegistryEnvironment
        (SanitizeContentSecurityPolicy sampleRegistryEnvironment samplePolicy 0) 0 =
      SanitizeContentSecurityPolicy sampleRegistryEnvironment samplePolicy 0 ∧
    SanitizeContentSecurityPolicy sampleRegistryEnvironment samplePolicy 0 =
      "script-src https://a.com; img-src *; object-src 'self';".toList :=
  ⟨C22_idempotent sampleRegistryEnvironment samplePolicy 0 (by decide), by decide⟩

end csp_validator

end extensions
